import Mathlib

/-!
# databasemix: version detection and the collection engine

A shallow embedding of `version.go` and `collector.go`.

Go strings are modelled by Lean strings (sequences of Unicode scalar values; byte
strings that are not valid UTF-8 are outside the model), Go `int` by `Int` with the
64-bit range checked where the code can overflow, and a Go `(value, error)` result by
`Except String`.
-/

namespace DatabaseMix

/-! ## Library functions used by `version.go` -/

/-- Size in bits of a Go `int` (`strconv.IntSize`) on the 64-bit targets the tool is built for. -/
def intSize : Nat := 64

/-- Largest value of a Go `int`. -/
def maxInt : Nat := 2 ^ (intSize - 1) - 1

/-- The class `\d` of Go's `regexp` (RE2 syntax): the ASCII digits only. -/
def isDigit (c : Char) : Bool := decide ('0'.toNat ≤ c.toNat) && decide (c.toNat ≤ '9'.toNat)

/-- Value of a run of ASCII digits read in base ten (most significant digit first). -/
def digitsValue (ds : List Char) : Nat :=
  ds.foldl (fun n c => 10 * n + (c.toNat - '0'.toNat)) 0

/-- The function `unicode.ToLower` as far as it can produce an ASCII letter: `A`..`Z`, and the two
runes outside ASCII whose lower case is ASCII, U+0130 (to `i`) and U+212A (to `k`). Every other
rune has a lower case outside ASCII and is left as it is: such a rune takes no part in an
occurrence of an ASCII needle either way. -/
def toLowerRune (c : Char) : Char :=
  if c.toNat = 0x130 then 'i'
  else if c.toNat = 0x212A then 'k'
  else if 'A'.toNat ≤ c.toNat ∧ c.toNat ≤ 'Z'.toNat then Char.ofNat (c.toNat + 32)
  else c

/-- The function `strings.ToLower`: the rune-wise map of `unicode.ToLower`. -/
def ToLower (s : String) : String := String.mk (s.data.map toLowerRune)

/-- Does `sub` occur in `hay` as a contiguous block? -/
def containsChars (sub : List Char) : List Char → Bool
  | [] => sub.isEmpty
  | c :: cs => sub.isPrefixOf (c :: cs) || containsChars sub cs

/-- The function `strings.Contains`. -/
def Contains (s substr : String) : Bool := containsChars substr.data s.data

/-- A maximal non-empty run of digits followed by a dot: the run, and what follows the dot. -/
def digitsThenDot (cs : List Char) : Option (List Char × List Char) :=
  match cs.takeWhile isDigit, cs.dropWhile isDigit with
  | _ :: _, '.' :: rest => some (cs.takeWhile isDigit, rest)
  | _, _ => none

/-- The match of `(\d+)\.(\d+)\.(\d+)` anchored at the head of `cs`, as Go's leftmost-first
(backtracking order) semantics selects it: each greedy `\d+` ends up with the whole digit run in front
of it, because giving back a digit leaves a digit where the pattern wants a dot (groups 1 and 2), and
group 3 is followed by nothing, so nothing makes it give back. The result is the three groups. -/
def matchTripleAt (cs : List Char) : Option (List Char × List Char × List Char) :=
  match digitsThenDot cs with
  | none => none
  | some (a, r1) =>
    match digitsThenDot r1 with
    | none => none
    | some (b, r2) =>
      match r2.takeWhile isDigit with
      | [] => none
      | c :: cs' => some (a, b, c :: cs')

/-- The leftmost match of `(\d+)\.(\d+)\.(\d+)` in `cs`: the start positions are tried from left to
right. -/
def findTriple : List Char → Option (List Char × List Char × List Char)
  | [] => none
  | c :: cs =>
    match matchTripleAt (c :: cs) with
    | some m => some m
    | none => findTriple cs

/-- The call `re.FindStringSubmatch(s)` for `re = (\d+)\.(\d+)\.(\d+)`: `nil` (the empty slice) when
there is no match, else the whole match followed by the three groups. -/
def FindStringSubmatch (s : String) : List String :=
  match findTriple s.data with
  | none => []
  | some (a, b, c) => [String.mk (a ++ '.' :: b ++ '.' :: c), String.mk a, String.mk b, String.mk c]

/-- Unsigned part of `strconv.Atoi`: a non-empty run of ASCII digits, no underscore. -/
def parseUnsigned (ds : List Char) : Option Nat :=
  if ds ≠ [] ∧ ds.all isDigit then some (digitsValue ds) else none

/-- The function `strconv.Atoi`: an optional sign and decimal digits; a syntax error for anything
else, a range error when the value does not fit a Go `int`. -/
def Atoi (s : String) : Except String Int :=
  match s.data with
  | '-' :: ds =>
    match parseUnsigned ds with
    | none => .error ("strconv.Atoi: parsing " ++ s.quote ++ ": invalid syntax")
    | some n =>
      if n ≤ maxInt + 1 then .ok (-(n : Int))
      else .error ("strconv.Atoi: parsing " ++ s.quote ++ ": value out of range")
  | '+' :: ds =>
    match parseUnsigned ds with
    | none => .error ("strconv.Atoi: parsing " ++ s.quote ++ ": invalid syntax")
    | some n =>
      if n ≤ maxInt then .ok (n : Int)
      else .error ("strconv.Atoi: parsing " ++ s.quote ++ ": value out of range")
  | ds =>
    match parseUnsigned ds with
    | none => .error ("strconv.Atoi: parsing " ++ s.quote ++ ": invalid syntax")
    | some n =>
      if n ≤ maxInt then .ok (n : Int)
      else .error ("strconv.Atoi: parsing " ++ s.quote ++ ": value out of range")

/-- The verb `%d` of `fmt` on an `int`. -/
def formatInt (n : Int) : String :=
  match n with
  | Int.ofNat k => String.mk (Nat.toDigits 10 k)
  | Int.negSucc k => String.mk ('-' :: Nat.toDigits 10 (k + 1))

/-- The word separators of `strings.Title` among the ASCII runes: everything but letters, digits
and the underscore. Runes outside ASCII are taken as part of a word. -/
def isSeparator (c : Char) : Bool :=
  if c.toNat ≤ 0x7F then
    !(isDigit c || (decide ('a'.toNat ≤ c.toNat) && decide (c.toNat ≤ 'z'.toNat))
      || (decide ('A'.toNat ≤ c.toNat) && decide (c.toNat ≤ 'Z'.toNat)) || c == '_')
  else false

/-- Title case of a rune: the ASCII lower-case letters go to upper case. -/
def toTitleRune (c : Char) : Char :=
  if 'a'.toNat ≤ c.toNat ∧ c.toNat ≤ 'z'.toNat then Char.ofNat (c.toNat - 32) else c

/-- The loop of `strings.Title`: `prev` is the rune before the current one. -/
def titleChars (prev : Char) : List Char → List Char
  | [] => []
  | c :: cs => (if isSeparator prev then toTitleRune c else c) :: titleChars c cs

/-- The function `strings.Title`: the first letter of every word goes to title case. -/
def Title (s : String) : String := String.mk (titleChars ' ' s.data)

/-! ## `version.go` -/

/-- MySQLVersion represents MySQL version information. -/
structure MySQLVersion where
  FullVersion : String
  Major : Int
  Minor : Int
  Patch : Int
  Variant : String
  deriving DecidableEq, Repr

/-- ParseMySQLVersion parses a MySQL version string. -/
def ParseMySQLVersion (versionString : String) : Except String MySQLVersion :=
  let lowerVersion := ToLower versionString
  let variant :=
    if Contains lowerVersion "mariadb" then "mariadb"
    else if Contains lowerVersion "percona" then "percona"
    else "mysql"
  let groups := FindStringSubmatch versionString
  if groups.length < 4 then
    .error ("unable to parse version string: " ++ versionString)
  else
    match Atoi (groups.getD 1 "") with
    | .error _ => .error ("invalid major version: " ++ groups.getD 1 "")
    | .ok major =>
      match Atoi (groups.getD 2 "") with
      | .error _ => .error ("invalid minor version: " ++ groups.getD 2 "")
      | .ok minor =>
        match Atoi (groups.getD 3 "") with
        | .error _ => .error ("invalid patch version: " ++ groups.getD 3 "")
        | .ok patch =>
          .ok { FullVersion := versionString, Major := major, Minor := minor, Patch := patch,
                Variant := variant }

/-- IsMySQL8OrLater returns true if this is MySQL 8.0 or later. -/
def MySQLVersion.IsMySQL8OrLater (v : MySQLVersion) : Bool :=
  if v.Variant ≠ "mysql" then false else decide (v.Major ≥ 8)

/-- IsMySQL57OrLater returns true if this is MySQL 5.7 or later. -/
def MySQLVersion.IsMySQL57OrLater (v : MySQLVersion) : Bool :=
  if v.Variant ≠ "mysql" then false
  else if v.Major > 5 then true
  else if v.Major = 5 ∧ v.Minor ≥ 7 then true
  else false

/-- IsMariaDB returns true if this is MariaDB. -/
def MySQLVersion.IsMariaDB (v : MySQLVersion) : Bool := v.Variant == "mariadb"

/-- IsPercona returns true if this is Percona Server. -/
def MySQLVersion.IsPercona (v : MySQLVersion) : Bool := v.Variant == "percona"

/-- SupportsRoles returns true if this version supports roles. -/
def MySQLVersion.SupportsRoles (v : MySQLVersion) : Bool := v.IsMySQL8OrLater

/-- SupportsComponents returns true if this version supports components. -/
def MySQLVersion.SupportsComponents (v : MySQLVersion) : Bool := v.IsMySQL8OrLater

/-- SupportsInformationSchemaViews returns true if this version has modern information_schema
views. -/
def MySQLVersion.SupportsInformationSchemaViews (v : MySQLVersion) : Bool := v.IsMySQL57OrLater

/-- SupportsPerformanceSchemaVariablesInfo returns true if performance_schema.variables_info
exists. -/
def MySQLVersion.SupportsPerformanceSchemaVariablesInfo (v : MySQLVersion) : Bool :=
  v.IsMySQL57OrLater

/-- GetUserTableQuery returns the appropriate query to get user information based on version. -/
def MySQLVersion.GetUserTableQuery (v : MySQLVersion) : String :=
  if v.IsMySQL8OrLater then
    "\n\t\t\tSELECT User, Host, plugin, account_locked, password_expired\n\t\t\tFROM mysql.user \n\t\t\tORDER BY User, Host"
  else
    "\n\t\t\tSELECT User, Host, plugin, account_locked, 'N' as password_expired\n\t\t\tFROM mysql.user \n\t\t\tORDER BY User, Host"

/-- GetRoleQuery returns the appropriate query to get role information. -/
def MySQLVersion.GetRoleQuery (v : MySQLVersion) : String :=
  if !v.SupportsRoles then ""
  else
    "\n\t\tSELECT User as role_name, Host as role_host\n\t\tFROM mysql.user \n\t\tWHERE account_locked = 'Y'\n\t\tORDER BY User, Host"

/-- GetVariablesQuery returns the appropriate query to get modified variables. -/
def MySQLVersion.GetVariablesQuery (_v : MySQLVersion) : String :=
  "\n\t\t\tSELECT VARIABLE_NAME, VARIABLE_VALUE, VARIABLE_SOURCE\n\t\t\tFROM performance_schema.variables_info vi\n\t\t\tJOIN performance_schema.global_variables gv ON vi.VARIABLE_NAME = gv.VARIABLE_NAME\n\t\t\tWHERE VARIABLE_SOURCE != 'COMPILED'\n\t\t\tORDER BY VARIABLE_NAME"

/-- GetReplicationStatusQuery returns the appropriate query for replication status. -/
def MySQLVersion.GetReplicationStatusQuery (v : MySQLVersion) : String :=
  if v.IsMySQL8OrLater then "SHOW REPLICA STATUS" else "SHOW SLAVE STATUS"

/-- String returns a string representation of the version:
`fmt.Sprintf("%s %d.%d.%d (%s)", strings.Title(v.Variant), v.Major, v.Minor, v.Patch, v.FullVersion)`. -/
def MySQLVersion.String (v : MySQLVersion) : String :=
  Title v.Variant ++ " " ++ formatInt v.Major ++ "." ++ formatInt v.Minor ++ "."
    ++ formatInt v.Patch ++ " (" ++ v.FullVersion ++ ")"

/-- CompareVersion compares this version with another version.
Returns: -1 if this < other, 0 if equal, 1 if this > other. -/
def MySQLVersion.CompareVersion (v other : MySQLVersion) : Int :=
  if v.Major ≠ other.Major then
    if v.Major < other.Major then -1 else 1
  else if v.Minor ≠ other.Minor then
    if v.Minor < other.Minor then -1 else 1
  else if v.Patch ≠ other.Patch then
    if v.Patch < other.Patch then -1 else 1
  else 0

/-- IsAtLeast checks if this version is at least the specified version. -/
def MySQLVersion.IsAtLeast (v : MySQLVersion) (major minor patch : Int) : Bool :=
  if v.Major > major then true
  else if v.Major < major then false
  else if v.Minor > minor then true
  else if v.Minor < minor then false
  else decide (v.Patch ≥ patch)

/-! ## `main.go`: the configuration and the snapshot -/

/-- Configuration for database connection. -/
structure Config where
  Host : String := ""
  Port : String := ""
  User : String := ""
  Password : String := ""
  Database : String := ""
  Replication : Bool := false
  Format : String := ""
  OutputFile : String := ""
  ExceptTables : Bool := false
  ExceptStoredProcedures : Bool := false
  ExceptVariables : Bool := false
  OnlyModifiedVariables : Bool := false
  ExceptUsers : Bool := false
  ExceptRoles : Bool := false
  ExceptPlugins : Bool := false
  deriving DecidableEq, Repr

/-- A `time.Time`, as the count of nanoseconds since the zero time; the zero value is `0`. -/
structure Time where
  nsec : Int := 0
  deriving DecidableEq, Repr

/-- Connection information for display. -/
structure ConnectionInfo where
  Host : String := ""
  Port : String := ""
  User : String := ""
  Database : String := ""
  Version : String := ""
  deriving DecidableEq, Repr

/-- Table information. -/
structure TableInfo where
  Database : String := ""
  Schema : String := ""
  Name : String := ""
  Type_ : String := ""
  Engine : String := ""
  AutoIncrement : Int := 0
  CreatedAt : Time := {}
  UpdatedAt : Time := {}
  Collation : String := ""
  Charset : String := ""
  RowFormat : String := ""
  Comment : String := ""
  CreateOptions : String := ""
  DDL : String := ""
  deriving DecidableEq, Repr

/-- User account information. -/
structure UserAccount where
  User : String := ""
  Host : String := ""
  SSLType : String := ""
  Plugin : String := ""
  AccountLocked : String := ""
  PasswordExpired : String := ""
  Grants : List String := []
  deriving DecidableEq, Repr

/-- Stored routine information (procedures and functions). -/
structure RoutineInfo where
  Schema : String := ""
  Name : String := ""
  Type_ : String := ""
  Definer : String := ""
  Created : Time := {}
  LastAltered : Time := {}
  DataAccess : String := ""
  SecurityType : String := ""
  Returns : String := ""
  Parameters : String := ""
  Definition : String := ""
  deriving DecidableEq, Repr

/-- Variable information. -/
structure Variable where
  Name : String := ""
  CurrentValue : String := ""
  DefaultValue : String := ""
  Source : String := ""
  IsModified : Bool := false
  deriving DecidableEq, Repr

/-- User role information. -/
structure UserRole where
  RoleName : String := ""
  RoleHost : String := ""
  Grants : List String := []
  Members : List String := []
  deriving DecidableEq, Repr

/-- Plugin information. -/
structure Plugin where
  Name : String := ""
  Version : String := ""
  Status : String := ""
  Type_ : String := ""
  Library : String := ""
  Description : String := ""
  deriving DecidableEq, Repr

/-- Component information (MySQL 8.0+). -/
structure Component where
  ComponentID : Int := 0
  ComponentGroupID : Int := 0
  ComponentURN : String := ""
  deriving DecidableEq, Repr

/-- Basic replication status. -/
structure ReplicationStatus where
  ServerID : Int := 0
  ServerUUID : String := ""
  LogBinEnabled : Bool := false
  BinlogFormat : String := ""
  GTIDMode : String := ""
  CurrentLogFile : String := ""
  CurrentLogPos : Int := 0
  deriving DecidableEq, Repr

/-- Replica status information. -/
structure ReplicaStatus where
  SlaveIORunning : String := ""
  SlaveSQLRunning : String := ""
  MasterHost : String := ""
  MasterPort : Int := 0
  MasterLogFile : String := ""
  MasterLogPos : Int := 0
  SecondsBehind : Int := 0
  deriving DecidableEq, Repr

/-- Semi-synchronous replication status. -/
structure SemiSyncStatus where
  MasterEnabled : Bool := false
  SlaveEnabled : Bool := false
  deriving DecidableEq, Repr

/-- Group replication information. -/
structure GroupReplicationInfo where
  GroupName : String := ""
  MemberState : String := ""
  SinglePrimaryMode : Bool := false
  deriving DecidableEq, Repr

/-- Replication information; a `nil` pointer is `none`. -/
structure ReplicationInfo where
  ReplicationStatus : Option ReplicationStatus := none
  ReplicaStatus : List ReplicaStatus := []
  SemiSyncStatus : Option SemiSyncStatus := none
  GroupReplicationInfo : Option GroupReplicationInfo := none
  deriving DecidableEq, Repr

/-- Main data structure that holds all MySQL information; a `nil` pointer is `none`, a `nil` slice
is the empty list. -/
structure DatabaseInfo where
  ConnectionInfo : Option ConnectionInfo := none
  Tables : List TableInfo := []
  Users : List UserAccount := []
  Routines : List RoutineInfo := []
  Variables : List Variable := []
  Roles : List UserRole := []
  Plugins : List Plugin := []
  Components : List Component := []
  ReplicationInfo : Option ReplicationInfo := none
  deriving DecidableEq, Repr

/-! ## The database handle (`database/sql`) and the runtime -/

/-- A column value as the driver hands it to `Scan`: NULL, text, or an integer. (Floating-point and
temporal driver values are outside the model.) -/
inductive Value where
  | null
  | text (s : String)
  | int (n : Int)
  deriving DecidableEq, Repr

/-- A result row. -/
abbrev Row := List Value

/-- A statement as it is sent: its text and the arguments bound to its placeholders. -/
structure Call where
  sql : String
  args : List String := []
  deriving DecidableEq, Repr

/-- The answer to a statement: the error of `db.Query`, or the rows that `rows.Next()` delivers. -/
abbrev Response := Except String (List Row)

/-- One exchange with the server: the statement and its answer. -/
structure Event where
  call : Call
  resp : Response

/-- The server behind the `*sql.DB` handle: a state machine over `σ` that answers statements. -/
structure DB (σ : Type) where
  exec : Call → σ → Response × σ

/-- The world a run changes: the state of the server, the exchanges so far (oldest first) and the
lines printed to standard output. -/
structure World (σ : Type) where
  server : σ
  log : List Event := []
  stdout : List String := []

/-- The call `db.Query(sql, args...)`. -/
def DB.Query {σ : Type} (db : DB σ) (sql : String) (args : List String) (w : World σ) :
    Response × World σ :=
  let r := db.exec { sql := sql, args := args } w.server
  (r.1, { w with server := r.2, log := w.log ++ [{ call := { sql := sql, args := args }, resp := r.1 }] })

/-- What `Row.Scan` makes of an answer: the error of the query, `sql.ErrNoRows` without a row, else
the conversion `scan` of the first row. -/
def scanFirst {α : Type} (scan : Row → Option α) (resp : Response) : Except String α :=
  match resp with
  | .error e => .error e
  | .ok [] => .error "sql: no rows in result set"
  | .ok (row :: _) =>
    match scan row with
    | none => .error "sql: Scan error"
    | some a => .ok a

/-- The call `db.QueryRow(sql, args...).Scan(dest...)`, with `scan` the conversion into `dest`. -/
def DB.QueryRowScan {σ α : Type} (db : DB σ) (sql : String) (args : List String)
    (scan : Row → Option α) (w : World σ) : Except String α × World σ :=
  let r := db.Query sql args w
  (scanFirst scan r.1, r.2)

/-- Conversion of a column into a `*string` destination: NULL is an error. -/
def Value.scanString : Value → Option String
  | .null => none
  | .text s => some s
  | .int n => some (formatInt n)

/-- Conversion of a column into a `*int` or `*int64` destination: NULL, text that is not a decimal
integer, and a value out of range are errors. -/
def Value.scanInt : Value → Option Int
  | .null => none
  | .text s =>
    match Atoi s with
    | .ok n => some n
    | .error _ => none
  | .int n => if -(maxInt : Int) - 1 ≤ n ∧ n ≤ maxInt then some n else none

/-- A `sql.NullString`. -/
structure NullString where
  String : String := ""
  Valid : Bool := false
  deriving DecidableEq, Repr

/-- A `sql.NullInt64`. -/
structure NullInt64 where
  Int64 : Int := 0
  Valid : Bool := false
  deriving DecidableEq, Repr

/-- Conversion of a column into a `*sql.NullString` destination: never an error. -/
def Value.scanNullString : Value → NullString
  | .null => {}
  | .text s => { String := s, Valid := true }
  | .int n => { String := formatInt n, Valid := true }

/-- Conversion of a column into a `*sql.NullInt64` destination. -/
def Value.scanNullInt64 : Value → Option NullInt64
  | .null => some {}
  | v =>
    match v.scanInt with
    | some n => some { Int64 := n, Valid := true }
    | none => none

/-- `Scan(&s)`: one column into a string. -/
def scanString1 (row : Row) : Option String :=
  match row with
  | [v] => v.scanString
  | _ => none

/-- `Scan(&n)`: one column into an `int`. -/
def scanInt1 (row : Row) : Option Int :=
  match row with
  | [v] => v.scanInt
  | _ => none

/-- `Scan(&params)`: one column into a `sql.NullString`. -/
def scanNullString1 (row : Row) : Option NullString :=
  match row with
  | [v] => some v.scanNullString
  | _ => none

/-- `Scan(&a, &b)`: two columns into strings. -/
def scanString2 (row : Row) : Option (String × String) :=
  match row with
  | [a, b] =>
    match a.scanString, b.scanString with
    | some x, some y => some (x, y)
    | _, _ => none
  | _ => none

/-- `Scan(&a, &b, &c, &d)`: four columns into strings. -/
def scanString4 (row : Row) : Option (String × String × String × String) :=
  match row with
  | [a, b, c, d] =>
    match a.scanString, b.scanString, c.scanString, d.scanString with
    | some x, some y, some z, some u => some (x, y, z, u)
    | _, _, _, _ => none
  | _ => none

/-- The table and view metadata of one schema (`getTablesForDatabase`). -/
def sqlTables : String :=
  "\n\t\tSELECT TABLE_NAME, TABLE_TYPE, ENGINE, AUTO_INCREMENT, CREATE_TIME, UPDATE_TIME, \n\t\t       TABLE_COLLATION, COALESCE(SUBSTRING_INDEX(TABLE_COLLATION, '_', 1), '') as TABLE_CHARSET,\n\t\t       ROW_FORMAT, TABLE_COMMENT, CREATE_OPTIONS\n\t\tFROM information_schema.TABLES \n\t\tWHERE TABLE_SCHEMA = ? \n\t\tORDER BY TABLE_NAME"

/-- The account list on MySQL 8.0 or later (`collectUsers`). -/
def sqlUsersMySQL8 : String :=
  "\n\t\t\tSELECT User, Host, plugin, account_locked, password_expired\n\t\t\tFROM mysql.user \n\t\t\tORDER BY User, Host"

/-- The account list on every other server, with a constant for `password_expired` (`collectUsers`). -/
def sqlUsersLegacy : String :=
  "\n\t\t\tSELECT User, Host, plugin, account_locked, 'N' as password_expired\n\t\t\tFROM mysql.user \n\t\t\tORDER BY User, Host"

/-- The routine list (`collectRoutines`). -/
def sqlRoutines : String :=
  "\n\t\tSELECT ROUTINE_NAME, ROUTINE_TYPE, ROUTINE_SCHEMA, DEFINER, CREATED, LAST_ALTERED,\n\t\t       SQL_DATA_ACCESS, SECURITY_TYPE, ROUTINE_DEFINITION, DTD_IDENTIFIER\n\t\tFROM information_schema.ROUTINES\n\t\tWHERE ROUTINE_SCHEMA NOT IN ('information_schema', 'performance_schema', 'mysql', 'sys')\n\t\tORDER BY ROUTINE_SCHEMA, ROUTINE_TYPE, ROUTINE_NAME"

/-- The flattened parameters of one routine (`getRoutineParameters`). -/
def sqlRoutineParameters : String :=
  "\n\t\tSELECT GROUP_CONCAT(\n\t\t\tCONCAT(PARAMETER_MODE, ' ', PARAMETER_NAME, ' ', DTD_IDENTIFIER)\n\t\t\tORDER BY ORDINAL_POSITION\n\t\t\tSEPARATOR ','\n\t\t) as parameters\n\t\tFROM information_schema.PARAMETERS\n\t\tWHERE SPECIFIC_SCHEMA = ? AND SPECIFIC_NAME = ?"

/-- The provenance query in only-modified mode (`collectVariablesFromPerformanceSchema`). -/
def sqlVariablesModified : String :=
  "\n\t\t\tSELECT vi.VARIABLE_NAME, gv.VARIABLE_VALUE, vi.VARIABLE_SOURCE, vi.DEFAULT_VALUE\n\t\t\tFROM performance_schema.variables_info vi\n\t\t\tJOIN performance_schema.global_variables gv ON vi.VARIABLE_NAME = gv.VARIABLE_NAME\n\t\t\tWHERE vi.VARIABLE_SOURCE != 'COMPILED'\n\t\t\tORDER BY vi.VARIABLE_NAME"

/-- The provenance query in all-variables mode (`collectVariablesFromPerformanceSchema`). -/
def sqlVariablesAll : String :=
  "\n\t\t\tSELECT vi.VARIABLE_NAME, gv.VARIABLE_VALUE, \n\t\t\t       COALESCE(vi.VARIABLE_SOURCE, 'COMPILED') as VARIABLE_SOURCE, \n\t\t\t       COALESCE(vi.DEFAULT_VALUE, '') as DEFAULT_VALUE\n\t\t\tFROM performance_schema.global_variables gv\n\t\t\tLEFT JOIN performance_schema.variables_info vi ON vi.VARIABLE_NAME = gv.VARIABLE_NAME\n\t\t\tORDER BY gv.VARIABLE_NAME"

/-- The plain live-values query (`collectVariablesFromInformationSchema`). -/
def sqlGlobalVariables : String :=
  "SELECT VARIABLE_NAME, VARIABLE_VALUE \n\t\t\t FROM performance_schema.global_variables \n\t\t\t ORDER BY VARIABLE_NAME"

/-- The role list (`collectRoles`). -/
def sqlRoles : String :=
  "\n\t\tSELECT User as role_name, Host as role_host\n\t\tFROM mysql.user \n\t\tWHERE account_locked = 'Y' AND password_expired != 'Y'\n\t\tORDER BY User, Host"

/-- The members of one role (`getRoleMembers`). -/
def sqlRoleMembers : String :=
  "\n\t\tSELECT CONCAT(TO_USER, '@', TO_HOST) as member\n\t\tFROM mysql.role_edges \n\t\tWHERE FROM_USER = ? AND FROM_HOST = ?"

/-- The plugin list (`collectPlugins`). -/
def sqlPlugins : String :=
  "\n\t\tSELECT PLUGIN_NAME, PLUGIN_VERSION, PLUGIN_STATUS, PLUGIN_TYPE, \n\t\t       PLUGIN_LIBRARY, PLUGIN_DESCRIPTION\n\t\tFROM information_schema.PLUGINS\n\t\tORDER BY PLUGIN_TYPE, PLUGIN_NAME"

/-- Default plugins to exclude (built-in MySQL plugins): the keys of the map `excludePlugins`. -/
def excludePlugins : List String :=
  ["mysqlx_cache_cleaner", "sha2_cache_cleaner", "caching_sha2_password",
   "mysql_native_password", "sha256_password", "mysqlx", "ngram", "ARCHIVE", "binlog",
   "BLACKHOLE", "CSV", "FEDERATED", "InnoDB", "MEMORY", "MRG_MYISAM", "MyISAM",
   "ndbcluster", "ndbinfo", "PERFORMANCE_SCHEMA", "TempTable",
   "daemon_keyring_proxy_plugin", "INNODB_BUFFER_PAGE", "INNODB_BUFFER_PAGE_LRU",
   "INNODB_BUFFER_POOL_STATS", "INNODB_CACHED_INDEXES", "INNODB_CMP", "INNODB_CMPMEM",
   "INNODB_CMPMEM_RESET", "INNODB_CMP_PER_INDEX", "INNODB_CMP_PER_INDEX_RESET",
   "INNODB_CMP_RESET", "INNODB_COLUMNS", "INNODB_FT_BEING_DELETED", "INNODB_FT_CONFIG",
   "INNODB_FT_DEFAULT_STOPWORD", "INNODB_FT_DELETED", "INNODB_FT_INDEX_CACHE",
   "INNODB_FT_INDEX_TABLE", "INNODB_INDEXES", "INNODB_METRICS",
   "INNODB_SESSION_TEMP_TABLESPACES", "INNODB_TABLES", "INNODB_TABLESPACES",
   "INNODB_TABLESTATS", "INNODB_TEMP_TABLE_INFO", "INNODB_TRX", "INNODB_VIRTUAL",
   "ndb_transid_mysql_connection_map"]

/-- The map `commonVars` of `collectCommonModifiedVariables`: commonly modified variables with
their known defaults, in the order of the source text. -/
def commonVars : List (String × String) :=
  [("character_set_server", "latin1"),
   ("collation_server", "latin1_swedish_ci"),
   ("max_connections", "151"),
   ("innodb_buffer_pool_size", "134217728"),
   ("datadir", "/var/lib/mysql/"),
   ("socket", "/var/run/mysqld/mysqld.sock"),
   ("pid_file", "/var/run/mysqld/mysqld.pid"),
   ("secure_file_priv", ""),
   ("skip_name_resolve", "OFF"),
   ("default_authentication_plugin", "mysql_native_password")]

/-- What the Go runtime and the standard library decide during a run: the result of
`time.Parse("2006-01-02 15:04:05", s)` (`none` for an error; the calendar arithmetic is not
modelled), and the order in which `range` visits the entries of the map `commonVars`, which the
language leaves unspecified. -/
structure Runtime where
  timeParse : String → Option Time
  commonVarsOrder : List (String × String)
  commonVarsOrder_perm : commonVarsOrder.Perm commonVars

/-- MySQLCollector handles MySQL information collection with version-specific logic. -/
structure MySQLCollector (σ : Type) where
  db : DB σ
  version : MySQLVersion
  config : Config

/-! ## `version.go`: version detection -/

/-- DetectMySQLVersion detects the MySQL version from the database connection. -/
def DetectMySQLVersion {σ : Type} (db : DB σ) (w : World σ) : Except String MySQLVersion × World σ :=
  let r := db.QueryRowScan "SELECT VERSION()" [] scanString1 w
  match r.1 with
  | .error err => (.error ("failed to get version: " ++ err), r.2)
  | .ok versionString => (ParseMySQLVersion versionString, r.2)

/-! ## `collector.go` -/

/-- NewMySQLCollector creates a new MySQL collector. -/
def NewMySQLCollector {σ : Type} (db : DB σ) (config : Config) (w : World σ) :
    Except String (MySQLCollector σ) × World σ :=
  let r := DetectMySQLVersion db w
  match r.1 with
  | .error err => (.error ("failed to detect MySQL version: " ++ err), r.2)
  | .ok version => (.ok { db := db, version := version, config := config }, r.2)

/-- collectConnectionInfo collects connection and version information. -/
def collectConnectionInfo {σ : Type} (c : MySQLCollector σ) (info : DatabaseInfo) (w : World σ) :
    Except String DatabaseInfo × World σ :=
  let r := c.db.QueryRowScan "SELECT VERSION()" [] scanString1 w
  match r.1 with
  | .error err => (.error err, r.2)
  | .ok version =>
    (.ok { info with
            ConnectionInfo := some { Host := c.config.Host, Port := c.config.Port,
                                     User := c.config.User, Database := c.config.Database,
                                     Version := version } }, r.2)

/-- getDatabases returns list of accessible databases. -/
def getDatabases {σ : Type} (c : MySQLCollector σ) (w : World σ) :
    Except String (List String) × World σ :=
  if c.config.Database ≠ "" then (.ok [c.config.Database], w)
  else
    let r := c.db.Query "SHOW DATABASES" [] w
    match r.1 with
    | .error err => (.error err, r.2)
    | .ok rows =>
      (.ok ((rows.filterMap scanString1).filter (fun dbName =>
          dbName != "information_schema" && dbName != "performance_schema" &&
          dbName != "mysql" && dbName != "sys")), r.2)

/-- getTableDDL gets the CREATE statement for a table or view. -/
def getTableDDL {σ : Type} (c : MySQLCollector σ) (schema name tableType : String) (w : World σ) :
    Except String String × World σ :=
  if tableType = "VIEW" then
    let r := c.db.QueryRowScan ("SHOW CREATE VIEW `" ++ schema ++ "`.`" ++ name ++ "`") []
      scanString4 w
    match r.1 with
    | .error err => (.error err, r.2)
    | .ok (_, ddl, _, _) => (.ok ddl, r.2)
  else
    let r := c.db.QueryRowScan ("SHOW CREATE TABLE `" ++ schema ++ "`.`" ++ name ++ "`") []
      scanString2 w
    match r.1 with
    | .error err => (.error err, r.2)
    | .ok (_, ddl) => (.ok ddl, r.2)

/-- A timestamp column: the parsed time when the column is non-NULL, non-empty and parses, else
the time `old` the field had. -/
def parsedTimeOr (rt : Runtime) (col : NullString) (old : Time) : Time :=
  if col.Valid ∧ col.String ≠ "" then
    match rt.timeParse col.String with
    | some t => t
    | none => old
  else old

/-- The `rows.Scan` of `getTablesForDatabase` and the assignments up to `// Get DDL`. -/
def scanTableRow (rt : Runtime) (dbName : String) (row : Row) : Option TableInfo :=
  match row with
  | [name, type, engine, autoIncrement, createTime, updateTime, collation, charset, rowFormat,
      comment, createOptions] =>
    match name.scanString, type.scanString, autoIncrement.scanNullInt64 with
    | some tName, some tType, some autoInc =>
      let engine := engine.scanNullString
      let createTime := createTime.scanNullString
      let updateTime := updateTime.scanNullString
      let collation := collation.scanNullString
      let charset := charset.scanNullString
      let rowFormat := rowFormat.scanNullString
      let comment := comment.scanNullString
      let createOptions := createOptions.scanNullString
      some { Name := tName, Type_ := tType, Database := dbName, Schema := dbName,
             Engine := if engine.Valid then engine.String else "",
             AutoIncrement := if autoInc.Valid then autoInc.Int64 else 0,
             CreatedAt := parsedTimeOr rt createTime {},
             UpdatedAt := parsedTimeOr rt updateTime {},
             Collation := if collation.Valid then collation.String else "",
             Charset := if charset.Valid then charset.String else "",
             RowFormat := if rowFormat.Valid then rowFormat.String else "",
             Comment := if comment.Valid then comment.String else "",
             CreateOptions := if createOptions.Valid then createOptions.String else "" }
    | _, _, _ => none
  | _ => none

/-- The loop `for rows.Next()` of `getTablesForDatabase`. -/
def getTablesLoop {σ : Type} (rt : Runtime) (c : MySQLCollector σ) (dbName : String) :
    List Row → List TableInfo → World σ → List TableInfo × World σ
  | [], tables, w => (tables, w)
  | row :: rows, tables, w =>
    match scanTableRow rt dbName row with
    | none => getTablesLoop rt c dbName rows tables w
    | some table =>
      let r := getTableDDL c dbName table.Name table.Type_ w
      match r.1 with
      | .ok ddl => getTablesLoop rt c dbName rows (tables ++ [{ table with DDL := ddl }]) r.2
      | .error _ => getTablesLoop rt c dbName rows (tables ++ [table]) r.2

/-- getTablesForDatabase collects tables and views for a specific database. -/
def getTablesForDatabase {σ : Type} (rt : Runtime) (c : MySQLCollector σ) (dbName : String)
    (w : World σ) : Except String (List TableInfo) × World σ :=
  let r := c.db.Query sqlTables [dbName] w
  match r.1 with
  | .error err => (.error err, r.2)
  | .ok rows =>
    let l := getTablesLoop rt c dbName rows [] r.2
    (.ok l.1, l.2)

/-- The loop `for _, dbName := range databases` of `collectTables`. -/
def collectTablesLoop {σ : Type} (rt : Runtime) (c : MySQLCollector σ) :
    List String → DatabaseInfo → World σ → DatabaseInfo × World σ
  | [], info, w => (info, w)
  | dbName :: databases, info, w =>
    let r := getTablesForDatabase rt c dbName w
    match r.1 with
    | .error _ => collectTablesLoop rt c databases info r.2
    | .ok tables => collectTablesLoop rt c databases { info with Tables := info.Tables ++ tables } r.2

/-- collectTables collects table and view information. -/
def collectTables {σ : Type} (rt : Runtime) (c : MySQLCollector σ) (info : DatabaseInfo)
    (w : World σ) : Except String DatabaseInfo × World σ :=
  let r := getDatabases c w
  match r.1 with
  | .error err => (.error err, r.2)
  | .ok databases =>
    let l := collectTablesLoop rt c databases info r.2
    (.ok l.1, l.2)

/-- getUserGrants gets grants for a specific user. -/
def getUserGrants {σ : Type} (c : MySQLCollector σ) (user host : String) (w : World σ) :
    Except String (List String) × World σ :=
  let r := c.db.Query ("SHOW GRANTS FOR `" ++ user ++ "`@`" ++ host ++ "`") [] w
  match r.1 with
  | .error err => (.error err, r.2)
  | .ok rows => (.ok (rows.filterMap scanString1), r.2)

/-- The `rows.Scan` of `collectUsers` and the assignments up to `// Get grants for this user`. -/
def scanUserRow (row : Row) : Option UserAccount :=
  match row with
  | [user, host, plugin, locked, expired] =>
    match user.scanString, host.scanString with
    | some u, some h =>
      let plugin := plugin.scanNullString
      let locked := locked.scanNullString
      let expired := expired.scanNullString
      some { User := u, Host := h,
             Plugin := if plugin.Valid then plugin.String else "",
             AccountLocked := if locked.Valid then locked.String else "",
             PasswordExpired := if expired.Valid then expired.String else "" }
    | _, _ => none
  | _ => none

/-- The loop `for rows.Next()` of `collectUsers`. -/
def collectUsersLoop {σ : Type} (c : MySQLCollector σ) :
    List Row → DatabaseInfo → World σ → DatabaseInfo × World σ
  | [], info, w => (info, w)
  | row :: rows, info, w =>
    match scanUserRow row with
    | none => collectUsersLoop c rows info w
    | some user =>
      let r := getUserGrants c user.User user.Host w
      match r.1 with
      | .ok grants =>
        collectUsersLoop c rows { info with Users := info.Users ++ [{ user with Grants := grants }] } r.2
      | .error _ => collectUsersLoop c rows { info with Users := info.Users ++ [user] } r.2

/-- collectUsers collects user account information. -/
def collectUsers {σ : Type} (c : MySQLCollector σ) (info : DatabaseInfo) (w : World σ) :
    Except String DatabaseInfo × World σ :=
  let query := if c.version.IsMySQL8OrLater then sqlUsersMySQL8 else sqlUsersLegacy
  let r := c.db.Query query [] w
  match r.1 with
  | .error err => (.error err, r.2)
  | .ok rows =>
    let l := collectUsersLoop c rows info r.2
    (.ok l.1, l.2)

/-- getRoutineParameters gets parameters for a routine. -/
def getRoutineParameters {σ : Type} (c : MySQLCollector σ) (schema name : String) (w : World σ) :
    Except String String × World σ :=
  let r := c.db.QueryRowScan sqlRoutineParameters [schema, name] scanNullString1 w
  match r.1 with
  | .error err => (.error err, r.2)
  | .ok params => if params.Valid then (.ok params.String, r.2) else (.ok "", r.2)

/-- The `rows.Scan` of `collectRoutines` and the assignments up to `// Get parameters`. -/
def scanRoutineRow (rt : Runtime) (row : Row) : Option RoutineInfo :=
  match row with
  | [name, type, schema, definer, created, lastAltered, dataAccess, securityType, definition,
      returns] =>
    match name.scanString, type.scanString, schema.scanString with
    | some rName, some rType, some rSchema =>
      let definer := definer.scanNullString
      let created := created.scanNullString
      let lastAltered := lastAltered.scanNullString
      let dataAccess := dataAccess.scanNullString
      let securityType := securityType.scanNullString
      let definition := definition.scanNullString
      let returns := returns.scanNullString
      some { Name := rName, Type_ := rType, Schema := rSchema,
             Definer := if definer.Valid then definer.String else "",
             Created := parsedTimeOr rt created {},
             LastAltered := parsedTimeOr rt lastAltered {},
             DataAccess := if dataAccess.Valid then dataAccess.String else "",
             SecurityType := if securityType.Valid then securityType.String else "",
             Definition := if definition.Valid then definition.String else "",
             Returns := if returns.Valid then returns.String else "" }
    | _, _, _ => none
  | _ => none

/-- The loop `for rows.Next()` of `collectRoutines`. -/
def collectRoutinesLoop {σ : Type} (rt : Runtime) (c : MySQLCollector σ) :
    List Row → DatabaseInfo → World σ → DatabaseInfo × World σ
  | [], info, w => (info, w)
  | row :: rows, info, w =>
    match scanRoutineRow rt row with
    | none => collectRoutinesLoop rt c rows info w
    | some routine =>
      let r := getRoutineParameters c routine.Schema routine.Name w
      match r.1 with
      | .ok params =>
        collectRoutinesLoop rt c rows
          { info with Routines := info.Routines ++ [{ routine with Parameters := params }] } r.2
      | .error _ =>
        collectRoutinesLoop rt c rows { info with Routines := info.Routines ++ [routine] } r.2

/-- collectRoutines collects all stored procedures and functions. -/
def collectRoutines {σ : Type} (rt : Runtime) (c : MySQLCollector σ) (info : DatabaseInfo)
    (w : World σ) : Except String DatabaseInfo × World σ :=
  let r := c.db.Query sqlRoutines [] w
  match r.1 with
  | .error err => (.error err, r.2)
  | .ok rows =>
    let l := collectRoutinesLoop rt c rows info r.2
    (.ok l.1, l.2)

/-- The `rows.Scan` of `collectVariablesFromPerformanceSchema` and the assignments after it. -/
def scanVariableInfoRow (row : Row) : Option Variable :=
  match row with
  | [name, value, source, defaultValue] =>
    match name.scanString, value.scanString with
    | some n, some v =>
      let source := source.scanNullString
      let defaultValue := defaultValue.scanNullString
      some { Name := n, CurrentValue := v,
             Source := if source.Valid then source.String else "",
             IsModified := if source.Valid then source.String != "COMPILED" else false,
             DefaultValue := if defaultValue.Valid then defaultValue.String else "" }
    | _, _ => none
  | _ => none

/-- The `rows.Scan` of the two live-values loops and the assignments after it: the source is
"UNKNOWN" and the variable counts as unmodified. -/
def scanVariableRow (row : Row) : Option Variable :=
  match row with
  | [name, value] =>
    match name.scanString, value.scanString with
    | some n, some v => some { Name := n, CurrentValue := v, Source := "UNKNOWN", IsModified := false }
    | _, _ => none
  | _ => none

/-- The by-name probe of `collectCommonModifiedVariables`. -/
def sqlVariableProbe : String :=
  "SELECT VARIABLE_VALUE FROM performance_schema.global_variables WHERE VARIABLE_NAME = ?"

/-- The loop `for varName, defaultValue := range commonVars` of `collectCommonModifiedVariables`,
over the entries in the order `range` visits them. -/
def commonVarsLoop {σ : Type} (c : MySQLCollector σ) :
    List (String × String) → DatabaseInfo → World σ → DatabaseInfo × World σ
  | [], info, w => (info, w)
  | (varName, defaultValue) :: rest, info, w =>
    let r1 := c.db.QueryRowScan sqlVariableProbe [varName] scanString1 w
    let r :=
      match r1.1 with
      | .ok _ => r1
      | .error _ => c.db.QueryRowScan sqlVariableProbe [varName] scanString1 r1.2
    match r.1 with
    | .error _ => commonVarsLoop c rest info r.2
    | .ok value =>
      if value ≠ defaultValue then
        commonVarsLoop c rest
          { info with
            Variables := info.Variables ++
              [{ Name := varName, CurrentValue := value, DefaultValue := defaultValue,
                 Source := "DYNAMIC", IsModified := true }] } r.2
      else commonVarsLoop c rest info r.2

/-- collectCommonModifiedVariables collects commonly modified variables for older MySQL versions. -/
def collectCommonModifiedVariables {σ : Type} (rt : Runtime) (c : MySQLCollector σ)
    (info : DatabaseInfo) (w : World σ) : Except String DatabaseInfo × World σ :=
  let l := commonVarsLoop c rt.commonVarsOrder info w
  (.ok l.1, l.2)

/-- collectVariablesFromShowVariables collects variables using SHOW VARIABLES (fallback for very
old MySQL). -/
def collectVariablesFromShowVariables {σ : Type} (rt : Runtime) (c : MySQLCollector σ)
    (info : DatabaseInfo) (w : World σ) : Except String DatabaseInfo × World σ :=
  if c.config.OnlyModifiedVariables then collectCommonModifiedVariables rt c info w
  else
    let r := c.db.Query "SHOW VARIABLES" [] w
    match r.1 with
    | .error err => (.error err, r.2)
    | .ok rows => (.ok { info with Variables := info.Variables ++ rows.filterMap scanVariableRow }, r.2)

/-- collectVariablesFromInformationSchema collects variables from information_schema (older MySQL
versions). -/
def collectVariablesFromInformationSchema {σ : Type} (rt : Runtime) (c : MySQLCollector σ)
    (info : DatabaseInfo) (w : World σ) : Except String DatabaseInfo × World σ :=
  if c.config.OnlyModifiedVariables then collectCommonModifiedVariables rt c info w
  else
    let r := c.db.Query sqlGlobalVariables [] w
    match r.1 with
    | .error _ => collectVariablesFromShowVariables rt c info r.2
    | .ok rows => (.ok { info with Variables := info.Variables ++ rows.filterMap scanVariableRow }, r.2)

/-- collectVariablesFromPerformanceSchema collects variables from performance_schema (MySQL 5.7+). -/
def collectVariablesFromPerformanceSchema {σ : Type} (rt : Runtime) (c : MySQLCollector σ)
    (info : DatabaseInfo) (w : World σ) : Except String DatabaseInfo × World σ :=
  let query := if c.config.OnlyModifiedVariables then sqlVariablesModified else sqlVariablesAll
  let r := c.db.Query query [] w
  match r.1 with
  | .error _ => collectVariablesFromInformationSchema rt c info r.2
  | .ok rows =>
    (.ok { info with Variables := info.Variables ++ rows.filterMap scanVariableInfoRow }, r.2)

/-- collectVariables collects all global variables. -/
def collectVariables {σ : Type} (rt : Runtime) (c : MySQLCollector σ) (info : DatabaseInfo)
    (w : World σ) : Except String DatabaseInfo × World σ :=
  if c.version.SupportsPerformanceSchemaVariablesInfo then
    collectVariablesFromPerformanceSchema rt c info w
  else collectVariablesFromInformationSchema rt c info w

/-- getRoleMembers gets users who have a specific role. -/
def getRoleMembers {σ : Type} (c : MySQLCollector σ) (roleName roleHost : String) (w : World σ) :
    Except String (List String) × World σ :=
  let r := c.db.Query sqlRoleMembers [roleName, roleHost] w
  match r.1 with
  | .error err => (.error err, r.2)
  | .ok rows => (.ok (rows.filterMap scanString1), r.2)

/-- The loop `for rows.Next()` of `collectRoles`. -/
def collectRolesLoop {σ : Type} (c : MySQLCollector σ) :
    List Row → DatabaseInfo → World σ → DatabaseInfo × World σ
  | [], info, w => (info, w)
  | row :: rows, info, w =>
    match scanString2 row with
    | none => collectRolesLoop c rows info w
    | some (roleName, roleHost) =>
      let g := getUserGrants c roleName roleHost w
      let m := getRoleMembers c roleName roleHost g.2
      let role : UserRole :=
        { RoleName := roleName, RoleHost := roleHost,
          Grants := match g.1 with
            | .ok grants => grants
            | .error _ => [],
          Members := match m.1 with
            | .ok members => members
            | .error _ => [] }
      collectRolesLoop c rows { info with Roles := info.Roles ++ [role] } m.2

/-- collectRoles collects MySQL 8.0 roles. -/
def collectRoles {σ : Type} (c : MySQLCollector σ) (info : DatabaseInfo) (w : World σ) :
    Except String DatabaseInfo × World σ :=
  let r := c.db.Query sqlRoles [] w
  match r.1 with
  | .error err => (.error err, r.2)
  | .ok rows =>
    let l := collectRolesLoop c rows info r.2
    (.ok l.1, l.2)

/-- collectMySQL8Features collects MySQL 8.0+ specific features: the roles only; a failure is
printed as a warning and not returned. -/
def collectMySQL8Features {σ : Type} (c : MySQLCollector σ) (info : DatabaseInfo) (w : World σ) :
    Except String DatabaseInfo × World σ :=
  let r := collectRoles c info w
  match r.1 with
  | .error err =>
    (.ok info, { r.2 with stdout := r.2.stdout ++ ["Warning: Failed to collect roles: " ++ err ++ "\n"] })
  | .ok info1 => (.ok info1, r.2)

/-- The `rows.Scan` of `collectComponents`. -/
def scanComponentRow (row : Row) : Option Component :=
  match row with
  | [id, groupID, urn] =>
    match id.scanInt, groupID.scanInt, urn.scanString with
    | some i, some g, some u => some { ComponentID := i, ComponentGroupID := g, ComponentURN := u }
    | _, _, _ => none
  | _ => none

/-- collectComponents collects MySQL 8.0 components. -/
def collectComponents {σ : Type} (c : MySQLCollector σ) (info : DatabaseInfo) (w : World σ) :
    Except String DatabaseInfo × World σ :=
  let r := c.db.Query "SELECT * FROM mysql.component" [] w
  match r.1 with
  | .error err => (.error err, r.2)
  | .ok rows =>
    (.ok { info with Components := info.Components ++ rows.filterMap scanComponentRow }, r.2)

/-- The `rows.Scan` of `collectPlugins`, before the exclusion test. -/
def scanPluginRow (row : Row) : Option Plugin :=
  match row with
  | [name, version, status, type, library, description] =>
    match name.scanString, version.scanString, status.scanString, type.scanString with
    | some n, some v, some s, some t =>
      let library := library.scanNullString
      let description := description.scanNullString
      some { Name := n, Version := v, Status := s, Type_ := t,
             Library := if library.Valid then library.String else "",
             Description := if description.Valid then description.String else "" }
    | _, _, _, _ => none
  | _ => none

/-- collectPlugins collects plugin information. -/
def collectPlugins {σ : Type} (c : MySQLCollector σ) (info : DatabaseInfo) (w : World σ) :
    Except String DatabaseInfo × World σ :=
  let r := c.db.Query sqlPlugins [] w
  match r.1 with
  | .error err => (.error err, r.2)
  | .ok rows =>
    (.ok { info with
            Plugins := info.Plugins ++
              (rows.filterMap scanPluginRow).filter (fun plugin => !excludePlugins.contains plugin.Name) },
      r.2)

/-- The function `unicode.ToUpper` as far as it can produce an ASCII letter: `a`..`z`, and the two
runes outside ASCII whose upper case is ASCII, U+0131 (to `I`) and U+017F (to `S`). Every other
rune is left as it is. -/
def toUpperRune (c : Char) : Char :=
  if c.toNat = 0x131 then 'I'
  else if c.toNat = 0x17F then 'S'
  else if 'a'.toNat ≤ c.toNat ∧ c.toNat ≤ 'z'.toNat then Char.ofNat (c.toNat - 32)
  else c

/-- The function `strings.ToUpper`: the rune-wise map of `unicode.ToUpper`. -/
def ToUpper (s : String) : String := String.mk (s.data.map toUpperRune)

/-- The test `x == "1" || strings.ToUpper(x) == "ON"` of the replication probes. -/
def isOn (x : String) : Bool := x == "1" || ToUpper x == "ON"

/-- The call `Scan(&status.CurrentLogFile, &status.CurrentLogPos, nil, nil)` on the answer to
`SHOW MASTER STATUS`; its error is dropped. With a row of four columns the destinations are filled
from left to right until a conversion fails, and the third, a `nil` destination, always fails;
without a row, or with another number of columns, nothing is written. -/
def scanMasterStatus (status : ReplicationStatus) (resp : Response) : ReplicationStatus :=
  match resp with
  | .ok ([file, pos, _, _] :: _) =>
    match file.scanString with
    | none => status
    | some f =>
      match pos.scanInt with
      | none => { status with CurrentLogFile := f }
      | some p => { status with CurrentLogFile := f, CurrentLogPos := p }
  | _ => status

/-- getReplicationStatus gets basic replication status. It always returns `nil`. -/
def getReplicationStatus {σ : Type} (c : MySQLCollector σ) (info : ReplicationInfo) (w : World σ) :
    Except String ReplicationInfo × World σ :=
  let status : ReplicationStatus := {}
  let r1 := c.db.QueryRowScan "SELECT @@server_id" [] scanInt1 w
  let status :=
    match r1.1 with
    | .ok serverID => { status with ServerID := serverID }
    | .error _ => status
  let r2 := c.db.QueryRowScan "SELECT @@server_uuid" [] scanString1 r1.2
  let status :=
    match r2.1 with
    | .ok serverUUID => { status with ServerUUID := serverUUID }
    | .error _ => status
  let r3 := c.db.QueryRowScan "SELECT @@log_bin" [] scanString1 r2.2
  let status :=
    match r3.1 with
    | .ok logBin => { status with LogBinEnabled := isOn logBin }
    | .error _ => status
  let r4 := c.db.QueryRowScan "SELECT @@binlog_format" [] scanString1 r3.2
  let status :=
    match r4.1 with
    | .ok binlogFormat => { status with BinlogFormat := binlogFormat }
    | .error _ => status
  let r5 := c.db.QueryRowScan "SELECT @@gtid_mode" [] scanString1 r4.2
  let status :=
    match r5.1 with
    | .ok gtidMode => { status with GTIDMode := gtidMode }
    | .error _ => status
  let r6 := c.db.Query "SHOW MASTER STATUS" [] r5.2
  let status := scanMasterStatus status r6.1
  (.ok { info with ReplicationStatus := some status }, r6.2)

/-- getReplicaStatus gets replica status information. -/
def getReplicaStatus {σ : Type} (c : MySQLCollector σ) (info : ReplicationInfo) (w : World σ) :
    Except String ReplicationInfo × World σ :=
  let r1 := c.db.Query "SHOW REPLICA STATUS" [] w
  let r :=
    match r1.1 with
    | .ok _ => r1
    | .error _ => c.db.Query "SHOW SLAVE STATUS" [] r1.2
  match r.1 with
  | .error err => (.error err, r.2)
  | .ok [] => (.ok info, r.2)
  | .ok (_ :: _) =>
    (.ok { info with
            ReplicaStatus := [{ SlaveIORunning := "Unknown", SlaveSQLRunning := "Unknown" }] }, r.2)

/-- getSemiSyncStatus gets semi-synchronous replication status. It always returns `nil`. -/
def getSemiSyncStatus {σ : Type} (c : MySQLCollector σ) (info : ReplicationInfo) (w : World σ) :
    Except String ReplicationInfo × World σ :=
  let status : SemiSyncStatus := {}
  let r1 := c.db.QueryRowScan "SELECT @@rpl_semi_sync_master_enabled" [] scanString1 w
  let status :=
    match r1.1 with
    | .ok masterEnabled => { status with MasterEnabled := isOn masterEnabled }
    | .error _ => status
  let r2 := c.db.QueryRowScan "SELECT @@rpl_semi_sync_slave_enabled" [] scanString1 r1.2
  let status :=
    match r2.1 with
    | .ok slaveEnabled => { status with SlaveEnabled := isOn slaveEnabled }
    | .error _ => status
  (.ok { info with SemiSyncStatus := some status }, r2.2)

/-- getGroupReplicationInfo gets group replication information. It always returns `nil`. -/
def getGroupReplicationInfo {σ : Type} (c : MySQLCollector σ) (info : ReplicationInfo)
    (w : World σ) : Except String ReplicationInfo × World σ :=
  let groupInfo : GroupReplicationInfo := {}
  let r1 := c.db.QueryRowScan
    "SELECT MEMBER_STATE FROM performance_schema.replication_group_members WHERE MEMBER_ID = @@server_uuid"
    [] scanString1 w
  let groupInfo :=
    match r1.1 with
    | .ok memberState => { groupInfo with MemberState := memberState }
    | .error _ => groupInfo
  let r2 := c.db.QueryRowScan "SELECT @@group_replication_group_name" [] scanString1 r1.2
  let groupInfo :=
    match r2.1 with
    | .ok groupName => { groupInfo with GroupName := groupName }
    | .error _ => groupInfo
  let r3 := c.db.QueryRowScan "SELECT @@group_replication_single_primary_mode" [] scanString1 r2.2
  let groupInfo :=
    match r3.1 with
    | .ok singlePrimary => { groupInfo with SinglePrimaryMode := isOn singlePrimary }
    | .error _ => groupInfo
  (.ok { info with GroupReplicationInfo := some groupInfo }, r3.2)

/-- The value a sub-probe leaves behind the pointer `replicationInfo`: its result, or the value
before the call when it returned an error (no sub-probe writes before it fails). -/
def afterProbe (old : ReplicationInfo) (r : Except String ReplicationInfo) : ReplicationInfo :=
  match r with
  | .ok info => info
  | .error _ => old

/-- Did a sub-probe return `nil`? -/
def succeeded {α : Type} (r : Except String α) : Bool :=
  match r with
  | .ok _ => true
  | .error _ => false

/-- collectReplicationInfo collects replication information. The four sub-probes write through one
pointer, which is stored in the snapshot as soon as one of them returns `nil`; so the snapshot ends
with the value after the fourth. -/
def collectReplicationInfo {σ : Type} (c : MySQLCollector σ) (info : DatabaseInfo) (w : World σ) :
    Except String DatabaseInfo × World σ :=
  let replicationInfo : ReplicationInfo := {}
  let r1 := getReplicationStatus c replicationInfo w
  let ri1 := afterProbe replicationInfo r1.1
  let r2 := getReplicaStatus c ri1 r1.2
  let ri2 := afterProbe ri1 r2.1
  let r3 := getSemiSyncStatus c ri2 r2.2
  let ri3 := afterProbe ri2 r3.1
  let r4 := getGroupReplicationInfo c ri3 r3.2
  let ri4 := afterProbe ri3 r4.1
  if succeeded r1.1 || succeeded r2.1 || succeeded r3.1 || succeeded r4.1 then
    (.ok { info with ReplicationInfo := some ri4 }, r4.2)
  else (.ok info, r4.2)

/-- CollectAll collects all MySQL information. The components step is written as a stage of its
own: it is reached only when the plugins step, under the same test of `ExceptPlugins`, has returned
without an error. -/
def CollectAll {σ : Type} (rt : Runtime) (c : MySQLCollector σ) (w : World σ) :
    Except String DatabaseInfo × World σ :=
  let info : DatabaseInfo := {}
  let r0 := collectConnectionInfo c info w
  match r0.1 with
  | .error err => (.error ("failed to collect connection info: " ++ err), r0.2)
  | .ok info =>
  let r1 := if !c.config.ExceptTables then collectTables rt c info r0.2 else (.ok info, r0.2)
  match r1.1 with
  | .error err => (.error ("failed to collect tables: " ++ err), r1.2)
  | .ok info =>
  let r2 := if !c.config.ExceptUsers then collectUsers c info r1.2 else (.ok info, r1.2)
  match r2.1 with
  | .error err => (.error ("failed to collect users: " ++ err), r2.2)
  | .ok info =>
  let r3 :=
    if !c.config.ExceptRoles && c.version.IsMySQL8OrLater then collectMySQL8Features c info r2.2
    else (.ok info, r2.2)
  match r3.1 with
  | .error err => (.error ("failed to collect MySQL 8.0+ features: " ++ err), r3.2)
  | .ok info =>
  let r4 :=
    if !c.config.ExceptStoredProcedures then collectRoutines rt c info r3.2 else (.ok info, r3.2)
  match r4.1 with
  | .error err => (.error ("failed to collect routines: " ++ err), r4.2)
  | .ok info =>
  let r5 := if !c.config.ExceptVariables then collectVariables rt c info r4.2 else (.ok info, r4.2)
  match r5.1 with
  | .error err => (.error ("failed to collect variables: " ++ err), r5.2)
  | .ok info =>
  let r6 := if !c.config.ExceptPlugins then collectPlugins c info r5.2 else (.ok info, r5.2)
  match r6.1 with
  | .error err => (.error ("failed to collect plugins: " ++ err), r6.2)
  | .ok info =>
  let r7 :=
    if !c.config.ExceptPlugins && c.version.IsMySQL8OrLater then collectComponents c info r6.2
    else (.ok info, r6.2)
  match r7.1 with
  | .error err => (.error ("failed to collect components: " ++ err), r7.2)
  | .ok info =>
  let r8 := if c.config.Replication then collectReplicationInfo c info r7.2 else (.ok info, r7.2)
  match r8.1 with
  | .error err => (.error ("failed to collect replication info: " ++ err), r8.2)
  | .ok info => (.ok info, r8.2)

/-! ## Predicates of the specification -/

/-- A non-empty run of ASCII digits. -/
def IsDigitRun (l : List Char) : Prop := l ≠ [] ∧ ∀ c ∈ l, isDigit c = true

/-- The text `l` has an occurrence of digits '.' digits '.' digits that starts at offset `n`. -/
def OccursAt (l : List Char) (n : Nat) : Prop :=
  ∃ pre a b c post, l = pre ++ a ++ '.' :: b ++ '.' :: c ++ post ∧ pre.length = n ∧
    IsDigitRun a ∧ IsDigitRun b ∧ IsDigitRun c

/-- The text `l` has an occurrence of digits '.' digits '.' digits somewhere. -/
def HasTriple (l : List Char) : Prop := ∃ n, OccursAt l n

/-- A server that answers every statement with one row holding the text `answer`. -/
def constServer (answer : String) : DB Unit where
  exec := fun _ st => (.ok [[Value.text answer]], st)

/-- The world before a run: nothing exchanged, nothing printed. -/
def World.start {σ : Type} (st : σ) : World σ := { server := st }

/-- The categories of `CollectAll`. -/
inductive Stage where
  | connection | tables | users | roles | routines | variables | plugins | components | replication
  deriving DecidableEq, Repr

/-- The fixed order in which `CollectAll` goes through the categories. -/
def stageOrder : List Stage :=
  [.connection, .tables, .users, .roles, .routines, .variables, .plugins, .components, .replication]

/-- The step of `CollectAll` for one category, under its gate: the collector when the category is
enabled, no action otherwise. -/
def stageRun {σ : Type} (rt : Runtime) (c : MySQLCollector σ) :
    Stage → DatabaseInfo → World σ → Except String DatabaseInfo × World σ
  | .connection, info, w => collectConnectionInfo c info w
  | .tables, info, w => if !c.config.ExceptTables then collectTables rt c info w else (.ok info, w)
  | .users, info, w => if !c.config.ExceptUsers then collectUsers c info w else (.ok info, w)
  | .roles, info, w =>
    if !c.config.ExceptRoles && c.version.IsMySQL8OrLater then collectMySQL8Features c info w
    else (.ok info, w)
  | .routines, info, w =>
    if !c.config.ExceptStoredProcedures then collectRoutines rt c info w else (.ok info, w)
  | .variables, info, w =>
    if !c.config.ExceptVariables then collectVariables rt c info w else (.ok info, w)
  | .plugins, info, w => if !c.config.ExceptPlugins then collectPlugins c info w else (.ok info, w)
  | .components, info, w =>
    if !c.config.ExceptPlugins && c.version.IsMySQL8OrLater then collectComponents c info w
    else (.ok info, w)
  | .replication, info, w =>
    if c.config.Replication then collectReplicationInfo c info w else (.ok info, w)

/-- The text `CollectAll` puts in front of the error of a category. -/
def stageMessage : Stage → String
  | .connection => "failed to collect connection info: "
  | .tables => "failed to collect tables: "
  | .users => "failed to collect users: "
  | .roles => "failed to collect MySQL 8.0+ features: "
  | .routines => "failed to collect routines: "
  | .variables => "failed to collect variables: "
  | .plugins => "failed to collect plugins: "
  | .components => "failed to collect components: "
  | .replication => "failed to collect replication info: "

/-- A run through a list of categories that stops at the first error. -/
def runStages {σ : Type} (rt : Runtime) (c : MySQLCollector σ) :
    List Stage → DatabaseInfo → World σ → Except String DatabaseInfo × World σ
  | [], info, w => (.ok info, w)
  | st :: rest, info, w =>
    match (stageRun rt c st info w).1 with
    | .error err => (.error (stageMessage st ++ err), (stageRun rt c st info w).2)
    | .ok info1 => runStages rt c rest info1 (stageRun rt c st info w).2

/-- The step from `w` to `w1` adds exchanges to the log, and each of them satisfies `Q`. -/
def Extends {σ : Type} (Q : Event → Prop) (w w1 : World σ) : Prop :=
  ∃ evs, w1.log = w.log ++ evs ∧ ∀ ev ∈ evs, Q ev

/-- The statement of the exchange is one of `texts`, or starts with one of `prefixes`. -/
def Sig (texts prefixes : List String) (ev : Event) : Prop :=
  ev.call.sql ∈ texts ∨ ∃ p ∈ prefixes, p.data <+: ev.call.sql.data

/-- The statements a category issues besides its primary query, in full. -/
def Stage.quietTexts : Stage → List String
  | .connection => []
  | .tables => [sqlTables]
  | .users => []
  | .roles => [sqlRoles, sqlRoleMembers]
  | .routines => [sqlRoutineParameters]
  | .variables => [sqlVariablesModified, sqlVariablesAll, sqlGlobalVariables, sqlVariableProbe]
  | .plugins => []
  | .components => []
  | .replication =>
    ["SELECT @@server_id", "SELECT @@server_uuid", "SELECT @@log_bin", "SELECT @@binlog_format",
     "SELECT @@gtid_mode", "SHOW MASTER STATUS", "SHOW REPLICA STATUS", "SHOW SLAVE STATUS",
     "SELECT @@rpl_semi_sync_master_enabled", "SELECT @@rpl_semi_sync_slave_enabled",
     "SELECT MEMBER_STATE FROM performance_schema.replication_group_members WHERE MEMBER_ID = @@server_uuid",
     "SELECT @@group_replication_group_name", "SELECT @@group_replication_single_primary_mode"]

/-- The statements a category issues besides its primary query, by their fixed beginning: the
rest of the text is built from names the server returned. -/
def Stage.quietPrefixes : Stage → List String
  | .tables => ["SHOW CREATE VIEW `", "SHOW CREATE TABLE `"]
  | .users => ["SHOW GRANTS FOR `"]
  | .roles => ["SHOW GRANTS FOR `"]
  | _ => []

/-- The primary query of a category, the one whose failure has no fallback: the version query,
the database listing, the account list, the routine list, the last variable tier `SHOW VARIABLES`,
the plugin list and the component list. Roles and replication have none: their failures are
absorbed. -/
def Stage.primary (v : MySQLVersion) : Stage → Option String
  | .connection => some "SELECT VERSION()"
  | .tables => some "SHOW DATABASES"
  | .users => some (if v.IsMySQL8OrLater then sqlUsersMySQL8 else sqlUsersLegacy)
  | .roles => none
  | .routines => some sqlRoutines
  | .variables => some "SHOW VARIABLES"
  | .plugins => some sqlPlugins
  | .components => some "SELECT * FROM mysql.component"
  | .replication => none

/-- Every text that is the primary query of some category. -/
def primaryTexts : List String :=
  ["SELECT VERSION()", "SHOW DATABASES", sqlUsersMySQL8, sqlUsersLegacy, sqlRoutines,
   "SHOW VARIABLES", sqlPlugins, "SELECT * FROM mysql.component"]

/-- Does the answer make the primary query fail? For the version query, which is read with
`QueryRow(...).Scan`, it does when the scan of a single string fails; for the others, read with
`Query`, when the query itself returns an error. -/
def primaryFails (sql : String) (resp : Response) : Bool :=
  if sql = "SELECT VERSION()" then !succeeded (scanFirst scanString1 resp) else !succeeded resp

/-- The exchange is a failed primary query. -/
def Event.isFatal (ev : Event) : Prop :=
  ev.call.sql ∈ primaryTexts ∧ primaryFails ev.call.sql ev.resp = true

/-- The primary queries among the statements of a list of exchanges, in order. -/
def primarySqls (evs : List Event) : List String :=
  (evs.map (fun ev => ev.call.sql)).filter (fun sql => decide (sql ∈ primaryTexts))

/-- An exchange of a category other than its primary query. -/
def Quiet (st : Stage) : Event → Prop := Sig st.quietTexts st.quietPrefixes

/-- The exchanges `evs` of a category and its result `r`: exchanges `q1` that are not primary,
then either nothing more and no error, or the primary query `p`, which when it fails ends the
category with an error, and otherwise is followed by exchanges `q2` that are not primary and no
error. -/
def StageTrace {α : Type} (Q : Event → Prop) (p : Option String) (r : Except String α)
    (evs : List Event) : Prop :=
  ∃ q1 q2 : List Event, (∀ ev ∈ q1, Q ev) ∧ (∀ ev ∈ q2, Q ev) ∧
    ((evs = q1 ∧ succeeded r = true) ∨
      ∃ sql args resp, p = some sql ∧ evs = q1 ++ ⟨⟨sql, args⟩, resp⟩ :: q2 ∧
        (primaryFails sql resp = true → q2 = [] ∧ succeeded r = false) ∧
        (primaryFails sql resp = false → succeeded r = true))

/-- The result `r` of a step and the exchanges `evs` it added: either no primary query failed
and the step returned no error, or it returned an error and its last exchange is a failed primary
query, the only one. -/
def Outcome {α : Type} (r : Except String α) (evs : List Event) : Prop :=
  (succeeded r = true ∧ ∀ ev ∈ evs, ¬ ev.isFatal) ∨
  (succeeded r = false ∧ ∃ l ev, evs = l ++ [ev] ∧ ev.isFatal ∧ ∀ ev1 ∈ l, ¬ ev1.isFatal)

/-- The gate of a category in `CollectAll`. -/
def Stage.enabled {σ : Type} (c : MySQLCollector σ) : Stage → Bool
  | .connection => true
  | .tables => !c.config.ExceptTables
  | .users => !c.config.ExceptUsers
  | .roles => !c.config.ExceptRoles && c.version.IsMySQL8OrLater
  | .routines => !c.config.ExceptStoredProcedures
  | .variables => !c.config.ExceptVariables
  | .plugins => !c.config.ExceptPlugins
  | .components => !c.config.ExceptPlugins && c.version.IsMySQL8OrLater
  | .replication => c.config.Replication

/-- A server that answers every statement with no rows. -/
def silentServer : DB Unit where
  exec := fun _ st => (.ok [], st)

/-- A server that answers the version query with "8.0.42" and refuses every other statement. -/
def denyingServer : DB Unit where
  exec := fun call st =>
    if call.sql = "SELECT VERSION()" then (.ok [[Value.text "8.0.42"]], st) else (.error "denied", st)

/-- A runtime in which no timestamp parses and `range` visits `commonVars` in source order. -/
def plainRuntime : Runtime where
  timeParse := fun _ => none
  commonVarsOrder := commonVars
  commonVarsOrder_perm := List.Perm.refl _

/-- The version MySQL 8.0.42. -/
def mysql8042 : MySQLVersion :=
  { FullVersion := "8.0.42", Major := 8, Minor := 0, Patch := 42, Variant := "mysql" }

/-- The provenance query of `collectVariablesFromPerformanceSchema` in the configured mode. -/
def provenanceQuery {σ : Type} (c : MySQLCollector σ) : String :=
  if c.config.OnlyModifiedVariables then sqlVariablesModified else sqlVariablesAll

/-- The exchanges in front of a fallback tier: none, or the provenance query with its error. -/
def FailedProvenance {σ : Type} (c : MySQLCollector σ) (pre : List Event) : Prop :=
  pre = [] ∨ ∃ e, pre = [⟨⟨provenanceQuery c, []⟩, .error e⟩]

/-- The exchanges `evs` and the result `r` of the variable collector started on `info`, by the
tier that answered: the provenance query; the plain live-values query; `SHOW VARIABLES` after the
live-values query failed; the by-name probes of the common-variables table. -/
def VariablesShape {σ : Type} (c : MySQLCollector σ) (info : DatabaseInfo)
    (r : Except String DatabaseInfo) (evs : List Event) : Prop :=
  (∃ rows, evs = [⟨⟨provenanceQuery c, []⟩, .ok rows⟩] ∧
    r = .ok { info with Variables := info.Variables ++ rows.filterMap scanVariableInfoRow }) ∨
  (∃ pre, FailedProvenance c pre ∧
    ((∃ rows, evs = pre ++ [⟨⟨sqlGlobalVariables, []⟩, .ok rows⟩] ∧
        r = .ok { info with Variables := info.Variables ++ rows.filterMap scanVariableRow }) ∨
      (∃ e resp, evs = pre ++ [⟨⟨sqlGlobalVariables, []⟩, .error e⟩, ⟨⟨"SHOW VARIABLES", []⟩, resp⟩]) ∨
      (∃ probes, evs = pre ++ probes ∧ ∀ ev ∈ probes, ev.call.sql = sqlVariableProbe)))

/-- What one entry `(name, default)` of the common-variables table contributes when the by-name
probe of `name` is answered by `resp name`: a variable with source "DYNAMIC" when the probe yields
a value different from the default, nothing otherwise. -/
def probeEntry (resp : String → Response) (entry : String × String) : Option Variable :=
  match scanFirst scanString1 (resp entry.1) with
  | .ok value =>
    if value ≠ entry.2 then
      some { Name := entry.1, CurrentValue := value, DefaultValue := entry.2, Source := "DYNAMIC",
             IsModified := true }
    else none
  | .error _ => none

/-- A server without the provenance catalog on which `max_connections` was raised to 500 and
`datadir` has its default; every other statement is refused. -/
def tunedServer : DB Unit where
  exec := fun call st =>
    if call.sql = sqlVariableProbe then
      if call.args = ["max_connections"] then (.ok [[Value.text "500"]], st)
      else if call.args = ["datadir"] then (.ok [[Value.text "/var/lib/mysql/"]], st)
      else (.error "unknown variable", st)
    else (.error "no such table", st)

/-- A server on which every statement succeeds without rows, except the version query, answered
with "10.11.6-MariaDB". -/
def mariadbServer : DB Unit where
  exec := fun call st =>
    if call.sql = "SELECT VERSION()" then (.ok [[Value.text "10.11.6-MariaDB"]], st) else (.ok [], st)

/-- The version MariaDB 10.11.6. -/
def mariadb10116 : MySQLVersion :=
  { FullVersion := "10.11.6-MariaDB", Major := 10, Minor := 11, Patch := 6, Variant := "mariadb" }

/-- The variable `v` is as the live-values tiers leave it, and its name and value are the two
columns of one of `rows`: source "UNKNOWN", unmodified, no default value. -/
def UnknownFrom (rows : List Row) (v : Variable) : Prop :=
  v.Source = "UNKNOWN" ∧ v.IsModified = false ∧ v.DefaultValue = "" ∧
    ∃ name value, [name, value] ∈ rows ∧ name.scanString = some v.Name ∧
      value.scanString = some v.CurrentValue

/-- A very old server: it knows `SHOW VARIABLES` only, and answers it with two rows. -/
def ancientServer : DB Unit where
  exec := fun call st =>
    if call.sql = "SHOW VARIABLES" then
      (.ok [[Value.text "max_connections", Value.text "151"], [Value.text "port", Value.int 3306]], st)
    else (.error "unknown table", st)

/-- The version MySQL 5.6.51. -/
def mysql5651 : MySQLVersion :=
  { FullVersion := "5.6.51", Major := 5, Minor := 6, Patch := 51, Variant := "mysql" }

/-- The four system schemas that the database listing leaves out. -/
def systemSchemas : List String := ["information_schema", "performance_schema", "mysql", "sys"]

/-- A server whose database listing holds application and system schemas, and which refuses every
other statement. -/
def listingServer : DB Unit where
  exec := fun call st =>
    if call.sql = "SHOW DATABASES" then
      (.ok [[Value.text "app"], [Value.text "mysql"], [Value.text "Mysql"], [Value.text "sys"],
            [Value.text "information_schema"], [Value.text "shop"],
            [Value.text "performance_schema"]], st)
    else (.error "denied", st)

/-- The results of `getTablesForDatabase` on the databases of a list, one after the other, each
started in the world the one before left. -/
def tableListsOf {σ : Type} (rt : Runtime) (c : MySQLCollector σ) :
    List String → World σ → List (Except String (List TableInfo))
  | [], _ => []
  | dbName :: databases, w =>
    (getTablesForDatabase rt c dbName w).1 ::
      tableListsOf rt c databases (getTablesForDatabase rt c dbName w).2

/-- What a database adds to the snapshot: its table list, or nothing when its collection failed. -/
def contribution (r : Except String (List TableInfo)) : List TableInfo :=
  match r with
  | .ok tables => tables
  | .error _ => []

/-- A row of the table metadata with the given name, kind, engine and auto-increment columns; the
charset column is empty and the other columns are NULL. -/
def tableRow (name kind : String) (engine autoIncrement : Value) : Row :=
  [.text name, .text kind, engine, autoIncrement, .null, .null, .null, .text "", .null, .null, .null]

/-- A server with three databases: `shop` with a table and a view, `locked` whose metadata may not
be read, and `crm` with a table whose definition may not be read. -/
def shopServer : DB Unit where
  exec := fun call st =>
    if call.sql = "SHOW DATABASES" then
      (.ok [[.text "shop"], [.text "locked"], [.text "mysql"], [.text "crm"]], st)
    else if call.sql = sqlTables then
      if call.args = ["shop"] then
        (.ok [tableRow "orders" "BASE TABLE" (.text "InnoDB") (.int 7),
              tableRow "v_orders" "VIEW" .null .null], st)
      else if call.args = ["crm"] then (.ok [tableRow "leads" "BASE TABLE" (.text "InnoDB") .null], st)
      else (.error "access denied", st)
    else if call.sql = "SHOW CREATE TABLE `shop`.`orders`" then
      (.ok [[.text "orders", .text "CREATE TABLE `orders` (`id` int)"]], st)
    else if call.sql = "SHOW CREATE VIEW `shop`.`v_orders`" then
      (.ok [[.text "v_orders", .text "CREATE VIEW `v_orders` AS select 1", .text "utf8mb4",
             .text "utf8mb4_0900_ai_ci"]], st)
    else (.error "denied", st)

/-- The statement that fetches the definition of an object of the given kind. -/
def ddlStatement (schema name kind : String) : String :=
  (if kind = "VIEW" then "SHOW CREATE VIEW `" else "SHOW CREATE TABLE `") ++ schema ++ "`.`" ++
    name ++ "`"

/-- The definition an entry carries after its fetch: the fetched text, or none when the fetch
failed. -/
def ddlOrEmpty (r : Except String String) : String :=
  match r with
  | .ok ddl => ddl
  | .error _ => ""

/-- The entry `t` is the scanned row `s` with the definition fetched in some world. -/
def EntryOf {σ : Type} (c : MySQLCollector σ) (dbName : String) (s t : TableInfo) : Prop :=
  ∃ w1 : World σ, t = { s with DDL := ddlOrEmpty (getTableDDL c dbName s.Name s.Type_ w1).1 }

/-- A server whose metadata reports a view with an engine and an auto-increment counter, as the
metadata of a table would. -/
def oddViewServer : DB Unit where
  exec := fun call st =>
    if call.sql = sqlTables then (.ok [tableRow "v_stock" "VIEW" (.text "InnoDB") (.int 7)], st)
    else (.error "denied", st)

/-- The entry `t` follows the metadata row `row`: it has the name and the kind of the row, its
engine is the third column (empty for NULL, the text for a text, the decimal digits for an
integer) and its auto-increment counter is the fourth column (0 for NULL, the number for an
integer, the number a text spells in decimal). -/
def FollowsRow (row : Row) (t : TableInfo) : Prop :=
  ∃ name kind engine autoIncrement rest, row = name :: kind :: engine :: autoIncrement :: rest ∧
    name.scanString = some t.Name ∧ kind.scanString = some t.Type_ ∧
    t.Engine = (match engine with
      | .null => ""
      | .text s => s
      | .int n => formatInt n) ∧
    (match autoIncrement with
      | .null => t.AutoIncrement = 0
      | .text s => Atoi s = .ok t.AutoIncrement
      | .int n => t.AutoIncrement = n)

/-- A server whose table metadata has a table with the integer 5 in the engine column and the text
"7" in the auto-increment column, a view with NULL in both, a table whose auto-increment column
is the text "x", which no scan accepts, and a row of one column. -/
def mixedRowsServer : DB Unit where
  exec := fun call st =>
    if call.sql = sqlTables then
      (.ok [tableRow "stock" "BASE TABLE" (.int 5) (.text "7"), tableRow "v_stock" "VIEW" .null .null,
            tableRow "broken" "BASE TABLE" (.text "InnoDB") (.text "x"), [.text "short"]], st)
    else (.error "denied", st)

/-- The statement that lists the grants of an account. -/
def grantsStatement (user host : String) : String :=
  "SHOW GRANTS FOR `" ++ user ++ "`@`" ++ host ++ "`"

/-- The grants an account carries after the answer `resp` to its grants statement: the strings
of the answer in order, or none when the statement failed. -/
def grantsOrEmpty (resp : Response) : List String :=
  match resp with
  | .ok rows => rows.filterMap scanString1
  | .error _ => []

/-- The account `u` is the scanned row `s` with the grants that its grants statement returned in
some state of the server. -/
def AccountOf {σ : Type} (c : MySQLCollector σ) (s u : UserAccount) : Prop :=
  ∃ st : σ, u = { s with Grants := grantsOrEmpty (c.db.exec ⟨grantsStatement s.User s.Host, []⟩ st).1 }

/-- The text of a nullable column: empty for NULL. -/
def textOrEmpty (v : Value) : String :=
  if v.scanNullString.Valid then v.scanNullString.String else ""

/-- The account `s` has the five columns of one of `rows` and no grants. -/
def AccountFromRow (rows : List Row) (s : UserAccount) : Prop :=
  ∃ user host plugin locked expired, [user, host, plugin, locked, expired] ∈ rows ∧
    user.scanString = some s.User ∧ host.scanString = some s.Host ∧
    s.Plugin = textOrEmpty plugin ∧ s.AccountLocked = textOrEmpty locked ∧
    s.PasswordExpired = textOrEmpty expired ∧ s.Grants = [] ∧ s.SSLType = ""

/-- A server with two accounts; the grants of the first may not be read. -/
def accountsServer : DB Unit where
  exec := fun call st =>
    if call.sql = sqlUsersMySQL8 then
      (.ok [[.text "app", .text "%", .text "caching_sha2_password", .text "N", .text "N"],
            [.text "root", .text "localhost", .null, .null, .null]], st)
    else if call.sql = "SHOW GRANTS FOR `root`@`localhost`" then
      (.ok [[.text "GRANT ALL PRIVILEGES ON *.* TO `root`@`localhost`"],
            [.text "GRANT PROXY ON ``@`` TO `root`@`localhost`"]], st)
    else (.error "denied", st)

/-- A server whose plugin list has the engine "InnoDB" and three plugins whose names differ from
it by case or by a suffix. -/
def pluginsServer : DB Unit where
  exec := fun call st =>
    if call.sql = sqlPlugins then
      (.ok [[.text "InnoDB", .text "8.0", .text "ACTIVE", .text "STORAGE ENGINE", .null, .null],
            [.text "innodb_custom", .text "1.0", .text "ACTIVE", .text "DAEMON",
             .text "custom.so", .null],
            [.text "innodb", .text "1.0", .text "ACTIVE", .text "DAEMON", .null, .null],
            [.text "INNODB", .text "1.0", .text "ACTIVE", .text "DAEMON", .null, .null]], st)
    else (.error "denied", st)

/-- The three parts of a replication report that every probe run fills in are present. -/
def ReplicationInfo.Filled (ri : ReplicationInfo) : Prop :=
  ri.ReplicationStatus.isSome = true ∧ ri.SemiSyncStatus.isSome = true ∧
    ri.GroupReplicationInfo.isSome = true

/-- What the replica probe records for the rows of the statement that answered: the one
placeholder entry when there is a row, nothing otherwise. -/
def replicaRecorded (info : ReplicationInfo) (rows : List Row) : ReplicationInfo :=
  if rows = [] then info
  else { info with ReplicaStatus := [{ SlaveIORunning := "Unknown", SlaveSQLRunning := "Unknown" }] }

/-- A replica that knows the older statement only: `SHOW SLAVE STATUS` is answered with one row,
every other statement is a syntax error. -/
def legacyReplicaServer : DB Unit where
  exec := fun call st =>
    if call.sql = "SHOW SLAVE STATUS" then (.ok [[.text "Waiting for source to send event"]], st)
    else (.error "syntax error", st)

/-- The version MySQL 5.7.44. -/
def mysql5744 : MySQLVersion :=
  { FullVersion := "5.7.44", Major := 5, Minor := 7, Patch := 44, Variant := "mysql" }

/-- The numbers of a version, most significant first. -/
def MySQLVersion.triple (v : MySQLVersion) : Int × Int × Int := (v.Major, v.Minor, v.Patch)

/-- The lexicographic order on triples of integers. -/
def tripleLt (a b : Int × Int × Int) : Prop :=
  a.1 < b.1 ∨ (a.1 = b.1 ∧ (a.2.1 < b.2.1 ∨ (a.2.1 = b.2.1 ∧ a.2.2 < b.2.2)))

/-- The members a role carries after the answer `resp` to its members query: the strings of the
answer in order, or none when the query failed. -/
def membersOrEmpty (resp : Response) : List String :=
  match resp with
  | .ok rows => rows.filterMap scanString1
  | .error _ => []

/-- The role `role` has the name and host `key`, the grants that its grants statement returned in
some state of the server and the members that its members query returned in some state; a list is
empty when its query failed. -/
def RoleOf {σ : Type} (c : MySQLCollector σ) (key : String × String) (role : UserRole) : Prop :=
  ∃ st1 st2 : σ,
    role = { RoleName := key.1, RoleHost := key.2,
             Grants := grantsOrEmpty (c.db.exec ⟨grantsStatement key.1 key.2, []⟩ st1).1,
             Members := membersOrEmpty (c.db.exec ⟨sqlRoleMembers, [key.1, key.2]⟩ st2).1 }

/-- A MySQL 8 server on which the role query is refused, the plugin list has one plugin and every
other statement succeeds without rows. -/
def roleDenyingServer : DB Unit where
  exec := fun call st =>
    if call.sql = "SELECT VERSION()" then (.ok [[.text "8.0.42"]], st)
    else if call.sql = sqlRoles then (.error "SELECT command denied", st)
    else if call.sql = sqlPlugins then
      (.ok [[.text "audit_log", .text "1.0", .text "ACTIVE", .text "AUDIT", .text "audit_log.so",
             .null]], st)
    else (.ok [], st)

/-- A server with the roles `dev` and `ops`: the grants of `dev` and the members of `ops` may not
be read. -/
def rolesServer : DB Unit where
  exec := fun call st =>
    if call.sql = sqlRoles then (.ok [[.text "dev", .text "%"], [.text "ops", .text "%"]], st)
    else if call.sql = "SHOW GRANTS FOR `ops`@`%`" then
      (.ok [[.text "GRANT SELECT ON *.* TO `ops`@`%`"]], st)
    else if call.sql = sqlRoleMembers ∧ call.args = ["dev", "%"] then (.ok [[.text "alice@%"]], st)
    else (.error "denied", st)

/-- The flag and the source of a variable agree: a variable marked as modified does not have the
source "COMPILED". -/
def Variable.Consistent (v : Variable) : Prop := v.IsModified = true → v.Source ≠ "COMPILED"

/-- A variable as the common-variables fallback emits it: marked as modified, with the source
"DYNAMIC" and a current value different from the default. -/
def Variable.FromProbe (v : Variable) : Prop :=
  v.IsModified = true ∧ v.Source = "DYNAMIC" ∧ v.CurrentValue ≠ v.DefaultValue

/-- A server with the provenance catalog, whose rows come from the compiled defaults, from a
configuration file and without a source. -/
def provenanceServer : DB Unit where
  exec := fun call st =>
    if call.sql = sqlVariablesAll then
      (.ok [[.text "port", .text "3306", .text "COMPILED", .text "3306"],
            [.text "max_connections", .text "500", .text "GLOBAL", .text "151"],
            [.text "datadir", .text "/data/", .null, .null]], st)
    else (.error "denied", st)

/-- A runtime in which no timestamp parses and `range` visits `commonVars` from the last entry of
the source to the first. -/
def reversedRuntime : Runtime where
  timeParse := fun _ => none
  commonVarsOrder := commonVars.reverse
  commonVarsOrder_perm := List.reverse_perm _

/-- A MySQL 5.6 server on which `character_set_server` and `max_connections` were changed; it
answers the version query and the by-name probes of these two, and refuses every other
statement. -/
def retunedServer : DB Unit where
  exec := fun call st =>
    if call.sql = "SELECT VERSION()" then (.ok [[.text "5.6.51"]], st)
    else if call.sql = sqlVariableProbe then
      if call.args = ["character_set_server"] then (.ok [[.text "utf8mb4"]], st)
      else if call.args = ["max_connections"] then (.ok [[.text "500"]], st)
      else (.error "unknown variable", st)
    else (.error "no such table", st)

/-- A configuration that asks for the modified variables only. -/
def onlyVariablesConfig : Config :=
  { OnlyModifiedVariables := true, ExceptTables := true, ExceptStoredProcedures := true,
    ExceptUsers := true, ExceptRoles := true, ExceptPlugins := true }

/-- The order of the table entries by (Database, Schema, Name), each compared as strings:
`a` is not after `b`. -/
def TableInfo.keyLE (a b : TableInfo) : Prop :=
  a.Database < b.Database ∨
    (a.Database = b.Database ∧ (a.Schema < b.Schema ∨ (a.Schema = b.Schema ∧ a.Name ≤ b.Name)))

/-- A MySQL 8 server whose database listing names `shop` before `crm`; each of the two has one
table, whose definition may not be read; every other statement succeeds without rows. -/
def unsortedServer : DB Unit where
  exec := fun call st =>
    if call.sql = "SELECT VERSION()" then (.ok [[.text "8.0.42"]], st)
    else if call.sql = "SHOW DATABASES" then (.ok [[.text "shop"], [.text "crm"]], st)
    else if call.sql = sqlTables then
      if call.args = ["shop"] then (.ok [tableRow "orders" "BASE TABLE" (.text "InnoDB") (.int 7)], st)
      else if call.args = ["crm"] then (.ok [tableRow "leads" "BASE TABLE" (.text "InnoDB") .null], st)
      else (.ok [], st)
    else if call.sql = sqlUsersMySQL8 ∨ call.sql = sqlRoles ∨ call.sql = sqlRoutines ∨
        call.sql = sqlVariablesAll ∨ call.sql = sqlPlugins ∨
        call.sql = "SELECT * FROM mysql.component" then (.ok [], st)
    else (.error "denied", st)

/-- The exchange, if it is the database listing and succeeds, returns names that are in strictly
ascending order once the system schemas are left out. -/
def Event.listingAscending (ev : Event) : Prop :=
  ev.call.sql = "SHOW DATABASES" → ∀ rows, ev.resp = .ok rows →
    ((rows.filterMap scanString1).filter (fun n => decide (n ∉ systemSchemas))).Pairwise (· < ·)

/-- The exchange, if it is the metadata query of a database `d` and succeeds, returns rows of
which those that scan have their names in ascending order. -/
def Event.rowsAscending (rt : Runtime) (ev : Event) : Prop :=
  ev.call.sql = sqlTables → ∀ d rows, ev.call.args = [d] → ev.resp = .ok rows →
    ((rows.filterMap (scanTableRow rt d)).map (fun t => t.Name)).Pairwise (· ≤ ·)

/-- A MySQL 8 server whose database listing names `sys`, `crm`, `mysql` and `shop` in that order;
`crm` has the tables `accounts` and `leads`, `shop` has the table `orders` and the view
`v_orders`; no definition may be read, and the other lists are empty. -/
def catalogServer : DB Unit where
  exec := fun call st =>
    if call.sql = "SELECT VERSION()" then (.ok [[.text "8.0.42"]], st)
    else if call.sql = "SHOW DATABASES" then
      (.ok [[.text "sys"], [.text "crm"], [.text "mysql"], [.text "shop"]], st)
    else if call.sql = sqlTables then
      if call.args = ["crm"] then
        (.ok [tableRow "accounts" "BASE TABLE" (.text "InnoDB") (.int 3),
              tableRow "leads" "BASE TABLE" (.text "InnoDB") .null], st)
      else if call.args = ["shop"] then
        (.ok [tableRow "orders" "BASE TABLE" (.text "InnoDB") (.int 7),
              tableRow "v_orders" "VIEW" .null .null], st)
      else (.ok [], st)
    else if call.sql = sqlUsersMySQL8 ∨ call.sql = sqlRoles ∨ call.sql = sqlRoutines ∨
        call.sql = sqlVariablesAll ∨ call.sql = sqlPlugins ∨
        call.sql = "SELECT * FROM mysql.component" then (.ok [], st)
    else (.error "denied", st)

/-! ## `formatter.go` -/

/-- The function `strings.ReplaceAll(s, old, new)` for a pattern `old` of one rune, which is how
`escapeXML` calls it: every occurrence of the rune is replaced by `new`. -/
def ReplaceAll (s : String) (old : Char) (new : String) : String :=
  String.mk (s.data.flatMap (fun c => if c = old then new.data else [c]))

/-- The method escapeXML of `XMLFormatter`: five replacements, the ampersand first. The double
quote is the rune 34 and the apostrophe the rune 39. -/
def XMLFormatter.escapeXML (s : String) : String :=
  let s := ReplaceAll s '&' "&amp;"
  let s := ReplaceAll s '<' "&lt;"
  let s := ReplaceAll s '>' "&gt;"
  let s := ReplaceAll s (Char.ofNat 34) "&quot;"
  let s := ReplaceAll s (Char.ofNat 39) "&apos;"
  s

/-- The method `t.IsZero()`. -/
def Time.IsZero (t : Time) : Bool := t.nsec == 0

/-- The verb `%t` of `fmt` on a `bool`. -/
def formatBool (b : Bool) : String := if b then "true" else "false"

/-- The function `sort.Strings`: ascending order of the strings. -/
def sortStrings (l : List String) : List String := l.insertionSort (· ≤ ·)

/-- The call `sort.Slice(schemaTables, ...)` of `formatTables`: ascending order of the names. The
Go sort is not stable; entries with equal names are left here in the order they had. -/
def sortTablesByName (l : List TableInfo) : List TableInfo :=
  l.insertionSort (fun a b => a.Name ≤ b.Name)

/-- The method hasViews of `MarkdownFormatter`. -/
def MarkdownFormatter.hasViews (tables : List TableInfo) : Bool :=
  tables.any (fun table => table.Type_ == "VIEW")

/-- The method filterRoutines of `MarkdownFormatter`. -/
def MarkdownFormatter.filterRoutines (routines : List RoutineInfo) (routineType : String) :
    List RoutineInfo :=
  routines.filter (fun routine => routine.Type_ == routineType)

/-- The body of the innermost loop of `formatTables`: what is written for one table; `multiple`
is `len(databases) > 1` and `fmtTime` is `t.Format("2006-01-02 15:04:05")`. -/
def MarkdownFormatter.formatTable (fmtTime : Time → String) (multiple : Bool) (table : TableInfo) :
    String :=
  (if multiple then
      "## " ++ table.Database ++ "." ++ table.Schema ++ "." ++ table.Name ++ "\n\n"
    else "## " ++ table.Schema ++ "." ++ table.Name ++ "\n\n") ++
  (if table.Engine ≠ "" then "- Engine: " ++ table.Engine ++ "\n" else "") ++
  (if table.AutoIncrement > 0 then "- Auto Increment: " ++ formatInt table.AutoIncrement ++ "\n"
    else "") ++
  (if !table.CreatedAt.IsZero then "- Created: " ++ fmtTime table.CreatedAt ++ "\n" else "") ++
  (if !table.UpdatedAt.IsZero then "- Updated: " ++ fmtTime table.UpdatedAt ++ "\n" else "") ++
  (if table.Collation ≠ "" then "- Collation: " ++ table.Collation ++ "\n" else "") ++
  (if table.Charset ≠ "" then "- Charset: " ++ table.Charset ++ "\n" else "") ++
  (if table.RowFormat ≠ "" then "- Row Format: " ++ table.RowFormat ++ "\n" else "") ++
  (if table.Comment ≠ "" then "- Comment: " ++ table.Comment ++ "\n" else "") ++
  (if table.CreateOptions ≠ "" then "- Create Options: " ++ table.CreateOptions ++ "\n" else "") ++
  (if table.DDL ≠ "" then "\n```sql\n" ++ table.DDL ++ "\n```\n\n" else "")

/-- The method formatTables of `MarkdownFormatter`: the base tables grouped by database and
schema, the databases, the schemas of a database and the tables of a schema in ascending order. -/
def MarkdownFormatter.formatTables (fmtTime : Time → String) (tables : List TableInfo) : String :=
  if tables.length = 0 then ""
  else
    let base := tables.filter (fun table => table.Type_ == "BASE TABLE")
    let databases := sortStrings (base.map (fun table => table.Database)).eraseDups
    "# Tables\n\n" ++
      String.join (databases.map (fun db =>
        let schemas :=
          sortStrings
            ((base.filter (fun table => table.Database == db)).map (fun table => table.Schema)).eraseDups
        String.join (schemas.map (fun schema =>
          let schemaTables :=
            sortTablesByName
              (base.filter (fun table => table.Database == db && table.Schema == schema))
          String.join
            (schemaTables.map (MarkdownFormatter.formatTable fmtTime (decide (databases.length > 1))))))))

/-- The method formatViewDetails of `MarkdownFormatter`. -/
def MarkdownFormatter.formatViewDetails (tables : List TableInfo) : String :=
  String.join (tables.map (fun table =>
    if table.Type_ = "VIEW" ∧ table.DDL ≠ "" then
      "## " ++ table.Schema ++ "." ++ table.Name ++ "\n\n" ++ "```sql\n" ++ table.DDL ++ "\n```\n\n"
    else ""))

/-- The method formatVariables of `MarkdownFormatter`. -/
def MarkdownFormatter.formatVariables (vars : List Variable) : String :=
  let first :=
    match vars with
    | v :: _ => v.IsModified
    | [] => false
  let hasExtendedInfo := if first then vars.all (fun v => v.IsModified) else false
  (if hasExtendedInfo then
      "| Variable Name | Current Value | Default Value | Source |\n" ++
      "|---------------|---------------|---------------|--------|\n" ++
      String.join (vars.map (fun entry =>
        "| " ++ entry.Name ++ " | " ++ entry.CurrentValue ++ " | " ++ entry.DefaultValue ++
          " | " ++ entry.Source ++ " |\n"))
    else
      "| Variable Name | Current Value |\n" ++
      "|---------------|---------------|\n" ++
      String.join (vars.map (fun entry =>
        "| " ++ entry.Name ++ " | " ++ entry.CurrentValue ++ " |\n"))) ++
  "\n"

/-- The method generateSectionsList of `MarkdownFormatter`: the sections that will be in the
output. -/
def MarkdownFormatter.generateSectionsList (info : DatabaseInfo) : List String :=
  (if info.Variables.length > 0 then
      ["Variables - MySQL system variables and their current values"] else []) ++
  (if info.Tables.length > 0 then
      ["Tables - Database tables with metadata and DDL definitions"] else []) ++
  (if MarkdownFormatter.hasViews info.Tables then
      ["View Details - Database views with their definitions"] else []) ++
  (if (MarkdownFormatter.filterRoutines info.Routines "FUNCTION").length > 0 then
      ["Stored Functions - User-defined functions with their definitions"] else []) ++
  (if (MarkdownFormatter.filterRoutines info.Routines "PROCEDURE").length > 0 then
      ["Stored Procedures - User-defined procedures with their definitions"] else []) ++
  (if info.Roles.length > 0 then
      ["User Roles - MySQL 8.0+ role definitions and assignments"] else []) ++
  (if info.Users.length > 0 then
      ["User Accounts - Database user accounts with privileges"] else []) ++
  (if info.Plugins.length > 0 then
      ["Plugins - Installed MySQL plugins and extensions"] else []) ++
  (if info.Components.length > 0 then ["Components - MySQL 8.0+ components"] else []) ++
  (if info.ReplicationInfo.isSome then
      ["Replication Info - MySQL replication configuration and status"] else [])

/-- The method formatUsers of `MarkdownFormatter`. -/
def MarkdownFormatter.formatUsers (users : List UserAccount) : String :=
  String.join (users.map (fun user =>
    "## " ++ user.User ++ "@" ++ user.Host ++ "\n\n" ++
    "- Plugin: " ++ user.Plugin ++ "\n" ++
    "- Account Locked: " ++ user.AccountLocked ++ "\n" ++
    (if user.Grants.length > 0 then
        "- Grants:\n" ++ String.join (user.Grants.map (fun grant => "  - " ++ grant ++ "\n"))
      else "") ++
    "\n"))

/-- The method formatRoutines of `MarkdownFormatter`. -/
def MarkdownFormatter.formatRoutines (fmtTime : Time → String) (routines : List RoutineInfo) :
    String :=
  String.join (routines.map (fun routine =>
    "## " ++ routine.Schema ++ "." ++ routine.Name ++ "\n\n" ++
    "- Specific Name: " ++ routine.Name ++ "\n" ++
    "- Routine Catalog: def\n" ++
    (if routine.Type_ = "FUNCTION" ∧ routine.Returns ≠ "" then
        "- Character Set: utf8mb4\n" ++ "- Collation: utf8mb4_unicode_ci\n"
      else "") ++
    "- Routine Body: SQL\n" ++
    "- External Language: SQL\n" ++
    "- Parameter Style: SQL\n" ++
    "- Is Deterministic: YES\n" ++
    (if routine.DataAccess ≠ "" then "- SQL Data Access: " ++ routine.DataAccess ++ "\n" else "") ++
    (if routine.SecurityType ≠ "" then "- Security Type: " ++ routine.SecurityType ++ "\n"
      else "") ++
    (if !routine.Created.IsZero then "- Created: " ++ fmtTime routine.Created ++ "\n" else "") ++
    (if !routine.LastAltered.IsZero then "- Last Altered: " ++ fmtTime routine.LastAltered ++ "\n"
      else "") ++
    "- SQL Mode: ONLY_FULL_GROUP_BY,STRICT_TRANS_TABLES,NO_ZERO_IN_DATE,NO_ZERO_DATE,ERROR_FOR_DIVISION_BY_ZERO,NO_ENGINE_SUBSTITUTION\n" ++
    (if routine.Definition ≠ "" then "\n```sql\n" ++ routine.Definition ++ "\n```\n\n" else "")))

/-- The method formatRoles of `MarkdownFormatter`. -/
def MarkdownFormatter.formatRoles (roles : List UserRole) : String :=
  String.join (roles.map (fun role =>
    "## " ++ role.RoleName ++ "@" ++ role.RoleHost ++ "\n\n" ++
    (if role.Members.length > 0 then "- **Default Role for some users**\n\n" else "") ++
    (if role.Grants.length > 0 then
        String.join (role.Grants.map (fun grant => "- " ++ grant ++ "\n")) ++ "\n"
      else "")))

/-- The method formatPlugins of `MarkdownFormatter`. -/
def MarkdownFormatter.formatPlugins (plugins : List Plugin) : String :=
  "| Name | Status | Type | Library | Version | Description |\n" ++
  "|------|--------|------|---------|---------|-------------|\n" ++
  String.join (plugins.map (fun plugin =>
    let library := if plugin.Library = "" then "-" else plugin.Library
    "| " ++ plugin.Name ++ " | " ++ plugin.Status ++ " | " ++ plugin.Type_ ++ " | " ++ library ++
      " | " ++ plugin.Version ++ " | " ++ plugin.Description ++ " |\n")) ++
  "\n"

/-- The method formatComponents of `MarkdownFormatter`. -/
def MarkdownFormatter.formatComponents (components : List Component) : String :=
  if components.length = 0 then "- No components found (MySQL 8.0+ feature)\n\n"
  else
    String.join (components.map (fun component =>
      "- Component ID: " ++ formatInt component.ComponentID ++ "\n" ++
      "  - Group ID: " ++ formatInt component.ComponentGroupID ++ "\n" ++
      "  - URN: " ++ component.ComponentURN ++ "\n")) ++
    "\n"

/-- The method formatReplicationInfo of `MarkdownFormatter`. -/
def MarkdownFormatter.formatReplicationInfo (replication : ReplicationInfo) : String :=
  match replication.ReplicationStatus with
  | none => ""
  | some status =>
    "## Basic Replication Status\n\n" ++
    "- **Server ID**: " ++ formatInt status.ServerID ++ "\n" ++
    "- **Server UUID**: " ++ status.ServerUUID ++ "\n" ++
    "- **Role**: Master\n" ++
    "- **Binary Log Enabled**: " ++ formatBool status.LogBinEnabled ++ "\n" ++
    "- **Binary Log Format**: " ++ status.BinlogFormat ++ "\n" ++
    (if status.CurrentLogFile ≠ "" then
        "- **Current Binary Log File**: " ++ status.CurrentLogFile ++ "\n" ++
        "- **Current Binary Log Position**: " ++ formatInt status.CurrentLogPos ++ "\n"
      else "") ++
    "- **GTID Mode**: " ++ status.GTIDMode ++ "\n" ++
    "\n"

/-- The method Format of `MarkdownFormatter`: the document for a snapshot. Its error is always
`nil`, so the model returns the string; `fmtTime` is `t.Format("2006-01-02 15:04:05")`. -/
def MarkdownFormatter.Format (fmtTime : Time → String) (info : DatabaseInfo) : String :=
  "# File Summary\n\n" ++
  "This file contains comprehensive MySQL database information compiled for AI context analysis. " ++
  "It includes schema definitions, account configurations, system variables, and other database metadata " ++
  "consolidated into a single file for efficient processing.\n\n" ++
  (match info.ConnectionInfo with
    | some conn =>
      "**Database Type**: MySQL  \n" ++ "**Database Version**: " ++ conn.Version ++ "\n\n"
    | none => "") ++
  (if (MarkdownFormatter.generateSectionsList info).length > 0 then
      "## File Structure\n\n" ++
      String.join ((MarkdownFormatter.generateSectionsList info).map
        (fun sectionName => "- " ++ sectionName ++ "\n")) ++
      "\n"
    else "") ++
  (if info.Variables.length > 0 then
      "# Variables\n\n" ++ MarkdownFormatter.formatVariables info.Variables else "") ++
  (if info.Tables.length > 0 then
      "# Tables\n\n" ++ MarkdownFormatter.formatTables fmtTime info.Tables else "") ++
  (if MarkdownFormatter.hasViews info.Tables then
      "# View info details\n\n" ++ MarkdownFormatter.formatViewDetails info.Tables else "") ++
  (if (MarkdownFormatter.filterRoutines info.Routines "FUNCTION").length > 0 then
      "# Stored Functions\n\n" ++
        MarkdownFormatter.formatRoutines fmtTime
          (MarkdownFormatter.filterRoutines info.Routines "FUNCTION")
    else "") ++
  (if (MarkdownFormatter.filterRoutines info.Routines "PROCEDURE").length > 0 then
      "# Stored Procedures\n\n" ++
        MarkdownFormatter.formatRoutines fmtTime
          (MarkdownFormatter.filterRoutines info.Routines "PROCEDURE")
    else "") ++
  (if info.Roles.length > 0 then
      "# User Roles (MySQL 8.0+)\n\n" ++ MarkdownFormatter.formatRoles info.Roles else "") ++
  (if info.Users.length > 0 then
      "# User List\n\n" ++ MarkdownFormatter.formatUsers info.Users else "") ++
  (if info.Plugins.length > 0 then
      "# Plugins\n\n" ++ MarkdownFormatter.formatPlugins info.Plugins else "") ++
  (if info.Components.length > 0 then
      "# Components (MySQL 8.0+)\n\n" ++ MarkdownFormatter.formatComponents info.Components
    else "") ++
  (match info.ReplicationInfo with
    | some replication =>
      "# Replication Information\n\n" ++ MarkdownFormatter.formatReplicationInfo replication
    | none => "")
/-! ## Predicates of the specification: the formatter -/

/-- The five runes that have an entity. -/
def xmlSpecials : List Char := ['&', '<', '>', Char.ofNat 34, Char.ofNat 39]

/-- What follows the ampersand in the five entities. -/
def xmlEntityTails : List (List Char) :=
  ["amp;".data, "lt;".data, "gt;".data, "quot;".data, "apos;".data]

/-- What one rune becomes under the escaping: its entity, or itself. -/
def escapeRune (c : Char) : List Char :=
  if c = '&' then "&amp;".data
  else if c = '<' then "&lt;".data
  else if c = '>' then "&gt;".data
  else if c = Char.ofNat 34 then "&quot;".data
  else if c = Char.ofNat 39 then "&apos;".data
  else [c]

/-- The inverse reading, with a bound on the number of steps: from left to right, each of the
five entities is replaced by the rune it denotes and every other rune is kept. -/
def unescapeSteps : Nat → List Char → List Char
  | 0, l => l
  | _ + 1, [] => []
  | n + 1, c :: rest =>
    if c = '&' then
      if "amp;".data <+: rest then '&' :: unescapeSteps n (rest.drop 4)
      else if "lt;".data <+: rest then '<' :: unescapeSteps n (rest.drop 3)
      else if "gt;".data <+: rest then '>' :: unescapeSteps n (rest.drop 3)
      else if "quot;".data <+: rest then Char.ofNat 34 :: unescapeSteps n (rest.drop 5)
      else if "apos;".data <+: rest then Char.ofNat 39 :: unescapeSteps n (rest.drop 5)
      else c :: unescapeSteps n rest
    else c :: unescapeSteps n rest

/-- The inverse reading of a string: one step per rune is enough. -/
def unescapeXML (s : String) : String := String.mk (unescapeSteps s.length s.data)

/-- A MySQL 8 server without any object: it answers the version query with "8.0.42" and every
other statement with no rows. -/
def emptyMySQL8Server : DB Unit where
  exec := fun call st =>
    if call.sql = "SELECT VERSION()" then (.ok [[Value.text "8.0.42"]], st) else (.ok [], st)

/-! ## Predicates of the specification: the categories entered -/

/-- The statement a category starts with when it is enabled: the version query; the database
listing, or the table listing of the configured database when one is configured; the account list
of the server's version; the role list; the routine list; for the variables the provenance query
where the version has one, otherwise the first by-name probe in the modified-only mode and the
`information_schema` listing in the other; the plugin list; the component list; the server id. -/
def Stage.opens {σ : Type} (c : MySQLCollector σ) : Stage → Call → Prop
  | .connection, call => call = ⟨"SELECT VERSION()", []⟩
  | .tables, call =>
    call = if c.config.Database ≠ "" then ⟨sqlTables, [c.config.Database]⟩ else ⟨"SHOW DATABASES", []⟩
  | .users, call => call = ⟨if c.version.IsMySQL8OrLater then sqlUsersMySQL8 else sqlUsersLegacy, []⟩
  | .roles, call => call = ⟨sqlRoles, []⟩
  | .routines, call => call = ⟨sqlRoutines, []⟩
  | .variables, call =>
    if c.version.SupportsPerformanceSchemaVariablesInfo then call = ⟨provenanceQuery c, []⟩
    else if c.config.OnlyModifiedVariables then
      call.sql = sqlVariableProbe ∧ ∃ entry ∈ commonVars, call.args = [entry.1]
    else call = ⟨sqlGlobalVariables, []⟩
  | .plugins, call => call = ⟨sqlPlugins, []⟩
  | .components, call => call = ⟨"SELECT * FROM mysql.component", []⟩
  | .replication, call => call = ⟨"SELECT @@server_id", []⟩

/-- The exchanges `seg` are those of one category `st`: each of them is a statement of that
category, there is none when the category is disabled, and when it is enabled the first one
is the statement the category starts with. -/
def StageSegment {σ : Type} (c : MySQLCollector σ) (st : Stage) (seg : List Event) : Prop :=
  (∀ ev ∈ seg, Quiet st ev ∨ Stage.primary c.version st = some ev.call.sql) ∧
  (Stage.enabled c st = false → seg = []) ∧
  (Stage.enabled c st = true → ∃ first rest, seg = first :: rest ∧ Stage.opens c st first.call)

/-- The categories `ran` that were entered, with the exchanges `segs` of each, behind a result `r`
of a run through `stages`: the categories entered are the first ones of `stages`, in that order;
all of them when the run returned no error, and otherwise they end with the category that was
enabled and whose error, behind the text of the category, is the error of the run. -/
def RunOf {σ : Type} (c : MySQLCollector σ) (stages : List Stage) (r : Except String DatabaseInfo)
    (ran : List Stage) (segs : List (List Event)) : Prop :=
  ran <+: stages ∧ List.Forall₂ (StageSegment c) ran segs ∧
    ((succeeded r = true ∧ ran = stages) ∨
      ∃ pre st e, ran = pre ++ [st] ∧ Stage.enabled c st = true ∧ r = .error (stageMessage st ++ e))

/-- A collector on `denyingServer`, which refuses the account list, of version 8.0.42, with tables
excluded and replication requested. -/
def refusedAccounts : MySQLCollector Unit :=
  { db := denyingServer, version := mysql8042,
    config := { ExceptTables := true, Replication := true } }

/-! ## Lemmas on the library model -/

theorem isDigit_iff (c : Char) : isDigit c = true ↔ 48 ≤ c.toNat ∧ c.toNat ≤ 57 := by
  simp [isDigit]

theorem takeWhile_digits_append (a rest : List Char) (ha : ∀ c ∈ a, isDigit c = true) :
    (a ++ rest).takeWhile isDigit = a ++ rest.takeWhile isDigit ∧
    (a ++ rest).dropWhile isDigit = rest.dropWhile isDigit := by
  induction a with
  | nil => simp
  | cons x xs ih =>
    have hx : isDigit x = true := ha x (List.mem_cons_self _ _)
    have := ih (fun c hc => ha c (List.mem_cons_of_mem _ hc))
    simp [List.takeWhile, List.dropWhile, hx, this]

theorem digitsThenDot_append (a rest : List Char) (ha : IsDigitRun a) :
    digitsThenDot (a ++ '.' :: rest) = some (a, rest) := by
  obtain ⟨hne, hd⟩ := ha
  have h := takeWhile_digits_append a ('.' :: rest) hd
  have h1 : (a ++ '.' :: rest).takeWhile isDigit = a := by
    rw [h.1]; simp [List.takeWhile, isDigit]
  have h2 : (a ++ '.' :: rest).dropWhile isDigit = '.' :: rest := by
    rw [h.2]; simp [List.dropWhile, isDigit]
  unfold digitsThenDot
  rw [h1, h2]
  cases a with
  | nil => exact absurd rfl hne
  | cons x xs => rfl

theorem digitsThenDot_some {cs a rest : List Char} (h : digitsThenDot cs = some (a, rest)) :
    cs = a ++ '.' :: rest ∧ IsDigitRun a := by
  unfold digitsThenDot at h
  split at h
  · rename_i x xs r htw hdw
    simp only [Option.some.injEq, Prod.mk.injEq] at h
    obtain ⟨h1, h2⟩ := h
    subst h2
    refine ⟨?_, ?_, ?_⟩
    · have := List.takeWhile_append_dropWhile isDigit cs
      rw [hdw, h1] at this
      exact this.symm
    · rw [← h1, htw]; simp
    · intro c hc
      rw [← h1] at hc
      exact List.mem_takeWhile_imp hc
  · simp at h

theorem matchTripleAt_append (a b c post : List Char) (ha : IsDigitRun a) (hb : IsDigitRun b)
    (hc : IsDigitRun c) :
    matchTripleAt (a ++ '.' :: b ++ '.' :: c ++ post) = some (a, b, c ++ post.takeWhile isDigit) := by
  have e1 : a ++ '.' :: b ++ '.' :: c ++ post = a ++ '.' :: (b ++ '.' :: (c ++ post)) := by simp
  unfold matchTripleAt
  rw [e1, digitsThenDot_append a _ ha]
  simp only
  rw [digitsThenDot_append b _ hb]
  simp only
  rw [(takeWhile_digits_append c post hc.2).1]
  obtain ⟨hne, -⟩ := hc
  cases c with
  | nil => exact absurd rfl hne
  | cons x xs => rfl

theorem matchTripleAt_some {cs a b c : List Char} (h : matchTripleAt cs = some (a, b, c)) :
    ∃ post, cs = a ++ '.' :: b ++ '.' :: c ++ post ∧ IsDigitRun a ∧ IsDigitRun b ∧ IsDigitRun c ∧
      c ++ post.takeWhile isDigit = c := by
  unfold matchTripleAt at h
  split at h
  · simp at h
  · rename_i a' r1 h1
    split at h
    · simp at h
    · rename_i b' r2 h2
      split at h
      · simp at h
      · rename_i x xs h3
        simp only [Option.some.injEq, Prod.mk.injEq] at h
        obtain ⟨rfl, rfl, rfl⟩ := h
        obtain ⟨e1, ha⟩ := digitsThenDot_some h1
        obtain ⟨e2, hb⟩ := digitsThenDot_some h2
        refine ⟨r2.dropWhile isDigit, ?_, ha, hb, ⟨by simp, ?_⟩, ?_⟩
        · rw [e1, e2, ← h3]
          simp [List.takeWhile_append_dropWhile]
        · intro ch hch
          rw [← h3] at hch
          exact List.mem_takeWhile_imp hch
        · rw [← h3]
          have : (List.dropWhile isDigit r2).takeWhile isDigit = [] := by
            cases hd : List.dropWhile isDigit r2 with
            | nil => rfl
            | cons y ys =>
              have := List.head_dropWhile_not isDigit r2 (by rw [hd]; simp)
              simp only [hd, List.head_cons] at this
              simp [List.takeWhile, this]
          rw [this]; simp

theorem occursAt_zero_of_match {cs a b c : List Char} (h : matchTripleAt cs = some (a, b, c)) :
    OccursAt cs 0 := by
  obtain ⟨post, e, ha, hb, hc, -⟩ := matchTripleAt_some h
  exact ⟨[], a, b, c, post, by simpa using e, rfl, ha, hb, hc⟩

theorem match_of_occursAt_zero {cs : List Char} (h : OccursAt cs 0) :
    ∃ m, matchTripleAt cs = some m := by
  obtain ⟨pre, a, b, c, post, e, hn, ha, hb, hc⟩ := h
  have : pre = [] := List.length_eq_zero.mp hn
  subst this
  rw [e]
  exact ⟨_, by simpa using matchTripleAt_append a b c post ha hb hc⟩

theorem occursAt_cons {x : Char} {cs : List Char} {n : Nat} (h : OccursAt cs n) :
    OccursAt (x :: cs) (n + 1) := by
  obtain ⟨pre, a, b, c, post, e, hn, ha, hb, hc⟩ := h
  exact ⟨x :: pre, a, b, c, post, by simp [e], by simp [hn], ha, hb, hc⟩

theorem occursAt_of_cons_succ {x : Char} {cs : List Char} {n : Nat}
    (h : OccursAt (x :: cs) (n + 1)) : OccursAt cs n := by
  obtain ⟨pre, a, b, c, post, e, hn, ha, hb, hc⟩ := h
  cases pre with
  | nil => simp at hn
  | cons y ys =>
    simp only [List.cons_append, List.cons.injEq] at e
    exact ⟨ys, a, b, c, post, e.2, by simpa using hn, ha, hb, hc⟩

theorem findTriple_none_iff (l : List Char) : findTriple l = none ↔ ¬ HasTriple l := by
  induction l with
  | nil =>
    simp only [findTriple, true_iff]
    rintro ⟨n, pre, a, b, c, post, e, -, ha, -⟩
    have : a = [] := by
      have := congrArg List.length e
      simp at this
      exact List.length_eq_zero.mp (by omega)
    exact ha.1 this
  | cons x xs ih =>
    unfold findTriple
    cases hm : matchTripleAt (x :: xs) with
    | some m =>
      obtain ⟨a, b, c⟩ := m
      constructor
      · intro h; simp at h
      · intro h; exact absurd ⟨0, occursAt_zero_of_match hm⟩ h
    | none =>
      simp only
      rw [ih]
      constructor
      · rintro h ⟨n, hn⟩
        cases n with
        | zero =>
          obtain ⟨m, hm'⟩ := match_of_occursAt_zero hn
          rw [hm] at hm'; exact absurd hm' (by simp)
        | succ k => exact h ⟨k, occursAt_of_cons_succ hn⟩
      · rintro h ⟨n, hn⟩
        exact h ⟨n + 1, occursAt_cons hn⟩

theorem findTriple_leftmost (pre a b c post : List Char) (ha : IsDigitRun a) (hb : IsDigitRun b)
    (hc : IsDigitRun c)
    (hleft : ∀ n, OccursAt (pre ++ a ++ '.' :: b ++ '.' :: c ++ post) n → pre.length ≤ n) :
    findTriple (pre ++ a ++ '.' :: b ++ '.' :: c ++ post)
      = some (a, b, c ++ post.takeWhile isDigit) := by
  induction pre with
  | nil =>
    have hm := matchTripleAt_append a b c post ha hb hc
    have hne : a ++ '.' :: b ++ '.' :: c ++ post ≠ [] := by
      obtain ⟨hne, -⟩ := ha
      cases a with
      | nil => exact absurd rfl hne
      | cons y ys => simp
    simp only [List.nil_append]
    cases hl : a ++ '.' :: b ++ '.' :: c ++ post with
    | nil => exact absurd hl hne
    | cons y ys =>
      rw [hl] at hm
      simp [findTriple, hm]
  | cons x xs ih =>
    have hnone : matchTripleAt (x :: xs ++ a ++ '.' :: b ++ '.' :: c ++ post) = none := by
      cases hm : matchTripleAt (x :: xs ++ a ++ '.' :: b ++ '.' :: c ++ post) with
      | none => rfl
      | some m =>
        obtain ⟨a', b', c'⟩ := m
        have := hleft 0 (occursAt_zero_of_match hm)
        simp at this
    have ih' := ih (fun n hn => by
      have := hleft (n + 1) (by simpa using occursAt_cons (x := x) hn)
      simpa using this)
    simp only [List.cons_append] at hnone ⊢
    simp only [findTriple, hnone]
    simpa using ih'

theorem Atoi_digitRun (a : List Char) (ha : IsDigitRun a) :
    Atoi (String.mk a) =
      if digitsValue a ≤ maxInt then .ok (digitsValue a : Int)
      else .error ("strconv.Atoi: parsing " ++ (String.mk a).quote ++ ": value out of range") := by
  obtain ⟨hne, hd⟩ := ha
  have hp : parseUnsigned a = some (digitsValue a) := by
    unfold parseUnsigned
    rw [if_pos]
    exact ⟨hne, by simpa [List.all_eq_true] using hd⟩
  cases a with
  | nil => exact absurd rfl hne
  | cons x xs =>
    have hx : isDigit x = true := hd x (List.mem_cons_self _ _)
    have h1 : x ≠ '-' := by rintro rfl; simp [isDigit] at hx
    have h2 : x ≠ '+' := by rintro rfl; simp [isDigit] at hx
    unfold Atoi
    split
    · rename_i ds heq
      simp only [List.cons.injEq] at heq
      exact absurd heq.1 h1
    · rename_i ds heq
      simp only [List.cons.injEq] at heq
      exact absurd heq.1 h2
    · simp only [hp]

theorem findTriple_some {l a b c : List Char} (h : findTriple l = some (a, b, c)) :
    ∃ pre post, l = pre ++ a ++ '.' :: b ++ '.' :: c ++ post ∧ IsDigitRun a ∧ IsDigitRun b ∧
      IsDigitRun c ∧ c ++ post.takeWhile isDigit = c ∧ ∀ n, OccursAt l n → pre.length ≤ n := by
  induction l with
  | nil => simp [findTriple] at h
  | cons x xs ih =>
    unfold findTriple at h
    cases hm : matchTripleAt (x :: xs) with
    | some m =>
      rw [hm] at h
      simp only [Option.some.injEq] at h
      subst h
      obtain ⟨post, e, ha, hb, hc, hmax⟩ := matchTripleAt_some hm
      exact ⟨[], post, by simpa using e, ha, hb, hc, hmax, fun n _ => by simp⟩
    | none =>
      rw [hm] at h
      simp only at h
      obtain ⟨pre, post, e, ha, hb, hc, hmax, hleft⟩ := ih h
      refine ⟨x :: pre, post, by simp [e], ha, hb, hc, hmax, ?_⟩
      intro n hn
      cases n with
      | zero =>
        obtain ⟨m, hm'⟩ := match_of_occursAt_zero hn
        rw [hm] at hm'; exact absurd hm' (by simp)
      | succ k =>
        have := hleft k (occursAt_of_cons_succ hn)
        simpa using this

theorem ParseMySQLVersion_of_find {s : String} {a b c : List Char}
    (h : findTriple s.data = some (a, b, c)) :
    ParseMySQLVersion s =
      if digitsValue a ≤ maxInt then
        if digitsValue b ≤ maxInt then
          if digitsValue c ≤ maxInt then
            .ok { FullVersion := s, Major := digitsValue a, Minor := digitsValue b,
                  Patch := digitsValue c,
                  Variant := if Contains (ToLower s) "mariadb" then "mariadb"
                    else if Contains (ToLower s) "percona" then "percona" else "mysql" }
          else .error ("invalid patch version: " ++ String.mk c)
        else .error ("invalid minor version: " ++ String.mk b)
      else .error ("invalid major version: " ++ String.mk a) := by
  obtain ⟨pre, post, -, ha, hb, hc, -, -⟩ := findTriple_some h
  unfold ParseMySQLVersion FindStringSubmatch
  simp only [h, List.length_cons, List.length_nil, List.getD_cons_succ, List.getD_cons_zero]
  simp only [Atoi_digitRun a ha, Atoi_digitRun b hb, Atoi_digitRun c hc]
  by_cases hA : digitsValue a ≤ maxInt
  · by_cases hB : digitsValue b ≤ maxInt
    · by_cases hC : digitsValue c ≤ maxInt
      · simp [hA, hB, hC]
      · simp [hA, hB, hC]
    · simp [hA, hB]
  · simp [hA]

theorem ParseMySQLVersion_of_find_none {s : String} (h : findTriple s.data = none) :
    ParseMySQLVersion s = .error ("unable to parse version string: " ++ s) := by
  unfold ParseMySQLVersion FindStringSubmatch
  simp [h]

theorem ParseMySQLVersion_ok_inv {s : String} {v : MySQLVersion} (h : ParseMySQLVersion s = .ok v) :
    ∃ a b c, findTriple s.data = some (a, b, c) ∧ digitsValue a ≤ maxInt ∧ digitsValue b ≤ maxInt ∧
      digitsValue c ≤ maxInt ∧
      v = { FullVersion := s, Major := digitsValue a, Minor := digitsValue b,
            Patch := digitsValue c,
            Variant := if Contains (ToLower s) "mariadb" then "mariadb"
              else if Contains (ToLower s) "percona" then "percona" else "mysql" } := by
  cases hf : findTriple s.data with
  | none => rw [ParseMySQLVersion_of_find_none hf] at h; simp at h
  | some m =>
    obtain ⟨a, b, c⟩ := m
    rw [ParseMySQLVersion_of_find hf] at h
    refine ⟨a, b, c, rfl, ?_⟩
    by_cases hA : digitsValue a ≤ maxInt
    · by_cases hB : digitsValue b ≤ maxInt
      · by_cases hC : digitsValue c ≤ maxInt
        · simp only [hA, hB, hC, if_true, Except.ok.injEq] at h
          exact ⟨hA, hB, hC, h.symm⟩
        · simp [hA, hB, hC] at h
      · simp [hA, hB] at h
    · simp [hA] at h

theorem occursAt_drop {l : List Char} {n : Nat} (h : OccursAt l n) :
    ∃ m, matchTripleAt (l.drop n) = some m := by
  obtain ⟨pre, a, b, c, post, e, hn, ha, hb, hc⟩ := h
  have : l.drop n = a ++ '.' :: b ++ '.' :: c ++ post := by
    rw [e, ← hn]; simp [List.append_assoc]
  rw [this]
  exact ⟨_, matchTripleAt_append a b c post ha hb hc⟩

theorem containsChars_iff (sub hay : List Char) : containsChars sub hay = true ↔ sub <:+: hay := by
  induction hay with
  | nil => simp [containsChars, List.isEmpty_iff]
  | cons x xs ih =>
    simp only [containsChars, Bool.or_eq_true, ih, List.infix_cons_iff, List.isPrefixOf_iff_prefix]

theorem Contains_iff (s sub : String) : Contains s sub = true ↔ sub.data <:+: s.data :=
  containsChars_iff _ _

theorem scanFirst_ok_of_QueryRowScan {σ α : Type} (db : DB σ) (sql : String) (args : List String)
    (scan : Row → Option α) (w : World σ) :
    (db.QueryRowScan sql args scan w).1
      = scanFirst scan (db.exec { sql := sql, args := args } w.server).1 := rfl

theorem digitChar_digit (k : Nat) (hk : k < 10) :
    isDigit (Nat.digitChar k) = true ∧ (Nat.digitChar k).toNat - '0'.toNat = k := by
  interval_cases k <;> exact ⟨by decide, by decide⟩

theorem digitsValue_append_singleton (l : List Char) (d : Char) :
    digitsValue (l ++ [d]) = 10 * digitsValue l + (d.toNat - '0'.toNat) := by
  simp [digitsValue, List.foldl_append]

theorem toDigitsCore_spec (fuel : Nat) : ∀ (n : Nat) (ds : List Char), n < fuel →
    ∃ l, Nat.toDigitsCore 10 fuel n ds = l ++ ds ∧ IsDigitRun l ∧ digitsValue l = n := by
  induction fuel with
  | zero => intro n ds h; exact absurd h (Nat.not_lt_zero _)
  | succ f ih =>
    intro n ds hn
    obtain ⟨hd1, hd2⟩ := digitChar_digit (n % 10) (Nat.mod_lt _ (by decide))
    unfold Nat.toDigitsCore
    by_cases h0 : n / 10 = 0
    · simp only [h0, if_true]
      refine ⟨[Nat.digitChar (n % 10)], rfl, ⟨by simp, ?_⟩, ?_⟩
      · intro c hc
        simp only [List.mem_singleton] at hc
        rw [hc]; exact hd1
      · have : digitsValue [Nat.digitChar (n % 10)] = (Nat.digitChar (n % 10)).toNat - '0'.toNat := by
          simp [digitsValue]
        rw [this, hd2]
        omega
    · simp only [h0, if_false]
      have hlt : n / 10 < f := by omega
      obtain ⟨l, hl, ⟨hne, hdig⟩, hval⟩ := ih (n / 10) (Nat.digitChar (n % 10) :: ds) hlt
      refine ⟨l ++ [Nat.digitChar (n % 10)], by rw [hl]; simp, ⟨by simp, ?_⟩, ?_⟩
      · intro c hc
        rcases List.mem_append.mp hc with hc | hc
        · exact hdig c hc
        · simp only [List.mem_singleton] at hc
          rw [hc]; exact hd1
      · rw [digitsValue_append_singleton, hval, hd2]
        omega

theorem toDigits_spec (n : Nat) :
    IsDigitRun (Nat.toDigits 10 n) ∧ digitsValue (Nat.toDigits 10 n) = n := by
  obtain ⟨l, hl, hrun, hval⟩ := toDigitsCore_spec (n + 1) n [] (Nat.lt_succ_self n)
  have : Nat.toDigits 10 n = l := by
    unfold Nat.toDigits
    rw [hl]; simp
  rw [this]
  exact ⟨hrun, hval⟩

theorem formatInt_natCast (n : Nat) : (formatInt (n : Int)).data = Nat.toDigits 10 n := rfl

theorem matchTripleAt_nondigit (x : Char) (xs : List Char) (hx : isDigit x = false) :
    matchTripleAt (x :: xs) = none := by
  simp [matchTripleAt, digitsThenDot, List.takeWhile, hx]

theorem findTriple_skip (pre rest : List Char) (hpre : ∀ c ∈ pre, isDigit c = false) :
    findTriple (pre ++ rest) = findTriple rest := by
  induction pre with
  | nil => rfl
  | cons x xs ih =>
    have hx := hpre x (List.mem_cons_self _ _)
    simp only [List.cons_append, findTriple, matchTripleAt_nondigit x _ hx]
    exact ih (fun c hc => hpre c (List.mem_cons_of_mem _ hc))

theorem infix_append_sep (N A B : List Char) (x : Char) (hx : x ∉ N) :
    N <:+: A ++ x :: B ↔ N <:+: A ∨ N <:+: B := by
  constructor
  · rintro ⟨s, t, h⟩
    rcases List.append_eq_append_iff.mp h with ⟨a', hA, -⟩ | ⟨c', h1, h2⟩
    · exact Or.inl ⟨s, a', hA.symm⟩
    · cases c' with
      | nil =>
        simp only [List.append_nil] at h1
        exact Or.inl ⟨s, [], by simp [h1]⟩
      | cons y c'' =>
        simp only [List.cons_append, List.cons.injEq] at h2
        obtain ⟨rfl, hB⟩ := h2
        rcases List.append_eq_append_iff.mp h1 with ⟨a', -, hN⟩ | ⟨c3, -, h3⟩
        · exact absurd (by rw [hN]; simp) hx
        · cases c3 with
          | nil =>
            simp only [List.nil_append] at h3
            exact absurd (by rw [← h3]; simp) hx
          | cons z c4 =>
            simp only [List.cons_append, List.cons.injEq] at h3
            refine Or.inr ⟨c4, t, ?_⟩
            rw [hB, h3.2]
  · rintro (h | h)
    · exact h.trans (List.prefix_append A (x :: B)).isInfix
    · exact h.trans ((List.suffix_cons x B).isInfix.trans (List.suffix_append A (x :: B)).isInfix)

theorem toLowerRune_digit_or_dot (c : Char) (hc : isDigit c = true ∨ c = '.') :
    toLowerRune c = c := by
  rcases hc with hc | rfl
  · rw [isDigit_iff] at hc
    unfold toLowerRune
    have h1 : ¬ c.toNat = 0x130 := by omega
    have h2 : ¬ c.toNat = 0x212A := by omega
    have h3 : ¬ ('A'.toNat ≤ c.toNat ∧ c.toNat ≤ 'Z'.toNat) := by
      simp only [show 'A'.toNat = 65 from rfl]
      omega
    simp only [h1, h2, h3, if_false]
  · decide

theorem String_data (v : MySQLVersion) :
    v.String.data = (Title v.Variant).data ++ ' ' :: ((formatInt v.Major).data ++ '.' ::
      (formatInt v.Minor).data ++ '.' :: (formatInt v.Patch).data ++
        ' ' :: ([] ++ '(' :: (v.FullVersion.data ++ ')' :: []))) := by
  simp [MySQLVersion.String, String.data_append]

theorem infix_rendering_iff (N T dA dB dC S : List Char) (hsp : ' ' ∉ N) (hlp : '(' ∉ N)
    (hrp : ')' ∉ N) (ha : 'a' ∈ N) (hA : IsDigitRun dA) (hB : IsDigitRun dB) (hC : IsDigitRun dC) :
    N <:+: (T ++ ' ' :: (dA ++ '.' :: dB ++ '.' :: dC ++
        ' ' :: ([] ++ '(' :: (S ++ ')' :: [])))).map toLowerRune ↔
      N <:+: T.map toLowerRune ∨ N <:+: S.map toLowerRune := by
  have hnil : ¬ N <:+: [] := by
    intro h
    have := List.eq_nil_of_infix_nil h
    rw [this] at ha
    simp at ha
  have hD : ¬ N <:+: (dA ++ '.' :: dB ++ '.' :: dC).map toLowerRune := by
    intro h
    have hmem : 'a' ∈ (dA ++ '.' :: dB ++ '.' :: dC).map toLowerRune := h.subset ha
    obtain ⟨c, hc, hca⟩ := List.mem_map.mp hmem
    have hcd : isDigit c = true ∨ c = '.' := by
      simp only [List.mem_append, List.mem_cons] at hc
      rcases hc with (hc | hc | hc) | hc | hc
      · exact Or.inl (hA.2 c hc)
      · exact Or.inr hc
      · exact Or.inl (hB.2 c hc)
      · exact Or.inr hc
      · exact Or.inl (hC.2 c hc)
    rw [toLowerRune_digit_or_dot c hcd] at hca
    subst hca
    rcases hcd with h | h
    · simp [isDigit] at h
    · simp at h
  have e : (T ++ ' ' :: (dA ++ '.' :: dB ++ '.' :: dC ++
        ' ' :: ([] ++ '(' :: (S ++ ')' :: [])))).map toLowerRune
      = T.map toLowerRune ++ ' ' :: ((dA ++ '.' :: dB ++ '.' :: dC).map toLowerRune ++
          ' ' :: ([] ++ '(' :: (S.map toLowerRune ++ ')' :: []))) := by
    simp [toLowerRune]
  rw [e, infix_append_sep N _ _ ' ' hsp, infix_append_sep N _ _ ' ' hsp,
    infix_append_sep N _ _ '(' hlp, infix_append_sep N _ _ ')' hrp]
  constructor
  · rintro (h | h | h | h | h)
    · exact Or.inl h
    · exact absurd h hD
    · exact absurd h hnil
    · exact Or.inr h
    · exact absurd h hnil
  · rintro (h | h)
    · exact Or.inl h
    · exact Or.inr (Or.inr (Or.inr (Or.inl h)))

theorem findTriple_rendering (T dA dB dC S : List Char) (hT : ∀ c ∈ T, isDigit c = false)
    (hA : IsDigitRun dA) (hB : IsDigitRun dB) (hC : IsDigitRun dC) :
    findTriple (T ++ ' ' :: (dA ++ '.' :: dB ++ '.' :: dC ++
        ' ' :: ([] ++ '(' :: (S ++ ')' :: [])))) = some (dA, dB, dC) := by
  have e : T ++ ' ' :: (dA ++ '.' :: dB ++ '.' :: dC ++ ' ' :: ([] ++ '(' :: (S ++ ')' :: [])))
      = (T ++ [' ']) ++ ([] ++ dA ++ '.' :: dB ++ '.' :: dC ++ (' ' :: '(' :: (S ++ [')']))) := by
    simp
  rw [e, findTriple_skip]
  · have := findTriple_leftmost [] dA dB dC (' ' :: '(' :: (S ++ [')'])) hA hB hC
      (fun n _ => Nat.zero_le n)
    rw [this]
    simp [List.takeWhile, isDigit]
  · intro c hc
    rcases List.mem_append.mp hc with hc | hc
    · exact hT c hc
    · simp only [List.mem_singleton] at hc
      rw [hc]; decide

/-! ## Version detection: the claims -/

/-- C1: `ParseMySQLVersion` returns the numbers of the leftmost occurrence of digits '.' digits '.'
digits in its input, each run taken maximally: when the leftmost occurrence in `s` is `a.b.c`, after
any text `pre` and before any text `post` that does not go on with a digit, and the three values fit
a Go `int`, the parse succeeds with `Major = a`, `Minor = b`, `Patch = c` and `FullVersion = s`. -/
theorem ParseMySQLVersion_leftmost_triple (s : String) (pre a b c post : List Char)
    (hs : s.data = pre ++ a ++ '.' :: b ++ '.' :: c ++ post)
    (ha : IsDigitRun a) (hb : IsDigitRun b) (hc : IsDigitRun c)
    (hmax : ∀ d ∈ post.head?, isDigit d = false)
    (hleft : ∀ n, OccursAt s.data n → pre.length ≤ n)
    (hA : digitsValue a ≤ maxInt) (hB : digitsValue b ≤ maxInt) (hC : digitsValue c ≤ maxInt) :
    ∃ v, ParseMySQLVersion s = .ok v ∧ v.Major = digitsValue a ∧ v.Minor = digitsValue b ∧
      v.Patch = digitsValue c ∧ v.FullVersion = s := by
  have hpost : post.takeWhile isDigit = [] := by
    cases post with
    | nil => rfl
    | cons d ds =>
      have := hmax d (by simp)
      simp [List.takeWhile, this]
  have hf : findTriple s.data = some (a, b, c) := by
    have := findTriple_leftmost pre a b c post ha hb hc (by rw [← hs]; exact hleft)
    rw [← hs, hpost, List.append_nil] at this
    exact this
  rw [ParseMySQLVersion_of_find hf]
  simp only [hA, hB, hC, if_true]
  exact ⟨_, rfl, rfl, rfl, rfl, rfl⟩

/-- C1, on the examples of the specification: "8.0.42" gives (8, 0, 42), "5.7.44-log" gives
(5, 7, 44), "5.5.5-10.1.2-MariaDB" gives (5, 5, 5), and text in front of the triple is skipped. -/
theorem ParseMySQLVersion_leftmost_triple_witness :
    (∃ v, ParseMySQLVersion "8.0.42" = .ok v ∧ v.Major = 8 ∧ v.Minor = 0 ∧ v.Patch = 42 ∧
      v.FullVersion = "8.0.42") ∧
    (∃ v, ParseMySQLVersion "5.7.44-log" = .ok v ∧ v.Major = 5 ∧ v.Minor = 7 ∧ v.Patch = 44 ∧
      v.FullVersion = "5.7.44-log") ∧
    (∃ v, ParseMySQLVersion "5.5.5-10.1.2-MariaDB" = .ok v ∧ v.Major = 5 ∧ v.Minor = 5 ∧
      v.Patch = 5 ∧ v.FullVersion = "5.5.5-10.1.2-MariaDB") ∧
    (∃ v, ParseMySQLVersion "Ver 8.4.0 for Linux" = .ok v ∧ v.Major = 8 ∧ v.Minor = 4 ∧
      v.Patch = 0 ∧ v.FullVersion = "Ver 8.4.0 for Linux") := by
  refine ⟨?_, ?_, ?_, ?_⟩
  · exact ParseMySQLVersion_leftmost_triple "8.0.42" [] ['8'] ['0'] ['4', '2'] [] rfl
      ⟨by decide, by decide⟩ ⟨by decide, by decide⟩ ⟨by decide, by decide⟩ (by simp)
      (fun n _ => Nat.zero_le n) (by decide) (by decide) (by decide)
  · exact ParseMySQLVersion_leftmost_triple "5.7.44-log" [] ['5'] ['7'] ['4', '4'] "-log".data rfl
      ⟨by decide, by decide⟩ ⟨by decide, by decide⟩ ⟨by decide, by decide⟩ (by decide)
      (fun n _ => Nat.zero_le n) (by decide) (by decide) (by decide)
  · exact ParseMySQLVersion_leftmost_triple "5.5.5-10.1.2-MariaDB" [] ['5'] ['5'] ['5']
      "-10.1.2-MariaDB".data rfl
      ⟨by decide, by decide⟩ ⟨by decide, by decide⟩ ⟨by decide, by decide⟩ (by decide)
      (fun n _ => Nat.zero_le n) (by decide) (by decide) (by decide)
  · refine ParseMySQLVersion_leftmost_triple "Ver 8.4.0 for Linux" "Ver ".data ['8'] ['4'] ['0']
      " for Linux".data rfl
      ⟨by decide, by decide⟩ ⟨by decide, by decide⟩ ⟨by decide, by decide⟩ (by decide)
      ?_ (by decide) (by decide) (by decide)
    intro n hn
    obtain ⟨m, hm⟩ := occursAt_drop hn
    by_contra hlt
    have hlt : n < 4 := by simpa using hlt
    interval_cases n <;> exact Option.some_ne_none m (hm.symm.trans (rfl : _ = none))

/-- C2: for every string without an occurrence of digits '.' digits '.' digits,
`ParseMySQLVersion` returns an error and no version; and no collector is constructed when the
server answers the version query with such a string: `NewMySQLCollector` returns an error. -/
theorem ParseMySQLVersion_no_triple (s : String) (h : ¬ HasTriple s.data) :
    ParseMySQLVersion s = .error ("unable to parse version string: " ++ s) ∧
    ∀ (σ : Type) (db : DB σ) (config : Config) (w : World σ),
      scanFirst scanString1 (db.exec { sql := "SELECT VERSION()", args := [] } w.server).1 = .ok s →
      (NewMySQLCollector db config w).1 = .error
        ("failed to detect MySQL version: " ++ ("unable to parse version string: " ++ s)) := by
  have hp := ParseMySQLVersion_of_find_none ((findTriple_none_iff _).mpr h)
  refine ⟨hp, ?_⟩
  intro σ db config w hq
  have hq' : (db.QueryRowScan "SELECT VERSION()" [] scanString1 w).1 = .ok s := by
    rw [scanFirst_ok_of_QueryRowScan]; exact hq
  simp only [NewMySQLCollector, DetectMySQLVersion, hq', hp]

/-- C2, on the examples "unknown", "8.0", "" and "8.x.1", and on a server whose version string is
"unknown". -/
theorem ParseMySQLVersion_no_triple_witness :
    (¬ HasTriple "unknown".data ∧
      ParseMySQLVersion "unknown" = .error "unable to parse version string: unknown") ∧
    ParseMySQLVersion "8.0" = .error "unable to parse version string: 8.0" ∧
    ParseMySQLVersion "" = .error "unable to parse version string: " ∧
    ParseMySQLVersion "8.x.1" = .error "unable to parse version string: 8.x.1" ∧
    (NewMySQLCollector (constServer "unknown") {} (World.start ())).1 = .error
      "failed to detect MySQL version: unable to parse version string: unknown" := by
  have h1 : ¬ HasTriple "unknown".data := (findTriple_none_iff _).mp rfl
  have h2 : ¬ HasTriple "8.0".data := (findTriple_none_iff _).mp rfl
  have h3 : ¬ HasTriple "".data := (findTriple_none_iff _).mp rfl
  have h4 : ¬ HasTriple "8.x.1".data := (findTriple_none_iff _).mp rfl
  exact ⟨⟨h1, (ParseMySQLVersion_no_triple "unknown" h1).1⟩,
    (ParseMySQLVersion_no_triple "8.0" h2).1, (ParseMySQLVersion_no_triple "" h3).1,
    (ParseMySQLVersion_no_triple "8.x.1" h4).1,
    (ParseMySQLVersion_no_triple "unknown" h1).2 Unit (constServer "unknown") {} (World.start ())
      rfl⟩

/-- C3: on every string `s` that parses, the variant is "mariadb" exactly when the lower-cased `s`
contains "mariadb", "percona" exactly when it does not but contains "percona", and "mysql"
otherwise; so it is always one of the three, and it depends on `s` through its lower case only
(matching is case-insensitive). -/
theorem ParseMySQLVersion_variant (s : String) (v : MySQLVersion)
    (h : ParseMySQLVersion s = .ok v) :
    (v.Variant = "mariadb" ↔ "mariadb".data <:+: (ToLower s).data) ∧
    (v.Variant = "percona" ↔
      ¬ "mariadb".data <:+: (ToLower s).data ∧ "percona".data <:+: (ToLower s).data) ∧
    (v.Variant = "mysql" ↔
      ¬ "mariadb".data <:+: (ToLower s).data ∧ ¬ "percona".data <:+: (ToLower s).data) ∧
    (v.Variant = "mariadb" ∨ v.Variant = "percona" ∨ v.Variant = "mysql") ∧
    (∀ t v', ToLower t = ToLower s → ParseMySQLVersion t = .ok v' → v'.Variant = v.Variant) := by
  obtain ⟨a, b, c, -, -, -, -, hv⟩ := ParseMySQLVersion_ok_inv h
  have hvar : v.Variant = if Contains (ToLower s) "mariadb" then "mariadb"
      else if Contains (ToLower s) "percona" then "percona" else "mysql" := by rw [hv]
  have hcase : ∀ t v', ToLower t = ToLower s → ParseMySQLVersion t = .ok v' →
      v'.Variant = v.Variant := by
    intro t v' ht h'
    obtain ⟨a', b', c', -, -, -, -, hv'⟩ := ParseMySQLVersion_ok_inv h'
    rw [hvar, hv', ht]
  rw [← Contains_iff, ← Contains_iff]
  refine ⟨?_, ?_, ?_, ?_, hcase⟩ <;> rw [hvar] <;>
    cases Contains (ToLower s) "mariadb" <;> cases Contains (ToLower s) "percona" <;> decide

/-- C3, on "10.11.6-MariaDB": the variant is "mariadb". -/
theorem ParseMySQLVersion_variant_witness :
    ParseMySQLVersion "10.11.6-MariaDB"
      = .ok ⟨"10.11.6-MariaDB", 10, 11, 6, "mariadb"⟩ ∧
    "mariadb".data <:+: (ToLower "10.11.6-MariaDB").data :=
  ⟨rfl, (ParseMySQLVersion_variant "10.11.6-MariaDB" ⟨"10.11.6-MariaDB", 10, 11, 6, "mariadb"⟩
    rfl).1.mp rfl⟩

/-- C4: `IsMySQL8OrLater` holds iff the variant is "mysql" and the major is at least 8;
`IsMySQL57OrLater` holds iff the variant is "mysql" and the version is at least 5.7; both, and the
predicates defined from them, are false on every "mariadb" or "percona" version whatever its
numbers. The parse of "8.0.42" satisfies `IsMySQL8OrLater`, the parse of "10.11.6-MariaDB" does
not. -/
theorem capability_predicates (v : MySQLVersion) :
    (v.IsMySQL8OrLater = true ↔ v.Variant = "mysql" ∧ v.Major ≥ 8) ∧
    (v.IsMySQL57OrLater = true ↔
      v.Variant = "mysql" ∧ (v.Major > 5 ∨ (v.Major = 5 ∧ v.Minor ≥ 7))) ∧
    (v.Variant = "mariadb" ∨ v.Variant = "percona" →
      v.IsMySQL8OrLater = false ∧ v.IsMySQL57OrLater = false ∧ v.SupportsRoles = false ∧
      v.SupportsComponents = false ∧ v.SupportsPerformanceSchemaVariablesInfo = false) ∧
    (∃ v8, ParseMySQLVersion "8.0.42" = .ok v8 ∧ v8.IsMySQL8OrLater = true) ∧
    (∃ vm, ParseMySQLVersion "10.11.6-MariaDB" = .ok vm ∧ vm.IsMySQL8OrLater = false) := by
  refine ⟨?_, ?_, ?_, ⟨_, rfl, rfl⟩, ⟨_, rfl, rfl⟩⟩
  · unfold MySQLVersion.IsMySQL8OrLater
    by_cases hv : v.Variant = "mysql" <;> simp [hv]
  · unfold MySQLVersion.IsMySQL57OrLater
    by_cases hv : v.Variant = "mysql"
    · by_cases h5 : v.Major > 5
      · simp [hv, h5]
      · by_cases h6 : v.Major = 5 ∧ v.Minor ≥ 7
        · simp [hv, h6]
        · have hno : ¬ (v.Major > 5 ∨ (v.Major = 5 ∧ v.Minor ≥ 7)) := by
            rintro (hh | hh)
            · exact h5 hh
            · exact h6 hh
          simp only [hv, ne_eq, not_true_eq_false, if_false, h5, h6, true_and]
          constructor
          · intro hf; cases hf
          · intro hh; simp at hh
    · simp [hv]
  · intro hv
    have hne : v.Variant ≠ "mysql" := by
      rcases hv with hv | hv <;> rw [hv] <;> decide
    simp [MySQLVersion.SupportsRoles, MySQLVersion.SupportsComponents,
      MySQLVersion.SupportsPerformanceSchemaVariablesInfo, MySQLVersion.IsMySQL8OrLater,
      MySQLVersion.IsMySQL57OrLater, hne]

/-- C4, on a MariaDB version with a major above 8: no capability predicate holds. -/
theorem capability_predicates_witness :
    (⟨"10.11.6-MariaDB", 10, 11, 6, "mariadb"⟩ : MySQLVersion).IsMySQL8OrLater = false ∧
    (⟨"10.11.6-MariaDB", 10, 11, 6, "mariadb"⟩ : MySQLVersion).IsMySQL57OrLater = false ∧
    (⟨"10.11.6-MariaDB", 10, 11, 6, "mariadb"⟩ : MySQLVersion).SupportsRoles = false ∧
    (⟨"10.11.6-MariaDB", 10, 11, 6, "mariadb"⟩ : MySQLVersion).SupportsComponents = false ∧
    (⟨"10.11.6-MariaDB", 10, 11, 6, "mariadb"⟩ :
      MySQLVersion).SupportsPerformanceSchemaVariablesInfo = false :=
  (capability_predicates ⟨"10.11.6-MariaDB", 10, 11, 6, "mariadb"⟩).2.2.1 (Or.inl rfl)

/-- C5: formatting then parsing is the identity on the structured version: when `s` parses to
`v`, the rendering `v.String`, "<Title-cased variant> <major>.<minor>.<patch> (<full version>)",
parses too, to a version with the same `Major`, `Minor`, `Patch` and `Variant`. -/
theorem parse_String_roundtrip (s : String) (v : MySQLVersion) (h : ParseMySQLVersion s = .ok v) :
    ∃ v', ParseMySQLVersion v.String = .ok v' ∧ v'.Major = v.Major ∧ v'.Minor = v.Minor ∧
      v'.Patch = v.Patch ∧ v'.Variant = v.Variant := by
  obtain ⟨a, b, c, -, hA, hB, hC, hv⟩ := ParseMySQLVersion_ok_inv h
  obtain ⟨rA, vA⟩ := toDigits_spec (digitsValue a)
  obtain ⟨rB, vB⟩ := toDigits_spec (digitsValue b)
  obtain ⟨rC, vC⟩ := toDigits_spec (digitsValue c)
  have hMa : v.Major = (digitsValue a : Int) := by rw [hv]
  have hMi : v.Minor = (digitsValue b : Int) := by rw [hv]
  have hPa : v.Patch = (digitsValue c : Int) := by rw [hv]
  have hFu : v.FullVersion = s := by rw [hv]
  have hVa : v.Variant = if Contains (ToLower s) "mariadb" then "mariadb"
      else if Contains (ToLower s) "percona" then "percona" else "mysql" := by rw [hv]
  have hdata := String_data v
  rw [hMa, hMi, hPa, hFu, formatInt_natCast, formatInt_natCast, formatInt_natCast] at hdata
  have hT : ∀ c ∈ (Title v.Variant).data, isDigit c = false := by
    rw [hVa]
    cases Contains (ToLower s) "mariadb" <;> cases Contains (ToLower s) "percona" <;> decide
  have hfind : findTriple v.String.data
      = some (Nat.toDigits 10 (digitsValue a), Nat.toDigits 10 (digitsValue b),
          Nat.toDigits 10 (digitsValue c)) := by
    rw [hdata]; exact findTriple_rendering _ _ _ _ _ hT rA rB rC
  have hm : Contains (ToLower v.String) "mariadb" = true ↔
      "mariadb".data <:+: (Title v.Variant).data.map toLowerRune ∨
        Contains (ToLower s) "mariadb" = true := by
    rw [Contains_iff, Contains_iff]
    show "mariadb".data <:+: v.String.data.map toLowerRune ↔ _
    rw [hdata]
    exact infix_rendering_iff _ _ _ _ _ _ (by decide) (by decide) (by decide) (by decide) rA rB rC
  have hp : Contains (ToLower v.String) "percona" = true ↔
      "percona".data <:+: (Title v.Variant).data.map toLowerRune ∨
        Contains (ToLower s) "percona" = true := by
    rw [Contains_iff, Contains_iff]
    show "percona".data <:+: v.String.data.map toLowerRune ↔ _
    rw [hdata]
    exact infix_rendering_iff _ _ _ _ _ _ (by decide) (by decide) (by decide) (by decide) rA rB rC
  rw [ParseMySQLVersion_of_find hfind, vA, vB, vC]
  simp only [hA, hB, hC, if_true]
  refine ⟨_, rfl, hMa.symm, hMi.symm, hPa.symm, ?_⟩
  show (if Contains (ToLower v.String) "mariadb" then "mariadb"
      else if Contains (ToLower v.String) "percona" then "percona" else "mysql") = v.Variant
  rw [← containsChars_iff] at hm hp
  cases hsm : Contains (ToLower s) "mariadb" <;> cases hsp : Contains (ToLower s) "percona" <;>
    simp only [hsm, hsp, Bool.false_eq_true, if_false, if_true] at hVa hm hp <;>
    rw [hVa] at hm hp ⊢ <;>
    simp only [show containsChars "mariadb".data ((Title "mysql").data.map toLowerRune) = false
        from rfl,
      show containsChars "percona".data ((Title "mysql").data.map toLowerRune) = false from rfl,
      show containsChars "mariadb".data ((Title "percona").data.map toLowerRune) = false from rfl,
      show containsChars "percona".data ((Title "percona").data.map toLowerRune) = true from rfl,
      show containsChars "mariadb".data ((Title "mariadb").data.map toLowerRune) = true from rfl,
      Bool.false_eq_true, false_or, true_or, or_true, or_false, iff_true, iff_false] at hm hp <;>
    simp [hm, hp]

/-- C5, on "8.0.42": the rendering "Mysql 8.0.42 (8.0.42)" parses to the same numbers and
variant. -/
theorem parse_String_roundtrip_witness :
    ParseMySQLVersion "8.0.42" = .ok ⟨"8.0.42", 8, 0, 42, "mysql"⟩ ∧
    ∃ v', ParseMySQLVersion "Mysql 8.0.42 (8.0.42)" = .ok v' ∧ v'.Major = 8 ∧ v'.Minor = 0 ∧
      v'.Patch = 42 ∧ v'.Variant = "mysql" :=
  ⟨rfl, parse_String_roundtrip "8.0.42" ⟨"8.0.42", 8, 0, 42, "mysql"⟩ rfl⟩

/-! ## The collection engine: lemmas -/

theorem CollectAll_eq_runStages {σ : Type} (rt : Runtime) (c : MySQLCollector σ) (w : World σ) :
    CollectAll rt c w = runStages rt c stageOrder {} w := rfl

theorem Extends.refl {σ : Type} (Q : Event → Prop) (w : World σ) : Extends Q w w :=
  ⟨[], by simp, by simp⟩

theorem Extends.trans {σ : Type} {Q : Event → Prop} {w w1 w2 : World σ}
    (h1 : Extends Q w w1) (h2 : Extends Q w1 w2) : Extends Q w w2 := by
  obtain ⟨e1, hl1, hq1⟩ := h1
  obtain ⟨e2, hl2, hq2⟩ := h2
  refine ⟨e1 ++ e2, by rw [hl2, hl1, List.append_assoc], ?_⟩
  intro ev hev
  rcases List.mem_append.mp hev with h | h
  · exact hq1 ev h
  · exact hq2 ev h

theorem Extends.mono {σ : Type} {Q Q' : Event → Prop} {w w1 : World σ}
    (h : ∀ ev, Q ev → Q' ev) (h1 : Extends Q w w1) : Extends Q' w w1 := by
  obtain ⟨e1, hl1, hq1⟩ := h1
  exact ⟨e1, hl1, fun ev hev => h ev (hq1 ev hev)⟩

theorem Query_log {σ : Type} (db : DB σ) (sql : String) (args : List String) (w : World σ) :
    (db.Query sql args w).2.log = w.log ++ [⟨⟨sql, args⟩, (db.Query sql args w).1⟩] := rfl

theorem QueryRowScan_log {σ α : Type} (db : DB σ) (sql : String) (args : List String)
    (scan : Row → Option α) (w : World σ) :
    (db.QueryRowScan sql args scan w).2.log
      = w.log ++ [⟨⟨sql, args⟩, (db.Query sql args w).1⟩] := rfl

theorem QueryRowScan_fst {σ α : Type} (db : DB σ) (sql : String) (args : List String)
    (scan : Row → Option α) (w : World σ) :
    (db.QueryRowScan sql args scan w).1 = scanFirst scan (db.Query sql args w).1 := rfl

theorem Extends_Query {σ : Type} (Q : Event → Prop) (db : DB σ) (sql : String)
    (args : List String) (w : World σ) (h : ∀ resp, Q ⟨⟨sql, args⟩, resp⟩) :
    Extends Q w (db.Query sql args w).2 :=
  ⟨_, Query_log db sql args w, by simpa using h _⟩

theorem Extends_QueryRowScan {σ α : Type} (Q : Event → Prop) (db : DB σ) (sql : String)
    (args : List String) (scan : Row → Option α) (w : World σ)
    (h : ∀ resp, Q ⟨⟨sql, args⟩, resp⟩) :
    Extends Q w (db.QueryRowScan sql args scan w).2 :=
  ⟨_, QueryRowScan_log db sql args scan w, by simpa using h _⟩

theorem Sig_text {texts prefixes : List String} {sql : String} {args : List String}
    {resp : Response} (h : sql ∈ texts) : Sig texts prefixes ⟨⟨sql, args⟩, resp⟩ := Or.inl h

theorem Sig_prefix {texts prefixes : List String} {p rest : String} {args : List String}
    {resp : Response} (h : p ∈ prefixes) : Sig texts prefixes ⟨⟨p ++ rest, args⟩, resp⟩ :=
  Or.inr ⟨p, h, by simp [String.data_append]⟩

theorem getTableDDL_ext {σ : Type} (c : MySQLCollector σ) (schema name tableType : String)
    (w : World σ) : Extends (Quiet .tables) w (getTableDDL c schema name tableType w).2 := by
  unfold getTableDDL
  split
  · have := Extends_QueryRowScan (Quiet .tables) c.db
      ("SHOW CREATE VIEW `" ++ schema ++ "`.`" ++ name ++ "`") [] scanString4 w
      (fun resp => by
        simp only [String.append_assoc]
        exact Sig_prefix (by simp [Stage.quietPrefixes]))
    dsimp only
    split <;> exact this
  · have := Extends_QueryRowScan (Quiet .tables) c.db
      ("SHOW CREATE TABLE `" ++ schema ++ "`.`" ++ name ++ "`") [] scanString2 w
      (fun resp => by
        simp only [String.append_assoc]
        exact Sig_prefix (by simp [Stage.quietPrefixes]))
    dsimp only
    split <;> exact this

theorem getTablesLoop_ext {σ : Type} (rt : Runtime) (c : MySQLCollector σ) (dbName : String) :
    ∀ (rows : List Row) (tables : List TableInfo) (w : World σ),
      Extends (Quiet .tables) w (getTablesLoop rt c dbName rows tables w).2 := by
  intro rows
  induction rows with
  | nil => intro tables w; exact Extends.refl _ _
  | cons row rows ih =>
    intro tables w
    simp only [getTablesLoop]
    split
    · exact ih _ _
    · split
      · exact (getTableDDL_ext c _ _ _ w).trans (ih _ _)
      · exact (getTableDDL_ext c _ _ _ w).trans (ih _ _)

theorem getTablesForDatabase_ext {σ : Type} (rt : Runtime) (c : MySQLCollector σ)
    (dbName : String) (w : World σ) :
    Extends (Quiet .tables) w (getTablesForDatabase rt c dbName w).2 := by
  have hq := Extends_Query (Quiet .tables) c.db sqlTables [dbName] w
    (fun resp => Sig_text (by simp [Stage.quietTexts]))
  unfold getTablesForDatabase
  dsimp only
  split
  · exact hq
  · exact hq.trans (getTablesLoop_ext rt c dbName _ _ _)

theorem collectTablesLoop_ext {σ : Type} (rt : Runtime) (c : MySQLCollector σ) :
    ∀ (databases : List String) (info : DatabaseInfo) (w : World σ),
      Extends (Quiet .tables) w (collectTablesLoop rt c databases info w).2 := by
  intro databases
  induction databases with
  | nil => intro info w; exact Extends.refl _ _
  | cons d ds ih =>
    intro info w
    simp only [collectTablesLoop]
    split
    · exact (getTablesForDatabase_ext rt c d w).trans (ih _ _)
    · exact (getTablesForDatabase_ext rt c d w).trans (ih _ _)

theorem getUserGrants_ext {σ : Type} (st : Stage) (hst : "SHOW GRANTS FOR `" ∈ st.quietPrefixes)
    (c : MySQLCollector σ) (user host : String) (w : World σ) :
    Extends (Quiet st) w (getUserGrants c user host w).2 := by
  have hq := Extends_Query (Quiet st) c.db ("SHOW GRANTS FOR `" ++ user ++ "`@`" ++ host ++ "`") [] w
    (fun resp => by
      simp only [String.append_assoc]
      exact Sig_prefix hst)
  unfold getUserGrants
  dsimp only
  split <;> exact hq

theorem collectUsersLoop_ext {σ : Type} (c : MySQLCollector σ) :
    ∀ (rows : List Row) (info : DatabaseInfo) (w : World σ),
      Extends (Quiet .users) w (collectUsersLoop c rows info w).2 := by
  intro rows
  induction rows with
  | nil => intro info w; exact Extends.refl _ _
  | cons row rows ih =>
    intro info w
    simp only [collectUsersLoop]
    split
    · exact ih _ _
    · split
      · exact (getUserGrants_ext .users (by simp [Stage.quietPrefixes]) c _ _ w).trans (ih _ _)
      · exact (getUserGrants_ext .users (by simp [Stage.quietPrefixes]) c _ _ w).trans (ih _ _)

theorem getRoutineParameters_ext {σ : Type} (c : MySQLCollector σ) (schema name : String)
    (w : World σ) : Extends (Quiet .routines) w (getRoutineParameters c schema name w).2 := by
  have hq := Extends_QueryRowScan (Quiet .routines) c.db sqlRoutineParameters [schema, name]
    scanNullString1 w (fun resp => Sig_text (by simp [Stage.quietTexts]))
  unfold getRoutineParameters
  dsimp only
  split
  · exact hq
  · split <;> exact hq

theorem collectRoutinesLoop_ext {σ : Type} (rt : Runtime) (c : MySQLCollector σ) :
    ∀ (rows : List Row) (info : DatabaseInfo) (w : World σ),
      Extends (Quiet .routines) w (collectRoutinesLoop rt c rows info w).2 := by
  intro rows
  induction rows with
  | nil => intro info w; exact Extends.refl _ _
  | cons row rows ih =>
    intro info w
    simp only [collectRoutinesLoop]
    split
    · exact ih _ _
    · split
      · exact (getRoutineParameters_ext c _ _ w).trans (ih _ _)
      · exact (getRoutineParameters_ext c _ _ w).trans (ih _ _)

theorem getRoleMembers_ext {σ : Type} (c : MySQLCollector σ) (roleName roleHost : String)
    (w : World σ) : Extends (Quiet .roles) w (getRoleMembers c roleName roleHost w).2 := by
  have hq := Extends_Query (Quiet .roles) c.db sqlRoleMembers [roleName, roleHost] w
    (fun resp => Sig_text (by simp [Stage.quietTexts]))
  unfold getRoleMembers
  dsimp only
  split <;> exact hq

theorem collectRolesLoop_ext {σ : Type} (c : MySQLCollector σ) :
    ∀ (rows : List Row) (info : DatabaseInfo) (w : World σ),
      Extends (Quiet .roles) w (collectRolesLoop c rows info w).2 := by
  intro rows
  induction rows with
  | nil => intro info w; exact Extends.refl _ _
  | cons row rows ih =>
    intro info w
    simp only [collectRolesLoop]
    split
    · exact ih _ _
    · exact ((getUserGrants_ext .roles (by simp [Stage.quietPrefixes]) c _ _ w).trans
        (getRoleMembers_ext c _ _ _)).trans (ih _ _)

theorem collectRoles_ext {σ : Type} (c : MySQLCollector σ) (info : DatabaseInfo) (w : World σ) :
    Extends (Quiet .roles) w (collectRoles c info w).2 := by
  have hq := Extends_Query (Quiet .roles) c.db sqlRoles [] w
    (fun resp => Sig_text (by simp [Stage.quietTexts]))
  unfold collectRoles
  dsimp only
  split
  · exact hq
  · exact hq.trans (collectRolesLoop_ext c _ _ _)

theorem collectMySQL8Features_ext {σ : Type} (c : MySQLCollector σ) (info : DatabaseInfo)
    (w : World σ) : Extends (Quiet .roles) w (collectMySQL8Features c info w).2 := by
  unfold collectMySQL8Features
  dsimp only
  split <;> exact collectRoles_ext c info w

theorem collectMySQL8Features_ok {σ : Type} (c : MySQLCollector σ) (info : DatabaseInfo)
    (w : World σ) : succeeded (collectMySQL8Features c info w).1 = true := by
  unfold collectMySQL8Features
  dsimp only
  split <;> rfl

theorem commonVarsLoop_ext {σ : Type} (c : MySQLCollector σ) :
    ∀ (entries : List (String × String)) (info : DatabaseInfo) (w : World σ),
      Extends (Quiet .variables) w (commonVarsLoop c entries info w).2 := by
  intro entries
  induction entries with
  | nil => intro info w; exact Extends.refl _ _
  | cons e es ih =>
    intro info w
    obtain ⟨varName, defaultValue⟩ := e
    have hq : ∀ w1 : World σ, Extends (Quiet .variables) w1
        (c.db.QueryRowScan sqlVariableProbe [varName] scanString1 w1).2 := fun w1 =>
      Extends_QueryRowScan (Quiet .variables) c.db sqlVariableProbe [varName] scanString1 w1
        (fun resp => Sig_text (by simp [Stage.quietTexts]))
    have hr : Extends (Quiet .variables) w
        (match (c.db.QueryRowScan sqlVariableProbe [varName] scanString1 w).1 with
          | .ok _ => c.db.QueryRowScan sqlVariableProbe [varName] scanString1 w
          | .error _ => c.db.QueryRowScan sqlVariableProbe [varName] scanString1
              (c.db.QueryRowScan sqlVariableProbe [varName] scanString1 w).2).2 := by
      split
      · exact hq w
      · exact (hq w).trans (hq _)
    simp only [commonVarsLoop]
    split
    · exact hr.trans (ih _ _)
    · split
      · exact hr.trans (ih _ _)
      · exact hr.trans (ih _ _)

theorem StageTrace_quiet {σ α : Type} {Q : Event → Prop} {p : Option String} {w0 : World σ}
    {res : Except String α × World σ} (h : Extends Q w0 res.2) (hok : succeeded res.1 = true) :
    ∃ evs, res.2.log = w0.log ++ evs ∧ StageTrace Q p res.1 evs := by
  obtain ⟨evs, hl, hq⟩ := h
  exact ⟨evs, hl, evs, [], hq, by simp, Or.inl ⟨rfl, hok⟩⟩

theorem StageTrace_primary {σ α : Type} {Q : Event → Prop} {p : Option String} (sql : String)
    (args : List String) (hp : p = some sql) {w0 w w1 : World σ} (resp : Response)
    (hpre : Extends Q w0 w) (hlog : w1.log = w.log ++ [⟨⟨sql, args⟩, resp⟩])
    {res : Except String α × World σ}
    (hfail : primaryFails sql resp = true → succeeded res.1 = false ∧ res.2 = w1)
    (hok : primaryFails sql resp = false → succeeded res.1 = true ∧ Extends Q w1 res.2) :
    ∃ evs, res.2.log = w0.log ++ evs ∧ StageTrace Q p res.1 evs := by
  obtain ⟨q1, hl1, hq1⟩ := hpre
  cases hf : primaryFails sql resp with
  | true =>
    obtain ⟨hr, hw⟩ := hfail hf
    refine ⟨q1 ++ [⟨⟨sql, args⟩, resp⟩], by rw [hw, hlog, hl1, List.append_assoc], q1, [], hq1,
      by simp, Or.inr ⟨sql, args, resp, hp, rfl, fun _ => ⟨rfl, hr⟩, fun h => ?_⟩⟩
    rw [hf] at h; cases h
  | false =>
    obtain ⟨hr, q2, hl2, hq2⟩ := hok hf
    refine ⟨q1 ++ ⟨⟨sql, args⟩, resp⟩ :: q2, by rw [hl2, hlog, hl1]; simp, q1, q2, hq1, hq2,
      Or.inr ⟨sql, args, resp, hp, rfl, fun h => ?_, fun _ => hr⟩⟩
    rw [hf] at h; cases h

theorem primaryFails_of_ne {sql : String} (h : sql ≠ "SELECT VERSION()") (resp : Response) :
    primaryFails sql resp = !succeeded resp := by
  simp [primaryFails, h]

theorem collectConnectionInfo_trace {σ : Type} (c : MySQLCollector σ) (info : DatabaseInfo)
    (w : World σ) :
    ∃ evs, (collectConnectionInfo c info w).2.log = w.log ++ evs ∧
      StageTrace (Quiet .connection) (Stage.primary c.version .connection)
        (collectConnectionInfo c info w).1 evs := by
  refine StageTrace_primary ("SELECT VERSION()") [] rfl
    (c.db.Query "SELECT VERSION()" [] w).1 (Extends.refl _ w)
    (QueryRowScan_log c.db "SELECT VERSION()" [] scanString1 w) ?_ ?_
  · intro hf
    have hs : succeeded (c.db.QueryRowScan "SELECT VERSION()" [] scanString1 w).1 = false := by
      simpa [primaryFails, QueryRowScan_fst] using hf
    unfold collectConnectionInfo
    dsimp only
    split
    · exact ⟨rfl, rfl⟩
    · rename_i v hv
      rw [hv] at hs; cases hs
  · intro hf
    have hs : succeeded (c.db.QueryRowScan "SELECT VERSION()" [] scanString1 w).1 = true := by
      simpa [primaryFails, QueryRowScan_fst] using hf
    unfold collectConnectionInfo
    dsimp only
    split
    · rename_i e he
      rw [he] at hs; cases hs
    · exact ⟨rfl, Extends.refl _ _⟩

theorem collectUsers_trace {σ : Type} (c : MySQLCollector σ) (info : DatabaseInfo) (w : World σ) :
    ∃ evs, (collectUsers c info w).2.log = w.log ++ evs ∧
      StageTrace (Quiet .users) (Stage.primary c.version .users) (collectUsers c info w).1 evs := by
  have hne : (if c.version.IsMySQL8OrLater = true then sqlUsersMySQL8 else sqlUsersLegacy)
      ≠ "SELECT VERSION()" := by
    split <;> decide
  refine StageTrace_primary (if c.version.IsMySQL8OrLater = true then sqlUsersMySQL8 else sqlUsersLegacy) [] rfl
    (c.db.Query (if c.version.IsMySQL8OrLater = true then sqlUsersMySQL8 else sqlUsersLegacy)
      [] w).1 (Extends.refl _ w) (Query_log c.db _ [] w) ?_ ?_
  · intro hf
    rw [primaryFails_of_ne hne] at hf
    unfold collectUsers
    dsimp only
    split
    · exact ⟨rfl, rfl⟩
    · rename_i rows hr
      rw [hr] at hf; cases hf
  · intro hf
    rw [primaryFails_of_ne hne] at hf
    unfold collectUsers
    dsimp only
    split
    · rename_i e he
      rw [he] at hf; cases hf
    · exact ⟨rfl, collectUsersLoop_ext c _ _ _⟩

theorem collectRoutines_trace {σ : Type} (rt : Runtime) (c : MySQLCollector σ) (info : DatabaseInfo) (w : World σ) :
    ∃ evs, (collectRoutines rt c info w).2.log = w.log ++ evs ∧
      StageTrace (Quiet .routines) (Stage.primary c.version .routines) (collectRoutines rt c info w).1 evs := by
  have hne : sqlRoutines ≠ "SELECT VERSION()" := by decide
  refine StageTrace_primary (sqlRoutines) [] rfl
    (c.db.Query sqlRoutines [] w).1 (Extends.refl _ w) (Query_log c.db _ [] w) ?_ ?_
  · intro hf
    rw [primaryFails_of_ne hne] at hf
    unfold collectRoutines
    dsimp only
    split
    · exact ⟨rfl, rfl⟩
    · rename_i rows hr
      rw [hr] at hf; cases hf
  · intro hf
    rw [primaryFails_of_ne hne] at hf
    unfold collectRoutines
    dsimp only
    split
    · rename_i e he
      rw [he] at hf; cases hf
    · exact ⟨rfl, collectRoutinesLoop_ext rt c _ _ _⟩

theorem collectPlugins_trace {σ : Type} (c : MySQLCollector σ) (info : DatabaseInfo) (w : World σ) :
    ∃ evs, (collectPlugins c info w).2.log = w.log ++ evs ∧
      StageTrace (Quiet .plugins) (Stage.primary c.version .plugins) (collectPlugins c info w).1 evs := by
  have hne : sqlPlugins ≠ "SELECT VERSION()" := by decide
  refine StageTrace_primary (sqlPlugins) [] rfl
    (c.db.Query sqlPlugins [] w).1 (Extends.refl _ w) (Query_log c.db _ [] w) ?_ ?_
  · intro hf
    rw [primaryFails_of_ne hne] at hf
    unfold collectPlugins
    dsimp only
    split
    · exact ⟨rfl, rfl⟩
    · rename_i rows hr
      rw [hr] at hf; cases hf
  · intro hf
    rw [primaryFails_of_ne hne] at hf
    unfold collectPlugins
    dsimp only
    split
    · rename_i e he
      rw [he] at hf; cases hf
    · exact ⟨rfl, Extends.refl _ _⟩

theorem collectComponents_trace {σ : Type} (c : MySQLCollector σ) (info : DatabaseInfo) (w : World σ) :
    ∃ evs, (collectComponents c info w).2.log = w.log ++ evs ∧
      StageTrace (Quiet .components) (Stage.primary c.version .components) (collectComponents c info w).1 evs := by
  have hne : "SELECT * FROM mysql.component" ≠ "SELECT VERSION()" := by decide
  refine StageTrace_primary ("SELECT * FROM mysql.component") [] rfl
    (c.db.Query "SELECT * FROM mysql.component" [] w).1 (Extends.refl _ w) (Query_log c.db _ [] w) ?_ ?_
  · intro hf
    rw [primaryFails_of_ne hne] at hf
    unfold collectComponents
    dsimp only
    split
    · exact ⟨rfl, rfl⟩
    · rename_i rows hr
      rw [hr] at hf; cases hf
  · intro hf
    rw [primaryFails_of_ne hne] at hf
    unfold collectComponents
    dsimp only
    split
    · rename_i e he
      rw [he] at hf; cases hf
    · exact ⟨rfl, Extends.refl _ _⟩

theorem collectTables_trace {σ : Type} (rt : Runtime) (c : MySQLCollector σ) (info : DatabaseInfo)
    (w : World σ) :
    ∃ evs, (collectTables rt c info w).2.log = w.log ++ evs ∧
      StageTrace (Quiet .tables) (Stage.primary c.version .tables) (collectTables rt c info w).1
        evs := by
  by_cases hd : c.config.Database ≠ ""
  · have hg : getDatabases c w = (.ok [c.config.Database], w) := by
      unfold getDatabases
      rw [if_pos hd]
    refine StageTrace_quiet ?_ ?_
    · unfold collectTables
      rw [hg]
      exact collectTablesLoop_ext rt c _ _ _
    · unfold collectTables
      rw [hg]
      rfl
  · have hne : "SHOW DATABASES" ≠ "SELECT VERSION()" := by decide
    refine StageTrace_primary ("SHOW DATABASES") [] rfl
      (c.db.Query "SHOW DATABASES" [] w).1 (Extends.refl _ w) (Query_log c.db _ [] w) ?_ ?_
    · intro hf
      rw [primaryFails_of_ne hne] at hf
      cases hq : (c.db.Query "SHOW DATABASES" [] w).1 with
      | error e =>
        have hg : getDatabases c w = (.error e, (c.db.Query "SHOW DATABASES" [] w).2) := by
          unfold getDatabases
          rw [if_neg hd]
          dsimp only
          rw [hq]
        unfold collectTables
        rw [hg]
        exact ⟨rfl, rfl⟩
      | ok rows => rw [hq] at hf; cases hf
    · intro hf
      rw [primaryFails_of_ne hne] at hf
      cases hq : (c.db.Query "SHOW DATABASES" [] w).1 with
      | error e => rw [hq] at hf; cases hf
      | ok rows =>
        have hg : ∃ l, getDatabases c w = (.ok l, (c.db.Query "SHOW DATABASES" [] w).2) := by
          unfold getDatabases
          rw [if_neg hd]
          dsimp only
          rw [hq]
          exact ⟨_, rfl⟩
        obtain ⟨l, hg⟩ := hg
        unfold collectTables
        rw [hg]
        exact ⟨rfl, collectTablesLoop_ext rt c _ _ _⟩

theorem collectCommonModifiedVariables_ext {σ : Type} (rt : Runtime) (c : MySQLCollector σ)
    (info : DatabaseInfo) (w : World σ) :
    Extends (Quiet .variables) w (collectCommonModifiedVariables rt c info w).2 :=
  commonVarsLoop_ext c _ _ _

theorem collectVariablesFromShowVariables_trace {σ : Type} (rt : Runtime) (c : MySQLCollector σ)
    (info : DatabaseInfo) (w0 w : World σ) (hpre : Extends (Quiet .variables) w0 w) :
    ∃ evs, (collectVariablesFromShowVariables rt c info w).2.log = w0.log ++ evs ∧
      StageTrace (Quiet .variables) (some "SHOW VARIABLES")
        (collectVariablesFromShowVariables rt c info w).1 evs := by
  by_cases hm : c.config.OnlyModifiedVariables = true
  · have he : collectVariablesFromShowVariables rt c info w
        = collectCommonModifiedVariables rt c info w := by
      unfold collectVariablesFromShowVariables
      rw [if_pos hm]
    rw [he]
    exact StageTrace_quiet (hpre.trans (collectCommonModifiedVariables_ext rt c info w)) rfl
  · have hne : "SHOW VARIABLES" ≠ "SELECT VERSION()" := by decide
    refine StageTrace_primary ("SHOW VARIABLES") [] rfl
      (c.db.Query "SHOW VARIABLES" [] w).1 hpre (Query_log c.db _ [] w) ?_ ?_
    · intro hf
      rw [primaryFails_of_ne hne] at hf
      unfold collectVariablesFromShowVariables
      rw [if_neg hm]
      dsimp only
      split
      · exact ⟨rfl, rfl⟩
      · rename_i rows hr
        rw [hr] at hf; cases hf
    · intro hf
      rw [primaryFails_of_ne hne] at hf
      unfold collectVariablesFromShowVariables
      rw [if_neg hm]
      dsimp only
      split
      · rename_i e he
        rw [he] at hf; cases hf
      · exact ⟨rfl, Extends.refl _ _⟩

theorem collectVariablesFromInformationSchema_trace {σ : Type} (rt : Runtime)
    (c : MySQLCollector σ) (info : DatabaseInfo) (w0 w : World σ)
    (hpre : Extends (Quiet .variables) w0 w) :
    ∃ evs, (collectVariablesFromInformationSchema rt c info w).2.log = w0.log ++ evs ∧
      StageTrace (Quiet .variables) (some "SHOW VARIABLES")
        (collectVariablesFromInformationSchema rt c info w).1 evs := by
  by_cases hm : c.config.OnlyModifiedVariables = true
  · have he : collectVariablesFromInformationSchema rt c info w
        = collectCommonModifiedVariables rt c info w := by
      unfold collectVariablesFromInformationSchema
      rw [if_pos hm]
    rw [he]
    exact StageTrace_quiet (hpre.trans (collectCommonModifiedVariables_ext rt c info w)) rfl
  · have hq := Extends_Query (Quiet .variables) c.db sqlGlobalVariables [] w
      (fun resp => Sig_text (by simp [Stage.quietTexts]))
    unfold collectVariablesFromInformationSchema
    rw [if_neg hm]
    dsimp only
    split
    · exact collectVariablesFromShowVariables_trace rt c info w0 _ (hpre.trans hq)
    · exact StageTrace_quiet (hpre.trans hq) rfl

theorem collectVariables_trace {σ : Type} (rt : Runtime) (c : MySQLCollector σ)
    (info : DatabaseInfo) (w : World σ) :
    ∃ evs, (collectVariables rt c info w).2.log = w.log ++ evs ∧
      StageTrace (Quiet .variables) (Stage.primary c.version .variables)
        (collectVariables rt c info w).1 evs := by
  unfold collectVariables
  split
  · have hq := Extends_Query (Quiet .variables) c.db
      (if c.config.OnlyModifiedVariables = true then sqlVariablesModified else sqlVariablesAll) [] w
      (fun resp => Sig_text (by split <;> simp [Stage.quietTexts]))
    unfold collectVariablesFromPerformanceSchema
    dsimp only
    split
    · exact collectVariablesFromInformationSchema_trace rt c info w _ hq
    · exact StageTrace_quiet hq rfl
  · exact collectVariablesFromInformationSchema_trace rt c info w w (Extends.refl _ _)

theorem replication_text {sql : String} {args : List String} {resp : Response}
    (h : sql ∈ Stage.quietTexts .replication) : Quiet .replication ⟨⟨sql, args⟩, resp⟩ :=
  Sig_text h

theorem getReplicationStatus_ext {σ : Type} (c : MySQLCollector σ) (info : ReplicationInfo)
    (w : World σ) : Extends (Quiet .replication) w (getReplicationStatus c info w).2 := by
  unfold getReplicationStatus
  dsimp only
  refine Extends.trans ?_ (Extends_Query _ _ _ _ _ (fun _ => replication_text (by decide)))
  refine Extends.trans ?_ (Extends_QueryRowScan _ _ _ _ _ _ (fun _ => replication_text (by decide)))
  refine Extends.trans ?_ (Extends_QueryRowScan _ _ _ _ _ _ (fun _ => replication_text (by decide)))
  refine Extends.trans ?_ (Extends_QueryRowScan _ _ _ _ _ _ (fun _ => replication_text (by decide)))
  refine Extends.trans ?_ (Extends_QueryRowScan _ _ _ _ _ _ (fun _ => replication_text (by decide)))
  exact Extends_QueryRowScan _ _ _ _ _ _ (fun _ => replication_text (by decide))

theorem getReplicaStatus_ext {σ : Type} (c : MySQLCollector σ) (info : ReplicationInfo)
    (w : World σ) : Extends (Quiet .replication) w (getReplicaStatus c info w).2 := by
  have h1 := Extends_Query (Quiet .replication) c.db "SHOW REPLICA STATUS" [] w
    (fun _ => replication_text (by decide))
  have hr : Extends (Quiet .replication) w
      (match (c.db.Query "SHOW REPLICA STATUS" [] w).1 with
        | .ok _ => c.db.Query "SHOW REPLICA STATUS" [] w
        | .error _ => c.db.Query "SHOW SLAVE STATUS" [] (c.db.Query "SHOW REPLICA STATUS" [] w).2).2 := by
    split
    · exact h1
    · exact h1.trans (Extends_Query _ _ _ _ _ (fun _ => replication_text (by decide)))
  unfold getReplicaStatus
  dsimp only
  split <;> exact hr

theorem getSemiSyncStatus_ext {σ : Type} (c : MySQLCollector σ) (info : ReplicationInfo)
    (w : World σ) : Extends (Quiet .replication) w (getSemiSyncStatus c info w).2 := by
  unfold getSemiSyncStatus
  dsimp only
  refine Extends.trans ?_ (Extends_QueryRowScan _ _ _ _ _ _ (fun _ => replication_text (by decide)))
  exact Extends_QueryRowScan _ _ _ _ _ _ (fun _ => replication_text (by decide))

theorem getGroupReplicationInfo_ext {σ : Type} (c : MySQLCollector σ) (info : ReplicationInfo)
    (w : World σ) : Extends (Quiet .replication) w (getGroupReplicationInfo c info w).2 := by
  unfold getGroupReplicationInfo
  dsimp only
  refine Extends.trans ?_ (Extends_QueryRowScan _ _ _ _ _ _ (fun _ => replication_text (by decide)))
  refine Extends.trans ?_ (Extends_QueryRowScan _ _ _ _ _ _ (fun _ => replication_text (by decide)))
  exact Extends_QueryRowScan _ _ _ _ _ _ (fun _ => replication_text (by decide))

theorem collectReplicationInfo_ext {σ : Type} (c : MySQLCollector σ) (info : DatabaseInfo)
    (w : World σ) : Extends (Quiet .replication) w (collectReplicationInfo c info w).2 := by
  unfold collectReplicationInfo
  dsimp only
  split
  all_goals
    dsimp only
    refine Extends.trans ?_ (getGroupReplicationInfo_ext _ _ _)
    refine Extends.trans ?_ (getSemiSyncStatus_ext _ _ _)
    refine Extends.trans ?_ (getReplicaStatus_ext _ _ _)
    exact getReplicationStatus_ext _ _ _

theorem collectReplicationInfo_ok {σ : Type} (c : MySQLCollector σ) (info : DatabaseInfo)
    (w : World σ) : succeeded (collectReplicationInfo c info w).1 = true := by
  unfold collectReplicationInfo
  dsimp only
  split <;> rfl

theorem stageRun_trace {σ : Type} (rt : Runtime) (c : MySQLCollector σ) (st : Stage)
    (info : DatabaseInfo) (w : World σ) :
    ∃ evs, (stageRun rt c st info w).2.log = w.log ++ evs ∧
      StageTrace (Quiet st) (Stage.primary c.version st) (stageRun rt c st info w).1 evs := by
  have hskip : ∀ st' : Stage, ∃ evs, ((Except.ok info, w) : Except String DatabaseInfo × World σ).2.log
      = w.log ++ evs ∧ StageTrace (Quiet st') (Stage.primary c.version st')
        ((Except.ok info, w) : Except String DatabaseInfo × World σ).1 evs :=
    fun st' => StageTrace_quiet (Extends.refl _ w) rfl
  cases st <;> simp only [stageRun]
  · exact collectConnectionInfo_trace c info w
  · split
    · exact collectTables_trace rt c info w
    · exact hskip _
  · split
    · exact collectUsers_trace c info w
    · exact hskip _
  · split
    · exact StageTrace_quiet (collectMySQL8Features_ext c info w) (collectMySQL8Features_ok c info w)
    · exact hskip _
  · split
    · exact collectRoutines_trace rt c info w
    · exact hskip _
  · split
    · exact collectVariables_trace rt c info w
    · exact hskip _
  · split
    · exact collectPlugins_trace c info w
    · exact hskip _
  · split
    · exact collectComponents_trace c info w
    · exact hskip _
  · split
    · exact StageTrace_quiet (collectReplicationInfo_ext c info w) (collectReplicationInfo_ok c info w)
    · exact hskip _

theorem sig_not_mem (T P bad : List String) (h1 : ∀ t ∈ T, t ∉ bad)
    (h2 : ∀ p ∈ P, ∀ b ∈ bad, ¬ p.data <+: b.data) (ev : Event) (h : Sig T P ev) :
    ev.call.sql ∉ bad := by
  intro hb
  rcases h with h | ⟨p, hp, hpre⟩
  · exact h1 _ h hb
  · exact h2 p hp _ hb hpre

set_option maxRecDepth 100000 in
theorem quiet_not_primary (st : Stage) (ev : Event) (h : Quiet st ev) :
    ev.call.sql ∉ primaryTexts := by
  cases st <;> exact sig_not_mem _ _ _ (by decide) (by decide) ev h

set_option maxRecDepth 100000 in
theorem primary_mem (v : MySQLVersion) (st : Stage) (sql : String)
    (h : Stage.primary v st = some sql) : sql ∈ primaryTexts := by
  cases st <;> simp only [Stage.primary, Option.some.injEq] at h <;> try (subst h; decide)
  · subst h
    split <;> decide
  · cases h
  · cases h

theorem quiet_not_fatal (st : Stage) (ev : Event) (h : Quiet st ev) : ¬ ev.isFatal :=
  fun hf => quiet_not_primary st ev h hf.1

theorem StageTrace.outcome {α : Type} {v : MySQLVersion} {st : Stage} {r : Except String α}
    {evs : List Event} (h : StageTrace (Quiet st) (Stage.primary v st) r evs) : Outcome r evs := by
  obtain ⟨q1, q2, hq1, hq2, h⟩ := h
  rcases h with ⟨rfl, hr⟩ | ⟨sql, args, resp, hp, rfl, hfail, hok⟩
  · exact Or.inl ⟨hr, fun ev hev => quiet_not_fatal st ev (hq1 ev hev)⟩
  · cases hf : primaryFails sql resp with
    | true =>
      obtain ⟨rfl, hr⟩ := hfail hf
      exact Or.inr ⟨hr, q1, _, rfl, ⟨primary_mem v st sql hp, hf⟩,
        fun ev hev => quiet_not_fatal st ev (hq1 ev hev)⟩
    | false =>
      refine Or.inl ⟨hok hf, ?_⟩
      intro ev hev
      rcases List.mem_append.mp hev with h | h
      · exact quiet_not_fatal st ev (hq1 ev h)
      · rcases List.mem_cons.mp h with h | h
        · subst h
          intro hfat
          have := hfat.2
          simp only [hf] at this
          cases this
        · exact quiet_not_fatal st ev (hq2 ev h)

theorem primarySqls_append (l1 l2 : List Event) :
    primarySqls (l1 ++ l2) = primarySqls l1 ++ primarySqls l2 := by
  simp [primarySqls]

theorem primarySqls_quiet (st : Stage) (l : List Event) (h : ∀ ev ∈ l, Quiet st ev) :
    primarySqls l = [] := by
  induction l with
  | nil => rfl
  | cons x xs ih =>
    have hx := quiet_not_primary st x (h x (List.mem_cons_self _ _))
    have := ih (fun ev hev => h ev (List.mem_cons_of_mem _ hev))
    simp only [primarySqls, List.map_cons, List.filter_cons, hx, decide_False] at this ⊢
    simpa using this

theorem StageTrace.order {α : Type} {v : MySQLVersion} {st : Stage} {r : Except String α}
    {evs : List Event} (h : StageTrace (Quiet st) (Stage.primary v st) r evs) :
    List.Sublist (primarySqls evs) (Stage.primary v st).toList := by
  obtain ⟨q1, q2, hq1, hq2, h⟩ := h
  rcases h with ⟨rfl, -⟩ | ⟨sql, args, resp, hp, rfl, -, -⟩
  · rw [primarySqls_quiet st _ hq1]
    exact List.nil_sublist _
  · have e : q1 ++ (⟨⟨sql, args⟩, resp⟩ : Event) :: q2 = q1 ++ ([⟨⟨sql, args⟩, resp⟩] ++ q2) := rfl
    rw [e, primarySqls_append, primarySqls_append, primarySqls_quiet st _ hq1,
      primarySqls_quiet st _ hq2, hp]
    have hm := primary_mem v st sql hp
    simp [primarySqls, hm]

theorem succeeded_eq_false {α : Type} {r : Except String α} (h : succeeded r = false) :
    ∃ e, r = .error e := by
  cases r with
  | error e => exact ⟨e, rfl⟩
  | ok a => cases h

theorem succeeded_eq_true {α : Type} {r : Except String α} (h : succeeded r = true) :
    ∃ a, r = .ok a := by
  cases r with
  | error e => cases h
  | ok a => exact ⟨a, rfl⟩

theorem runStages_outcome {σ : Type} (rt : Runtime) (c : MySQLCollector σ) :
    ∀ (stages : List Stage) (info : DatabaseInfo) (w : World σ),
      ∃ evs, (runStages rt c stages info w).2.log = w.log ++ evs ∧
        Outcome (runStages rt c stages info w).1 evs ∧
        List.Sublist (primarySqls evs) (stages.filterMap (Stage.primary c.version)) := by
  intro stages
  induction stages with
  | nil =>
    intro info w
    exact ⟨[], by simp [runStages], Or.inl ⟨rfl, by simp⟩, by simp [primarySqls]⟩
  | cons st rest ih =>
    intro info w
    obtain ⟨evs1, hl1, ht1⟩ := stageRun_trace rt c st info w
    have ho1 := ht1.outcome
    have hord1 := ht1.order
    have hcons : (st :: rest).filterMap (Stage.primary c.version)
        = (Stage.primary c.version st).toList ++ rest.filterMap (Stage.primary c.version) := by
      cases hp : Stage.primary c.version st <;> simp [List.filterMap_cons, hp]
    simp only [runStages]
    cases hr : (stageRun rt c st info w).1 with
    | error e =>
      simp only
      refine ⟨evs1, hl1, ?_, ?_⟩
      · rcases ho1 with ⟨hs, -⟩ | ⟨-, hx⟩
        · rw [hr] at hs; cases hs
        · exact Or.inr ⟨rfl, hx⟩
      · rw [hcons]
        exact hord1.trans (List.sublist_append_left _ _)
    | ok info1 =>
      simp only
      obtain ⟨evs2, hl2, ho2, hord2⟩ := ih info1 (stageRun rt c st info w).2
      have hq1 : ∀ ev ∈ evs1, ¬ ev.isFatal := by
        rcases ho1 with ⟨-, hq⟩ | ⟨hs, -⟩
        · exact hq
        · rw [hr] at hs; cases hs
      refine ⟨evs1 ++ evs2, by rw [hl2, hl1, List.append_assoc], ?_, ?_⟩
      · rcases ho2 with ⟨hs, hq2⟩ | ⟨hs, l, ev, he, hfat, hl⟩
        · refine Or.inl ⟨hs, ?_⟩
          intro ev hev
          rcases List.mem_append.mp hev with h | h
          · exact hq1 ev h
          · exact hq2 ev h
        · refine Or.inr ⟨hs, evs1 ++ l, ev, by rw [he, List.append_assoc], hfat, ?_⟩
          intro ev1 hev
          rcases List.mem_append.mp hev with h | h
          · exact hq1 ev1 h
          · exact hl ev1 h
      · rw [hcons, primarySqls_append]
        exact hord1.append hord2

theorem stageRun_disabled {σ : Type} (rt : Runtime) (c : MySQLCollector σ) (st : Stage)
    (info : DatabaseInfo) (w : World σ) (h : Stage.enabled c st = false) :
    stageRun rt c st info w = (.ok info, w) := by
  cases st <;> simp only [Stage.enabled] at h <;> simp only [stageRun, h] <;> first | rfl | cases h

theorem StageTrace.mem {α : Type} {Q : Event → Prop} {p : Option String} {r : Except String α}
    {evs : List Event} (h : StageTrace Q p r evs) :
    ∀ ev ∈ evs, Q ev ∨ p = some ev.call.sql := by
  obtain ⟨q1, q2, hq1, hq2, h⟩ := h
  rcases h with ⟨rfl, -⟩ | ⟨sql, args, resp, hp, rfl, -, -⟩
  · exact fun ev hev => Or.inl (hq1 ev hev)
  · intro ev hev
    rcases List.mem_append.mp hev with h | h
    · exact Or.inl (hq1 ev h)
    · rcases List.mem_cons.mp h with h | h
      · subst h; exact Or.inr hp
      · exact Or.inl (hq2 ev h)

theorem runStages_events {σ : Type} (rt : Runtime) (c : MySQLCollector σ) :
    ∀ (stages : List Stage) (info : DatabaseInfo) (w : World σ),
      ∃ evs, (runStages rt c stages info w).2.log = w.log ++ evs ∧
        ∀ ev ∈ evs, ∃ st ∈ stages, Stage.enabled c st = true ∧
          (Quiet st ev ∨ Stage.primary c.version st = some ev.call.sql) := by
  intro stages
  induction stages with
  | nil => intro info w; exact ⟨[], by simp [runStages], by simp⟩
  | cons st rest ih =>
    intro info w
    obtain ⟨evs1, hl1, ht1⟩ := stageRun_trace rt c st info w
    have hm1 : ∀ ev ∈ evs1, ∃ st1 ∈ st :: rest, Stage.enabled c st1 = true ∧
        (Quiet st1 ev ∨ Stage.primary c.version st1 = some ev.call.sql) := by
      intro ev hev
      cases hen : Stage.enabled c st with
      | true => exact ⟨st, List.mem_cons_self _ _, hen, ht1.mem ev hev⟩
      | false =>
        rw [stageRun_disabled rt c st info w hen] at hl1
        have : evs1 = [] := by simpa using hl1
        rw [this] at hev
        cases hev
    simp only [runStages]
    cases hr : (stageRun rt c st info w).1 with
    | error e => exact ⟨evs1, hl1, hm1⟩
    | ok info1 =>
      simp only
      obtain ⟨evs2, hl2, hm2⟩ := ih info1 (stageRun rt c st info w).2
      refine ⟨evs1 ++ evs2, by rw [hl2, hl1, List.append_assoc], ?_⟩
      intro ev hev
      rcases List.mem_append.mp hev with h | h
      · exact hm1 ev h
      · obtain ⟨st1, hst1, hx⟩ := hm2 ev h
        exact ⟨st1, List.mem_cons_of_mem _ hst1, hx⟩

theorem runStages_ok_stage {σ : Type} (rt : Runtime) (c : MySQLCollector σ) :
    ∀ (stages : List Stage) (info : DatabaseInfo) (w : World σ) (infoF : DatabaseInfo),
      (runStages rt c stages info w).1 = .ok infoF →
      ∀ st ∈ stages, ∃ info1 w1 pre post, w1.log = w.log ++ pre ∧
        (runStages rt c stages info w).2.log = (stageRun rt c st info1 w1).2.log ++ post := by
  intro stages
  induction stages with
  | nil => intro info w infoF _ st hst; cases hst
  | cons s rest ih =>
    intro info w infoF hok st hst
    obtain ⟨evs1, hl1, -⟩ := stageRun_trace rt c s info w
    simp only [runStages] at hok ⊢
    cases hr : (stageRun rt c s info w).1 with
    | error e => rw [hr] at hok; cases hok
    | ok info1 =>
      rw [hr] at hok
      simp only at hok ⊢
      obtain ⟨evs2, hl2, -⟩ := runStages_events rt c rest info1 (stageRun rt c s info w).2
      rcases List.mem_cons.mp hst with h | h
      · subst h
        exact ⟨info, w, [], evs2, by simp, hl2⟩
      · obtain ⟨i1, w1, pre, post, hp, hq⟩ := ih info1 _ infoF hok st h
        exact ⟨i1, w1, evs1 ++ pre, post, by rw [hp, hl1, List.append_assoc], hq⟩

theorem collectTablesLoop_keeps {σ : Type} (rt : Runtime) (c : MySQLCollector σ) :
    ∀ (databases : List String) (info : DatabaseInfo) (w : World σ),
      (collectTablesLoop rt c databases info w).1.Roles = info.Roles ∧
      (collectTablesLoop rt c databases info w).1.Components = info.Components := by
  intro databases
  induction databases with
  | nil => intro info w; exact ⟨rfl, rfl⟩
  | cons d ds ih =>
    intro info w
    simp only [collectTablesLoop]
    split
    · exact ih _ _
    · exact ih _ _

theorem collectUsersLoop_keeps {σ : Type} (c : MySQLCollector σ) :
    ∀ (rows : List Row) (info : DatabaseInfo) (w : World σ),
      (collectUsersLoop c rows info w).1.Roles = info.Roles ∧
      (collectUsersLoop c rows info w).1.Components = info.Components := by
  intro rows
  induction rows with
  | nil => intro info w; exact ⟨rfl, rfl⟩
  | cons row rows ih =>
    intro info w
    simp only [collectUsersLoop]
    split
    · exact ih _ _
    · split
      · exact ih _ _
      · exact ih _ _

theorem collectRoutinesLoop_keeps {σ : Type} (rt : Runtime) (c : MySQLCollector σ) :
    ∀ (rows : List Row) (info : DatabaseInfo) (w : World σ),
      (collectRoutinesLoop rt c rows info w).1.Roles = info.Roles ∧
      (collectRoutinesLoop rt c rows info w).1.Components = info.Components := by
  intro rows
  induction rows with
  | nil => intro info w; exact ⟨rfl, rfl⟩
  | cons row rows ih =>
    intro info w
    simp only [collectRoutinesLoop]
    split
    · exact ih _ _
    · split
      · exact ih _ _
      · exact ih _ _

theorem commonVarsLoop_keeps {σ : Type} (c : MySQLCollector σ) :
    ∀ (entries : List (String × String)) (info : DatabaseInfo) (w : World σ),
      (commonVarsLoop c entries info w).1.Roles = info.Roles ∧
      (commonVarsLoop c entries info w).1.Components = info.Components := by
  intro entries
  induction entries with
  | nil => intro info w; exact ⟨rfl, rfl⟩
  | cons e es ih =>
    intro info w
    obtain ⟨varName, defaultValue⟩ := e
    simp only [commonVarsLoop]
    split
    · exact ih _ _
    · split
      · exact ih _ _
      · exact ih _ _

theorem collectTables_keeps {σ : Type} (rt : Runtime) (c : MySQLCollector σ)
    (info info1 : DatabaseInfo) (w : World σ) (h : (collectTables rt c info w).1 = .ok info1) :
    info1.Roles = info.Roles ∧ info1.Components = info.Components := by
  unfold collectTables at h
  dsimp only at h
  split at h
  · cases h
  · simp only [Except.ok.injEq] at h
    rw [← h]
    exact collectTablesLoop_keeps rt c _ _ _

theorem collectUsers_keeps {σ : Type} (c : MySQLCollector σ)
    (info info1 : DatabaseInfo) (w : World σ) (h : (collectUsers c info w).1 = .ok info1) :
    info1.Roles = info.Roles ∧ info1.Components = info.Components := by
  unfold collectUsers at h
  dsimp only at h
  split at h
  · cases h
  · simp only [Except.ok.injEq] at h
    rw [← h]
    exact collectUsersLoop_keeps c _ _ _

theorem collectRoutines_keeps {σ : Type} (rt : Runtime) (c : MySQLCollector σ)
    (info info1 : DatabaseInfo) (w : World σ) (h : (collectRoutines rt c info w).1 = .ok info1) :
    info1.Roles = info.Roles ∧ info1.Components = info.Components := by
  unfold collectRoutines at h
  dsimp only at h
  split at h
  · cases h
  · simp only [Except.ok.injEq] at h
    rw [← h]
    exact collectRoutinesLoop_keeps rt c _ _ _

theorem collectCommonModifiedVariables_keeps {σ : Type} (rt : Runtime) (c : MySQLCollector σ)
    (info info1 : DatabaseInfo) (w : World σ)
    (h : (collectCommonModifiedVariables rt c info w).1 = .ok info1) :
    info1.Roles = info.Roles ∧ info1.Components = info.Components := by
  unfold collectCommonModifiedVariables at h
  simp only [Except.ok.injEq] at h
  rw [← h]
  exact commonVarsLoop_keeps c _ _ _

theorem collectVariablesFromShowVariables_keeps {σ : Type} (rt : Runtime) (c : MySQLCollector σ)
    (info info1 : DatabaseInfo) (w : World σ)
    (h : (collectVariablesFromShowVariables rt c info w).1 = .ok info1) :
    info1.Roles = info.Roles ∧ info1.Components = info.Components := by
  unfold collectVariablesFromShowVariables at h
  split at h
  · exact collectCommonModifiedVariables_keeps rt c info info1 w h
  · dsimp only at h
    split at h
    · cases h
    · simp only [Except.ok.injEq] at h
      rw [← h]
      exact ⟨rfl, rfl⟩

theorem collectVariablesFromInformationSchema_keeps {σ : Type} (rt : Runtime)
    (c : MySQLCollector σ) (info info1 : DatabaseInfo) (w : World σ)
    (h : (collectVariablesFromInformationSchema rt c info w).1 = .ok info1) :
    info1.Roles = info.Roles ∧ info1.Components = info.Components := by
  unfold collectVariablesFromInformationSchema at h
  split at h
  · exact collectCommonModifiedVariables_keeps rt c info info1 w h
  · dsimp only at h
    split at h
    · exact collectVariablesFromShowVariables_keeps rt c info info1 _ h
    · simp only [Except.ok.injEq] at h
      rw [← h]
      exact ⟨rfl, rfl⟩

theorem collectVariables_keeps {σ : Type} (rt : Runtime) (c : MySQLCollector σ)
    (info info1 : DatabaseInfo) (w : World σ) (h : (collectVariables rt c info w).1 = .ok info1) :
    info1.Roles = info.Roles ∧ info1.Components = info.Components := by
  unfold collectVariables at h
  split at h
  · unfold collectVariablesFromPerformanceSchema at h
    dsimp only at h
    split at h
    · exact collectVariablesFromInformationSchema_keeps rt c info info1 _ h
    · simp only [Except.ok.injEq] at h
      rw [← h]
      exact ⟨rfl, rfl⟩
  · exact collectVariablesFromInformationSchema_keeps rt c info info1 w h

theorem collectPlugins_keeps {σ : Type} (c : MySQLCollector σ)
    (info info1 : DatabaseInfo) (w : World σ) (h : (collectPlugins c info w).1 = .ok info1) :
    info1.Roles = info.Roles ∧ info1.Components = info.Components := by
  unfold collectPlugins at h
  dsimp only at h
  split at h
  · cases h
  · simp only [Except.ok.injEq] at h
    rw [← h]
    exact ⟨rfl, rfl⟩

theorem collectReplicationInfo_keeps {σ : Type} (c : MySQLCollector σ)
    (info info1 : DatabaseInfo) (w : World σ)
    (h : (collectReplicationInfo c info w).1 = .ok info1) :
    info1.Roles = info.Roles ∧ info1.Components = info.Components := by
  unfold collectReplicationInfo at h
  dsimp only at h
  split at h
  · simp only [Except.ok.injEq] at h
    rw [← h]
    exact ⟨rfl, rfl⟩
  · simp only [Except.ok.injEq] at h
    rw [← h]
    exact ⟨rfl, rfl⟩

theorem collectConnectionInfo_keeps {σ : Type} (c : MySQLCollector σ)
    (info info1 : DatabaseInfo) (w : World σ)
    (h : (collectConnectionInfo c info w).1 = .ok info1) :
    info1.Roles = info.Roles ∧ info1.Components = info.Components := by
  unfold collectConnectionInfo at h
  dsimp only at h
  split at h
  · cases h
  · simp only [Except.ok.injEq] at h
    rw [← h]
    exact ⟨rfl, rfl⟩

theorem stageRun_keeps {σ : Type} (rt : Runtime) (c : MySQLCollector σ)
    (h8 : c.version.IsMySQL8OrLater = false) (st : Stage) (info info1 : DatabaseInfo)
    (w : World σ) (h : (stageRun rt c st info w).1 = .ok info1) :
    info1.Roles = info.Roles ∧ info1.Components = info.Components := by
  have hid : ((Except.ok info, w) : Except String DatabaseInfo × World σ).1 = .ok info1 →
      info1.Roles = info.Roles ∧ info1.Components = info.Components := by
    intro h
    simp only [Except.ok.injEq] at h
    rw [← h]
    exact ⟨rfl, rfl⟩
  cases st <;> simp only [stageRun, h8, Bool.and_false, Bool.false_eq_true, if_false] at h
  · exact collectConnectionInfo_keeps c info info1 w h
  · split at h
    · exact collectTables_keeps rt c info info1 w h
    · exact hid h
  · split at h
    · exact collectUsers_keeps c info info1 w h
    · exact hid h
  · exact hid h
  · split at h
    · exact collectRoutines_keeps rt c info info1 w h
    · exact hid h
  · split at h
    · exact collectVariables_keeps rt c info info1 w h
    · exact hid h
  · split at h
    · exact collectPlugins_keeps c info info1 w h
    · exact hid h
  · exact hid h
  · split at h
    · exact collectReplicationInfo_keeps c info info1 w h
    · exact hid h

theorem runStages_keeps {σ : Type} (rt : Runtime) (c : MySQLCollector σ)
    (h8 : c.version.IsMySQL8OrLater = false) :
    ∀ (stages : List Stage) (info info1 : DatabaseInfo) (w : World σ),
      (runStages rt c stages info w).1 = .ok info1 →
      info1.Roles = info.Roles ∧ info1.Components = info.Components := by
  intro stages
  induction stages with
  | nil =>
    intro info info1 w h
    simp only [runStages, Except.ok.injEq] at h
    rw [← h]
    exact ⟨rfl, rfl⟩
  | cons st rest ih =>
    intro info info1 w h
    simp only [runStages] at h
    cases hr : (stageRun rt c st info w).1 with
    | error e => rw [hr] at h; cases h
    | ok info2 =>
      rw [hr] at h
      simp only at h
      obtain ⟨h1, h2⟩ := stageRun_keeps rt c h8 st info info2 w hr
      obtain ⟨h3, h4⟩ := ih info2 info1 _ h
      exact ⟨h3.trans h1, h4.trans h2⟩

set_option maxRecDepth 100000 in
theorem quiet_role_text (st : Stage) (ev : Event) (h : Quiet st ev)
    (hs : ev.call.sql ∈ [sqlRoles, sqlRoleMembers]) : st = .roles := by
  cases st
  case roles => rfl
  all_goals exact absurd hs (sig_not_mem _ _ _ (by decide) (by decide) ev h)

set_option maxRecDepth 100000 in
theorem primary_not_role_text (v : MySQLVersion) (st : Stage) (sql : String)
    (h : Stage.primary v st = some sql) : sql ∉ [sqlRoles, sqlRoleMembers] := by
  have hd : ∀ t ∈ primaryTexts, t ∉ [sqlRoles, sqlRoleMembers] := by decide
  exact hd sql (primary_mem v st sql h)

set_option maxRecDepth 100000 in
theorem primary_component_text (v : MySQLVersion) (st : Stage)
    (h : Stage.primary v st = some "SELECT * FROM mysql.component") : st = .components := by
  cases st
  case components => rfl
  case users =>
    simp only [Stage.primary, Option.some.injEq] at h
    split at h <;> exact absurd h (by decide)
  all_goals
    simp only [Stage.primary, Option.some.injEq] at h
    exact absurd h (by decide)

theorem collectMySQL8Features_first {σ : Type} (c : MySQLCollector σ) (info : DatabaseInfo)
    (w : World σ) :
    ∃ resp rest, (collectMySQL8Features c info w).2.log = w.log ++ ⟨⟨sqlRoles, []⟩, resp⟩ :: rest := by
  have hq := Query_log c.db sqlRoles [] w
  have hroles : ∃ rest, (collectRoles c info w).2.log
      = w.log ++ ⟨⟨sqlRoles, []⟩, (c.db.Query sqlRoles [] w).1⟩ :: rest := by
    unfold collectRoles
    dsimp only
    split
    · exact ⟨[], hq⟩
    · obtain ⟨evs, hl, -⟩ := collectRolesLoop_ext c (by assumption) info (c.db.Query sqlRoles [] w).2
      exact ⟨evs, by rw [hl, hq]; simp⟩
  obtain ⟨rest, hr⟩ := hroles
  refine ⟨(c.db.Query sqlRoles [] w).1, rest, ?_⟩
  unfold collectMySQL8Features
  dsimp only
  split <;> exact hr

theorem collectComponents_first {σ : Type} (c : MySQLCollector σ) (info : DatabaseInfo)
    (w : World σ) :
    ∃ resp rest, (collectComponents c info w).2.log
      = w.log ++ ⟨⟨"SELECT * FROM mysql.component", []⟩, resp⟩ :: rest := by
  have hq := Query_log c.db "SELECT * FROM mysql.component" [] w
  refine ⟨(c.db.Query "SELECT * FROM mysql.component" [] w).1, [], ?_⟩
  unfold collectComponents
  dsimp only
  split <;> exact hq

theorem runStages_ok_issues {σ : Type} (rt : Runtime) (c : MySQLCollector σ) (w : World σ)
    (infoF : DatabaseInfo) (evs : List Event)
    (hl : (runStages rt c stageOrder {} w).2.log = w.log ++ evs)
    (hok : (runStages rt c stageOrder {} w).1 = .ok infoF) (st : Stage) (hst : st ∈ stageOrder)
    (sql : String)
    (hfirst : ∀ (info : DatabaseInfo) (w1 : World σ), ∃ resp rest,
      (stageRun rt c st info w1).2.log = w1.log ++ ⟨⟨sql, []⟩, resp⟩ :: rest) :
    ∃ ev ∈ evs, ev.call.sql = sql := by
  obtain ⟨info1, w1, pre, post, hp, hq⟩ := runStages_ok_stage rt c stageOrder {} w infoF hok st hst
  obtain ⟨resp, rest, hf⟩ := hfirst info1 w1
  rw [hq, hf, hp] at hl
  have : evs = pre ++ ⟨⟨sql, []⟩, resp⟩ :: (rest ++ post) := by
    have h2 : w.log ++ (pre ++ ⟨⟨sql, []⟩, resp⟩ :: (rest ++ post)) = w.log ++ evs := by
      rw [← hl]; simp
    exact (List.append_cancel_left h2).symm
  exact ⟨⟨⟨sql, []⟩, resp⟩, by rw [this]; simp, rfl⟩

theorem commonVarsLoop_probes {σ : Type} (c : MySQLCollector σ) :
    ∀ (entries : List (String × String)) (info : DatabaseInfo) (w : World σ),
      Extends (fun ev => ev.call.sql = sqlVariableProbe) w (commonVarsLoop c entries info w).2 := by
  intro entries
  induction entries with
  | nil => intro info w; exact Extends.refl _ _
  | cons e es ih =>
    intro info w
    obtain ⟨varName, defaultValue⟩ := e
    have hq : ∀ w1 : World σ, Extends (fun ev => ev.call.sql = sqlVariableProbe) w1
        (c.db.QueryRowScan sqlVariableProbe [varName] scanString1 w1).2 := fun w1 =>
      Extends_QueryRowScan _ c.db sqlVariableProbe [varName] scanString1 w1 (fun _ => rfl)
    have hr : Extends (fun ev => ev.call.sql = sqlVariableProbe) w
        (match (c.db.QueryRowScan sqlVariableProbe [varName] scanString1 w).1 with
          | .ok _ => c.db.QueryRowScan sqlVariableProbe [varName] scanString1 w
          | .error _ => c.db.QueryRowScan sqlVariableProbe [varName] scanString1
              (c.db.QueryRowScan sqlVariableProbe [varName] scanString1 w).2).2 := by
      split
      · exact hq w
      · exact (hq w).trans (hq _)
    simp only [commonVarsLoop]
    split
    · exact hr.trans (ih _ _)
    · split
      · exact hr.trans (ih _ _)
      · exact hr.trans (ih _ _)

theorem collectVariablesFromInformationSchema_shape {σ : Type} (rt : Runtime)
    (c : MySQLCollector σ) (info : DatabaseInfo) (w0 w : World σ) (pre : List Event)
    (hpre : FailedProvenance c pre) (hl : w.log = w0.log ++ pre) :
    ∃ evs, (collectVariablesFromInformationSchema rt c info w).2.log = w0.log ++ evs ∧
      VariablesShape c info (collectVariablesFromInformationSchema rt c info w).1 evs := by
  unfold collectVariablesFromInformationSchema
  split
  · obtain ⟨probes, hp, hq⟩ := commonVarsLoop_probes c rt.commonVarsOrder info w
    refine ⟨pre ++ probes, ?_, Or.inr ⟨pre, hpre, Or.inr (Or.inr ⟨probes, rfl, hq⟩)⟩⟩
    show (commonVarsLoop c rt.commonVarsOrder info w).2.log = _
    rw [hp, hl, List.append_assoc]
  · have hq := Query_log c.db sqlGlobalVariables [] w
    dsimp only
    cases hr : (c.db.Query sqlGlobalVariables [] w).1 with
    | ok rows =>
      refine ⟨pre ++ [⟨⟨sqlGlobalVariables, []⟩, .ok rows⟩], ?_,
        Or.inr ⟨pre, hpre, Or.inl ⟨rows, rfl, rfl⟩⟩⟩
      show (c.db.Query sqlGlobalVariables [] w).2.log = _
      rw [hq, hl, hr, List.append_assoc]
    | error e =>
      have hq2 := Query_log c.db "SHOW VARIABLES" [] (c.db.Query sqlGlobalVariables [] w).2
      refine ⟨pre ++ [⟨⟨sqlGlobalVariables, []⟩, .error e⟩,
        ⟨⟨"SHOW VARIABLES", []⟩, (c.db.Query "SHOW VARIABLES" []
          (c.db.Query sqlGlobalVariables [] w).2).1⟩], ?_,
        Or.inr ⟨pre, hpre, Or.inr (Or.inl ⟨e, _, rfl⟩)⟩⟩
      simp only
      unfold collectVariablesFromShowVariables
      rw [if_neg (by assumption)]
      dsimp only
      split
      · show (c.db.Query "SHOW VARIABLES" [] (c.db.Query sqlGlobalVariables [] w).2).2.log = _
        rw [hq2, hq, hl, hr]; simp
      · show (c.db.Query "SHOW VARIABLES" [] (c.db.Query sqlGlobalVariables [] w).2).2.log = _
        rw [hq2, hq, hl, hr]; simp

theorem collectVariables_shape {σ : Type} (rt : Runtime) (c : MySQLCollector σ)
    (info : DatabaseInfo) (w : World σ) :
    ∃ evs, (collectVariables rt c info w).2.log = w.log ++ evs ∧
      VariablesShape c info (collectVariables rt c info w).1 evs := by
  unfold collectVariables
  split
  · have hq := Query_log c.db (provenanceQuery c) [] w
    unfold collectVariablesFromPerformanceSchema
    dsimp only
    cases hr : (c.db.Query (provenanceQuery c) [] w).1 with
    | ok rows =>
      have hr1 : (c.db.Query (if c.config.OnlyModifiedVariables = true then sqlVariablesModified
          else sqlVariablesAll) [] w).1 = .ok rows := hr
      rw [hr1]
      refine ⟨[⟨⟨provenanceQuery c, []⟩, .ok rows⟩], ?_, Or.inl ⟨rows, rfl, rfl⟩⟩
      show (c.db.Query (provenanceQuery c) [] w).2.log = _
      rw [hq, hr]
    | error e =>
      have hr1 : (c.db.Query (if c.config.OnlyModifiedVariables = true then sqlVariablesModified
          else sqlVariablesAll) [] w).1 = .error e := hr
      rw [hr1]
      exact collectVariablesFromInformationSchema_shape rt c info w _
        [⟨⟨provenanceQuery c, []⟩, .error e⟩] (Or.inr ⟨e, rfl⟩) (by
          show (c.db.Query (provenanceQuery c) [] w).2.log = _
          rw [hq, hr])
  · exact collectVariablesFromInformationSchema_shape rt c info w w [] (Or.inl rfl) (by simp)

theorem mem_of_split_before_last {α : Type} {pre l l2 : List α} {x ev : α}
    (h : pre ++ [x] = l ++ ev :: l2) (hne : l2 ≠ []) : ev ∈ pre := by
  have h1 : (pre ++ [x]).dropLast = (l ++ ev :: l2).dropLast := by rw [h]
  rw [List.dropLast_concat] at h1
  have h2 : (l ++ ev :: l2).dropLast = l ++ ev :: l2.dropLast := by
    rw [List.dropLast_append_of_ne_nil _ (by simp), List.dropLast_cons_of_ne_nil hne]
  rw [h1, h2]
  simp

theorem failedProvenance_mem {σ : Type} {c : MySQLCollector σ} {pre : List Event}
    (h : FailedProvenance c pre) {ev : Event} (hev : ev ∈ pre) :
    ev.call.sql = provenanceQuery c ∧ succeeded ev.resp = false := by
  rcases h with rfl | ⟨e, rfl⟩
  · cases hev
  · simp only [List.mem_singleton] at hev
    subst hev
    exact ⟨rfl, rfl⟩

set_option maxRecDepth 100000 in
theorem provenanceQuery_ne {σ : Type} (c : MySQLCollector σ) :
    provenanceQuery c ≠ sqlGlobalVariables ∧ provenanceQuery c ≠ "SHOW VARIABLES" := by
  unfold provenanceQuery
  split <;> exact ⟨by decide, by decide⟩

theorem commonVarsLoop_result {σ : Type} (c : MySQLCollector σ) (resp : String → Response)
    (hresp : ∀ n s, (c.db.exec { sql := sqlVariableProbe, args := [n] } s).1 = resp n) :
    ∀ (entries : List (String × String)) (info : DatabaseInfo) (w : World σ),
      (commonVarsLoop c entries info w).1 =
        { info with Variables := info.Variables ++ entries.filterMap (probeEntry resp) } := by
  intro entries
  induction entries with
  | nil => intro info w; simp [commonVarsLoop]
  | cons e es ih =>
    intro info w
    obtain ⟨varName, defaultValue⟩ := e
    have hq : ∀ w1 : World σ, (c.db.QueryRowScan sqlVariableProbe [varName] scanString1 w1).1
        = scanFirst scanString1 (resp varName) := by
      intro w1
      rw [QueryRowScan_fst]
      show scanFirst scanString1 (c.db.exec _ w1.server).1 = _
      rw [hresp]
    have hr : (match (c.db.QueryRowScan sqlVariableProbe [varName] scanString1 w).1 with
          | .ok _ => c.db.QueryRowScan sqlVariableProbe [varName] scanString1 w
          | .error _ => c.db.QueryRowScan sqlVariableProbe [varName] scanString1
              (c.db.QueryRowScan sqlVariableProbe [varName] scanString1 w).2).1
        = scanFirst scanString1 (resp varName) := by
      split
      · exact hq w
      · exact hq _
    simp only [commonVarsLoop, List.filterMap_cons, probeEntry]
    rw [hr]
    cases hs : scanFirst scanString1 (resp varName) with
    | error e =>
      simp only
      rw [ih]
    | ok value =>
      simp only
      by_cases hv : value ≠ defaultValue
      · rw [if_pos hv, if_pos hv, ih]
        simp
      · rw [if_neg hv, if_neg hv, ih]

theorem probeEntry_name {resp : String → Response} {entry : String × String} {v : Variable}
    (h : probeEntry resp entry = some v) : v.Name = entry.1 := by
  unfold probeEntry at h
  split at h
  · split at h
    · simp only [Option.some.injEq] at h
      rw [← h]
    · cases h
  · cases h

theorem probeEntry_names_nodup (resp : String → Response) :
    ∀ entries : List (String × String), (entries.map Prod.fst).Nodup →
      ((entries.filterMap (probeEntry resp)).map (fun v => v.Name)).Nodup := by
  intro entries
  induction entries with
  | nil => intro _; simp
  | cons e es ih =>
    intro hnd
    simp only [List.map_cons, List.nodup_cons] at hnd
    obtain ⟨hnot, hrest⟩ := hnd
    simp only [List.filterMap_cons]
    cases hp : probeEntry resp e with
    | none => exact ih hrest
    | some v =>
      simp only [List.map_cons, List.nodup_cons]
      refine ⟨?_, ih hrest⟩
      intro hmem
      obtain ⟨v1, hv1, hname⟩ := List.mem_map.mp hmem
      obtain ⟨e1, he1, hpe1⟩ := List.mem_filterMap.mp hv1
      have h1 := probeEntry_name hpe1
      have h2 := probeEntry_name hp
      apply hnot
      rw [← h2, ← hname, h1]
      exact List.mem_map.mpr ⟨e1, he1, rfl⟩

theorem runStages_append {σ : Type} (rt : Runtime) (c : MySQLCollector σ) :
    ∀ (A B : List Stage) (info : DatabaseInfo) (w : World σ),
      runStages rt c (A ++ B) info w =
        match (runStages rt c A info w).1 with
        | .error e => (.error e, (runStages rt c A info w).2)
        | .ok info1 => runStages rt c B info1 (runStages rt c A info w).2 := by
  intro A
  induction A with
  | nil => intro B info w; rfl
  | cons st rest ih =>
    intro B info w
    simp only [List.cons_append, runStages]
    cases hr : (stageRun rt c st info w).1 with
    | error e => rfl
    | ok info1 => exact ih B info1 _

theorem runStages_reaches {σ : Type} (rt : Runtime) (c : MySQLCollector σ) (A B : List Stage)
    (st : Stage) (w : World σ) (evs : List Event)
    (hl : (runStages rt c (A ++ st :: B) {} w).2.log = w.log ++ evs)
    (hno : ∀ ev ∈ evs, ev.isFatal → ev.call.sql ∉ A.filterMap (Stage.primary c.version))
    (sql : String)
    (hfirst : ∀ (info : DatabaseInfo) (w1 : World σ), ∃ resp rest,
      (stageRun rt c st info w1).2.log = w1.log ++ ⟨⟨sql, []⟩, resp⟩ :: rest) :
    ∃ ev ∈ evs, ev.call.sql = sql := by
  obtain ⟨evsA, hlA, hoA, hordA⟩ := runStages_outcome rt c A {} w
  rw [runStages_append] at hl
  cases hr : (runStages rt c A {} w).1 with
  | error e =>
    rw [hr] at hl hoA
    simp only at hl
    have hevs : evs = evsA := by
      have : w.log ++ evs = w.log ++ evsA := by rw [← hl, ← hlA]
      exact List.append_cancel_left this
    rcases hoA with ⟨hs, -⟩ | ⟨-, l, ev, he, hfat, -⟩
    · cases hs
    · have hmem : ev ∈ evs := by rw [hevs, he]; simp
      have hin : ev.call.sql ∈ primarySqls evsA := by
        simp only [primarySqls, List.mem_filter, List.mem_map, decide_eq_true_eq]
        exact ⟨⟨ev, by rw [he]; simp, rfl⟩, hfat.1⟩
      exact absurd (hordA.subset hin) (hno ev hmem hfat)
  | ok info1 =>
    rw [hr] at hl
    simp only [runStages] at hl
    obtain ⟨resp, rest, hf⟩ := hfirst info1 (runStages rt c A {} w).2
    have hfin : ∃ post, w.log ++ evs
        = (stageRun rt c st info1 (runStages rt c A {} w).2).2.log ++ post := by
      cases hs : (stageRun rt c st info1 (runStages rt c A {} w).2).1 with
      | error e =>
        rw [hs] at hl
        exact ⟨[], by rw [← hl]; simp⟩
      | ok info2 =>
        rw [hs] at hl
        simp only at hl
        obtain ⟨evsB, hlB, -⟩ := runStages_events rt c B info2
          (stageRun rt c st info1 (runStages rt c A {} w).2).2
        exact ⟨evsB, by rw [← hl, hlB]⟩
    obtain ⟨post, hp⟩ := hfin
    rw [hf, hlA] at hp
    have hevs : evs = evsA ++ ⟨⟨sql, []⟩, resp⟩ :: (rest ++ post) := by
      have : w.log ++ evs = w.log ++ (evsA ++ ⟨⟨sql, []⟩, resp⟩ :: (rest ++ post)) := by
        rw [hp]; simp
      exact List.append_cancel_left this
    exact ⟨⟨⟨sql, []⟩, resp⟩, by rw [hevs]; simp, rfl⟩

theorem collectConnectionInfo_ok {σ : Type} (c : MySQLCollector σ) (info : DatabaseInfo)
    (w : World σ) (ver : String)
    (hq : scanFirst scanString1 (c.db.exec { sql := "SELECT VERSION()", args := [] } w.server).1
      = .ok ver) :
    collectConnectionInfo c info w =
      (.ok { info with
              ConnectionInfo := some { Host := c.config.Host, Port := c.config.Port,
                                       User := c.config.User, Database := c.config.Database,
                                       Version := ver } },
        (c.db.Query "SELECT VERSION()" [] w).2) := by
  have hq1 : (c.db.QueryRowScan "SELECT VERSION()" [] scanString1 w).1 = .ok ver := hq
  unfold collectConnectionInfo
  dsimp only
  rw [hq1]
  rfl

/-! ## The collection engine: the categories entered -/

theorem opens_then_extends {σ : Type} {Q : Event → Prop} {w w1 w2 : World σ} {ev : Event}
    (h1 : w1.log = w.log ++ [ev]) (h : Extends Q w1 w2) : ∃ rest, w2.log = w.log ++ ev :: rest := by
  obtain ⟨evs, hl, -⟩ := h
  exact ⟨evs, by rw [hl, h1]; simp⟩

theorem collectConnectionInfo_opens {σ : Type} (c : MySQLCollector σ) (info : DatabaseInfo)
    (w : World σ) :
    ∃ resp, (collectConnectionInfo c info w).2.log = w.log ++ [⟨⟨"SELECT VERSION()", []⟩, resp⟩] := by
  refine ⟨(c.db.Query "SELECT VERSION()" [] w).1, ?_⟩
  have hq := QueryRowScan_log c.db "SELECT VERSION()" [] scanString1 w
  unfold collectConnectionInfo
  dsimp only
  split <;> exact hq

theorem collectTables_opens {σ : Type} (rt : Runtime) (c : MySQLCollector σ) (info : DatabaseInfo)
    (w : World σ) :
    ∃ resp rest, (collectTables rt c info w).2.log
      = w.log ++ ⟨if c.config.Database ≠ "" then ⟨sqlTables, [c.config.Database]⟩
          else ⟨"SHOW DATABASES", []⟩, resp⟩ :: rest := by
  by_cases hd : c.config.Database ≠ ""
  · have hg : getDatabases c w = (.ok [c.config.Database], w) := by
      unfold getDatabases; rw [if_pos hd]
    have hq := Query_log c.db sqlTables [c.config.Database] w
    have h1 : ∃ rest, (getTablesForDatabase rt c c.config.Database w).2.log
        = w.log ++ ⟨⟨sqlTables, [c.config.Database]⟩,
            (c.db.Query sqlTables [c.config.Database] w).1⟩ :: rest := by
      unfold getTablesForDatabase
      dsimp only
      split
      · exact ⟨[], hq⟩
      · exact opens_then_extends hq (getTablesLoop_ext rt c _ _ _ _)
    obtain ⟨rest, h1⟩ := h1
    have h2 : ∃ rest, (collectTablesLoop rt c [c.config.Database] info w).2.log
        = w.log ++ ⟨⟨sqlTables, [c.config.Database]⟩,
            (c.db.Query sqlTables [c.config.Database] w).1⟩ :: rest := by
      simp only [collectTablesLoop]
      split <;> exact ⟨rest, h1⟩
    obtain ⟨rest2, h2⟩ := h2
    rw [if_pos hd]
    refine ⟨(c.db.Query sqlTables [c.config.Database] w).1, rest2, ?_⟩
    unfold collectTables
    rw [hg]
    exact h2
  · have hq := Query_log c.db "SHOW DATABASES" [] w
    have h1 : ∃ rest, (collectTables rt c info w).2.log
        = w.log ++ ⟨⟨"SHOW DATABASES", []⟩, (c.db.Query "SHOW DATABASES" [] w).1⟩ :: rest := by
      have hg : (getDatabases c w).2 = (c.db.Query "SHOW DATABASES" [] w).2 := by
        unfold getDatabases
        rw [if_neg hd]
        dsimp only
        split <;> rfl
      rw [← hg] at hq
      unfold collectTables
      dsimp only
      split
      · exact ⟨[], hq⟩
      · exact opens_then_extends hq (collectTablesLoop_ext rt c _ _ _)
    obtain ⟨rest, h1⟩ := h1
    rw [if_neg hd]
    exact ⟨_, rest, h1⟩

theorem collectUsers_opens {σ : Type} (c : MySQLCollector σ) (info : DatabaseInfo) (w : World σ) :
    ∃ resp rest, (collectUsers c info w).2.log
      = w.log ++ ⟨⟨if c.version.IsMySQL8OrLater then sqlUsersMySQL8 else sqlUsersLegacy, []⟩,
          resp⟩ :: rest := by
  have hq := Query_log c.db (if c.version.IsMySQL8OrLater then sqlUsersMySQL8 else sqlUsersLegacy)
    [] w
  have h1 : ∃ rest, (collectUsers c info w).2.log
      = w.log ++ ⟨⟨if c.version.IsMySQL8OrLater then sqlUsersMySQL8 else sqlUsersLegacy, []⟩,
          (c.db.Query (if c.version.IsMySQL8OrLater then sqlUsersMySQL8 else sqlUsersLegacy)
            [] w).1⟩ :: rest := by
    unfold collectUsers
    dsimp only
    split
    · exact ⟨[], hq⟩
    · exact opens_then_extends hq (collectUsersLoop_ext c _ _ _)
  obtain ⟨rest, h1⟩ := h1
  exact ⟨_, rest, h1⟩

theorem collectRoutines_opens {σ : Type} (rt : Runtime) (c : MySQLCollector σ)
    (info : DatabaseInfo) (w : World σ) :
    ∃ resp rest, (collectRoutines rt c info w).2.log
      = w.log ++ ⟨⟨sqlRoutines, []⟩, resp⟩ :: rest := by
  have hq := Query_log c.db sqlRoutines [] w
  have h1 : ∃ rest, (collectRoutines rt c info w).2.log
      = w.log ++ ⟨⟨sqlRoutines, []⟩, (c.db.Query sqlRoutines [] w).1⟩ :: rest := by
    unfold collectRoutines
    dsimp only
    split
    · exact ⟨[], hq⟩
    · exact opens_then_extends hq (collectRoutinesLoop_ext rt c _ _ _)
  obtain ⟨rest, h1⟩ := h1
  exact ⟨_, rest, h1⟩

theorem collectPlugins_opens {σ : Type} (c : MySQLCollector σ) (info : DatabaseInfo)
    (w : World σ) :
    ∃ resp rest, (collectPlugins c info w).2.log = w.log ++ ⟨⟨sqlPlugins, []⟩, resp⟩ :: rest := by
  have hq := Query_log c.db sqlPlugins [] w
  refine ⟨(c.db.Query sqlPlugins [] w).1, [], ?_⟩
  unfold collectPlugins
  dsimp only
  split <;> exact hq

theorem collectReplicationInfo_opens {σ : Type} (c : MySQLCollector σ) (info : DatabaseInfo)
    (w : World σ) :
    ∃ resp rest, (collectReplicationInfo c info w).2.log
      = w.log ++ ⟨⟨"SELECT @@server_id", []⟩, resp⟩ :: rest := by
  have hq := QueryRowScan_log c.db "SELECT @@server_id" [] scanInt1 w
  have h1 : Extends (Quiet .replication) (c.db.QueryRowScan "SELECT @@server_id" [] scanInt1 w).2
      (getReplicationStatus c {} w).2 := by
    unfold getReplicationStatus
    dsimp only
    refine Extends.trans ?_ (Extends_Query _ _ _ _ _ (fun _ => replication_text (by decide)))
    refine Extends.trans ?_ (Extends_QueryRowScan _ _ _ _ _ _ (fun _ => replication_text (by decide)))
    refine Extends.trans ?_ (Extends_QueryRowScan _ _ _ _ _ _ (fun _ => replication_text (by decide)))
    refine Extends.trans ?_ (Extends_QueryRowScan _ _ _ _ _ _ (fun _ => replication_text (by decide)))
    exact Extends_QueryRowScan _ _ _ _ _ _ (fun _ => replication_text (by decide))
  have h2 : Extends (Quiet .replication) (c.db.QueryRowScan "SELECT @@server_id" [] scanInt1 w).2
      (collectReplicationInfo c info w).2 := by
    refine h1.trans ?_
    unfold collectReplicationInfo
    dsimp only
    split
    all_goals
      dsimp only
      refine Extends.trans ?_ (getGroupReplicationInfo_ext _ _ _)
      refine Extends.trans ?_ (getSemiSyncStatus_ext _ _ _)
      exact getReplicaStatus_ext _ _ _
  obtain ⟨rest, h⟩ := opens_then_extends hq h2
  exact ⟨_, rest, h⟩

theorem opens_then_log {σ : Type} {w w1 w2 : World σ} {ev : Event}
    (h1 : w1.log = w.log ++ [ev]) (h : ∃ evs, w2.log = w1.log ++ evs) :
    ∃ rest, w2.log = w.log ++ ev :: rest := by
  obtain ⟨evs, hl⟩ := h
  exact ⟨evs, by rw [hl, h1]; simp⟩

theorem commonVarsLoop_opens {σ : Type} (c : MySQLCollector σ) (varName defaultValue : String)
    (es : List (String × String)) (info : DatabaseInfo) (w : World σ) :
    ∃ resp rest, (commonVarsLoop c ((varName, defaultValue) :: es) info w).2.log
      = w.log ++ ⟨⟨sqlVariableProbe, [varName]⟩, resp⟩ :: rest := by
  have hq := QueryRowScan_log c.db sqlVariableProbe [varName] scanString1 w
  have hr : Extends (Quiet .variables) (c.db.QueryRowScan sqlVariableProbe [varName] scanString1 w).2
      (match (c.db.QueryRowScan sqlVariableProbe [varName] scanString1 w).1 with
        | .ok _ => c.db.QueryRowScan sqlVariableProbe [varName] scanString1 w
        | .error _ => c.db.QueryRowScan sqlVariableProbe [varName] scanString1
            (c.db.QueryRowScan sqlVariableProbe [varName] scanString1 w).2).2 := by
    split
    · exact Extends.refl _ _
    · exact Extends_QueryRowScan (Quiet .variables) c.db sqlVariableProbe [varName] scanString1 _
        (fun resp => Sig_text (by simp [Stage.quietTexts]))
  have h : Extends (Quiet .variables) (c.db.QueryRowScan sqlVariableProbe [varName] scanString1 w).2
      (commonVarsLoop c ((varName, defaultValue) :: es) info w).2 := by
    simp only [commonVarsLoop]
    split
    · exact hr.trans (commonVarsLoop_ext c _ _ _)
    · split
      · exact hr.trans (commonVarsLoop_ext c _ _ _)
      · exact hr.trans (commonVarsLoop_ext c _ _ _)
  obtain ⟨rest, h⟩ := opens_then_extends hq h
  exact ⟨_, rest, h⟩

theorem collectVariables_opens {σ : Type} (rt : Runtime) (c : MySQLCollector σ)
    (info : DatabaseInfo) (w : World σ) :
    ∃ first rest, (collectVariables rt c info w).2.log = w.log ++ first :: rest ∧
      Stage.opens c .variables first.call := by
  by_cases hs : c.version.SupportsPerformanceSchemaVariablesInfo = true
  · have hq := Query_log c.db (provenanceQuery c) [] w
    have h1 : ∃ rest, (collectVariables rt c info w).2.log
        = w.log ++ ⟨⟨provenanceQuery c, []⟩, (c.db.Query (provenanceQuery c) [] w).1⟩ :: rest := by
      unfold collectVariables
      rw [if_pos hs]
      unfold collectVariablesFromPerformanceSchema
      dsimp only
      split
      · obtain ⟨evs, hl, -⟩ := collectVariablesFromInformationSchema_trace rt c info
          (c.db.Query (provenanceQuery c) [] w).2 _ (Extends.refl _ _)
        exact opens_then_log hq ⟨evs, hl⟩
      · exact ⟨[], hq⟩
    obtain ⟨rest, h1⟩ := h1
    refine ⟨_, rest, h1, ?_⟩
    simp only [Stage.opens, if_pos hs]
  · have he : collectVariables rt c info w = collectVariablesFromInformationSchema rt c info w := by
      unfold collectVariables
      rw [if_neg hs]
    rw [he]
    by_cases hm : c.config.OnlyModifiedVariables = true
    · have he2 : collectVariablesFromInformationSchema rt c info w
          = collectCommonModifiedVariables rt c info w := by
        unfold collectVariablesFromInformationSchema
        rw [if_pos hm]
      rw [he2]
      have hperm := rt.commonVarsOrder_perm
      cases hord : rt.commonVarsOrder with
      | nil =>
        rw [hord] at hperm
        exact absurd hperm.length_eq (by decide)
      | cons e es =>
        obtain ⟨varName, defaultValue⟩ := e
        obtain ⟨resp, rest, h⟩ := commonVarsLoop_opens c varName defaultValue es info w
        refine ⟨⟨⟨sqlVariableProbe, [varName]⟩, resp⟩, rest, ?_, ?_⟩
        · unfold collectCommonModifiedVariables
          dsimp only
          rw [hord]
          exact h
        · simp only [Stage.opens, if_neg hs, if_pos hm]
          refine ⟨trivial, (varName, defaultValue), ?_, rfl⟩
          exact hperm.subset (by rw [hord]; exact List.mem_cons_self _ _)
    · have hq := Query_log c.db sqlGlobalVariables [] w
      have h1 : ∃ rest, (collectVariablesFromInformationSchema rt c info w).2.log
          = w.log ++ ⟨⟨sqlGlobalVariables, []⟩, (c.db.Query sqlGlobalVariables [] w).1⟩ :: rest := by
        unfold collectVariablesFromInformationSchema
        rw [if_neg hm]
        dsimp only
        split
        · obtain ⟨evs, hl, -⟩ := collectVariablesFromShowVariables_trace rt c info
            (c.db.Query sqlGlobalVariables [] w).2 _ (Extends.refl _ _)
          exact opens_then_log hq ⟨evs, hl⟩
        · exact ⟨[], hq⟩
      obtain ⟨rest, h1⟩ := h1
      refine ⟨_, rest, h1, ?_⟩
      simp only [Stage.opens, if_neg hs, if_neg hm]

theorem stageRun_opens {σ : Type} (rt : Runtime) (c : MySQLCollector σ) (st : Stage)
    (info : DatabaseInfo) (w : World σ) (h : Stage.enabled c st = true) :
    ∃ first rest, (stageRun rt c st info w).2.log = w.log ++ first :: rest ∧
      Stage.opens c st first.call := by
  cases st <;> simp only [Stage.enabled] at h <;> simp only [stageRun, h, if_true]
  · obtain ⟨resp, hl⟩ := collectConnectionInfo_opens c info w
    exact ⟨_, [], hl, rfl⟩
  · obtain ⟨resp, rest, hl⟩ := collectTables_opens rt c info w
    exact ⟨_, rest, hl, rfl⟩
  · obtain ⟨resp, rest, hl⟩ := collectUsers_opens c info w
    exact ⟨_, rest, hl, rfl⟩
  · obtain ⟨resp, rest, hl⟩ := collectMySQL8Features_first c info w
    exact ⟨_, rest, hl, rfl⟩
  · obtain ⟨resp, rest, hl⟩ := collectRoutines_opens rt c info w
    exact ⟨_, rest, hl, rfl⟩
  · exact collectVariables_opens rt c info w
  · obtain ⟨resp, rest, hl⟩ := collectPlugins_opens c info w
    exact ⟨_, rest, hl, rfl⟩
  · obtain ⟨resp, rest, hl⟩ := collectComponents_first c info w
    exact ⟨_, rest, hl, rfl⟩
  · obtain ⟨resp, rest, hl⟩ := collectReplicationInfo_opens c info w
    exact ⟨_, rest, hl, rfl⟩

theorem stageRun_segment {σ : Type} (rt : Runtime) (c : MySQLCollector σ) (st : Stage)
    (info : DatabaseInfo) (w : World σ) :
    ∃ seg, (stageRun rt c st info w).2.log = w.log ++ seg ∧ StageSegment c st seg := by
  obtain ⟨seg, hl, ht⟩ := stageRun_trace rt c st info w
  refine ⟨seg, hl, ht.mem, ?_, ?_⟩
  · intro hd
    rw [stageRun_disabled rt c st info w hd] at hl
    have h2 : w.log ++ [] = w.log ++ seg := by simpa using hl
    exact (List.append_cancel_left h2).symm
  · intro he
    obtain ⟨first, rest, hf, ho⟩ := stageRun_opens rt c st info w he
    rw [hf] at hl
    exact ⟨first, rest, (List.append_cancel_left hl).symm, ho⟩

theorem runStages_segments {σ : Type} (rt : Runtime) (c : MySQLCollector σ) :
    ∀ (stages : List Stage) (info : DatabaseInfo) (w : World σ),
      ∃ ran segs, (runStages rt c stages info w).2.log = w.log ++ segs.flatten ∧
        RunOf c stages (runStages rt c stages info w).1 ran segs := by
  intro stages
  induction stages with
  | nil =>
    intro info w
    exact ⟨[], [], by simp [runStages], List.prefix_refl _, List.Forall₂.nil, Or.inl ⟨rfl, rfl⟩⟩
  | cons st rest ih =>
    intro info w
    obtain ⟨seg, hl, hseg⟩ := stageRun_segment rt c st info w
    cases hr : (stageRun rt c st info w).1 with
    | error e =>
      have he : runStages rt c (st :: rest) info w
          = (.error (stageMessage st ++ e), (stageRun rt c st info w).2) := by
        simp only [runStages, hr]
      have hen : Stage.enabled c st = true := by
        by_contra hd
        have hd2 : Stage.enabled c st = false := by simpa using hd
        rw [stageRun_disabled rt c st info w hd2] at hr
        cases hr
      refine ⟨[st], [seg], ?_, ?_, List.Forall₂.cons hseg List.Forall₂.nil, Or.inr ?_⟩
      · rw [he]; simpa using hl
      · exact ⟨rest, rfl⟩
      · exact ⟨[], st, e, rfl, hen, by rw [he]⟩
    | ok info1 =>
      have he : runStages rt c (st :: rest) info w
          = runStages rt c rest info1 (stageRun rt c st info w).2 := by
        simp only [runStages, hr]
      obtain ⟨ran, segs, hl2, hpre, hall, hres⟩ := ih info1 (stageRun rt c st info w).2
      rw [he]
      refine ⟨st :: ran, seg :: segs, ?_, ?_, List.Forall₂.cons hseg hall, ?_⟩
      · rw [hl2, hl]; simp
      · obtain ⟨t, ht⟩ := hpre
        exact ⟨t, by rw [← ht]; rfl⟩
      · rcases hres with ⟨hok, rfl⟩ | ⟨pre, st1, e, rfl, hen, hr1⟩
        · exact Or.inl ⟨hok, rfl⟩
        · exact Or.inr ⟨st :: pre, st1, e, rfl, hen, hr1⟩

/-! ## The collection engine: the claims -/

/-- C6: `CollectAll` aborts at the first failing category, in the fixed order Connection, Tables,
Users, Roles, Routines, Variables, Plugins, Components, Replication. For the exchanges `evs` that
a run adds to the log: either no primary query failed (the version query, the database listing,
the account list, the routine list, the last variable tier `SHOW VARIABLES`, the plugin list, the
component list) and the run returns a snapshot; or the run returns an error and no snapshot, and
its last exchange is the failed primary query, the only one: nothing is issued after it. So every
failed primary query is the last exchange of an erroring run; and the primary queries are issued
in the fixed order. Moreover `evs` is cut into the exchanges of the categories entered, which are
the first ones of the fixed order, in that order: each piece holds statements of its own category
only, is empty when the category is disabled and starts with the first statement of the category
when it is enabled; after a snapshot every category was entered, and after an error the last
category entered is the one whose error is returned, so no statement of a later category was
issued. And the run is the run through the nine categories in the fixed order that stops at the
first error. -/
theorem CollectAll_aborts_at_first_failure {σ : Type} (rt : Runtime) (c : MySQLCollector σ)
    (w : World σ) :
    ∃ evs, (CollectAll rt c w).2.log = w.log ++ evs ∧
      ((∃ info, (CollectAll rt c w).1 = .ok info ∧ ∀ ev ∈ evs, ¬ ev.isFatal) ∨
        (∃ e l ev, (CollectAll rt c w).1 = .error e ∧ evs = l ++ [ev] ∧ ev.isFatal ∧
          ∀ ev1 ∈ l, ¬ ev1.isFatal)) ∧
      (∀ ev ∈ evs, ev.isFatal →
        (∃ e, (CollectAll rt c w).1 = .error e) ∧ evs.getLast? = some ev) ∧
      List.Sublist (primarySqls evs)
        ["SELECT VERSION()", "SHOW DATABASES",
          if c.version.IsMySQL8OrLater then sqlUsersMySQL8 else sqlUsersLegacy,
          sqlRoutines, "SHOW VARIABLES", sqlPlugins, "SELECT * FROM mysql.component"] ∧
      (∃ ran segs, evs = segs.flatten ∧ RunOf c stageOrder (CollectAll rt c w).1 ran segs) ∧
      CollectAll rt c w = runStages rt c stageOrder {} w := by
  obtain ⟨evs, hl, ho, hord⟩ := runStages_outcome rt c stageOrder {} w
  obtain ⟨ran, segs, hl2, hrun⟩ := runStages_segments rt c stageOrder {} w
  have hflat : evs = segs.flatten := by
    rw [hl] at hl2
    exact List.append_cancel_left hl2
  rw [← CollectAll_eq_runStages] at hl ho hrun
  refine ⟨evs, hl, ?_, ?_, hord, ⟨ran, segs, hflat, hrun⟩, CollectAll_eq_runStages rt c w⟩
  · rcases ho with ⟨hs, hq⟩ | ⟨hs, l, ev, he, hfat, hq⟩
    · obtain ⟨info, hi⟩ := succeeded_eq_true hs
      exact Or.inl ⟨info, hi, hq⟩
    · obtain ⟨e, hi⟩ := succeeded_eq_false hs
      exact Or.inr ⟨e, l, ev, hi, he, hfat, hq⟩
  · intro ev hev hfat
    rcases ho with ⟨-, hq⟩ | ⟨hs, l, ev1, he, -, hq⟩
    · exact absurd hfat (hq ev hev)
    · refine ⟨succeeded_eq_false hs, ?_⟩
      rw [he] at hev ⊢
      rcases List.mem_append.mp hev with h | h
      · exact absurd hfat (hq ev h)
      · simp only [List.mem_singleton] at h
        subst h
        simp

/-- C6, on a server that refuses the account list, with tables excluded and replication requested:
the run returns the error of the users category, the account list is the last statement issued,
and none of the statements of the replication category is issued. -/
theorem CollectAll_aborts_at_first_failure_witness :
    (CollectAll plainRuntime refusedAccounts (World.start ())).1
      = .error "failed to collect users: denied" ∧
    (CollectAll plainRuntime refusedAccounts (World.start ())).2.log.map (fun ev => ev.call.sql)
      = ["SELECT VERSION()", sqlUsersMySQL8] ∧
    ∃ evs, (CollectAll plainRuntime refusedAccounts (World.start ())).2.log = [] ++ evs ∧
      (∀ ev ∈ evs, ev.isFatal →
        (∃ e, (CollectAll plainRuntime refusedAccounts (World.start ())).1 = .error e) ∧
          evs.getLast? = some ev) ∧
      ∃ ran segs, evs = segs.flatten ∧
        RunOf refusedAccounts stageOrder
          (CollectAll plainRuntime refusedAccounts (World.start ())).1 ran segs := by
  refine ⟨rfl, rfl, ?_⟩
  obtain ⟨evs, h1, -, h3, -, h5, -⟩ := CollectAll_aborts_at_first_failure plainRuntime
    refusedAccounts (World.start ())
  exact ⟨evs, h1, h3, h5⟩

/-- C7: with every exclusion toggle set and replication not requested, on every server version, if
the version query succeeds then `CollectAll` succeeds, issues the version query and nothing else,
and returns a snapshot holding only the `ConnectionInfo`: the configured `Host`, `Port`, `User` and
`Database` and the raw version string the server returned; `Tables`, `Users`, `Routines`,
`Variables`, `Roles`, `Plugins` and `Components` are empty and `ReplicationInfo` is `nil`. -/
theorem CollectAll_all_excluded {σ : Type} (rt : Runtime) (c : MySQLCollector σ) (w : World σ)
    (ver : String)
    (hT : c.config.ExceptTables = true) (hU : c.config.ExceptUsers = true)
    (hRo : c.config.ExceptRoles = true) (hSP : c.config.ExceptStoredProcedures = true)
    (hV : c.config.ExceptVariables = true) (hP : c.config.ExceptPlugins = true)
    (hRe : c.config.Replication = false)
    (hq : scanFirst scanString1 (c.db.exec { sql := "SELECT VERSION()", args := [] } w.server).1
      = .ok ver) :
    (CollectAll rt c w).1 =
      .ok { ConnectionInfo := some { Host := c.config.Host, Port := c.config.Port,
                                     User := c.config.User, Database := c.config.Database,
                                     Version := ver },
            Tables := [], Users := [], Routines := [], Variables := [], Roles := [],
            Plugins := [], Components := [], ReplicationInfo := none } ∧
    (CollectAll rt c w).2.log = w.log ++
      [⟨⟨"SELECT VERSION()", []⟩, (c.db.exec { sql := "SELECT VERSION()", args := [] } w.server).1⟩] := by
  have h0 := collectConnectionInfo_ok c {} w ver hq
  unfold CollectAll
  simp only [h0, hT, hU, hRo, hSP, hV, hP, hRe, Bool.not_true, Bool.false_and, if_false,
    Bool.false_eq_true]
  exact ⟨trivial, rfl⟩

/-- C7, on a server that refuses everything but the version query: the run succeeds with the
connection information alone. -/
theorem CollectAll_all_excluded_witness :
    (CollectAll plainRuntime
      { db := denyingServer, version := mysql8042,
        config := { Host := "db1", Port := "3306", User := "root", Database := "shop",
                    ExceptTables := true, ExceptUsers := true, ExceptRoles := true,
                    ExceptStoredProcedures := true, ExceptVariables := true,
                    ExceptPlugins := true } }
      (World.start ())).1 =
      .ok { ConnectionInfo := some { Host := "db1", Port := "3306", User := "root",
                                     Database := "shop", Version := "8.0.42" } } ∧
    (CollectAll plainRuntime
      { db := denyingServer, version := mysql8042,
        config := { Host := "db1", Port := "3306", User := "root", Database := "shop",
                    ExceptTables := true, ExceptUsers := true, ExceptRoles := true,
                    ExceptStoredProcedures := true, ExceptVariables := true,
                    ExceptPlugins := true } }
      (World.start ())).2.log = [] ++
      [⟨⟨"SELECT VERSION()", []⟩, .ok [[Value.text "8.0.42"]]⟩] :=
  CollectAll_all_excluded plainRuntime
    { db := denyingServer, version := mysql8042,
      config := { Host := "db1", Port := "3306", User := "root", Database := "shop",
                  ExceptTables := true, ExceptUsers := true, ExceptRoles := true,
                  ExceptStoredProcedures := true, ExceptVariables := true,
                  ExceptPlugins := true } }
    (World.start ()) "8.0.42" rfl rfl rfl rfl rfl rfl rfl rfl

set_option maxRecDepth 100000 in
/-- C8: roles and components are version-gated in `CollectAll`. Among the exchanges `evs` of a
run, a statement of the role collector (the role list, or the membership query on
`mysql.role_edges`) occurs only if `ExceptRoles` is unset and the version satisfies
`IsMySQL8OrLater`, and the component query on `mysql.component` only if `ExceptPlugins` is unset and
the version satisfies `IsMySQL8OrLater`. When the run reaches the gate, that is when no primary
query of an earlier category fails, the converse holds too: the collector runs iff its gate is open
(`ExceptRoles` plays no part in the components gate). Hence on a version that is not MySQL 8 or
later (MariaDB, Percona, MySQL before 8) no statement against `mysql.role_edges` or
`mysql.component` is issued, whatever the configuration, and the snapshot has no roles and no
components. -/
theorem roles_components_version_gated {σ : Type} (rt : Runtime) (c : MySQLCollector σ)
    (w : World σ) :
    ∃ evs, (CollectAll rt c w).2.log = w.log ++ evs ∧
      ((∃ ev ∈ evs, ev.call.sql = sqlRoles ∨ ev.call.sql = sqlRoleMembers) →
        c.config.ExceptRoles = false ∧ c.version.IsMySQL8OrLater = true) ∧
      ((∃ ev ∈ evs, ev.call.sql = "SELECT * FROM mysql.component") →
        c.config.ExceptPlugins = false ∧ c.version.IsMySQL8OrLater = true) ∧
      ((∀ ev ∈ evs, ev.isFatal → ev.call.sql ∉
          ["SELECT VERSION()", "SHOW DATABASES", sqlUsersMySQL8, sqlUsersLegacy]) →
        ((∃ ev ∈ evs, ev.call.sql = sqlRoles) ↔
          (c.config.ExceptRoles = false ∧ c.version.IsMySQL8OrLater = true))) ∧
      ((∀ ev ∈ evs, ev.isFatal → ev.call.sql = "SELECT * FROM mysql.component") →
        ((∃ ev ∈ evs, ev.call.sql = "SELECT * FROM mysql.component") ↔
          (c.config.ExceptPlugins = false ∧ c.version.IsMySQL8OrLater = true))) ∧
      (c.version.IsMySQL8OrLater = false →
        (∀ ev ∈ evs, ev.call.sql ≠ sqlRoles ∧ ev.call.sql ≠ sqlRoleMembers ∧
          ev.call.sql ≠ "SELECT * FROM mysql.component") ∧
        ∀ info, (CollectAll rt c w).1 = .ok info → info.Roles = [] ∧ info.Components = []) := by
  obtain ⟨evs, hl, hm⟩ := runStages_events rt c stageOrder {} w
  have hroles : (∃ ev ∈ evs, ev.call.sql = sqlRoles ∨ ev.call.sql = sqlRoleMembers) →
      c.config.ExceptRoles = false ∧ c.version.IsMySQL8OrLater = true := by
    rintro ⟨ev, hev, hsql⟩
    have hmem : ev.call.sql ∈ [sqlRoles, sqlRoleMembers] := by
      rcases hsql with h | h <;> simp [h]
    obtain ⟨st, -, hen, hq | hp⟩ := hm ev hev
    · have := quiet_role_text st ev hq hmem
      subst this
      simpa [Stage.enabled] using hen
    · exact absurd hmem (primary_not_role_text c.version st _ hp)
  have hcomp : (∃ ev ∈ evs, ev.call.sql = "SELECT * FROM mysql.component") →
      c.config.ExceptPlugins = false ∧ c.version.IsMySQL8OrLater = true := by
    rintro ⟨ev, hev, hsql⟩
    obtain ⟨st, -, hen, hq | hp⟩ := hm ev hev
    · have := quiet_not_primary st ev hq
      rw [hsql] at this
      exact absurd (by decide) this
    · rw [hsql] at hp
      have := primary_component_text c.version st hp
      subst this
      simpa [Stage.enabled] using hen
  refine ⟨evs, by rw [CollectAll_eq_runStages]; exact hl, hroles, hcomp, ?_, ?_, ?_⟩
  · intro hno
    refine ⟨fun ⟨ev, hev, h⟩ => hroles ⟨ev, hev, Or.inl h⟩, ?_⟩
    rintro ⟨h1, h2⟩
    refine runStages_reaches rt c [.connection, .tables, .users]
      [.routines, .variables, .plugins, .components, .replication] .roles w evs hl ?_ sqlRoles ?_
    · intro ev hev hfat hin
      apply hno ev hev hfat
      simp only [List.filterMap_cons, Stage.primary, List.filterMap_nil, List.mem_cons,
        List.mem_singleton, List.not_mem_nil, or_false] at hin ⊢
      rcases hin with h | h | h
      · exact Or.inl h
      · exact Or.inr (Or.inl h)
      · rw [h]
        split <;> simp
    · intro info1 w1
      simp only [stageRun, h1, h2, Bool.not_false, Bool.and_self, if_true]
      exact collectMySQL8Features_first c info1 w1
  · intro hno
    refine ⟨hcomp, ?_⟩
    rintro ⟨h1, h2⟩
    refine runStages_reaches rt c
      [.connection, .tables, .users, .roles, .routines, .variables, .plugins] [.replication]
      .components w evs hl ?_ "SELECT * FROM mysql.component" ?_
    · intro ev hev hfat hin
      rw [hno ev hev hfat] at hin
      simp only [List.filterMap_cons, Stage.primary, List.filterMap_nil, List.mem_cons,
        List.mem_singleton, List.not_mem_nil, or_false] at hin
      rcases hin with h | h | h | h | h | h
      · exact absurd h (by decide)
      · exact absurd h (by decide)
      · split at h <;> exact absurd h (by decide)
      · exact absurd h (by decide)
      · exact absurd h (by decide)
      · exact absurd h (by decide)
    · intro info1 w1
      simp only [stageRun, h1, h2, Bool.not_false, Bool.and_self, if_true]
      exact collectComponents_first c info1 w1
  · intro h8
    refine ⟨?_, ?_⟩
    · intro ev hev
      refine ⟨?_, ?_, ?_⟩
      · intro h
        have := (hroles ⟨ev, hev, Or.inl h⟩).2
        rw [h8] at this; cases this
      · intro h
        have := (hroles ⟨ev, hev, Or.inr h⟩).2
        rw [h8] at this; cases this
      · intro h
        have := (hcomp ⟨ev, hev, h⟩).2
        rw [h8] at this; cases this
    · intro info hok
      rw [CollectAll_eq_runStages] at hok
      exact runStages_keeps rt c h8 stageOrder {} info w hok

/-- C8, on a MariaDB 10.11.6 server with nothing excluded: the run succeeds, issues no statement
of the role or component collectors, and the snapshot has no roles and no components. -/
theorem roles_components_version_gated_witness :
    (∃ info, (CollectAll plainRuntime
      { db := mariadbServer, version := mariadb10116, config := {} } (World.start ())).1
        = .ok info) ∧
    ∃ evs, (CollectAll plainRuntime
        { db := mariadbServer, version := mariadb10116, config := {} } (World.start ())).2.log
          = [] ++ evs ∧
      (∀ ev ∈ evs, ev.call.sql ≠ sqlRoles ∧ ev.call.sql ≠ sqlRoleMembers ∧
        ev.call.sql ≠ "SELECT * FROM mysql.component") ∧
      ∀ info, (CollectAll plainRuntime
        { db := mariadbServer, version := mariadb10116, config := {} } (World.start ())).1
          = .ok info → info.Roles = [] ∧ info.Components = [] := by
  refine ⟨⟨_, rfl⟩, ?_⟩
  obtain ⟨evs, h1, -, -, -, -, h5⟩ := roles_components_version_gated plainRuntime
    { db := mariadbServer, version := mariadb10116, config := {} } (World.start ())
  exact ⟨evs, h1, (h5 rfl).1, (h5 rfl).2⟩

set_option maxRecDepth 100000 in
/-- C9: variable fallback tier 2. On a server whose version supports the provenance catalog
(MySQL 5.7+), when the provenance query fails and `OnlyModifiedVariables` is set, and the by-name
probe of each name `n` is answered by `resp n` whenever it is asked, `collectVariables` succeeds and
appends variables `vs` that are, as a set, exactly the entries with `Name = n`, `CurrentValue = x`,
`DefaultValue = d`, `Source = "DYNAMIC"` and `IsModified = true` for the pairs `(n, d)` of the
common-variables table whose probe succeeds with a value `x` different from `d`; a name whose probe
fails, or whose value equals its default, contributes nothing, and no name occurs twice. The table
has 10 names, `max_connections` with default "151" among them. -/
theorem common_variables_fallback {σ : Type} (rt : Runtime) (c : MySQLCollector σ)
    (info : DatabaseInfo) (w : World σ) (e : String) (resp : String → Response)
    (hsup : c.version.SupportsPerformanceSchemaVariablesInfo = true)
    (hmod : c.config.OnlyModifiedVariables = true)
    (hfail : (c.db.exec { sql := sqlVariablesModified, args := [] } w.server).1 = .error e)
    (hresp : ∀ n s, (c.db.exec { sql := sqlVariableProbe, args := [n] } s).1 = resp n) :
    ∃ vs, (collectVariables rt c info w).1 =
        .ok { info with Variables := info.Variables ++ vs } ∧
      (∀ v, v ∈ vs ↔ ∃ n d x, (n, d) ∈ commonVars ∧
        scanFirst scanString1 (resp n) = .ok x ∧ x ≠ d ∧
        v = { Name := n, CurrentValue := x, DefaultValue := d, Source := "DYNAMIC",
              IsModified := true }) ∧
      (vs.map (fun v => v.Name)).Nodup ∧
      commonVars.length = 10 ∧ ("max_connections", "151") ∈ commonVars := by
  have hq : (c.db.Query sqlVariablesModified [] w).1 = .error e := hfail
  have hres : (collectVariables rt c info w).1 =
      .ok { info with
            Variables := info.Variables ++ rt.commonVarsOrder.filterMap (probeEntry resp) } := by
    unfold collectVariables
    rw [if_pos hsup]
    unfold collectVariablesFromPerformanceSchema
    dsimp only
    rw [if_pos hmod, hq]
    dsimp only
    unfold collectVariablesFromInformationSchema
    rw [if_pos hmod]
    unfold collectCommonModifiedVariables
    dsimp only
    rw [commonVarsLoop_result c resp hresp]
  refine ⟨rt.commonVarsOrder.filterMap (probeEntry resp), hres, ?_, ?_, rfl, by decide⟩
  · intro v
    rw [List.mem_filterMap]
    constructor
    · rintro ⟨⟨n, d⟩, hmem, hp⟩
      have hmem' : (n, d) ∈ commonVars := (rt.commonVarsOrder_perm.mem_iff).mp hmem
      unfold probeEntry at hp
      split at hp
      · rename_i value hs
        split at hp
        · rename_i hne
          simp only [Option.some.injEq] at hp
          exact ⟨n, d, value, hmem', hs, hne, hp.symm⟩
        · cases hp
      · cases hp
    · rintro ⟨n, d, x, hmem, hs, hne, rfl⟩
      refine ⟨(n, d), (rt.commonVarsOrder_perm.mem_iff).mpr hmem, ?_⟩
      unfold probeEntry
      simp only [hs]
      rw [if_pos hne]
  · apply probeEntry_names_nodup
    have hnd : (commonVars.map Prod.fst).Nodup := by decide
    exact (rt.commonVarsOrder_perm.map Prod.fst).nodup_iff.mpr hnd

/-- C9, on a MySQL 8 server without the provenance catalog on which `max_connections` was raised
to 500: the fallback reports that one variable, with its recorded default "151" and source
"DYNAMIC". -/
theorem common_variables_fallback_witness :
    (collectVariables plainRuntime
      { db := tunedServer, version := mysql8042, config := { OnlyModifiedVariables := true } } {}
      (World.start ())).1 =
      .ok { Variables := [{ Name := "max_connections", CurrentValue := "500",
                            DefaultValue := "151", Source := "DYNAMIC", IsModified := true }] } ∧
    ∃ vs, (collectVariables plainRuntime
        { db := tunedServer, version := mysql8042, config := { OnlyModifiedVariables := true } } {}
        (World.start ())).1 = .ok { Variables := [] ++ vs } ∧
      (vs.map (fun v => v.Name)).Nodup := by
  refine ⟨rfl, ?_⟩
  obtain ⟨vs, h1, -, h3, -⟩ := common_variables_fallback plainRuntime
    { db := tunedServer, version := mysql8042, config := { OnlyModifiedVariables := true } } {}
    (World.start ()) "no such table"
    (fun n => (tunedServer.exec { sql := sqlVariableProbe, args := [n] } ()).1) rfl rfl rfl
    (fun _ _ => rfl)
  exact ⟨vs, h1, h3⟩

set_option maxRecDepth 100000 in
/-- C10: the variable collector falls through to the next tier only when a tier's query fails,
never on an empty result. Among the exchanges `evs` of `collectVariables`: a provenance or plain
live-values query that succeeds is the last exchange, so no further variable query is issued; on a
server with the provenance catalog (MySQL 5.7+), when the provenance query succeeds it is the only
exchange and the collected variables are, in order, the successfully scanned rows of that query
(none for zero rows); and when the plain live-values query succeeds, the collected variables are
its successfully scanned rows and `SHOW VARIABLES` is never issued. -/
theorem collectVariables_falls_through_only_on_failure {σ : Type} (rt : Runtime)
    (c : MySQLCollector σ) (info : DatabaseInfo) (w : World σ) :
    ∃ evs, (collectVariables rt c info w).2.log = w.log ++ evs ∧
      (∀ l ev l2, evs = l ++ ev :: l2 →
        ev.call.sql ∈ [sqlVariablesModified, sqlVariablesAll, sqlGlobalVariables] →
        succeeded ev.resp = true → l2 = []) ∧
      (c.version.SupportsPerformanceSchemaVariablesInfo = true →
        ∀ rows, (c.db.exec { sql := provenanceQuery c, args := [] } w.server).1 = .ok rows →
          evs = [⟨⟨provenanceQuery c, []⟩, .ok rows⟩] ∧
          (collectVariables rt c info w).1 =
            .ok { info with Variables := info.Variables ++ rows.filterMap scanVariableInfoRow }) ∧
      (∀ ev ∈ evs, ev.call.sql = sqlGlobalVariables → ∀ rows, ev.resp = .ok rows →
        (collectVariables rt c info w).1 =
          .ok { info with Variables := info.Variables ++ rows.filterMap scanVariableRow } ∧
        ∀ ev1 ∈ evs, ev1.call.sql ≠ "SHOW VARIABLES") := by
  obtain ⟨evs, hl, hshape⟩ := collectVariables_shape rt c info w
  obtain ⟨hpg, hps⟩ := provenanceQuery_ne c
  have hprobe1 : sqlVariableProbe ∉ [sqlVariablesModified, sqlVariablesAll, sqlGlobalVariables] := by
    decide
  have hshow1 : "SHOW VARIABLES" ∉ [sqlVariablesModified, sqlVariablesAll, sqlGlobalVariables] := by
    decide
  have hprobe2 : sqlVariableProbe ≠ sqlGlobalVariables := by decide
  have hshow2 : "SHOW VARIABLES" ≠ sqlGlobalVariables := by decide
  have hlive : sqlGlobalVariables ≠ "SHOW VARIABLES" := by decide
  refine ⟨evs, hl, ?_, ?_, ?_⟩
  · intro l ev l2 he hsql hok
    rcases hshape with ⟨rows, hevs, -⟩ | ⟨pre, hpre, h⟩
    · rw [hevs] at he
      have hlen : ([⟨⟨provenanceQuery c, []⟩, .ok rows⟩] : List Event).length
          = (l ++ ev :: l2).length := congrArg List.length he
      rw [List.length_singleton, List.length_append, List.length_cons] at hlen
      exact List.length_eq_zero.mp (by omega)
    · by_contra hne
      rcases h with ⟨rows, hevs, -⟩ | ⟨e, resp, hevs⟩ | ⟨probes, hevs, hp⟩
      · rw [hevs] at he
        have hm := mem_of_split_before_last he hne
        have := (failedProvenance_mem hpre hm).2
        rw [hok] at this; cases this
      · have hm : ev ∈ evs := by rw [he]; simp
        rw [hevs] at hm
        simp only [List.mem_append, List.mem_cons, List.mem_singleton, List.not_mem_nil,
          or_false] at hm
        rcases hm with hm | hm | hm
        · have := (failedProvenance_mem hpre hm).2
          rw [hok] at this; cases this
        · rw [hm] at hok; cases hok
        · rw [hm] at hsql; exact hshow1 hsql
      · have hm : ev ∈ evs := by rw [he]; simp
        rw [hevs] at hm
        rcases List.mem_append.mp hm with hm | hm
        · have := (failedProvenance_mem hpre hm).2
          rw [hok] at this; cases this
        · rw [hp ev hm] at hsql; exact hprobe1 hsql
  · intro hsup rows hrows
    have hq : (c.db.Query (if c.config.OnlyModifiedVariables = true then sqlVariablesModified
        else sqlVariablesAll) [] w).1 = .ok rows := hrows
    have hres : collectVariables rt c info w =
        (.ok { info with Variables := info.Variables ++ rows.filterMap scanVariableInfoRow },
          (c.db.Query (provenanceQuery c) [] w).2) := by
      unfold collectVariables
      rw [if_pos hsup]
      unfold collectVariablesFromPerformanceSchema
      dsimp only
      rw [hq]
      rfl
    refine ⟨?_, by rw [hres]⟩
    rw [hres] at hl
    have hq2 := Query_log c.db (provenanceQuery c) [] w
    have hq3 : (c.db.Query (provenanceQuery c) [] w).1 = .ok rows := hrows
    rw [hq3] at hq2
    have : w.log ++ evs = w.log ++ [⟨⟨provenanceQuery c, []⟩, .ok rows⟩] := by
      rw [← hl, ← hq2]
    exact List.append_cancel_left this
  · intro ev hev hsql rows hresp
    rcases hshape with ⟨rows1, hevs, -⟩ | ⟨pre, hpre, h⟩
    · rw [hevs] at hev
      simp only [List.mem_singleton] at hev
      rw [hev] at hsql
      exact absurd hsql hpg
    · have hnotpre : ev ∉ pre := by
        intro hm
        have := (failedProvenance_mem hpre hm).1
        rw [hsql] at this
        exact hpg this.symm
      rcases h with ⟨rows1, hevs, hr⟩ | ⟨e, resp, hevs⟩ | ⟨probes, hevs, hp⟩
      · rw [hevs] at hev
        rcases List.mem_append.mp hev with hm | hm
        · exact absurd hm hnotpre
        · simp only [List.mem_singleton] at hm
          rw [hm] at hresp
          simp only [Except.ok.injEq] at hresp
          subst hresp
          refine ⟨hr, ?_⟩
          intro ev1 hev1
          rw [hevs] at hev1
          rcases List.mem_append.mp hev1 with hm1 | hm1
          · rw [(failedProvenance_mem hpre hm1).1]
            exact hps
          · simp only [List.mem_singleton] at hm1
            rw [hm1]
            exact hlive
      · rw [hevs] at hev
        simp only [List.mem_append, List.mem_cons, List.mem_singleton, List.not_mem_nil,
          or_false] at hev
        rcases hev with hm | hm | hm
        · exact absurd hm hnotpre
        · rw [hm] at hresp; cases hresp
        · rw [hm] at hsql; exact absurd hsql hshow2
      · rw [hevs] at hev
        rcases List.mem_append.mp hev with hm | hm
        · exact absurd hm hnotpre
        · rw [hp ev hm] at hsql; exact absurd hsql hprobe2

/-- C10, on a MySQL 8 server whose provenance query succeeds with zero rows: one exchange, no
fallback, no variables. -/
theorem collectVariables_falls_through_only_on_failure_witness :
    (collectVariables plainRuntime { db := silentServer, version := mysql8042, config := {} } {}
      (World.start ())).1 = .ok {} ∧
    (collectVariables plainRuntime { db := silentServer, version := mysql8042, config := {} } {}
      (World.start ())).2.log.map (fun ev => ev.call.sql) = [sqlVariablesAll] ∧
    ∃ evs, (collectVariables plainRuntime { db := silentServer, version := mysql8042, config := {} }
        {} (World.start ())).2.log = [] ++ evs ∧
      evs = [⟨⟨sqlVariablesAll, []⟩, .ok []⟩] := by
  refine ⟨rfl, rfl, ?_⟩
  obtain ⟨evs, h1, -, h3, -⟩ := collectVariables_falls_through_only_on_failure plainRuntime
    { db := silentServer, version := mysql8042, config := {} } {} (World.start ())
  exact ⟨evs, h1, (h3 rfl [] rfl).1⟩

/-! ## The collectors one by one -/

theorem scanVariableRow_unknown (rows : List Row) (v : Variable)
    (hv : v ∈ rows.filterMap scanVariableRow) : UnknownFrom rows v := by
  obtain ⟨row, hrow, hs⟩ := List.mem_filterMap.mp hv
  unfold scanVariableRow at hs
  split at hs
  · rename_i name value
    split at hs
    · rename_i n val hn hval
      simp only [Option.some.injEq] at hs
      subst hs
      exact ⟨rfl, rfl, rfl, name, value, hrow, hn, hval⟩
    · cases hs
  · cases hs

theorem collectVariablesFromShowVariables_all {σ : Type} (rt : Runtime) (c : MySQLCollector σ)
    (info : DatabaseInfo) (w : World σ) (hmode : c.config.OnlyModifiedVariables = false) :
    (collectVariablesFromShowVariables rt c info w).2.log =
      w.log ++ [⟨⟨"SHOW VARIABLES", []⟩, (c.db.Query "SHOW VARIABLES" [] w).1⟩] ∧
    (collectVariablesFromShowVariables rt c info w).1 =
      match (c.db.Query "SHOW VARIABLES" [] w).1 with
      | .error e => .error e
      | .ok rows => .ok { info with Variables := info.Variables ++ rows.filterMap scanVariableRow } := by
  unfold collectVariablesFromShowVariables
  rw [hmode]
  simp only [Bool.false_eq_true, if_false]
  cases h : (c.db.Query "SHOW VARIABLES" [] w).1 <;> simp only [h] <;>
    exact ⟨by rw [Query_log, h], trivial⟩

theorem collectVariablesFromInformationSchema_all {σ : Type} (rt : Runtime) (c : MySQLCollector σ)
    (info : DatabaseInfo) (w : World σ) (hmode : c.config.OnlyModifiedVariables = false) :
    (∃ rows, (collectVariablesFromInformationSchema rt c info w).2.log =
        w.log ++ [⟨⟨sqlGlobalVariables, []⟩, .ok rows⟩] ∧
      (collectVariablesFromInformationSchema rt c info w).1 =
        .ok { info with Variables := info.Variables ++ rows.filterMap scanVariableRow }) ∨
    (∃ e resp, (collectVariablesFromInformationSchema rt c info w).2.log =
        w.log ++ [⟨⟨sqlGlobalVariables, []⟩, .error e⟩, ⟨⟨"SHOW VARIABLES", []⟩, resp⟩] ∧
      (collectVariablesFromInformationSchema rt c info w).1 =
        match resp with
        | .error e1 => .error e1
        | .ok rows => .ok { info with Variables := info.Variables ++ rows.filterMap scanVariableRow }) := by
  unfold collectVariablesFromInformationSchema
  rw [hmode]
  simp only [Bool.false_eq_true, if_false]
  cases h : (c.db.Query sqlGlobalVariables [] w).1 with
  | ok rows =>
    left
    exact ⟨rows, by simp only [h]; rw [Query_log, h], by simp only [h]⟩
  | error e =>
    right
    obtain ⟨h1, h2⟩ := collectVariablesFromShowVariables_all rt c info
      (c.db.Query sqlGlobalVariables [] w).2 hmode
    refine ⟨e, (c.db.Query "SHOW VARIABLES" [] (c.db.Query sqlGlobalVariables [] w).2).1, ?_, ?_⟩
    · simp only [h]
      rw [h1, Query_log, h, List.append_assoc]
      rfl
    · simp only [h]
      exact h2

theorem collectVariablesFromInformationSchema_error {σ : Type} (rt : Runtime)
    (c : MySQLCollector σ) (info : DatabaseInfo) (w : World σ)
    (hmode : c.config.OnlyModifiedVariables = false) (e : String)
    (he : (collectVariablesFromInformationSchema rt c info w).1 = .error e) :
    ∃ e1, (collectVariablesFromInformationSchema rt c info w).2.log =
      w.log ++ [⟨⟨sqlGlobalVariables, []⟩, .error e1⟩, ⟨⟨"SHOW VARIABLES", []⟩, .error e⟩] := by
  rcases collectVariablesFromInformationSchema_all rt c info w hmode with
    ⟨rows, -, hr⟩ | ⟨e1, resp, hl, hr⟩
  · rw [hr] at he; cases he
  · rw [hr] at he
    cases resp with
    | ok rows => cases he
    | error e2 =>
      simp only [Except.error.injEq] at he
      subst he
      exact ⟨e1, hl⟩

/-- C11: in all-variables mode, the variables that `collectVariablesFromInformationSchema` and
`collectVariablesFromShowVariables` add are the scanned rows of the one query that answered (the
plain live-values query, or `SHOW VARIABLES` after it failed), each with source "UNKNOWN",
unmodified, without default value, and with the name and value of its row; and when
`collectVariables` returns an error, its last exchange is `SHOW VARIABLES` failing with that error,
after the live-values query failed and, on a version with the provenance catalog, after the
provenance query failed. -/
theorem all_variables_fallback_unknown {σ : Type} (rt : Runtime) (c : MySQLCollector σ)
    (info : DatabaseInfo) (w : World σ) (hmode : c.config.OnlyModifiedVariables = false) :
    (∀ info1, (collectVariablesFromInformationSchema rt c info w).1 = .ok info1 →
      ∃ rows,
        ((collectVariablesFromInformationSchema rt c info w).2.log =
            w.log ++ [⟨⟨sqlGlobalVariables, []⟩, .ok rows⟩] ∨
          ∃ e, (collectVariablesFromInformationSchema rt c info w).2.log =
            w.log ++ [⟨⟨sqlGlobalVariables, []⟩, .error e⟩, ⟨⟨"SHOW VARIABLES", []⟩, .ok rows⟩]) ∧
        info1 = { info with Variables := info.Variables ++ rows.filterMap scanVariableRow } ∧
        ∀ v ∈ rows.filterMap scanVariableRow, UnknownFrom rows v) ∧
    (∀ info1, (collectVariablesFromShowVariables rt c info w).1 = .ok info1 →
      ∃ rows,
        (collectVariablesFromShowVariables rt c info w).2.log =
          w.log ++ [⟨⟨"SHOW VARIABLES", []⟩, .ok rows⟩] ∧
        info1 = { info with Variables := info.Variables ++ rows.filterMap scanVariableRow } ∧
        ∀ v ∈ rows.filterMap scanVariableRow, UnknownFrom rows v) ∧
    (∀ e, (collectVariables rt c info w).1 = .error e →
      ∃ pre e1, FailedProvenance c pre ∧
        (collectVariables rt c info w).2.log =
          w.log ++ (pre ++
            [⟨⟨sqlGlobalVariables, []⟩, .error e1⟩, ⟨⟨"SHOW VARIABLES", []⟩, .error e⟩])) := by
  refine ⟨?_, ?_, ?_⟩
  · intro info1 hok
    rcases collectVariablesFromInformationSchema_all rt c info w hmode with
      ⟨rows, hl, hr⟩ | ⟨e1, resp, hl, hr⟩
    · rw [hr] at hok
      simp only [Except.ok.injEq] at hok
      exact ⟨rows, Or.inl hl, hok.symm, scanVariableRow_unknown rows⟩
    · rw [hr] at hok
      cases resp with
      | error e2 => cases hok
      | ok rows =>
        simp only [Except.ok.injEq] at hok
        exact ⟨rows, Or.inr ⟨e1, hl⟩, hok.symm, scanVariableRow_unknown rows⟩
  · intro info1 hok
    obtain ⟨hl, hr⟩ := collectVariablesFromShowVariables_all rt c info w hmode
    rw [hr] at hok
    cases h : (c.db.Query "SHOW VARIABLES" [] w).1 with
    | error e2 => rw [h] at hok; cases hok
    | ok rows =>
      rw [h] at hok hl
      simp only [Except.ok.injEq] at hok
      exact ⟨rows, hl, hok.symm, scanVariableRow_unknown rows⟩
  · intro e he
    unfold collectVariables at he ⊢
    split at he
    · rename_i hsup
      rw [if_pos hsup]
      unfold collectVariablesFromPerformanceSchema at he ⊢
      dsimp only at he ⊢
      cases h : (c.db.Query (if c.config.OnlyModifiedVariables = true then sqlVariablesModified
          else sqlVariablesAll) [] w).1 with
      | ok rows => rw [h] at he; cases he
      | error e0 =>
        rw [h] at he
        simp only [h]
        dsimp only at he
        obtain ⟨e1, hl⟩ := collectVariablesFromInformationSchema_error rt c info _ hmode e he
        refine ⟨[⟨⟨provenanceQuery c, []⟩, .error e0⟩], e1, Or.inr ⟨e0, rfl⟩, ?_⟩
        rw [hl, Query_log, h, List.append_assoc]
        rfl
    · rename_i hsup
      rw [if_neg hsup]
      obtain ⟨e1, hl⟩ := collectVariablesFromInformationSchema_error rt c info w hmode e he
      exact ⟨[], e1, Or.inl rfl, by rw [hl]; rfl⟩

/-- C11 on a server that knows `SHOW VARIABLES` only, asked by a MySQL 5.6 collector: the two
rows come back with source "UNKNOWN"; and on a server that refuses everything, the error is that
of `SHOW VARIABLES`, the last of three exchanges. -/
theorem all_variables_fallback_unknown_witness :
    (collectVariablesFromInformationSchema plainRuntime
      { db := ancientServer, version := mysql5651, config := {} } {} (World.start ())).1 =
      .ok { Variables :=
        [{ Name := "max_connections", CurrentValue := "151", Source := "UNKNOWN" },
         { Name := "port", CurrentValue := "3306", Source := "UNKNOWN" }] } ∧
    (∀ v ∈ ([{ Name := "max_connections", CurrentValue := "151", Source := "UNKNOWN" },
        { Name := "port", CurrentValue := "3306", Source := "UNKNOWN" }] : List Variable),
      v.Source = "UNKNOWN" ∧ v.IsModified = false ∧ v.DefaultValue = "") ∧
    ∃ pre e1,
      (collectVariables plainRuntime { db := denyingServer, version := mysql8042, config := {} } {}
        (World.start ())).2.log =
        [] ++ (pre ++ [⟨⟨sqlGlobalVariables, []⟩, .error e1⟩,
          ⟨⟨"SHOW VARIABLES", []⟩, .error "denied"⟩]) := by
  have h1 := all_variables_fallback_unknown plainRuntime
    { db := ancientServer, version := mysql5651, config := {} } {} (World.start ()) rfl
  have h2 := all_variables_fallback_unknown plainRuntime
    { db := denyingServer, version := mysql8042, config := {} } {} (World.start ()) rfl
  refine ⟨rfl, ?_, ?_⟩
  · obtain ⟨rows, -, hinfo, hv⟩ := h1.1 _ rfl
    have hvars := congrArg DatabaseInfo.Variables hinfo
    simp only [List.nil_append] at hvars
    intro v hmem
    have hmem2 : v ∈ rows.filterMap scanVariableRow := by rw [← hvars]; exact hmem
    exact ⟨(hv v hmem2).1, (hv v hmem2).2.1, (hv v hmem2).2.2.1⟩
  · obtain ⟨pre, e1, -, hl⟩ := h2.2.2 "denied" rfl
    exact ⟨pre, e1, hl⟩

theorem systemSchemas_test :
    (fun dbName : String => dbName != "information_schema" && dbName != "performance_schema" &&
      dbName != "mysql" && dbName != "sys") = fun dbName => decide (dbName ∉ systemSchemas) := by
  funext dbName
  simp only [systemSchemas, List.mem_cons, List.not_mem_nil, or_false, not_or, Bool.decide_and,
    decide_not, bne, Bool.and_assoc]
  rfl

/-- C12: with a configured database, `getDatabases` returns that one name and exchanges nothing
with the server, whatever the name; without one it issues the database listing once, and when the
listing succeeds it returns the scanned names in listing order without those equal to one of the
four system schemas, so that none of the four is in the result. -/
theorem getDatabases_resolves {σ : Type} (c : MySQLCollector σ) (w : World σ) :
    (c.config.Database ≠ "" → getDatabases c w = (.ok [c.config.Database], w)) ∧
    (c.config.Database = "" →
      (getDatabases c w).2.log =
        w.log ++ [⟨⟨"SHOW DATABASES", []⟩, (c.db.exec ⟨"SHOW DATABASES", []⟩ w.server).1⟩] ∧
      (∀ rows, (c.db.exec ⟨"SHOW DATABASES", []⟩ w.server).1 = .ok rows →
        (getDatabases c w).1 =
          .ok ((rows.filterMap scanString1).filter (fun n => decide (n ∉ systemSchemas)))) ∧
      ∀ dbs, (getDatabases c w).1 = .ok dbs → ∀ n ∈ systemSchemas, n ∉ dbs) := by
  refine ⟨?_, ?_⟩
  · intro h
    unfold getDatabases
    rw [if_pos h]
  · intro h
    have hq : (c.db.Query "SHOW DATABASES" [] w).1 = (c.db.exec ⟨"SHOW DATABASES", []⟩ w.server).1 :=
      rfl
    unfold getDatabases
    rw [if_neg (not_not.mpr h)]
    dsimp only
    rw [systemSchemas_test]
    cases hr : (c.db.Query "SHOW DATABASES" [] w).1 with
    | error e =>
      rw [← hq, hr]
      refine ⟨by rw [Query_log, hr], ?_, ?_⟩
      · intro rows hrows; cases hrows
      · intro dbs hdbs; cases hdbs
    | ok rows =>
      rw [← hq, hr]
      refine ⟨by rw [Query_log, hr], ?_, ?_⟩
      · intro rows1 hrows
        simp only [Except.ok.injEq] at hrows
        subst hrows
        rfl
      · intro dbs hdbs n hn hmem
        simp only [Except.ok.injEq] at hdbs
        subst hdbs
        have := (List.mem_filter.mp hmem).2
        simp only [decide_eq_true_eq] at this
        exact this hn

/-- C12 on a server whose listing names seven schemas: with the database "mysql" configured the
result is that name and nothing is asked; with none configured the three names that are not
system schemas come back in listing order, "Mysql" among them. -/
theorem getDatabases_resolves_witness :
    getDatabases { db := listingServer, version := mysql8042, config := { Database := "mysql" } }
      (World.start ()) = (.ok ["mysql"], World.start ()) ∧
    (getDatabases { db := listingServer, version := mysql8042, config := {} }
      (World.start ())).1 = .ok ["app", "Mysql", "shop"] ∧
    ∀ n ∈ systemSchemas, n ∉ ["app", "Mysql", "shop"] :=
  ⟨(getDatabases_resolves
      { db := listingServer, version := mysql8042, config := { Database := "mysql" } }
      (World.start ())).1 (by decide),
    rfl,
    ((getDatabases_resolves { db := listingServer, version := mysql8042, config := {} }
      (World.start ())).2 rfl).2.2 _ rfl⟩

theorem collectTablesLoop_fst {σ : Type} (rt : Runtime) (c : MySQLCollector σ) :
    ∀ (databases : List String) (info : DatabaseInfo) (w : World σ),
      (collectTablesLoop rt c databases info w).1 =
        { info with
          Tables := info.Tables ++ (tableListsOf rt c databases w).flatMap contribution } := by
  intro databases
  induction databases with
  | nil => intro info w; simp [collectTablesLoop, tableListsOf]
  | cons d ds ih =>
    intro info w
    simp only [collectTablesLoop, tableListsOf, List.flatMap_cons]
    cases h : (getTablesForDatabase rt c d w).1 with
    | error e =>
      simp only [h]
      rw [ih]
      simp [contribution]
    | ok tables =>
      simp only [h]
      rw [ih]
      simp [contribution, List.append_assoc]

theorem tableListsOf_length {σ : Type} (rt : Runtime) (c : MySQLCollector σ) :
    ∀ (databases : List String) (w : World σ),
      (tableListsOf rt c databases w).length = databases.length := by
  intro databases
  induction databases with
  | nil => intro w; rfl
  | cons d ds ih => intro w; simp [tableListsOf, ih]

theorem getTablesForDatabase_succeeded {σ : Type} (rt : Runtime) (c : MySQLCollector σ)
    (dbName : String) (w : World σ) :
    succeeded (getTablesForDatabase rt c dbName w).1 =
      succeeded (c.db.exec ⟨sqlTables, [dbName]⟩ w.server).1 := by
  have hq : (c.db.Query sqlTables [dbName] w).1 = (c.db.exec ⟨sqlTables, [dbName]⟩ w.server).1 := rfl
  unfold getTablesForDatabase
  dsimp only
  rw [← hq]
  cases (c.db.Query sqlTables [dbName] w).1 <;> rfl

/-- C13: when `getDatabases` succeeds with the list `dbs`, `collectTables` returns no error and
leaves the snapshot as it was except for `Tables`, to which it appends, in the order of `dbs`, the
table list of each database whose collection succeeded and nothing for the others; there is one
collection per database, and a collection fails exactly when its metadata query fails. -/
theorem collectTables_skips_failing_database {σ : Type} (rt : Runtime) (c : MySQLCollector σ)
    (info : DatabaseInfo) (w : World σ) (dbs : List String)
    (hdbs : (getDatabases c w).1 = .ok dbs) :
    (collectTables rt c info w).1 =
      .ok { info with
            Tables := info.Tables ++
              (tableListsOf rt c dbs (getDatabases c w).2).flatMap contribution } ∧
    (tableListsOf rt c dbs (getDatabases c w).2).length = dbs.length ∧
    ∀ dbName w1, succeeded (getTablesForDatabase rt c dbName w1).1 =
      succeeded (c.db.exec ⟨sqlTables, [dbName]⟩ w1.server).1 := by
  refine ⟨?_, tableListsOf_length rt c dbs _, getTablesForDatabase_succeeded rt c⟩
  unfold collectTables
  dsimp only
  rw [hdbs]
  dsimp only
  rw [collectTablesLoop_fst]

set_option maxRecDepth 100000 in
/-- C13 on a server with the databases `shop`, `locked` and `crm`, of which `locked` may not be
read: no error, and the tables of `shop` are followed by those of `crm`. -/
theorem collectTables_skips_failing_database_witness :
    (getDatabases { db := shopServer, version := mysql8042, config := {} } (World.start ())).1 =
      .ok ["shop", "locked", "crm"] ∧
    (tableListsOf plainRuntime { db := shopServer, version := mysql8042, config := {} }
      ["shop", "locked", "crm"]
      (getDatabases { db := shopServer, version := mysql8042, config := {} } (World.start ())).2).map
        succeeded = [true, false, true] ∧
    ((collectTables plainRuntime { db := shopServer, version := mysql8042, config := {} } {}
      (World.start ())).1.toOption.map
        (fun info => info.Tables.map (fun t => (t.Database, t.Name)))) =
      some [("shop", "orders"), ("shop", "v_orders"), ("crm", "leads")] := by
  have h := (collectTables_skips_failing_database plainRuntime
    { db := shopServer, version := mysql8042, config := {} } {} (World.start ())
    ["shop", "locked", "crm"] rfl).1
  refine ⟨rfl, rfl, ?_⟩
  rw [h]
  rfl

theorem getTableDDL_log {σ : Type} (c : MySQLCollector σ) (schema name kind : String)
    (w : World σ) :
    (getTableDDL c schema name kind w).2.log =
      w.log ++ [⟨⟨ddlStatement schema name kind, []⟩,
        (c.db.exec ⟨ddlStatement schema name kind, []⟩ w.server).1⟩] := by
  unfold getTableDDL ddlStatement
  split
  · dsimp only
    split <;> rfl
  · dsimp only
    split <;> rfl

theorem getTableDDL_fst {σ : Type} (c : MySQLCollector σ) (schema name kind : String)
    (w : World σ) :
    (getTableDDL c schema name kind w).1 =
      if kind = "VIEW" then
        (scanFirst scanString4 (c.db.exec ⟨ddlStatement schema name kind, []⟩ w.server).1).map
          (fun r => r.2.1)
      else
        (scanFirst scanString2 (c.db.exec ⟨ddlStatement schema name kind, []⟩ w.server).1).map
          (fun r => r.2) := by
  unfold getTableDDL ddlStatement
  split
  · rename_i h
    dsimp only
    rw [QueryRowScan_fst]
    have hq : (c.db.Query ("SHOW CREATE VIEW `" ++ schema ++ "`.`" ++ name ++ "`") [] w).1 =
      (c.db.exec ⟨"SHOW CREATE VIEW `" ++ schema ++ "`.`" ++ name ++ "`", []⟩ w.server).1 := rfl
    rw [hq]
    cases scanFirst scanString4
      (c.db.exec ⟨"SHOW CREATE VIEW `" ++ schema ++ "`.`" ++ name ++ "`", []⟩ w.server).1 <;> rfl
  · rename_i h
    dsimp only
    rw [QueryRowScan_fst]
    have hq : (c.db.Query ("SHOW CREATE TABLE `" ++ schema ++ "`.`" ++ name ++ "`") [] w).1 =
      (c.db.exec ⟨"SHOW CREATE TABLE `" ++ schema ++ "`.`" ++ name ++ "`", []⟩ w.server).1 := rfl
    rw [hq]
    cases scanFirst scanString2
      (c.db.exec ⟨"SHOW CREATE TABLE `" ++ schema ++ "`.`" ++ name ++ "`", []⟩ w.server).1 <;> rfl

theorem ddlStatement_view_iff (schema name kind : String) :
    "SHOW CREATE VIEW `".data <+: (ddlStatement schema name kind).data ↔ kind = "VIEW" := by
  unfold ddlStatement
  by_cases h : kind = "VIEW"
  · simp only [h, if_true, String.data_append, List.append_assoc, iff_true]
    exact List.prefix_append _ _
  · simp only [h, if_false, String.data_append, List.append_assoc, iff_false]
    intro hp
    have h1 := List.IsPrefix.length_le hp
    have := List.prefix_iff_eq_take.mp hp
    simp at this

theorem scanTableRow_DDL (rt : Runtime) (dbName : String) (row : Row) (table : TableInfo)
    (h : scanTableRow rt dbName row = some table) : table.DDL = "" := by
  unfold scanTableRow at h
  split at h
  · split at h
    · simp only [Option.some.injEq] at h
      rw [← h]
    · cases h
  · cases h

/-- C14: `getTableDDL` issues exactly one statement, which is SHOW CREATE VIEW on the quoted
schema and name when the kind is "VIEW" and SHOW CREATE TABLE on them otherwise, so that the view
statement is issued iff the kind is "VIEW"; on the view path the result is the second column of
the first row, read as four strings; and the entry that `getTablesForDatabase` builds for a
metadata row is the scanned row with only its DDL replaced, so the character set and collation
that come with the view definition reach no field of it. -/
theorem getTableDDL_view_path {σ : Type} (rt : Runtime) (c : MySQLCollector σ)
    (schema name kind : String) (w : World σ) :
    (getTableDDL c schema name kind w).2.log =
      w.log ++ [⟨⟨ddlStatement schema name kind, []⟩,
        (c.db.exec ⟨ddlStatement schema name kind, []⟩ w.server).1⟩] ∧
    ("SHOW CREATE VIEW `".data <+: (ddlStatement schema name kind).data ↔ kind = "VIEW") ∧
    (kind = "VIEW" →
      ddlStatement schema name kind = "SHOW CREATE VIEW `" ++ schema ++ "`.`" ++ name ++ "`") ∧
    (kind ≠ "VIEW" →
      ddlStatement schema name kind = "SHOW CREATE TABLE `" ++ schema ++ "`.`" ++ name ++ "`") ∧
    (kind = "VIEW" →
      (getTableDDL c schema name kind w).1 =
        (scanFirst scanString4 (c.db.exec ⟨ddlStatement schema name kind, []⟩ w.server).1).map
          (fun r => r.2.1)) ∧
    (kind = "VIEW" → ∀ view ddl charset collation rest,
      (c.db.exec ⟨ddlStatement schema name kind, []⟩ w.server).1 =
        .ok ([.text view, .text ddl, .text charset, .text collation] :: rest) →
      (getTableDDL c schema name kind w).1 = .ok ddl) ∧
    (∀ row table tables, scanTableRow rt schema row = some table →
      (getTablesLoop rt c schema [row] tables w).1 =
        tables ++ [{ table with
          DDL := match (getTableDDL c schema table.Name table.Type_ w).1 with
            | .ok ddl => ddl
            | .error _ => "" }]) := by
  refine ⟨getTableDDL_log c schema name kind w, ddlStatement_view_iff schema name kind, ?_, ?_,
    ?_, ?_, ?_⟩
  · intro h; unfold ddlStatement; rw [if_pos h]
  · intro h; unfold ddlStatement; rw [if_neg h]
  · intro h; rw [getTableDDL_fst, if_pos h]
  · intro h view ddl charset collation rest hresp
    rw [getTableDDL_fst, if_pos h, hresp]
    rfl
  · intro row table tables hscan
    simp only [getTablesLoop, hscan]
    cases hd : (getTableDDL c schema table.Name table.Type_ w).1 with
    | ok ddl => rfl
    | error e =>
      have := scanTableRow_DDL rt schema row table hscan
      simp only
      rw [← this]

set_option maxRecDepth 100000 in
/-- C14 on the shop server: for the kind "VIEW" the one statement issued is SHOW CREATE VIEW and
the result is the second of its four columns; the kind "view" in lower case goes the table way. -/
theorem getTableDDL_view_path_witness :
    (getTableDDL { db := shopServer, version := mysql8042, config := {} } "shop" "v_orders" "VIEW"
      (World.start ())).2.log.map (fun ev => ev.call.sql) =
      ["SHOW CREATE VIEW `shop`.`v_orders`"] ∧
    (getTableDDL { db := shopServer, version := mysql8042, config := {} } "shop" "v_orders" "VIEW"
      (World.start ())).1 = .ok "CREATE VIEW `v_orders` AS select 1" ∧
    ddlStatement "shop" "v_orders" "view" = "SHOW CREATE TABLE `shop`.`v_orders`" := by
  have h := getTableDDL_view_path plainRuntime
    { db := shopServer, version := mysql8042, config := {} } "shop" "v_orders" "VIEW"
    (World.start ())
  have h2 := getTableDDL_view_path plainRuntime
    { db := shopServer, version := mysql8042, config := {} } "shop" "v_orders" "view"
    (World.start ())
  refine ⟨?_, ?_, ?_⟩
  · rw [h.1]; rfl
  · exact h.2.2.2.2.2.1 rfl "v_orders" _ "utf8mb4" "utf8mb4_0900_ai_ci" [] (by rfl)
  · rw [h2.2.2.2.1 (by decide)]; rfl

theorem forall₂_mem_right {α β : Type} {R : α → β → Prop} :
    ∀ {l1 : List α} {l2 : List β}, List.Forall₂ R l1 l2 → ∀ b ∈ l2, ∃ a ∈ l1, R a b := by
  intro l1 l2 h
  induction h with
  | nil => intro b hb; cases hb
  | cons hab _ ih =>
    intro b hb
    rcases List.mem_cons.mp hb with rfl | hb
    · exact ⟨_, List.mem_cons_self _ _, hab⟩
    · obtain ⟨a, ha, hr⟩ := ih b hb
      exact ⟨a, List.mem_cons_of_mem _ ha, hr⟩

theorem getTablesLoop_entries {σ : Type} (rt : Runtime) (c : MySQLCollector σ) (dbName : String) :
    ∀ (rows : List Row) (tables : List TableInfo) (w : World σ),
      ∃ new, (getTablesLoop rt c dbName rows tables w).1 = tables ++ new ∧
        List.Forall₂ (EntryOf c dbName) (rows.filterMap (scanTableRow rt dbName)) new := by
  intro rows
  induction rows with
  | nil => intro tables w; exact ⟨[], by simp [getTablesLoop], List.Forall₂.nil⟩
  | cons row rows ih =>
    intro tables w
    cases hs : scanTableRow rt dbName row with
    | none =>
      obtain ⟨new, h1, h2⟩ := ih tables w
      refine ⟨new, ?_, ?_⟩
      · simp only [getTablesLoop, hs]; exact h1
      · rw [List.filterMap_cons_none hs]; exact h2
    | some table =>
      have hd := scanTableRow_DDL rt dbName row table hs
      rw [List.filterMap_cons_some hs]
      cases hr : (getTableDDL c dbName table.Name table.Type_ w).1 with
      | ok ddl =>
        obtain ⟨new, h1, h2⟩ := ih (tables ++ [{ table with DDL := ddl }])
          (getTableDDL c dbName table.Name table.Type_ w).2
        refine ⟨{ table with DDL := ddl } :: new, ?_, List.Forall₂.cons ⟨w, ?_⟩ h2⟩
        · simp only [getTablesLoop, hs, hr]
          rw [h1, List.append_assoc]; rfl
        · rw [hr]; rfl
      | error e =>
        obtain ⟨new, h1, h2⟩ := ih (tables ++ [table])
          (getTableDDL c dbName table.Name table.Type_ w).2
        refine ⟨table :: new, ?_, List.Forall₂.cons ⟨w, ?_⟩ h2⟩
        · simp only [getTablesLoop, hs, hr]
          rw [h1, List.append_assoc]; rfl
        · rw [hr]
          simp only [ddlOrEmpty]
          rw [← hd]

theorem getTablesForDatabase_entries {σ : Type} (rt : Runtime) (c : MySQLCollector σ)
    (dbName : String) (w : World σ) (tables : List TableInfo)
    (h : (getTablesForDatabase rt c dbName w).1 = .ok tables) :
    ∃ rows, (c.db.exec ⟨sqlTables, [dbName]⟩ w.server).1 = .ok rows ∧
      List.Forall₂ (EntryOf c dbName) (rows.filterMap (scanTableRow rt dbName)) tables := by
  have hq : (c.db.Query sqlTables [dbName] w).1 = (c.db.exec ⟨sqlTables, [dbName]⟩ w.server).1 := rfl
  unfold getTablesForDatabase at h
  dsimp only at h
  rw [← hq]
  cases hr : (c.db.Query sqlTables [dbName] w).1 with
  | error e => rw [hr] at h; cases h
  | ok rows =>
    rw [hr] at h
    simp only [Except.ok.injEq] at h
    obtain ⟨new, h1, h2⟩ := getTablesLoop_entries rt c dbName rows [] (c.db.Query sqlTables [dbName] w).2
    rw [h1, List.nil_append] at h
    subst h
    exact ⟨rows, rfl, h2⟩

theorem scanTableRow_columns (rt : Runtime) (dbName : String) (row : Row) (s : TableInfo)
    (h : scanTableRow rt dbName row = some s) :
    ∃ name kind engine autoIncrement rest, row = name :: kind :: engine :: autoIncrement :: rest ∧
      name.scanString = some s.Name ∧ kind.scanString = some s.Type_ ∧
      s.Engine = (if engine.scanNullString.Valid then engine.scanNullString.String else "") ∧
      ∃ autoInc, autoIncrement.scanNullInt64 = some autoInc ∧
        s.AutoIncrement = if autoInc.Valid then autoInc.Int64 else 0 := by
  unfold scanTableRow at h
  split at h
  · rename_i name kind engine autoIncrement createTime updateTime collation charset rowFormat
      comment createOptions
    split at h
    · rename_i tName tType autoInc hn hk ha
      simp only [Option.some.injEq] at h
      subst h
      exact ⟨name, kind, engine, autoIncrement, _, rfl, hn, hk, rfl, autoInc, ha, rfl⟩
    · cases h
  · cases h
theorem forall₂_filterMap_filter {α β γ : Type} {R : β → γ → Prop} {S : α → γ → Prop}
    (f : α → Option β) (hRS : ∀ a b t, f a = some b → R b t → S a t) :
    ∀ (l : List α) (ts : List γ), List.Forall₂ R (l.filterMap f) ts →
      List.Forall₂ S (l.filter (fun a => (f a).isSome)) ts := by
  intro l
  induction l with
  | nil => intro ts h; simpa using h
  | cons a l ih =>
    intro ts h
    cases hf : f a with
    | none =>
      rw [List.filterMap_cons_none hf] at h
      rw [List.filter_cons_of_neg (by simp [hf])]
      exact ih ts h
    | some b =>
      rw [List.filterMap_cons_some hf] at h
      rw [List.filter_cons_of_pos (by simp [hf])]
      cases h with
      | cons hab htl => exact List.Forall₂.cons (hRS a b _ hf hab) (ih _ htl)

theorem scanTableRow_follows {σ : Type} (rt : Runtime) (c : MySQLCollector σ) (dbName : String)
    (row : Row) (s t : TableInfo) (hscan : scanTableRow rt dbName row = some s)
    (hst : EntryOf c dbName s t) : FollowsRow row t := by
  obtain ⟨name, kind, engine, autoIncrement, rest, hr, hn, hk, he, autoInc, ha, hai⟩ :=
    scanTableRow_columns rt dbName row s hscan
  obtain ⟨w1, hst⟩ := hst
  subst hst
  refine ⟨name, kind, engine, autoIncrement, rest, hr, hn, hk, ?_, ?_⟩
  · cases engine <;> exact he
  · cases autoIncrement with
    | null =>
      simp only [Value.scanNullInt64, Option.some.injEq] at ha
      subst ha
      exact hai
    | text str =>
      simp only [Value.scanNullInt64, Value.scanInt] at ha
      split at ha
      · rename_i m hm
        simp only [Option.some.injEq] at ha
        subst ha
        split at hm
        · rename_i n hn1
          simp only [Option.some.injEq] at hm
          subst hm
          show Atoi str = .ok _
          rw [hn1]
          exact congrArg _ hai.symm
        · cases hm
      · cases ha
    | int n =>
      simp only [Value.scanNullInt64, Value.scanInt] at ha
      split at ha
      · rename_i m hm
        simp only [Option.some.injEq] at ha
        subst ha
        split at hm
        · simp only [Option.some.injEq] at hm
          subst hm
          exact hai
        · cases hm
      · cases ha

set_option maxRecDepth 100000 in
/-- C15, counterexample: on a server whose metadata row of kind "VIEW" carries the engine
"InnoDB" and the auto-increment counter 7, the entry that `getTablesForDatabase` produces has
that engine and that counter, not the empty ones. -/
theorem view_engine_populated_counterexample :
    (getTablesForDatabase plainRuntime { db := oddViewServer, version := mysql8042, config := {} }
      "shop" (World.start ())).1 =
      .ok [{ Database := "shop", Schema := "shop", Name := "v_stock", Type_ := "VIEW",
             Engine := "InnoDB", AutoIncrement := 7 }] ∧
    ¬ ∀ t ∈ ([{ Database := "shop", Schema := "shop", Name := "v_stock", Type_ := "VIEW",
                Engine := "InnoDB", AutoIncrement := 7 }] : List TableInfo),
      t.Type_ = "VIEW" → t.Engine = "" ∧ t.AutoIncrement = 0 := by
  refine ⟨rfl, ?_⟩
  intro h
  have := (h _ (List.mem_singleton.mpr rfl) rfl).2
  exact absurd this (by decide)

/-- C15, amended: the entries that `getTablesForDatabase` returns are, one for one and in order,
those of the metadata rows that scan, and each entry, of whatever kind, has the engine and the
auto-increment counter of its row: the empty engine and the counter 0 where the row carries NULL,
and the column value otherwise. An entry of kind "VIEW" has them empty when the server reports
NULL for a view, not by its kind. -/
theorem table_engine_follows_row {σ : Type} (rt : Runtime) (c : MySQLCollector σ)
    (dbName : String) (w : World σ) (tables : List TableInfo)
    (h : (getTablesForDatabase rt c dbName w).1 = .ok tables) :
    ∃ rows, (c.db.exec ⟨sqlTables, [dbName]⟩ w.server).1 = .ok rows ∧
      List.Forall₂ FollowsRow
        (rows.filter (fun row => (scanTableRow rt dbName row).isSome)) tables := by
  obtain ⟨rows, hrows, hall⟩ := getTablesForDatabase_entries rt c dbName w tables h
  exact ⟨rows, hrows, forall₂_filterMap_filter (scanTableRow rt dbName)
    (fun row s t hs hst => scanTableRow_follows rt c dbName row s t hs hst) rows tables hall⟩

set_option maxRecDepth 100000 in
/-- C15, amended, on a server with four metadata rows, of which the first two scan: the table takes
the engine "5" from an integer column and the counter 7 from a text column, the view takes the
empty engine and the counter 0 from its NULL columns, and the other two rows give no entry. -/
theorem table_engine_follows_row_witness :
    (getTablesForDatabase plainRuntime { db := mixedRowsServer, version := mysql8042, config := {} }
      "shop" (World.start ())).1
      = .ok [{ Database := "shop", Schema := "shop", Name := "stock", Type_ := "BASE TABLE",
               Engine := "5", AutoIncrement := 7 },
             { Database := "shop", Schema := "shop", Name := "v_stock", Type_ := "VIEW" }] ∧
    ∃ rows, (mixedRowsServer.exec ⟨sqlTables, ["shop"]⟩ ()).1 = .ok rows ∧
      List.Forall₂ FollowsRow
        (rows.filter (fun row => (scanTableRow plainRuntime "shop" row).isSome))
        [{ Database := "shop", Schema := "shop", Name := "stock", Type_ := "BASE TABLE",
           Engine := "5", AutoIncrement := 7 },
         { Database := "shop", Schema := "shop", Name := "v_stock", Type_ := "VIEW" }] :=
  ⟨rfl, table_engine_follows_row plainRuntime
    { db := mixedRowsServer, version := mysql8042, config := {} } "shop" (World.start ()) _ rfl⟩

theorem entries_erase {σ : Type} (c : MySQLCollector σ) (dbName : String) :
    ∀ {l1 l2 : List TableInfo}, List.Forall₂ (EntryOf c dbName) l1 l2 →
      (∀ s ∈ l1, s.DDL = "") → l2.map (fun t => { t with DDL := "" }) = l1 := by
  intro l1 l2 h
  induction h with
  | nil => intro _; rfl
  | cons hab _ ih =>
    intro hd
    obtain ⟨w1, ht⟩ := hab
    rw [List.map_cons, ih (fun s hs => hd s (List.mem_cons_of_mem _ hs))]
    subst ht
    have := hd _ (List.mem_cons_self _ _)
    congr 1
    simp only
    rw [← this]

set_option maxRecDepth 100000 in
/-- C16, counterexample: on the shop server the definition of the table `leads` of the database
`crm` may not be read, and yet the table list of `crm` has the entry of `leads`, with an empty
definition. -/
theorem ddl_failure_omits_counterexample :
    (getTableDDL { db := shopServer, version := mysql8042, config := {} } "crm" "leads" "BASE TABLE"
      (shopServer.Query sqlTables ["crm"] (World.start ())).2).1 = .error "denied" ∧
    (getTablesForDatabase plainRuntime { db := shopServer, version := mysql8042, config := {} }
      "crm" (World.start ())).1 =
      .ok [{ Database := "crm", Schema := "crm", Name := "leads", Type_ := "BASE TABLE",
             Engine := "InnoDB", DDL := "" }] :=
  ⟨rfl, rfl⟩

/-- C16, amended: a failing fetch of a definition drops nothing. The list that
`getTablesForDatabase` returns has one entry per metadata row that scans, in row order, and
each entry is its scanned row with the definition set to the fetched text, or left empty when the
fetch failed; so with the definitions blanked the list is the list of scanned rows. -/
theorem ddl_failure_keeps_entry {σ : Type} (rt : Runtime) (c : MySQLCollector σ)
    (dbName : String) (w : World σ) (tables : List TableInfo)
    (h : (getTablesForDatabase rt c dbName w).1 = .ok tables) :
    ∃ rows, (c.db.exec ⟨sqlTables, [dbName]⟩ w.server).1 = .ok rows ∧
      List.Forall₂ (EntryOf c dbName) (rows.filterMap (scanTableRow rt dbName)) tables ∧
      tables.length = (rows.filterMap (scanTableRow rt dbName)).length ∧
      tables.map (fun t => { t with DDL := "" }) = rows.filterMap (scanTableRow rt dbName) := by
  obtain ⟨rows, hrows, hall⟩ := getTablesForDatabase_entries rt c dbName w tables h
  refine ⟨rows, hrows, hall, hall.length_eq.symm, entries_erase c dbName hall ?_⟩
  intro s hs
  obtain ⟨row, -, hscan⟩ := List.mem_filterMap.mp hs
  exact scanTableRow_DDL rt dbName row s hscan

set_option maxRecDepth 100000 in
/-- C16, amended, on the database `crm` of the shop server: the one metadata row gives the one
entry, although its definition could not be fetched. -/
theorem ddl_failure_keeps_entry_witness :
    ∃ rows, (shopServer.exec ⟨sqlTables, ["crm"]⟩ ()).1 = .ok rows ∧
      List.Forall₂ (EntryOf { db := shopServer, version := mysql8042, config := {} } "crm")
        (rows.filterMap (scanTableRow plainRuntime "crm"))
        [{ Database := "crm", Schema := "crm", Name := "leads", Type_ := "BASE TABLE",
           Engine := "InnoDB" }] ∧
      ([{ Database := "crm", Schema := "crm", Name := "leads", Type_ := "BASE TABLE",
          Engine := "InnoDB" }] : List TableInfo).length =
        (rows.filterMap (scanTableRow plainRuntime "crm")).length ∧
      ([{ Database := "crm", Schema := "crm", Name := "leads", Type_ := "BASE TABLE",
          Engine := "InnoDB" }] : List TableInfo).map (fun t => { t with DDL := "" }) =
        rows.filterMap (scanTableRow plainRuntime "crm") :=
  ddl_failure_keeps_entry plainRuntime { db := shopServer, version := mysql8042, config := {} }
    "crm" (World.start ()) _ rfl

theorem scanUserRow_columns (rows : List Row) (s : UserAccount)
    (hs : s ∈ rows.filterMap scanUserRow) : AccountFromRow rows s := by
  obtain ⟨row, hrow, h⟩ := List.mem_filterMap.mp hs
  unfold scanUserRow at h
  split at h
  · rename_i user host plugin locked expired
    split at h
    · rename_i u hst hu hh
      simp only [Option.some.injEq] at h
      subst h
      exact ⟨user, host, plugin, locked, expired, hrow, hu, hh, rfl, rfl, rfl, rfl, rfl⟩
    · cases h
  · cases h

theorem getUserGrants_fst {σ : Type} (c : MySQLCollector σ) (user host : String) (w : World σ) :
    (getUserGrants c user host w).1 =
      match (c.db.exec ⟨grantsStatement user host, []⟩ w.server).1 with
      | .error e => .error e
      | .ok rows => .ok (rows.filterMap scanString1) := by
  have hq : (c.db.Query ("SHOW GRANTS FOR `" ++ user ++ "`@`" ++ host ++ "`") [] w).1 =
    (c.db.exec ⟨grantsStatement user host, []⟩ w.server).1 := rfl
  unfold getUserGrants
  dsimp only
  rw [hq]
  cases (c.db.exec ⟨grantsStatement user host, []⟩ w.server).1 <;> rfl

theorem collectUsersLoop_entries {σ : Type} (c : MySQLCollector σ) :
    ∀ (rows : List Row) (info : DatabaseInfo) (w : World σ),
      ∃ new, (collectUsersLoop c rows info w).1 = { info with Users := info.Users ++ new } ∧
        List.Forall₂ (AccountOf c) (rows.filterMap scanUserRow) new := by
  intro rows
  induction rows with
  | nil => intro info w; exact ⟨[], by simp [collectUsersLoop], List.Forall₂.nil⟩
  | cons row rows ih =>
    intro info w
    cases hs : scanUserRow row with
    | none =>
      obtain ⟨new, h1, h2⟩ := ih info w
      refine ⟨new, ?_, ?_⟩
      · simp only [collectUsersLoop, hs]; exact h1
      · rw [List.filterMap_cons_none hs]; exact h2
    | some user =>
      have hg : user.Grants = [] := by
        obtain ⟨_, _, _, _, _, _, _, _, _, _, _, h, _⟩ :=
          scanUserRow_columns [row] user (by simp [hs])
        exact h
      rw [List.filterMap_cons_some hs]
      have hf := getUserGrants_fst c user.User user.Host w
      cases hr : (c.db.exec ⟨grantsStatement user.User user.Host, []⟩ w.server).1 with
      | ok grows =>
        rw [hr] at hf
        obtain ⟨new, h1, h2⟩ := ih
          { info with Users := info.Users ++ [{ user with Grants := grows.filterMap scanString1 }] }
          (getUserGrants c user.User user.Host w).2
        refine ⟨{ user with Grants := grows.filterMap scanString1 } :: new, ?_,
          List.Forall₂.cons ⟨w.server, ?_⟩ h2⟩
        · simp only [collectUsersLoop, hs, hf]
          rw [h1]
          simp only [List.append_assoc, List.singleton_append]
        · rw [hr]; rfl
      | error e =>
        rw [hr] at hf
        obtain ⟨new, h1, h2⟩ := ih { info with Users := info.Users ++ [user] }
          (getUserGrants c user.User user.Host w).2
        refine ⟨user :: new, ?_, List.Forall₂.cons ⟨w.server, ?_⟩ h2⟩
        · simp only [collectUsersLoop, hs, hf]
          rw [h1]
          simp only [List.append_assoc, List.singleton_append]
        · rw [hr]
          simp only [grantsOrEmpty]
          rw [← hg]

theorem accounts_erase {σ : Type} (c : MySQLCollector σ) :
    ∀ {l1 l2 : List UserAccount}, List.Forall₂ (AccountOf c) l1 l2 →
      (∀ s ∈ l1, s.Grants = []) → l2.map (fun u => { u with Grants := [] }) = l1 := by
  intro l1 l2 h
  induction h with
  | nil => intro _; rfl
  | cons hab _ ih =>
    intro hd
    obtain ⟨st, ht⟩ := hab
    rw [List.map_cons, ih (fun s hs => hd s (List.mem_cons_of_mem _ hs))]
    subst ht
    have := hd _ (List.mem_cons_self _ _)
    congr 1
    simp only
    rw [← this]

/-- C17: when the account list is answered with `rows`, `collectUsers` returns no error and
appends to `Users` one account per row that scans, in row order; each is its scanned row, which
has the user, host, plugin, lock and expiry columns of the row and no grants, with the grants set
to the strings that its SHOW GRANTS statement returned, in order, or left empty when that
statement failed. -/
theorem grants_failure_keeps_account {σ : Type} (c : MySQLCollector σ) (info : DatabaseInfo)
    (w : World σ) (rows : List Row)
    (hq : (c.db.exec ⟨if c.version.IsMySQL8OrLater then sqlUsersMySQL8 else sqlUsersLegacy, []⟩
      w.server).1 = .ok rows) :
    ∃ users, (collectUsers c info w).1 = .ok { info with Users := info.Users ++ users } ∧
      List.Forall₂ (AccountOf c) (rows.filterMap scanUserRow) users ∧
      users.length = (rows.filterMap scanUserRow).length ∧
      users.map (fun u => { u with Grants := [] }) = rows.filterMap scanUserRow ∧
      ∀ s ∈ rows.filterMap scanUserRow, AccountFromRow rows s := by
  have hq1 : (c.db.Query (if c.version.IsMySQL8OrLater then sqlUsersMySQL8 else sqlUsersLegacy)
      [] w).1 = .ok rows := hq
  obtain ⟨new, h1, h2⟩ := collectUsersLoop_entries c rows info
    (c.db.Query (if c.version.IsMySQL8OrLater then sqlUsersMySQL8 else sqlUsersLegacy) [] w).2
  refine ⟨new, ?_, h2, h2.length_eq.symm, accounts_erase c h2 ?_, scanUserRow_columns rows⟩
  · unfold collectUsers
    dsimp only
    rw [hq1]
    dsimp only
    rw [h1]
  · intro s hs
    obtain ⟨_, _, _, _, _, _, _, _, _, _, _, h, _⟩ := scanUserRow_columns rows s hs
    exact h

set_option maxRecDepth 100000 in
/-- C17 on a server with the accounts `app` and `root`, where the grants of `app` may not be
read: both accounts are in the snapshot, `app` without grants and `root` with its two. -/
theorem grants_failure_keeps_account_witness :
    (collectUsers { db := accountsServer, version := mysql8042, config := {} } {}
      (World.start ())).1 =
      .ok { Users :=
        [{ User := "app", Host := "%", Plugin := "caching_sha2_password", AccountLocked := "N",
           PasswordExpired := "N", Grants := [] },
         { User := "root", Host := "localhost",
           Grants := ["GRANT ALL PRIVILEGES ON *.* TO `root`@`localhost`",
                      "GRANT PROXY ON ``@`` TO `root`@`localhost`"] }] } ∧
    (accountsServer.exec ⟨grantsStatement "app" "%", []⟩ ()).1 = .error "denied" ∧
    ∃ users,
      (collectUsers { db := accountsServer, version := mysql8042, config := {} } {}
        (World.start ())).1 = .ok { Users := [] ++ users } ∧
      users.length = 2 := by
  refine ⟨rfl, rfl, ?_⟩
  obtain ⟨users, h1, -, h3, -⟩ := grants_failure_keeps_account
    { db := accountsServer, version := mysql8042, config := {} } {} (World.start ())
    [[.text "app", .text "%", .text "caching_sha2_password", .text "N", .text "N"],
     [.text "root", .text "localhost", .null, .null, .null]] rfl
  exact ⟨users, h1, h3⟩

theorem excludePlugins_test :
    (fun plugin : Plugin => !excludePlugins.contains plugin.Name) =
      fun plugin => decide (plugin.Name ∉ excludePlugins) := by
  funext plugin
  by_cases h : plugin.Name ∈ excludePlugins
  · simp [h]
  · simp [h]

set_option maxRecDepth 100000 in
/-- C18: when the plugin list is answered with `rows`, `collectPlugins` returns no error and
appends to `Plugins` the rows that scan, in row order, without those whose name is one of the 48
names of the exclusion set, compared as strings; "InnoDB" is one of them, while "innodb_custom",
"innodb" and "INNODB" are not. -/
theorem plugin_exclusion_exact {σ : Type} (c : MySQLCollector σ) (info : DatabaseInfo)
    (w : World σ) (rows : List Row) (hq : (c.db.exec ⟨sqlPlugins, []⟩ w.server).1 = .ok rows) :
    (collectPlugins c info w).1 =
      .ok { info with
            Plugins := info.Plugins ++
              (rows.filterMap scanPluginRow).filter
                (fun plugin => decide (plugin.Name ∉ excludePlugins)) } ∧
    List.Sublist
      ((rows.filterMap scanPluginRow).filter (fun plugin => decide (plugin.Name ∉ excludePlugins)))
      (rows.filterMap scanPluginRow) ∧
    30 < excludePlugins.length ∧ excludePlugins.Nodup ∧
    "InnoDB" ∈ excludePlugins ∧ "innodb_custom" ∉ excludePlugins ∧
    "innodb" ∉ excludePlugins ∧ "INNODB" ∉ excludePlugins := by
  have hq1 : (c.db.Query sqlPlugins [] w).1 = .ok rows := hq
  refine ⟨?_, List.filter_sublist _, by decide, by decide, by decide, by decide, by decide,
    by decide⟩
  unfold collectPlugins
  dsimp only
  rw [hq1, excludePlugins_test]

set_option maxRecDepth 100000 in
/-- C18 on a server with the plugins "InnoDB", "innodb_custom", "innodb" and "INNODB": the
first is left out and the other three are kept, in row order. -/
theorem plugin_exclusion_exact_witness :
    (collectPlugins { db := pluginsServer, version := mysql8042, config := {} } {}
      (World.start ())).1 =
      .ok { Plugins :=
        [{ Name := "innodb_custom", Version := "1.0", Status := "ACTIVE", Type_ := "DAEMON",
           Library := "custom.so" },
         { Name := "innodb", Version := "1.0", Status := "ACTIVE", Type_ := "DAEMON" },
         { Name := "INNODB", Version := "1.0", Status := "ACTIVE", Type_ := "DAEMON" }] } := by
  have h := (plugin_exclusion_exact { db := pluginsServer, version := mysql8042, config := {} } {}
    (World.start ()) _ rfl).1
  rw [h]
  rfl

theorem collectTablesLoop_repl {σ : Type} (rt : Runtime) (c : MySQLCollector σ) :
    ∀ (databases : List String) (info : DatabaseInfo) (w : World σ),
      (collectTablesLoop rt c databases info w).1.ReplicationInfo = info.ReplicationInfo := by
  intro databases info w
  rw [collectTablesLoop_fst]

theorem collectUsersLoop_repl {σ : Type} (c : MySQLCollector σ) :
    ∀ (rows : List Row) (info : DatabaseInfo) (w : World σ),
      (collectUsersLoop c rows info w).1.ReplicationInfo = info.ReplicationInfo := by
  intro rows
  induction rows with
  | nil => intro info w; rfl
  | cons row rows ih =>
    intro info w
    simp only [collectUsersLoop]
    split
    · exact ih _ _
    · split
      · exact ih _ _
      · exact ih _ _

theorem collectRoutinesLoop_repl {σ : Type} (rt : Runtime) (c : MySQLCollector σ) :
    ∀ (rows : List Row) (info : DatabaseInfo) (w : World σ),
      (collectRoutinesLoop rt c rows info w).1.ReplicationInfo = info.ReplicationInfo := by
  intro rows
  induction rows with
  | nil => intro info w; rfl
  | cons row rows ih =>
    intro info w
    simp only [collectRoutinesLoop]
    split
    · exact ih _ _
    · split
      · exact ih _ _
      · exact ih _ _

theorem commonVarsLoop_repl {σ : Type} (c : MySQLCollector σ) :
    ∀ (entries : List (String × String)) (info : DatabaseInfo) (w : World σ),
      (commonVarsLoop c entries info w).1.ReplicationInfo = info.ReplicationInfo := by
  intro entries
  induction entries with
  | nil => intro info w; rfl
  | cons e es ih =>
    intro info w
    obtain ⟨varName, defaultValue⟩ := e
    simp only [commonVarsLoop]
    split
    · exact ih _ _
    · split
      · exact ih _ _
      · exact ih _ _

theorem collectRolesLoop_repl {σ : Type} (c : MySQLCollector σ) :
    ∀ (rows : List Row) (info : DatabaseInfo) (w : World σ),
      (collectRolesLoop c rows info w).1.ReplicationInfo = info.ReplicationInfo := by
  intro rows
  induction rows with
  | nil => intro info w; rfl
  | cons row rows ih =>
    intro info w
    simp only [collectRolesLoop]
    split
    · exact ih _ _
    · exact ih _ _

theorem collectConnectionInfo_repl {σ : Type} (c : MySQLCollector σ)
    (info info1 : DatabaseInfo) (w : World σ)
    (h : (collectConnectionInfo c info w).1 = .ok info1) :
    info1.ReplicationInfo = info.ReplicationInfo := by
  unfold collectConnectionInfo at h
  dsimp only at h
  split at h
  · cases h
  · simp only [Except.ok.injEq] at h
    rw [← h]

theorem collectTables_repl {σ : Type} (rt : Runtime) (c : MySQLCollector σ)
    (info info1 : DatabaseInfo) (w : World σ) (h : (collectTables rt c info w).1 = .ok info1) :
    info1.ReplicationInfo = info.ReplicationInfo := by
  unfold collectTables at h
  dsimp only at h
  split at h
  · cases h
  · simp only [Except.ok.injEq] at h
    rw [← h]
    exact collectTablesLoop_repl rt c _ _ _

theorem collectUsers_repl {σ : Type} (c : MySQLCollector σ)
    (info info1 : DatabaseInfo) (w : World σ) (h : (collectUsers c info w).1 = .ok info1) :
    info1.ReplicationInfo = info.ReplicationInfo := by
  unfold collectUsers at h
  dsimp only at h
  split at h
  · cases h
  · simp only [Except.ok.injEq] at h
    rw [← h]
    exact collectUsersLoop_repl c _ _ _

theorem collectMySQL8Features_repl {σ : Type} (c : MySQLCollector σ)
    (info info1 : DatabaseInfo) (w : World σ)
    (h : (collectMySQL8Features c info w).1 = .ok info1) :
    info1.ReplicationInfo = info.ReplicationInfo := by
  unfold collectMySQL8Features at h
  dsimp only at h
  split at h
  · simp only [Except.ok.injEq] at h
    rw [← h]
  · rename_i info2 hr
    simp only [Except.ok.injEq] at h
    subst h
    unfold collectRoles at hr
    dsimp only at hr
    split at hr
    · cases hr
    · simp only [Except.ok.injEq] at hr
      rw [← hr]
      exact collectRolesLoop_repl c _ _ _

theorem collectRoutines_repl {σ : Type} (rt : Runtime) (c : MySQLCollector σ)
    (info info1 : DatabaseInfo) (w : World σ) (h : (collectRoutines rt c info w).1 = .ok info1) :
    info1.ReplicationInfo = info.ReplicationInfo := by
  unfold collectRoutines at h
  dsimp only at h
  split at h
  · cases h
  · simp only [Except.ok.injEq] at h
    rw [← h]
    exact collectRoutinesLoop_repl rt c _ _ _

theorem collectCommonModifiedVariables_repl {σ : Type} (rt : Runtime) (c : MySQLCollector σ)
    (info info1 : DatabaseInfo) (w : World σ)
    (h : (collectCommonModifiedVariables rt c info w).1 = .ok info1) :
    info1.ReplicationInfo = info.ReplicationInfo := by
  unfold collectCommonModifiedVariables at h
  simp only [Except.ok.injEq] at h
  rw [← h]
  exact commonVarsLoop_repl c _ _ _

theorem collectVariablesFromShowVariables_repl {σ : Type} (rt : Runtime) (c : MySQLCollector σ)
    (info info1 : DatabaseInfo) (w : World σ)
    (h : (collectVariablesFromShowVariables rt c info w).1 = .ok info1) :
    info1.ReplicationInfo = info.ReplicationInfo := by
  unfold collectVariablesFromShowVariables at h
  split at h
  · exact collectCommonModifiedVariables_repl rt c info info1 w h
  · dsimp only at h
    split at h
    · cases h
    · simp only [Except.ok.injEq] at h
      rw [← h]

theorem collectVariablesFromInformationSchema_repl {σ : Type} (rt : Runtime)
    (c : MySQLCollector σ) (info info1 : DatabaseInfo) (w : World σ)
    (h : (collectVariablesFromInformationSchema rt c info w).1 = .ok info1) :
    info1.ReplicationInfo = info.ReplicationInfo := by
  unfold collectVariablesFromInformationSchema at h
  split at h
  · exact collectCommonModifiedVariables_repl rt c info info1 w h
  · dsimp only at h
    split at h
    · exact collectVariablesFromShowVariables_repl rt c info info1 _ h
    · simp only [Except.ok.injEq] at h
      rw [← h]

theorem collectVariables_repl {σ : Type} (rt : Runtime) (c : MySQLCollector σ)
    (info info1 : DatabaseInfo) (w : World σ) (h : (collectVariables rt c info w).1 = .ok info1) :
    info1.ReplicationInfo = info.ReplicationInfo := by
  unfold collectVariables at h
  split at h
  · unfold collectVariablesFromPerformanceSchema at h
    dsimp only at h
    split at h
    · exact collectVariablesFromInformationSchema_repl rt c info info1 _ h
    · simp only [Except.ok.injEq] at h
      rw [← h]
  · exact collectVariablesFromInformationSchema_repl rt c info info1 w h

theorem collectPlugins_repl {σ : Type} (c : MySQLCollector σ)
    (info info1 : DatabaseInfo) (w : World σ) (h : (collectPlugins c info w).1 = .ok info1) :
    info1.ReplicationInfo = info.ReplicationInfo := by
  unfold collectPlugins at h
  dsimp only at h
  split at h
  · cases h
  · simp only [Except.ok.injEq] at h
    rw [← h]

theorem collectComponents_repl {σ : Type} (c : MySQLCollector σ)
    (info info1 : DatabaseInfo) (w : World σ) (h : (collectComponents c info w).1 = .ok info1) :
    info1.ReplicationInfo = info.ReplicationInfo := by
  unfold collectComponents at h
  dsimp only at h
  split at h
  · cases h
  · simp only [Except.ok.injEq] at h
    rw [← h]

theorem stageRun_repl {σ : Type} (rt : Runtime) (c : MySQLCollector σ) (st : Stage)
    (hst : st ≠ .replication) (info info1 : DatabaseInfo) (w : World σ)
    (h : (stageRun rt c st info w).1 = .ok info1) :
    info1.ReplicationInfo = info.ReplicationInfo := by
  have hid : ((Except.ok info, w) : Except String DatabaseInfo × World σ).1 = .ok info1 →
      info1.ReplicationInfo = info.ReplicationInfo := by
    intro h
    simp only [Except.ok.injEq] at h
    rw [← h]
  cases st <;> simp only [stageRun] at h
  · exact collectConnectionInfo_repl c info info1 w h
  · split at h
    · exact collectTables_repl rt c info info1 w h
    · exact hid h
  · split at h
    · exact collectUsers_repl c info info1 w h
    · exact hid h
  · split at h
    · exact collectMySQL8Features_repl c info info1 w h
    · exact hid h
  · split at h
    · exact collectRoutines_repl rt c info info1 w h
    · exact hid h
  · split at h
    · exact collectVariables_repl rt c info info1 w h
    · exact hid h
  · split at h
    · exact collectPlugins_repl c info info1 w h
    · exact hid h
  · split at h
    · exact collectComponents_repl c info info1 w h
    · exact hid h
  · exact absurd rfl hst

theorem getReplicationStatus_fst {σ : Type} (c : MySQLCollector σ) (info : ReplicationInfo)
    (w : World σ) :
    ∃ status, (getReplicationStatus c info w).1 = .ok { info with ReplicationStatus := some status } :=
  ⟨_, rfl⟩

theorem getSemiSyncStatus_fst {σ : Type} (c : MySQLCollector σ) (info : ReplicationInfo)
    (w : World σ) :
    ∃ status, (getSemiSyncStatus c info w).1 = .ok { info with SemiSyncStatus := some status } :=
  ⟨_, rfl⟩

theorem getGroupReplicationInfo_fst {σ : Type} (c : MySQLCollector σ) (info : ReplicationInfo)
    (w : World σ) :
    ∃ group, (getGroupReplicationInfo c info w).1 =
      .ok { info with GroupReplicationInfo := some group } :=
  ⟨_, rfl⟩

theorem getReplicaStatus_after {σ : Type} (c : MySQLCollector σ) (info : ReplicationInfo)
    (w : World σ) :
    ∃ l, afterProbe info (getReplicaStatus c info w).1 = { info with ReplicaStatus := l } := by
  unfold getReplicaStatus
  dsimp only
  split
  · exact ⟨info.ReplicaStatus, rfl⟩
  · exact ⟨info.ReplicaStatus, rfl⟩
  · exact ⟨_, rfl⟩

theorem collectReplicationInfo_filled {σ : Type} (c : MySQLCollector σ) (info : DatabaseInfo)
    (w : World σ) :
    ∃ ri, (collectReplicationInfo c info w).1 = .ok { info with ReplicationInfo := some ri } ∧
      ri.Filled := by
  unfold collectReplicationInfo
  dsimp only
  obtain ⟨s1, h1⟩ := getReplicationStatus_fst c {} w
  rw [h1]
  simp only [succeeded, Bool.true_or, if_true, afterProbe]
  obtain ⟨l, h2⟩ := getReplicaStatus_after c { ReplicationStatus := some s1 }
    (getReplicationStatus c {} w).2
  simp only [afterProbe] at h2
  rw [h2]
  obtain ⟨s3, h3⟩ := getSemiSyncStatus_fst c { ReplicationStatus := some s1, ReplicaStatus := l }
    (getReplicaStatus c { ReplicationStatus := some s1 } (getReplicationStatus c {} w).2).2
  rw [h3]
  dsimp only
  obtain ⟨s4, h4⟩ := getGroupReplicationInfo_fst c
    { ReplicationStatus := some s1, ReplicaStatus := l, SemiSyncStatus := some s3 }
    (getSemiSyncStatus c { ReplicationStatus := some s1, ReplicaStatus := l }
      (getReplicaStatus c { ReplicationStatus := some s1 } (getReplicationStatus c {} w).2).2).2
  rw [h4]
  exact ⟨_, rfl, rfl, rfl, rfl⟩

theorem runStages_repl {σ : Type} (rt : Runtime) (c : MySQLCollector σ) :
    ∀ (stages : List Stage) (info info1 : DatabaseInfo) (w : World σ),
      (runStages rt c stages info w).1 = .ok info1 →
      (c.config.Replication = true → Stage.replication ∈ stages →
        info1.ReplicationInfo.isSome = true) ∧
      ((c.config.Replication = false ∨ Stage.replication ∉ stages) →
        info1.ReplicationInfo = info.ReplicationInfo) := by
  intro stages
  induction stages with
  | nil =>
    intro info info1 w h
    simp only [runStages, Except.ok.injEq] at h
    subst h
    exact ⟨fun _ hm => absurd hm (List.not_mem_nil _), fun _ => rfl⟩
  | cons st rest ih =>
    intro info info1 w h
    simp only [runStages] at h
    cases hr : (stageRun rt c st info w).1 with
    | error e => rw [hr] at h; cases h
    | ok info2 =>
      rw [hr] at h
      simp only at h
      obtain ⟨ih1, ih2⟩ := ih info2 info1 _ h
      refine ⟨?_, ?_⟩
      · intro hflag hmem
        by_cases hm : Stage.replication ∈ rest
        · exact ih1 hflag hm
        · have hst : st = .replication := by
            rcases List.mem_cons.mp hmem with h1 | h1
            · exact h1.symm
            · exact absurd h1 hm
          subst hst
          rw [ih2 (Or.inr hm)]
          simp only [stageRun, hflag, if_true] at hr
          obtain ⟨ri, hri, -⟩ := collectReplicationInfo_filled c info w
          rw [hri] at hr
          simp only [Except.ok.injEq] at hr
          rw [← hr]
          rfl
      · intro hcase
        have hrest : c.config.Replication = false ∨ Stage.replication ∉ rest := by
          rcases hcase with h1 | h1
          · exact Or.inl h1
          · exact Or.inr (fun hm => h1 (List.mem_cons_of_mem _ hm))
        rw [ih2 hrest]
        by_cases hst : st = .replication
        · subst hst
          rcases hcase with h1 | h1
          · simp only [stageRun, h1, Bool.false_eq_true, if_false, Except.ok.injEq] at hr
            rw [← hr]
          · exact absurd (List.mem_cons_self _ _) h1
        · exact stageRun_repl rt c st hst info info2 w hr

/-- C19: whatever the server answers to the replication queries, `collectReplicationInfo`
returns no error and sets `ReplicationInfo` to a report whose replication status, semi-sync
status and group replication parts are all present; and in every snapshot that `CollectAll`
returns, `ReplicationInfo` is present iff the `Replication` flag of the configuration is set. -/
theorem replication_absorbed_and_gated {σ : Type} (rt : Runtime) (c : MySQLCollector σ)
    (w : World σ) :
    (∀ info w1, ∃ ri,
      (collectReplicationInfo c info w1).1 = .ok { info with ReplicationInfo := some ri } ∧
      ri.Filled) ∧
    ∀ info, (CollectAll rt c w).1 = .ok info →
      (info.ReplicationInfo.isSome = true ↔ c.config.Replication = true) := by
  refine ⟨collectReplicationInfo_filled c, ?_⟩
  intro info h
  rw [CollectAll_eq_runStages] at h
  obtain ⟨h1, h2⟩ := runStages_repl rt c stageOrder {} info w h
  constructor
  · intro hsome
    by_contra hflag
    have hf : c.config.Replication = false := by
      cases hc : c.config.Replication
      · rfl
      · exact absurd hc hflag
    rw [h2 (Or.inl hf)] at hsome
    cases hsome
  · intro hflag
    exact h1 hflag (by decide)

set_option maxRecDepth 100000 in
/-- C19 on a server that refuses every statement but the version query, with every category
excluded: with the `Replication` flag the snapshot has a replication report whose three parts are
present and empty, and without it the snapshot has none. -/
theorem replication_absorbed_and_gated_witness :
    ((CollectAll plainRuntime
      { db := denyingServer, version := mysql8042,
        config := { Replication := true, ExceptTables := true, ExceptStoredProcedures := true,
                    ExceptVariables := true, ExceptUsers := true, ExceptRoles := true,
                    ExceptPlugins := true } } (World.start ())).1.toOption.map
        (fun info => info.ReplicationInfo)) =
      some (some { ReplicationStatus := some {}, SemiSyncStatus := some {},
                   GroupReplicationInfo := some {} }) ∧
    ((CollectAll plainRuntime
      { db := denyingServer, version := mysql8042,
        config := { ExceptTables := true, ExceptStoredProcedures := true,
                    ExceptVariables := true, ExceptUsers := true, ExceptRoles := true,
                    ExceptPlugins := true } } (World.start ())).1.toOption.map
        (fun info => info.ReplicationInfo)) = some none ∧
    (∃ info, (CollectAll plainRuntime
      { db := denyingServer, version := mysql8042,
        config := { Replication := true, ExceptTables := true, ExceptStoredProcedures := true,
                    ExceptVariables := true, ExceptUsers := true, ExceptRoles := true,
                    ExceptPlugins := true } } (World.start ())).1 = .ok info ∧
      info.ReplicationInfo.isSome = true) :=
  ⟨rfl, rfl, _, rfl,
    ((replication_absorbed_and_gated plainRuntime
      { db := denyingServer, version := mysql8042,
        config := { Replication := true, ExceptTables := true, ExceptStoredProcedures := true,
                    ExceptVariables := true, ExceptUsers := true, ExceptRoles := true,
                    ExceptPlugins := true } } (World.start ())).2 _ rfl).mpr rfl⟩

/-- C20, counterexample: with the version 5.7.44, for which `GetReplicationStatusQuery` returns
"SHOW SLAVE STATUS", `getReplicaStatus` issues "SHOW REPLICA STATUS" first; and with the version
8.0.42, for which it returns "SHOW REPLICA STATUS", `getReplicaStatus` goes on to issue
"SHOW SLAVE STATUS" when the server does not know the newer statement. -/
theorem replica_statement_by_version_counterexample :
    mysql5744.IsMySQL8OrLater = false ∧
    mysql5744.GetReplicationStatusQuery = "SHOW SLAVE STATUS" ∧
    (getReplicaStatus { db := legacyReplicaServer, version := mysql5744, config := {} } {}
      (World.start ())).2.log.map (fun ev => ev.call.sql) =
      ["SHOW REPLICA STATUS", "SHOW SLAVE STATUS"] ∧
    mysql8042.GetReplicationStatusQuery = "SHOW REPLICA STATUS" ∧
    (getReplicaStatus { db := legacyReplicaServer, version := mysql8042, config := {} } {}
      (World.start ())).2.log.map (fun ev => ev.call.sql) =
      ["SHOW REPLICA STATUS", "SHOW SLAVE STATUS"] :=
  ⟨rfl, rfl, rfl, rfl, rfl⟩

/-- C20, amended: `getReplicaStatus` does not look at the version. It issues
"SHOW REPLICA STATUS" first; when that succeeds it is the only statement, and when it fails
"SHOW SLAVE STATUS" follows. An error is returned only when both fail. `ReplicaStatus` becomes
the one placeholder entry when the statement that answered has a row, and the report is left as
it was when it has none. -/
theorem getReplicaStatus_tries_replica_first {σ : Type} (c : MySQLCollector σ)
    (info : ReplicationInfo) (w : World σ) :
    (∀ v, getReplicaStatus { c with version := v } info w = getReplicaStatus c info w) ∧
    (∀ rows, (c.db.exec ⟨"SHOW REPLICA STATUS", []⟩ w.server).1 = .ok rows →
      (getReplicaStatus c info w).2.log = w.log ++ [⟨⟨"SHOW REPLICA STATUS", []⟩, .ok rows⟩] ∧
      (getReplicaStatus c info w).1 = .ok (replicaRecorded info rows)) ∧
    (∀ e, (c.db.exec ⟨"SHOW REPLICA STATUS", []⟩ w.server).1 = .error e →
      (getReplicaStatus c info w).2.log =
        w.log ++ [⟨⟨"SHOW REPLICA STATUS", []⟩, .error e⟩,
          ⟨⟨"SHOW SLAVE STATUS", []⟩,
            (c.db.exec ⟨"SHOW SLAVE STATUS", []⟩
              (c.db.exec ⟨"SHOW REPLICA STATUS", []⟩ w.server).2).1⟩] ∧
      (getReplicaStatus c info w).1 =
        match (c.db.exec ⟨"SHOW SLAVE STATUS", []⟩
            (c.db.exec ⟨"SHOW REPLICA STATUS", []⟩ w.server).2).1 with
        | .error e2 => .error e2
        | .ok rows => .ok (replicaRecorded info rows)) := by
  have hq1 : (c.db.Query "SHOW REPLICA STATUS" [] w).1 =
    (c.db.exec ⟨"SHOW REPLICA STATUS", []⟩ w.server).1 := rfl
  have hq2 : (c.db.Query "SHOW SLAVE STATUS" [] (c.db.Query "SHOW REPLICA STATUS" [] w).2).1 =
    (c.db.exec ⟨"SHOW SLAVE STATUS", []⟩ (c.db.exec ⟨"SHOW REPLICA STATUS", []⟩ w.server).2).1 := rfl
  refine ⟨fun _ => rfl, ?_, ?_⟩
  · intro rows hrows
    rw [← hq1] at hrows
    unfold getReplicaStatus
    simp only [hrows]
    cases rows with
    | nil =>
      refine ⟨?_, rfl⟩
      show (c.db.Query "SHOW REPLICA STATUS" [] w).2.log = _
      rw [Query_log, hrows]
    | cons row rest =>
      refine ⟨?_, rfl⟩
      show (c.db.Query "SHOW REPLICA STATUS" [] w).2.log = _
      rw [Query_log, hrows]
  · intro e he
    rw [← hq1] at he
    rw [← hq2]
    have hlog : (c.db.Query "SHOW SLAVE STATUS" [] (c.db.Query "SHOW REPLICA STATUS" [] w).2).2.log =
        w.log ++ [⟨⟨"SHOW REPLICA STATUS", []⟩, .error e⟩,
          ⟨⟨"SHOW SLAVE STATUS", []⟩,
            (c.db.Query "SHOW SLAVE STATUS" [] (c.db.Query "SHOW REPLICA STATUS" [] w).2).1⟩] := by
      rw [Query_log, Query_log, he, List.append_assoc]
      rfl
    unfold getReplicaStatus
    simp only [he]
    cases h2 : (c.db.Query "SHOW SLAVE STATUS" [] (c.db.Query "SHOW REPLICA STATUS" [] w).2).1 with
    | error e2 =>
      rw [h2] at hlog
      exact ⟨hlog, rfl⟩
    | ok rows =>
      rw [h2] at hlog
      cases rows with
      | nil => exact ⟨hlog, rfl⟩
      | cons row rest => exact ⟨hlog, rfl⟩

/-- C20, amended, on a replica that knows the older statement only, asked by a MySQL 5.7
collector: the newer statement is tried and fails, the older one follows, and its row gives the one
placeholder entry. -/
theorem getReplicaStatus_tries_replica_first_witness :
    (getReplicaStatus { db := legacyReplicaServer, version := mysql5744, config := {} } {}
      (World.start ())).2.log =
      [] ++ [⟨⟨"SHOW REPLICA STATUS", []⟩, .error "syntax error"⟩,
        ⟨⟨"SHOW SLAVE STATUS", []⟩, .ok [[.text "Waiting for source to send event"]]⟩] ∧
    (getReplicaStatus { db := legacyReplicaServer, version := mysql5744, config := {} } {}
      (World.start ())).1 =
      .ok { ReplicaStatus := [{ SlaveIORunning := "Unknown", SlaveSQLRunning := "Unknown" }] } :=
  (getReplicaStatus_tries_replica_first
    { db := legacyReplicaServer, version := mysql5744, config := {} } {} (World.start ())).2.2
    "syntax error" rfl

/-! ## `version.go`: comparison and queries -/

theorem CompareVersion_cases (v w : MySQLVersion) :
    (v.CompareVersion w = -1 ∧ tripleLt v.triple w.triple) ∨
    (v.CompareVersion w = 0 ∧ v.triple = w.triple) ∨
    (v.CompareVersion w = 1 ∧ tripleLt w.triple v.triple) := by
  unfold MySQLVersion.CompareVersion tripleLt MySQLVersion.triple
  simp only [Prod.mk.injEq]
  split_ifs <;> omega

theorem tripleLt_irrefl (a : Int × Int × Int) : ¬ tripleLt a a := by
  unfold tripleLt; omega

theorem tripleLt_asymm {a b : Int × Int × Int} (h : tripleLt a b) : ¬ tripleLt b a := by
  unfold tripleLt at *; omega

theorem tripleLt_trans {a b c : Int × Int × Int} (h1 : tripleLt a b) (h2 : tripleLt b c) :
    tripleLt a c := by
  unfold tripleLt at *; omega

theorem CompareVersion_lt_iff (v w : MySQLVersion) :
    v.CompareVersion w = -1 ↔ tripleLt v.triple w.triple := by
  rcases CompareVersion_cases v w with ⟨h1, h2⟩ | ⟨h1, h2⟩ | ⟨h1, h2⟩
  · simp [h1, h2]
  · rw [h1, h2]
    exact ⟨fun h => by omega, fun h => absurd h (tripleLt_irrefl _)⟩
  · rw [h1]
    exact ⟨fun h => by omega, fun h => absurd h (tripleLt_asymm h2)⟩

theorem CompareVersion_eq_iff (v w : MySQLVersion) :
    v.CompareVersion w = 0 ↔ v.triple = w.triple := by
  rcases CompareVersion_cases v w with ⟨h1, h2⟩ | ⟨h1, h2⟩ | ⟨h1, h2⟩
  · rw [h1]
    exact ⟨fun h => by omega, fun h => absurd (h ▸ h2) (tripleLt_irrefl _)⟩
  · simp [h1, h2]
  · rw [h1]
    exact ⟨fun h => by omega, fun h => absurd (h ▸ h2) (tripleLt_irrefl _)⟩

theorem CompareVersion_gt_iff (v w : MySQLVersion) :
    v.CompareVersion w = 1 ↔ tripleLt w.triple v.triple := by
  rcases CompareVersion_cases v w with ⟨h1, h2⟩ | ⟨h1, h2⟩ | ⟨h1, h2⟩
  · rw [h1]
    exact ⟨fun h => by omega, fun h => absurd h (tripleLt_asymm h2)⟩
  · rw [h1, h2]
    exact ⟨fun h => by omega, fun h => absurd h (tripleLt_irrefl _)⟩
  · simp [h1, h2]

/-- C24: `CompareVersion` is the three-way lexicographic comparison of the triples (Major, Minor,
Patch): it is -1 iff the triple of `v` is below that of `w`, 0 iff the triples are equal and 1 iff
it is above, and always one of the three; versions with the same triple compare alike, whatever
their Variant and FullVersion; the result changes sign when the arguments are swapped; and both
the strict and the non-strict order it induces are transitive. -/
theorem CompareVersion_lexicographic (v w : MySQLVersion) :
    (v.CompareVersion w = -1 ↔ tripleLt v.triple w.triple) ∧
    (v.CompareVersion w = 0 ↔ v.triple = w.triple) ∧
    (v.CompareVersion w = 1 ↔ tripleLt w.triple v.triple) ∧
    (v.CompareVersion w = -1 ∨ v.CompareVersion w = 0 ∨ v.CompareVersion w = 1) ∧
    (∀ v1 : MySQLVersion, v1.triple = v.triple → v1.CompareVersion w = v.CompareVersion w) ∧
    v.CompareVersion w = -(w.CompareVersion v) ∧
    (∀ u : MySQLVersion, v.CompareVersion w = -1 → w.CompareVersion u = -1 →
      v.CompareVersion u = -1) ∧
    (∀ u : MySQLVersion, v.CompareVersion w ≤ 0 → w.CompareVersion u ≤ 0 →
      v.CompareVersion u ≤ 0) := by
  refine ⟨CompareVersion_lt_iff v w, CompareVersion_eq_iff v w, CompareVersion_gt_iff v w, ?_, ?_,
    ?_, ?_, ?_⟩
  · rcases CompareVersion_cases v w with ⟨h, -⟩ | ⟨h, -⟩ | ⟨h, -⟩
    · exact Or.inl h
    · exact Or.inr (Or.inl h)
    · exact Or.inr (Or.inr h)
  · intro v1 h1
    unfold MySQLVersion.triple at h1
    simp only [Prod.mk.injEq] at h1
    unfold MySQLVersion.CompareVersion
    rw [h1.1, h1.2.1, h1.2.2]
  · rcases CompareVersion_cases v w with ⟨h1, h2⟩ | ⟨h1, h2⟩ | ⟨h1, h2⟩
    · rw [h1, (CompareVersion_gt_iff w v).mpr h2]
    · rw [h1, (CompareVersion_eq_iff w v).mpr h2.symm]; rfl
    · rw [h1, (CompareVersion_lt_iff w v).mpr h2]; rfl
  · intro u h1 h2
    exact (CompareVersion_lt_iff v u).mpr
      (tripleLt_trans ((CompareVersion_lt_iff v w).mp h1) ((CompareVersion_lt_iff w u).mp h2))
  · intro u h1 h2
    have hvw : tripleLt v.triple w.triple ∨ v.triple = w.triple := by
      rcases CompareVersion_cases v w with ⟨-, h⟩ | ⟨-, h⟩ | ⟨h, -⟩
      · exact Or.inl h
      · exact Or.inr h
      · omega
    have hwu : tripleLt w.triple u.triple ∨ w.triple = u.triple := by
      rcases CompareVersion_cases w u with ⟨-, h⟩ | ⟨-, h⟩ | ⟨h, -⟩
      · exact Or.inl h
      · exact Or.inr h
      · omega
    have hvu : tripleLt v.triple u.triple ∨ v.triple = u.triple := by
      rcases hvw with h | h
      · rcases hwu with h3 | h3
        · exact Or.inl (tripleLt_trans h h3)
        · exact Or.inl (h3 ▸ h)
      · rw [h]; exact hwu
    rcases hvu with h | h
    · rw [(CompareVersion_lt_iff v u).mpr h]; omega
    · rw [(CompareVersion_eq_iff v u).mpr h]

/-- C24 on 5.7.44, 8.0.42 and 10.11.6-MariaDB: 5.7.44 is below 8.0.42 and 8.0.42 below
10.11.6, whatever the variant, hence 5.7.44 is below 10.11.6. -/
theorem CompareVersion_lexicographic_witness :
    mysql5744.CompareVersion mysql8042 = -1 ∧ mysql8042.CompareVersion mysql5744 = 1 ∧
    mysql8042.CompareVersion mariadb10116 = -1 ∧ mysql5744.CompareVersion mariadb10116 = -1 :=
  ⟨rfl, rfl, rfl,
    (CompareVersion_lexicographic mysql5744 mysql8042).2.2.2.2.2.2.1 mariadb10116 rfl rfl⟩

theorem IsAtLeast_iff (v : MySQLVersion) (major minor patch : Int) :
    v.IsAtLeast major minor patch = true ↔ ¬ tripleLt v.triple (major, minor, patch) := by
  unfold MySQLVersion.IsAtLeast tripleLt MySQLVersion.triple
  split_ifs <;> simp <;> omega

/-- C25: `IsAtLeast major minor patch` holds iff `CompareVersion` against a version with these
numbers is not negative; and a version that `ParseMySQLVersion` returned with the variant "mysql"
has `IsMySQL8OrLater` equal to `IsAtLeast 8 0 0` and `IsMySQL57OrLater` equal to
`IsAtLeast 5 7 0`. -/
theorem IsAtLeast_agrees_with_CompareVersion (v : MySQLVersion) :
    (∀ (major minor patch : Int) (w : MySQLVersion),
      w.Major = major → w.Minor = minor → w.Patch = patch →
      (v.IsAtLeast major minor patch = true ↔ v.CompareVersion w ≥ 0)) ∧
    (∀ s, ParseMySQLVersion s = .ok v → v.Variant = "mysql" →
      v.IsMySQL8OrLater = v.IsAtLeast 8 0 0 ∧ v.IsMySQL57OrLater = v.IsAtLeast 5 7 0) := by
  refine ⟨?_, ?_⟩
  · intro major minor patch w h1 h2 h3
    have hw : w.triple = (major, minor, patch) := by
      unfold MySQLVersion.triple; rw [h1, h2, h3]
    rw [IsAtLeast_iff, ← hw]
    rcases CompareVersion_cases v w with ⟨h, ht⟩ | ⟨h, ht⟩ | ⟨h, ht⟩
    · rw [h]
      exact ⟨fun hn => absurd ht hn, fun hn => by omega⟩
    · rw [h, ht]
      exact ⟨fun _ => le_refl _, fun _ => tripleLt_irrefl _⟩
    · rw [h]
      exact ⟨fun _ => by omega, fun _ => tripleLt_asymm ht⟩
  · intro s hs hvar
    obtain ⟨a, b, c, -, -, -, -, hv⟩ := ParseMySQLVersion_ok_inv hs
    have hM : 0 ≤ v.Major := by rw [hv]; exact Int.natCast_nonneg _
    have hm : 0 ≤ v.Minor := by rw [hv]; exact Int.natCast_nonneg _
    have hp : 0 ≤ v.Patch := by rw [hv]; exact Int.natCast_nonneg _
    unfold MySQLVersion.IsMySQL8OrLater MySQLVersion.IsMySQL57OrLater MySQLVersion.IsAtLeast
    simp only [hvar, ne_eq, not_true_eq_false, if_false]
    constructor
    · split_ifs <;> first | omega | (simp; omega)
    · split_ifs <;> first | omega | rfl | (simp; omega)

/-- C25 on the version parsed from "8.0.42": it is at least 8.0.0 and at least 5.7.0, as
`IsMySQL8OrLater` and `IsMySQL57OrLater` say, and it is not at least 8.0.43. -/
theorem IsAtLeast_agrees_with_CompareVersion_witness :
    (mysql8042.IsMySQL8OrLater = mysql8042.IsAtLeast 8 0 0 ∧
      mysql8042.IsMySQL57OrLater = mysql8042.IsAtLeast 5 7 0) ∧
    (mysql8042.IsAtLeast 5 7 44 = true ↔ mysql8042.CompareVersion mysql5744 ≥ 0) ∧
    mysql8042.IsAtLeast 8 0 43 = false :=
  ⟨(IsAtLeast_agrees_with_CompareVersion mysql8042).2 "8.0.42" rfl rfl,
    (IsAtLeast_agrees_with_CompareVersion mysql8042).1 5 7 44 mysql5744 rfl rfl rfl, rfl⟩

set_option maxRecDepth 100000 in
/-- C28, counterexample: the string "99999999999999999999.0.0" has a numeric triple, and
`ParseMySQLVersion` returns an error for it, because the first run does not fit an `int`. -/
theorem ParseMySQLVersion_overflow_counterexample :
    HasTriple "99999999999999999999.0.0".data ∧
    ParseMySQLVersion "99999999999999999999.0.0" =
      .error "invalid major version: 99999999999999999999" := by
  refine ⟨?_, rfl⟩
  by_contra h
  have := (findTriple_none_iff _).mpr h
  exact Option.some_ne_none _ (Eq.trans (by rfl) this)

/-- C28, amended: for a string with a numeric triple, with `a`, `b` and `c` the digit runs of
its leftmost occurrence, `ParseMySQLVersion` returns a version when the values of the three runs
are at most 2^63 - 1, and then Major, Minor and Patch are these values, which are not negative;
it returns an error when one of them is larger. So it fails only without a triple or with a run
that does not fit an `int`. -/
theorem ParseMySQLVersion_fails_iff (s : String) (h : HasTriple s.data) :
    ∃ a b c, findTriple s.data = some (a, b, c) ∧ IsDigitRun a ∧ IsDigitRun b ∧ IsDigitRun c ∧
      (digitsValue a ≤ maxInt ∧ digitsValue b ≤ maxInt ∧ digitsValue c ≤ maxInt →
        ∃ v, ParseMySQLVersion s = .ok v ∧ v.Major = digitsValue a ∧ v.Minor = digitsValue b ∧
          v.Patch = digitsValue c ∧ 0 ≤ v.Major ∧ 0 ≤ v.Minor ∧ 0 ≤ v.Patch) ∧
      (¬ (digitsValue a ≤ maxInt ∧ digitsValue b ≤ maxInt ∧ digitsValue c ≤ maxInt) →
        ∃ e, ParseMySQLVersion s = .error e) := by
  cases hf : findTriple s.data with
  | none => exact absurd h ((findTriple_none_iff _).mp hf)
  | some m =>
    obtain ⟨a, b, c⟩ := m
    obtain ⟨pre, post, -, ha, hb, hc, -, -⟩ := findTriple_some hf
    refine ⟨a, b, c, rfl, ha, hb, hc, ?_, ?_⟩
    · rintro ⟨hA, hB, hC⟩
      rw [ParseMySQLVersion_of_find hf]
      simp only [hA, hB, hC, if_true]
      exact ⟨_, rfl, rfl, rfl, rfl, Int.natCast_nonneg _, Int.natCast_nonneg _,
        Int.natCast_nonneg _⟩
    · intro hn
      rw [ParseMySQLVersion_of_find hf]
      by_cases hA : digitsValue a ≤ maxInt
      · by_cases hB : digitsValue b ≤ maxInt
        · by_cases hC : digitsValue c ≤ maxInt
          · exact absurd ⟨hA, hB, hC⟩ hn
          · simp only [hA, hB, hC, if_true, if_false]
            exact ⟨_, rfl⟩
        · simp only [hA, hB, if_true, if_false]
          exact ⟨_, rfl⟩
      · simp only [hA, if_false]
        exact ⟨_, rfl⟩

set_option maxRecDepth 100000 in
/-- C28, amended, on "8.0.42-debug": the runs are "8", "0" and "42", and the version 8.0.42 is
returned. -/
theorem ParseMySQLVersion_fails_iff_witness :
    ∃ a b c, findTriple "8.0.42-debug".data = some (a, b, c) ∧ IsDigitRun a ∧ IsDigitRun b ∧
      IsDigitRun c ∧
      (digitsValue a ≤ maxInt ∧ digitsValue b ≤ maxInt ∧ digitsValue c ≤ maxInt →
        ∃ v, ParseMySQLVersion "8.0.42-debug" = .ok v ∧ v.Major = digitsValue a ∧
          v.Minor = digitsValue b ∧ v.Patch = digitsValue c ∧ 0 ≤ v.Major ∧ 0 ≤ v.Minor ∧
          0 ≤ v.Patch) ∧
      (¬ (digitsValue a ≤ maxInt ∧ digitsValue b ≤ maxInt ∧ digitsValue c ≤ maxInt) →
        ∃ e, ParseMySQLVersion "8.0.42-debug" = .error e) :=
  ParseMySQLVersion_fails_iff "8.0.42-debug" (by
    by_contra h
    have := (findTriple_none_iff _).mpr h
    exact Option.some_ne_none _ (Eq.trans (by rfl) this))

set_option maxRecDepth 100000 in
/-- C26: for a version that does not support roles `GetRoleQuery` returns the empty string; for
one that does, it returns a query that filters on `account_locked = 'Y'` only: the text
`password_expired` does not occur in it, while the query that `collectRoles` issues has the
second condition `password_expired != 'Y'`, so the two queries differ. -/
theorem GetRoleQuery_omits_password_expired (v : MySQLVersion) :
    (v.SupportsRoles = false → v.GetRoleQuery = "") ∧
    (v.SupportsRoles = true →
      Contains v.GetRoleQuery "WHERE account_locked = 'Y'" = true ∧
      Contains v.GetRoleQuery "password_expired" = false ∧
      Contains sqlRoles "WHERE account_locked = 'Y' AND password_expired != 'Y'" = true ∧
      v.GetRoleQuery ≠ sqlRoles) := by
  refine ⟨?_, ?_⟩
  · intro h
    unfold MySQLVersion.GetRoleQuery
    rw [h]
    rfl
  · intro h
    unfold MySQLVersion.GetRoleQuery
    rw [h]
    simp only [Bool.not_true, Bool.false_eq_true, if_false]
    exact ⟨by rfl, by rfl, by rfl, by decide⟩

set_option maxRecDepth 100000 in
/-- C26 on MySQL 8.0.42, which supports roles, and on MariaDB 10.11.6, which in this program does
not. -/
theorem GetRoleQuery_omits_password_expired_witness :
    Contains mysql8042.GetRoleQuery "password_expired" = false ∧
    mysql8042.GetRoleQuery ≠ sqlRoles ∧ mariadb10116.GetRoleQuery = "" :=
  ⟨((GetRoleQuery_omits_password_expired mysql8042).2 rfl).2.1,
    ((GetRoleQuery_omits_password_expired mysql8042).2 rfl).2.2.2,
    (GetRoleQuery_omits_password_expired mariadb10116).1 rfl⟩

/-! ## Roles -/

theorem getRoleMembers_fst {σ : Type} (c : MySQLCollector σ) (roleName roleHost : String)
    (w : World σ) :
    (getRoleMembers c roleName roleHost w).1 =
      match (c.db.exec ⟨sqlRoleMembers, [roleName, roleHost]⟩ w.server).1 with
      | .error e => .error e
      | .ok rows => .ok (rows.filterMap scanString1) := by
  have hq : (c.db.Query sqlRoleMembers [roleName, roleHost] w).1 =
    (c.db.exec ⟨sqlRoleMembers, [roleName, roleHost]⟩ w.server).1 := rfl
  unfold getRoleMembers
  dsimp only
  rw [hq]
  cases (c.db.exec ⟨sqlRoleMembers, [roleName, roleHost]⟩ w.server).1 <;> rfl

theorem collectRolesLoop_entries {σ : Type} (c : MySQLCollector σ) :
    ∀ (rows : List Row) (info : DatabaseInfo) (w : World σ),
      ∃ new, (collectRolesLoop c rows info w).1 = { info with Roles := info.Roles ++ new } ∧
        List.Forall₂ (RoleOf c) (rows.filterMap scanString2) new := by
  intro rows
  induction rows with
  | nil => intro info w; exact ⟨[], by simp [collectRolesLoop], List.Forall₂.nil⟩
  | cons row rows ih =>
    intro info w
    cases hs : scanString2 row with
    | none =>
      obtain ⟨new, h1, h2⟩ := ih info w
      refine ⟨new, ?_, ?_⟩
      · simp only [collectRolesLoop, hs]; exact h1
      · rw [List.filterMap_cons_none hs]; exact h2
    | some key =>
      obtain ⟨roleName, roleHost⟩ := key
      rw [List.filterMap_cons_some hs]
      simp only [collectRolesLoop, hs]
      have hkey : RoleOf c (roleName, roleHost)
          ({ RoleName := roleName, RoleHost := roleHost,
               Grants := match (getUserGrants c roleName roleHost w).1 with
                 | .ok grants => grants
                 | .error _ => [],
               Members := match (getRoleMembers c roleName roleHost
                   (getUserGrants c roleName roleHost w).2).1 with
                 | .ok members => members
                 | .error _ => [] } : UserRole) := by
        refine ⟨w.server, (getUserGrants c roleName roleHost w).2.server, ?_⟩
        rw [getUserGrants_fst, getRoleMembers_fst]
        dsimp only
        cases (c.db.exec ⟨grantsStatement roleName roleHost, []⟩ w.server).1 <;>
          cases (c.db.exec ⟨sqlRoleMembers, [roleName, roleHost]⟩
            (getUserGrants c roleName roleHost w).2.server).1 <;> rfl
      obtain ⟨new, h1, h2⟩ := ih
        { info with Roles := info.Roles ++
            [{ RoleName := roleName, RoleHost := roleHost,
               Grants := match (getUserGrants c roleName roleHost w).1 with
                 | .ok grants => grants
                 | .error _ => [],
               Members := match (getRoleMembers c roleName roleHost
                   (getUserGrants c roleName roleHost w).2).1 with
                 | .ok members => members
                 | .error _ => [] }] }
        (getRoleMembers c roleName roleHost (getUserGrants c roleName roleHost w).2).2
      refine ⟨_, ?_, List.Forall₂.cons hkey h2⟩
      simp only [List.append_assoc, List.singleton_append] at h1
      exact h1

theorem collectMySQL8Features_error {σ : Type} (c : MySQLCollector σ) (info : DatabaseInfo)
    (w : World σ) (e : String) (h : (c.db.exec ⟨sqlRoles, []⟩ w.server).1 = .error e) :
    (collectMySQL8Features c info w).1 = .ok info ∧
    (collectMySQL8Features c info w).2.stdout =
      w.stdout ++ ["Warning: Failed to collect roles: " ++ e ++ "\n"] := by
  have hq : (c.db.Query sqlRoles [] w).1 = .error e := h
  unfold collectMySQL8Features collectRoles
  simp only [hq]
  exact ⟨trivial, rfl⟩

theorem collectMySQL8Features_rows {σ : Type} (c : MySQLCollector σ) (info : DatabaseInfo)
    (w : World σ) (rows : List Row) (h : (c.db.exec ⟨sqlRoles, []⟩ w.server).1 = .ok rows) :
    ∃ roles, (collectMySQL8Features c info w).1 = .ok { info with Roles := info.Roles ++ roles } ∧
      List.Forall₂ (RoleOf c) (rows.filterMap scanString2) roles := by
  have hq : (c.db.Query sqlRoles [] w).1 = .ok rows := h
  obtain ⟨new, h1, h2⟩ := collectRolesLoop_entries c rows info (c.db.Query sqlRoles [] w).2
  refine ⟨new, ?_, h2⟩
  unfold collectMySQL8Features collectRoles
  simp only [hq]
  rw [h1]

theorem collectComponents_keepsRoles {σ : Type} (c : MySQLCollector σ)
    (info info1 : DatabaseInfo) (w : World σ) (h : (collectComponents c info w).1 = .ok info1) :
    info1.Roles = info.Roles := by
  unfold collectComponents at h
  dsimp only at h
  split at h
  · cases h
  · simp only [Except.ok.injEq] at h
    rw [← h]

theorem stageRun_keepsRoles {σ : Type} (rt : Runtime) (c : MySQLCollector σ) (st : Stage)
    (hst : st ≠ .roles) (info info1 : DatabaseInfo) (w : World σ)
    (h : (stageRun rt c st info w).1 = .ok info1) : info1.Roles = info.Roles := by
  have hid : ((Except.ok info, w) : Except String DatabaseInfo × World σ).1 = .ok info1 →
      info1.Roles = info.Roles := by
    intro h
    simp only [Except.ok.injEq] at h
    rw [← h]
  cases st <;> simp only [stageRun] at h
  · exact (collectConnectionInfo_keeps c info info1 w h).1
  · split at h
    · exact (collectTables_keeps rt c info info1 w h).1
    · exact hid h
  · split at h
    · exact (collectUsers_keeps c info info1 w h).1
    · exact hid h
  · exact absurd rfl hst
  · split at h
    · exact (collectRoutines_keeps rt c info info1 w h).1
    · exact hid h
  · split at h
    · exact (collectVariables_keeps rt c info info1 w h).1
    · exact hid h
  · split at h
    · exact (collectPlugins_keeps c info info1 w h).1
    · exact hid h
  · split at h
    · exact collectComponents_keepsRoles c info info1 w h
    · exact hid h
  · split at h
    · exact (collectReplicationInfo_keeps c info info1 w h).1
    · exact hid h

theorem stageRun_roles_refused {σ : Type} (rt : Runtime) (c : MySQLCollector σ)
    (hfail : ∀ st, succeeded (c.db.exec ⟨sqlRoles, []⟩ st).1 = false)
    (info info1 : DatabaseInfo) (w : World σ)
    (h : (stageRun rt c .roles info w).1 = .ok info1) : info1 = info := by
  simp only [stageRun] at h
  split at h
  · obtain ⟨e, he⟩ := succeeded_eq_false (hfail w.server)
    rw [(collectMySQL8Features_error c info w e he).1] at h
    simp only [Except.ok.injEq] at h
    exact h.symm
  · simp only [Except.ok.injEq] at h
    exact h.symm

theorem runStages_roles_refused {σ : Type} (rt : Runtime) (c : MySQLCollector σ)
    (hfail : ∀ st, succeeded (c.db.exec ⟨sqlRoles, []⟩ st).1 = false) :
    ∀ (stages : List Stage) (info info1 : DatabaseInfo) (w : World σ),
      (runStages rt c stages info w).1 = .ok info1 → info1.Roles = info.Roles := by
  intro stages
  induction stages with
  | nil =>
    intro info info1 w h
    simp only [runStages, Except.ok.injEq] at h
    rw [← h]
  | cons st rest ih =>
    intro info info1 w h
    simp only [runStages] at h
    cases hr : (stageRun rt c st info w).1 with
    | error e => rw [hr] at h; cases h
    | ok info2 =>
      rw [hr] at h
      simp only at h
      rw [ih info2 info1 _ h]
      by_cases hst : st = .roles
      · subst hst
        rw [stageRun_roles_refused rt c hfail info info2 w hr]
      · exact stageRun_keepsRoles rt c st hst info info2 w hr

/-- C27: `collectMySQL8Features` never returns an error. When the role query fails it leaves the
snapshot as it was and prints a warning, and `CollectAll` goes on with the remaining categories
from the unchanged snapshot; on a server that always refuses the role query every snapshot that
`CollectAll` returns has no roles. When the role query succeeds, `Roles` grows by one role per row
that scans, in row order, each with the grants and the members that its two queries returned, a
list being empty when its query failed. -/
theorem role_failure_does_not_fail_run {σ : Type} (rt : Runtime) (c : MySQLCollector σ) :
    (∀ info w, succeeded (collectMySQL8Features c info w).1 = true) ∧
    (∀ info w e, (c.db.exec ⟨sqlRoles, []⟩ w.server).1 = .error e →
      (collectMySQL8Features c info w).1 = .ok info ∧
      (collectMySQL8Features c info w).2.stdout =
        w.stdout ++ ["Warning: Failed to collect roles: " ++ e ++ "\n"] ∧
      ∀ rest, runStages rt c (.roles :: rest) info w =
        runStages rt c rest info (stageRun rt c .roles info w).2) ∧
    ((∀ st, succeeded (c.db.exec ⟨sqlRoles, []⟩ st).1 = false) →
      ∀ w info, (CollectAll rt c w).1 = .ok info → info.Roles = []) ∧
    (∀ info w rows, (c.db.exec ⟨sqlRoles, []⟩ w.server).1 = .ok rows →
      ∃ roles,
        (collectMySQL8Features c info w).1 = .ok { info with Roles := info.Roles ++ roles } ∧
        List.Forall₂ (RoleOf c) (rows.filterMap scanString2) roles) := by
  refine ⟨collectMySQL8Features_ok c, ?_, ?_, collectMySQL8Features_rows c⟩
  · intro info w e he
    obtain ⟨h1, h2⟩ := collectMySQL8Features_error c info w e he
    refine ⟨h1, h2, ?_⟩
    intro rest
    have hst : (stageRun rt c .roles info w).1 = .ok info := by
      simp only [stageRun]
      split
      · exact h1
      · rfl
    simp only [runStages, hst]
  · intro hfail w info h
    rw [CollectAll_eq_runStages] at h
    exact runStages_roles_refused rt c hfail stageOrder {} info w h

set_option maxRecDepth 100000 in
/-- C27 on a MySQL 8 server that refuses the role query: `CollectAll` returns a snapshot without
roles and with the plugin of the server, the plugin list and the component list being asked after
the role query; and on a server with two roles, of which one has unreadable grants and the other
unreadable members, both roles are in the snapshot. -/
theorem role_failure_does_not_fail_run_witness :
    ((CollectAll plainRuntime { db := roleDenyingServer, version := mysql8042, config := {} }
      (World.start ())).1.toOption.map (fun info => (info.Roles, info.Plugins.map (fun p => p.Name)))) =
      some ([], ["audit_log"]) ∧
    ((CollectAll plainRuntime { db := roleDenyingServer, version := mysql8042, config := {} }
      (World.start ())).2.log.map (fun ev => ev.call.sql)).filter
        (fun sql => decide (sql ∈ [sqlRoles, sqlPlugins, "SELECT * FROM mysql.component"])) =
      [sqlRoles, sqlPlugins, "SELECT * FROM mysql.component"] ∧
    (collectMySQL8Features { db := rolesServer, version := mysql8042, config := {} } {}
      (World.start ())).1 =
      .ok { Roles := [{ RoleName := "dev", RoleHost := "%", Grants := [], Members := ["alice@%"] },
                      { RoleName := "ops", RoleHost := "%",
                        Grants := ["GRANT SELECT ON *.* TO `ops`@`%`"], Members := [] }] } ∧
    (∀ info, (CollectAll plainRuntime
        { db := roleDenyingServer, version := mysql8042, config := {} } (World.start ())).1 =
      .ok info → info.Roles = []) :=
  ⟨rfl, rfl, rfl,
    (role_failure_does_not_fail_run plainRuntime
      { db := roleDenyingServer, version := mysql8042, config := {} }).2.2.1
      (fun _ => rfl) (World.start ())⟩

/-! ## Variables: the derived flag -/

theorem commonVarsLoop_added {σ : Type} (c : MySQLCollector σ) :
    ∀ (entries : List (String × String)) (info : DatabaseInfo) (w : World σ),
      ∃ new, (commonVarsLoop c entries info w).1 =
          { info with Variables := info.Variables ++ new } ∧
        ∀ v ∈ new, v.FromProbe ∧ (v.Name, v.DefaultValue) ∈ entries := by
  intro entries
  induction entries with
  | nil => intro info w; exact ⟨[], by simp [commonVarsLoop], fun v hv => absurd hv (List.not_mem_nil _)⟩
  | cons e es ih =>
    intro info w
    obtain ⟨varName, defaultValue⟩ := e
    simp only [commonVarsLoop]
    split
    · obtain ⟨new, h1, h2⟩ := ih info _
      exact ⟨new, h1, fun v hv => ⟨(h2 v hv).1, List.mem_cons_of_mem _ (h2 v hv).2⟩⟩
    · rename_i value hval
      split
      · rename_i hne
        obtain ⟨new, h1, h2⟩ := ih
          { info with
            Variables := info.Variables ++
              [{ Name := varName, CurrentValue := value, DefaultValue := defaultValue,
                 Source := "DYNAMIC", IsModified := true }] } _
        refine ⟨({ Name := varName, CurrentValue := value, DefaultValue := defaultValue,
                   Source := "DYNAMIC", IsModified := true } : Variable) :: new, ?_, ?_⟩
        · rw [h1]
          simp only [List.append_assoc, List.singleton_append]
        · intro v hv
          rcases List.mem_cons.mp hv with rfl | hv
          · exact ⟨⟨rfl, rfl, hne⟩, List.mem_cons_self _ _⟩
          · exact ⟨(h2 v hv).1, List.mem_cons_of_mem _ (h2 v hv).2⟩
      · obtain ⟨new, h1, h2⟩ := ih info _
        exact ⟨new, h1, fun v hv => ⟨(h2 v hv).1, List.mem_cons_of_mem _ (h2 v hv).2⟩⟩

theorem FromProbe_consistent {v : Variable} (h : v.FromProbe) : v.Consistent := by
  intro _
  rw [h.2.1]
  decide

theorem scanVariableInfoRow_flag (row : Row) (v : Variable)
    (h : scanVariableInfoRow row = some v) :
    ∃ name value source dflt, row = [name, value, source, dflt] ∧
      name.scanString = some v.Name ∧ value.scanString = some v.CurrentValue ∧
      v.Source = (if source.scanNullString.Valid then source.scanNullString.String else "") ∧
      (v.IsModified = true ↔
        source.scanNullString.Valid = true ∧ source.scanNullString.String ≠ "COMPILED") := by
  unfold scanVariableInfoRow at h
  split at h
  · rename_i name value source dflt
    split at h
    · rename_i n val hn hv
      simp only [Option.some.injEq] at h
      subst h
      refine ⟨name, value, source, dflt, rfl, hn, hv, rfl, ?_⟩
      by_cases hvalid : source.scanNullString.Valid = true
      · simp [hvalid]
      · simp [hvalid]
    · cases h
  · cases h

theorem scanVariableInfoRow_consistent (rows : List Row) :
    ∀ v ∈ rows.filterMap scanVariableInfoRow, v.Consistent := by
  intro v hv
  obtain ⟨row, -, hs⟩ := List.mem_filterMap.mp hv
  obtain ⟨name, value, source, dflt, -, -, -, hsrc, hflag⟩ := scanVariableInfoRow_flag row v hs
  intro hmod
  obtain ⟨h1, h2⟩ := hflag.mp hmod
  rw [hsrc, if_pos h1]
  exact h2

theorem scanVariableRow_consistent (rows : List Row) :
    ∀ v ∈ rows.filterMap scanVariableRow, v.Consistent := by
  intro v hv hmod
  have := (scanVariableRow_unknown rows v hv).2.1
  rw [this] at hmod
  cases hmod

theorem collectCommonModifiedVariables_added {σ : Type} (rt : Runtime) (c : MySQLCollector σ)
    (info : DatabaseInfo) (w : World σ) :
    ∃ new, (collectCommonModifiedVariables rt c info w).1 =
        .ok { info with Variables := info.Variables ++ new } ∧
      ∀ v ∈ new, v.FromProbe ∧ (v.Name, v.DefaultValue) ∈ commonVars := by
  obtain ⟨new, h1, h2⟩ := commonVarsLoop_added c rt.commonVarsOrder info w
  refine ⟨new, ?_, fun v hv => ⟨(h2 v hv).1, rt.commonVarsOrder_perm.mem_iff.mp (h2 v hv).2⟩⟩
  unfold collectCommonModifiedVariables
  dsimp only
  rw [h1]

theorem collectVariablesFromShowVariables_added {σ : Type} (rt : Runtime) (c : MySQLCollector σ)
    (info info1 : DatabaseInfo) (w : World σ)
    (h : (collectVariablesFromShowVariables rt c info w).1 = .ok info1) :
    ∃ new, info1 = { info with Variables := info.Variables ++ new } ∧ ∀ v ∈ new, v.Consistent := by
  unfold collectVariablesFromShowVariables at h
  split at h
  · obtain ⟨new, h1, h2⟩ := collectCommonModifiedVariables_added rt c info w
    rw [h1] at h
    simp only [Except.ok.injEq] at h
    exact ⟨new, h.symm, fun v hv => FromProbe_consistent (h2 v hv).1⟩
  · dsimp only at h
    split at h
    · cases h
    · rename_i rows _
      simp only [Except.ok.injEq] at h
      exact ⟨_, h.symm, scanVariableRow_consistent rows⟩

theorem collectVariablesFromInformationSchema_added {σ : Type} (rt : Runtime)
    (c : MySQLCollector σ) (info info1 : DatabaseInfo) (w : World σ)
    (h : (collectVariablesFromInformationSchema rt c info w).1 = .ok info1) :
    ∃ new, info1 = { info with Variables := info.Variables ++ new } ∧ ∀ v ∈ new, v.Consistent := by
  unfold collectVariablesFromInformationSchema at h
  split at h
  · obtain ⟨new, h1, h2⟩ := collectCommonModifiedVariables_added rt c info w
    rw [h1] at h
    simp only [Except.ok.injEq] at h
    exact ⟨new, h.symm, fun v hv => FromProbe_consistent (h2 v hv).1⟩
  · dsimp only at h
    split at h
    · exact collectVariablesFromShowVariables_added rt c info info1 _ h
    · rename_i rows _
      simp only [Except.ok.injEq] at h
      exact ⟨_, h.symm, scanVariableRow_consistent rows⟩

theorem collectVariables_added {σ : Type} (rt : Runtime) (c : MySQLCollector σ)
    (info info1 : DatabaseInfo) (w : World σ) (h : (collectVariables rt c info w).1 = .ok info1) :
    ∃ new, info1 = { info with Variables := info.Variables ++ new } ∧ ∀ v ∈ new, v.Consistent := by
  unfold collectVariables at h
  split at h
  · unfold collectVariablesFromPerformanceSchema at h
    dsimp only at h
    split at h
    · exact collectVariablesFromInformationSchema_added rt c info info1 _ h
    · rename_i rows _
      simp only [Except.ok.injEq] at h
      exact ⟨_, h.symm, scanVariableInfoRow_consistent rows⟩
  · exact collectVariablesFromInformationSchema_added rt c info info1 w h

/-- C29: every variable that `collectVariables` adds to the snapshot, by whichever tier and in
either mode, is marked as modified only if its source is not "COMPILED"; a row of the provenance
tier is marked as modified exactly when its source column is not NULL and differs from
"COMPILED"; and every variable that the common-variables fallback adds is marked as modified, has
the source "DYNAMIC" and a current value different from its default, which is the default of its
name in the table of common variables. -/
theorem is_modified_consistent {σ : Type} (rt : Runtime) (c : MySQLCollector σ)
    (info : DatabaseInfo) (w : World σ) :
    (∀ info1, (collectVariables rt c info w).1 = .ok info1 →
      ∃ new, info1 = { info with Variables := info.Variables ++ new } ∧
        ∀ v ∈ new, v.IsModified = true → v.Source ≠ "COMPILED") ∧
    (∀ rows, (c.db.exec ⟨provenanceQuery c, []⟩ w.server).1 = .ok rows →
      (collectVariablesFromPerformanceSchema rt c info w).1 =
        .ok { info with Variables := info.Variables ++ rows.filterMap scanVariableInfoRow }) ∧
    (∀ row v, scanVariableInfoRow row = some v →
      ∃ name value source dflt, row = [name, value, source, dflt] ∧
        (v.IsModified = true ↔
          source.scanNullString.Valid = true ∧ source.scanNullString.String ≠ "COMPILED")) ∧
    (∃ new, (collectCommonModifiedVariables rt c info w).1 =
        .ok { info with Variables := info.Variables ++ new } ∧
      ∀ v ∈ new, v.FromProbe ∧ (v.Name, v.DefaultValue) ∈ commonVars) := by
  refine ⟨?_, ?_, ?_, collectCommonModifiedVariables_added rt c info w⟩
  · intro info1 h
    obtain ⟨new, h1, h2⟩ := collectVariables_added rt c info info1 w h
    exact ⟨new, h1, h2⟩
  · intro rows hrows
    have hq : (c.db.Query (if c.config.OnlyModifiedVariables = true then sqlVariablesModified
        else sqlVariablesAll) [] w).1 = .ok rows := hrows
    unfold collectVariablesFromPerformanceSchema
    dsimp only
    rw [hq]
  · intro row v h
    obtain ⟨name, value, source, dflt, hr, -, -, -, hflag⟩ := scanVariableInfoRow_flag row v h
    exact ⟨name, value, source, dflt, hr, hflag⟩

set_option maxRecDepth 100000 in
/-- C29 on a server with the provenance catalog: of the three rows, with the sources "COMPILED",
"GLOBAL" and NULL, only the second is marked as modified. -/
theorem is_modified_consistent_witness :
    (collectVariables plainRuntime { db := provenanceServer, version := mysql8042, config := {} } {}
      (World.start ())).1 =
      .ok { Variables :=
        [{ Name := "port", CurrentValue := "3306", DefaultValue := "3306", Source := "COMPILED",
           IsModified := false },
         { Name := "max_connections", CurrentValue := "500", DefaultValue := "151",
           Source := "GLOBAL", IsModified := true },
         { Name := "datadir", CurrentValue := "/data/" }] } ∧
    ∃ new, ({ Variables :=
        [{ Name := "port", CurrentValue := "3306", DefaultValue := "3306", Source := "COMPILED",
           IsModified := false },
         { Name := "max_connections", CurrentValue := "500", DefaultValue := "151",
           Source := "GLOBAL", IsModified := true },
         { Name := "datadir", CurrentValue := "/data/" }] } : DatabaseInfo) =
        { Variables := [] ++ new } ∧
      ∀ v ∈ new, v.IsModified = true → v.Source ≠ "COMPILED" :=
  ⟨rfl, (is_modified_consistent plainRuntime
    { db := provenanceServer, version := mysql8042, config := {} } {} (World.start ())).1 _ rfl⟩

/-! ## Determinism -/

set_option maxRecDepth 100000 in
/-- C21: with the same configuration and the same server, which answers every statement the same
way in both runs, `CollectAll` returns the two modified variables in the order in which `range`
visits the map of common variables: `character_set_server` first when the map is visited in
source order, `max_connections` first when it is visited in the reverse order. The two snapshots
have the same variables and are not equal. -/
theorem common_variables_order_follows_iteration :
    ((CollectAll plainRuntime
      { db := retunedServer, version := mysql5651, config := onlyVariablesConfig }
      (World.start ())).1.toOption.map (fun info => info.Variables)) =
      some [{ Name := "character_set_server", CurrentValue := "utf8mb4", DefaultValue := "latin1",
              Source := "DYNAMIC", IsModified := true },
            { Name := "max_connections", CurrentValue := "500", DefaultValue := "151",
              Source := "DYNAMIC", IsModified := true }] ∧
    ((CollectAll reversedRuntime
      { db := retunedServer, version := mysql5651, config := onlyVariablesConfig }
      (World.start ())).1.toOption.map (fun info => info.Variables)) =
      some [{ Name := "max_connections", CurrentValue := "500", DefaultValue := "151",
              Source := "DYNAMIC", IsModified := true },
            { Name := "character_set_server", CurrentValue := "utf8mb4", DefaultValue := "latin1",
              Source := "DYNAMIC", IsModified := true }] ∧
    plainRuntime.timeParse = reversedRuntime.timeParse ∧
    (CollectAll plainRuntime
      { db := retunedServer, version := mysql5651, config := onlyVariablesConfig }
      (World.start ())).1 ≠
    (CollectAll reversedRuntime
      { db := retunedServer, version := mysql5651, config := onlyVariablesConfig }
      (World.start ())).1 := by
  refine ⟨rfl, rfl, rfl, ?_⟩
  intro h
  have h2 := congrArg (fun r : Except String DatabaseInfo =>
    r.toOption.map (fun info => info.Variables.map (fun v => v.Name))) h
  exact absurd h2 (by decide)

/-! ## The order of the tables -/

theorem collectUsersLoop_tabs {σ : Type} (c : MySQLCollector σ) :
    ∀ (rows : List Row) (info : DatabaseInfo) (w : World σ),
      (collectUsersLoop c rows info w).1.Tables = info.Tables := by
  intro rows
  induction rows with
  | nil => intro info w; rfl
  | cons row rows ih =>
    intro info w
    simp only [collectUsersLoop]
    split
    · exact ih _ _
    · split
      · exact ih _ _
      · exact ih _ _

theorem collectRoutinesLoop_tabs {σ : Type} (rt : Runtime) (c : MySQLCollector σ) :
    ∀ (rows : List Row) (info : DatabaseInfo) (w : World σ),
      (collectRoutinesLoop rt c rows info w).1.Tables = info.Tables := by
  intro rows
  induction rows with
  | nil => intro info w; rfl
  | cons row rows ih =>
    intro info w
    simp only [collectRoutinesLoop]
    split
    · exact ih _ _
    · split
      · exact ih _ _
      · exact ih _ _

theorem commonVarsLoop_tabs {σ : Type} (c : MySQLCollector σ) :
    ∀ (entries : List (String × String)) (info : DatabaseInfo) (w : World σ),
      (commonVarsLoop c entries info w).1.Tables = info.Tables := by
  intro entries
  induction entries with
  | nil => intro info w; rfl
  | cons e es ih =>
    intro info w
    obtain ⟨varName, defaultValue⟩ := e
    simp only [commonVarsLoop]
    split
    · exact ih _ _
    · split
      · exact ih _ _
      · exact ih _ _

theorem collectRolesLoop_tabs {σ : Type} (c : MySQLCollector σ) :
    ∀ (rows : List Row) (info : DatabaseInfo) (w : World σ),
      (collectRolesLoop c rows info w).1.Tables = info.Tables := by
  intro rows
  induction rows with
  | nil => intro info w; rfl
  | cons row rows ih =>
    intro info w
    simp only [collectRolesLoop]
    split
    · exact ih _ _
    · exact ih _ _

theorem collectConnectionInfo_tabs {σ : Type} (c : MySQLCollector σ)
    (info info1 : DatabaseInfo) (w : World σ)
    (h : (collectConnectionInfo c info w).1 = .ok info1) :
    info1.Tables = info.Tables := by
  unfold collectConnectionInfo at h
  dsimp only at h
  split at h
  · cases h
  · simp only [Except.ok.injEq] at h
    rw [← h]

theorem collectUsers_tabs {σ : Type} (c : MySQLCollector σ)
    (info info1 : DatabaseInfo) (w : World σ) (h : (collectUsers c info w).1 = .ok info1) :
    info1.Tables = info.Tables := by
  unfold collectUsers at h
  dsimp only at h
  split at h
  · cases h
  · simp only [Except.ok.injEq] at h
    rw [← h]
    exact collectUsersLoop_tabs c _ _ _

theorem collectMySQL8Features_tabs {σ : Type} (c : MySQLCollector σ)
    (info info1 : DatabaseInfo) (w : World σ)
    (h : (collectMySQL8Features c info w).1 = .ok info1) :
    info1.Tables = info.Tables := by
  unfold collectMySQL8Features at h
  dsimp only at h
  split at h
  · simp only [Except.ok.injEq] at h
    rw [← h]
  · rename_i info2 hr
    simp only [Except.ok.injEq] at h
    subst h
    unfold collectRoles at hr
    dsimp only at hr
    split at hr
    · cases hr
    · simp only [Except.ok.injEq] at hr
      rw [← hr]
      exact collectRolesLoop_tabs c _ _ _

theorem collectRoutines_tabs {σ : Type} (rt : Runtime) (c : MySQLCollector σ)
    (info info1 : DatabaseInfo) (w : World σ) (h : (collectRoutines rt c info w).1 = .ok info1) :
    info1.Tables = info.Tables := by
  unfold collectRoutines at h
  dsimp only at h
  split at h
  · cases h
  · simp only [Except.ok.injEq] at h
    rw [← h]
    exact collectRoutinesLoop_tabs rt c _ _ _

theorem collectCommonModifiedVariables_tabs {σ : Type} (rt : Runtime) (c : MySQLCollector σ)
    (info info1 : DatabaseInfo) (w : World σ)
    (h : (collectCommonModifiedVariables rt c info w).1 = .ok info1) :
    info1.Tables = info.Tables := by
  unfold collectCommonModifiedVariables at h
  simp only [Except.ok.injEq] at h
  rw [← h]
  exact commonVarsLoop_tabs c _ _ _

theorem collectVariablesFromShowVariables_tabs {σ : Type} (rt : Runtime) (c : MySQLCollector σ)
    (info info1 : DatabaseInfo) (w : World σ)
    (h : (collectVariablesFromShowVariables rt c info w).1 = .ok info1) :
    info1.Tables = info.Tables := by
  unfold collectVariablesFromShowVariables at h
  split at h
  · exact collectCommonModifiedVariables_tabs rt c info info1 w h
  · dsimp only at h
    split at h
    · cases h
    · simp only [Except.ok.injEq] at h
      rw [← h]

theorem collectVariablesFromInformationSchema_tabs {σ : Type} (rt : Runtime)
    (c : MySQLCollector σ) (info info1 : DatabaseInfo) (w : World σ)
    (h : (collectVariablesFromInformationSchema rt c info w).1 = .ok info1) :
    info1.Tables = info.Tables := by
  unfold collectVariablesFromInformationSchema at h
  split at h
  · exact collectCommonModifiedVariables_tabs rt c info info1 w h
  · dsimp only at h
    split at h
    · exact collectVariablesFromShowVariables_tabs rt c info info1 _ h
    · simp only [Except.ok.injEq] at h
      rw [← h]

theorem collectVariables_tabs {σ : Type} (rt : Runtime) (c : MySQLCollector σ)
    (info info1 : DatabaseInfo) (w : World σ) (h : (collectVariables rt c info w).1 = .ok info1) :
    info1.Tables = info.Tables := by
  unfold collectVariables at h
  split at h
  · unfold collectVariablesFromPerformanceSchema at h
    dsimp only at h
    split at h
    · exact collectVariablesFromInformationSchema_tabs rt c info info1 _ h
    · simp only [Except.ok.injEq] at h
      rw [← h]
  · exact collectVariablesFromInformationSchema_tabs rt c info info1 w h

theorem collectPlugins_tabs {σ : Type} (c : MySQLCollector σ)
    (info info1 : DatabaseInfo) (w : World σ) (h : (collectPlugins c info w).1 = .ok info1) :
    info1.Tables = info.Tables := by
  unfold collectPlugins at h
  dsimp only at h
  split at h
  · cases h
  · simp only [Except.ok.injEq] at h
    rw [← h]

theorem collectComponents_tabs {σ : Type} (c : MySQLCollector σ)
    (info info1 : DatabaseInfo) (w : World σ) (h : (collectComponents c info w).1 = .ok info1) :
    info1.Tables = info.Tables := by
  unfold collectComponents at h
  dsimp only at h
  split at h
  · cases h
  · simp only [Except.ok.injEq] at h
    rw [← h]

theorem collectReplicationInfo_tabs {σ : Type} (c : MySQLCollector σ)
    (info info1 : DatabaseInfo) (w : World σ)
    (h : (collectReplicationInfo c info w).1 = .ok info1) :
    info1.Tables = info.Tables := by
  obtain ⟨ri, hri, -⟩ := collectReplicationInfo_filled c info w
  rw [hri] at h
  simp only [Except.ok.injEq] at h
  rw [← h]

theorem stageRun_tabs {σ : Type} (rt : Runtime) (c : MySQLCollector σ) (st : Stage)
    (hst : st ≠ .tables) (info info1 : DatabaseInfo) (w : World σ)
    (h : (stageRun rt c st info w).1 = .ok info1) :
    info1.Tables = info.Tables := by
  have hid : ((Except.ok info, w) : Except String DatabaseInfo × World σ).1 = .ok info1 →
      info1.Tables = info.Tables := by
    intro h
    simp only [Except.ok.injEq] at h
    rw [← h]
  cases st <;> simp only [stageRun] at h
  · exact collectConnectionInfo_tabs c info info1 w h
  · exact absurd rfl hst
  · split at h
    · exact collectUsers_tabs c info info1 w h
    · exact hid h
  · split at h
    · exact collectMySQL8Features_tabs c info info1 w h
    · exact hid h
  · split at h
    · exact collectRoutines_tabs rt c info info1 w h
    · exact hid h
  · split at h
    · exact collectVariables_tabs rt c info info1 w h
    · exact hid h
  · split at h
    · exact collectPlugins_tabs c info info1 w h
    · exact hid h
  · split at h
    · exact collectComponents_tabs c info info1 w h
    · exact hid h
  · split at h
    · exact collectReplicationInfo_tabs c info info1 w h
    · exact hid h

theorem runStages_tabs {σ : Type} (rt : Runtime) (c : MySQLCollector σ) :
    ∀ (stages : List Stage) (info info1 : DatabaseInfo) (w : World σ),
      Stage.tables ∉ stages → (runStages rt c stages info w).1 = .ok info1 →
      info1.Tables = info.Tables := by
  intro stages
  induction stages with
  | nil =>
    intro info info1 w _ h
    simp only [runStages, Except.ok.injEq] at h
    rw [← h]
  | cons st rest ih =>
    intro info info1 w hmem h
    simp only [runStages] at h
    cases hr : (stageRun rt c st info w).1 with
    | error e => rw [hr] at h; cases h
    | ok info2 =>
      rw [hr] at h
      simp only at h
      rw [ih info2 info1 _ (fun hm => hmem (List.mem_cons_of_mem _ hm)) h]
      exact stageRun_tabs rt c st (fun hst => hmem (hst ▸ List.mem_cons_self _ _)) info info2 w hr

theorem scanTableRow_db (rt : Runtime) (dbName : String) (row : Row) (s : TableInfo)
    (h : scanTableRow rt dbName row = some s) : s.Database = dbName ∧ s.Schema = dbName := by
  unfold scanTableRow at h
  split at h
  · split at h
    · simp only [Option.some.injEq] at h
      rw [← h]
      exact ⟨rfl, rfl⟩
    · cases h
  · cases h

theorem entries_names {σ : Type} (c : MySQLCollector σ) (dbName : String) :
    ∀ {l1 l2 : List TableInfo}, List.Forall₂ (EntryOf c dbName) l1 l2 →
      l2.map (fun t => t.Name) = l1.map (fun t => t.Name) := by
  intro l1 l2 h
  induction h with
  | nil => rfl
  | cons hab _ ih =>
    obtain ⟨w1, ht⟩ := hab
    rw [List.map_cons, List.map_cons, ih, ht]

theorem collectTables_fst {σ : Type} (rt : Runtime) (c : MySQLCollector σ)
    (info : DatabaseInfo) (w : World σ) (dbs : List String)
    (hdbs : (getDatabases c w).1 = .ok dbs) :
    (collectTables rt c info w).1 =
      .ok { info with
            Tables := info.Tables ++
              (tableListsOf rt c dbs (getDatabases c w).2).flatMap contribution } := by
  unfold collectTables
  dsimp only
  rw [hdbs]
  dsimp only
  rw [collectTablesLoop_fst]

theorem runStages_cons_ok {σ : Type} (rt : Runtime) (c : MySQLCollector σ) (st : Stage)
    (rest : List Stage) (info info1 : DatabaseInfo) (w : World σ)
    (h : (stageRun rt c st info w).1 = .ok info1) :
    runStages rt c (st :: rest) info w = runStages rt c rest info1 (stageRun rt c st info w).2 := by
  simp only [runStages, h]

theorem runStages_cons_error {σ : Type} (rt : Runtime) (c : MySQLCollector σ) (st : Stage)
    (rest : List Stage) (info : DatabaseInfo) (w : World σ) (e : String)
    (h : (stageRun rt c st info w).1 = .error e) :
    (runStages rt c (st :: rest) info w).1 = .error (stageMessage st ++ e) := by
  simp only [runStages, h]

theorem pairwise_of_length_le_one {α : Type} {R : α → α → Prop} :
    ∀ {l : List α}, l.length ≤ 1 → l.Pairwise R
  | [], _ => List.Pairwise.nil
  | [_], _ => List.pairwise_singleton _ _
  | _ :: _ :: _, h => absurd h (by simp)

theorem getTablesForDatabase_opens {σ : Type} (rt : Runtime) (c : MySQLCollector σ)
    (dbName : String) (w : World σ) :
    ∃ rest, (getTablesForDatabase rt c dbName w).2.log
      = w.log ++ ⟨⟨sqlTables, [dbName]⟩, (c.db.exec ⟨sqlTables, [dbName]⟩ w.server).1⟩ :: rest := by
  have hq : (c.db.Query sqlTables [dbName] w).2.log
      = w.log ++ [⟨⟨sqlTables, [dbName]⟩, (c.db.exec ⟨sqlTables, [dbName]⟩ w.server).1⟩] := rfl
  unfold getTablesForDatabase
  dsimp only
  split
  · exact ⟨[], hq⟩
  · exact opens_then_extends hq (getTablesLoop_ext rt c _ _ _ _)

theorem getTablesForDatabase_ascending {σ : Type} (rt : Runtime) (c : MySQLCollector σ)
    (dbName : String) (w : World σ) (tables : List TableInfo) (evs : List Event)
    (hlog : (getTablesForDatabase rt c dbName w).2.log = w.log ++ evs)
    (hrows : ∀ ev ∈ evs, ev.rowsAscending rt)
    (h : (getTablesForDatabase rt c dbName w).1 = .ok tables) :
    (∀ t ∈ tables, t.Database = dbName ∧ t.Schema = dbName) ∧
    tables.Pairwise (fun a b => a.Name ≤ b.Name) := by
  obtain ⟨rows, hr, hall⟩ := getTablesForDatabase_entries rt c dbName w tables h
  obtain ⟨rest, ho⟩ := getTablesForDatabase_opens rt c dbName w
  rw [ho] at hlog
  have hevs := List.append_cancel_left hlog
  refine ⟨?_, ?_⟩
  · intro t ht
    obtain ⟨s, hs, w1, hst⟩ := forall₂_mem_right hall t ht
    obtain ⟨row, -, hscan⟩ := List.mem_filterMap.mp hs
    have := scanTableRow_db rt dbName row s hscan
    rw [hst]
    exact this
  · have := hrows _ (by rw [← hevs]; exact List.mem_cons_self _ _) rfl dbName rows rfl hr
    rw [← entries_names c dbName hall] at this
    exact List.pairwise_map.mp this

theorem tableListsOf_ascending {σ : Type} (rt : Runtime) (c : MySQLCollector σ) :
    ∀ (dbs : List String) (info : DatabaseInfo) (w : World σ) (evs : List Event),
      (collectTablesLoop rt c dbs info w).2.log = w.log ++ evs →
      (∀ ev ∈ evs, ev.rowsAscending rt) → dbs.Pairwise (· < ·) →
      ((tableListsOf rt c dbs w).flatMap contribution).Pairwise TableInfo.keyLE ∧
      ∀ t ∈ (tableListsOf rt c dbs w).flatMap contribution,
        t.Database ∈ dbs ∧ t.Schema = t.Database := by
  intro dbs
  induction dbs with
  | nil =>
    intro info w evs _ _ _
    simp [tableListsOf]
  | cons d ds ih =>
    intro info w evs hlog hrows hasc
    obtain ⟨hd, hds⟩ := List.pairwise_cons.mp hasc
    obtain ⟨evs1, hl1, -⟩ := getTablesForDatabase_ext rt c d w
    have hsplit : ∀ info1 : DatabaseInfo,
        collectTablesLoop rt c (d :: ds) info w
          = collectTablesLoop rt c ds info1 (getTablesForDatabase rt c d w).2 →
        ∃ evs2, (collectTablesLoop rt c ds info1 (getTablesForDatabase rt c d w).2).2.log
            = (getTablesForDatabase rt c d w).2.log ++ evs2 ∧ evs = evs1 ++ evs2 := by
      intro info1 he
      obtain ⟨evs2, hl2, -⟩ := collectTablesLoop_ext rt c ds info1 (getTablesForDatabase rt c d w).2
      refine ⟨evs2, hl2, ?_⟩
      rw [he, hl2, hl1, List.append_assoc] at hlog
      exact (List.append_cancel_left hlog).symm
    simp only [tableListsOf, List.flatMap_cons]
    cases hr : (getTablesForDatabase rt c d w).1 with
    | error e =>
      obtain ⟨evs2, hl2, hevs⟩ := hsplit info (by simp only [collectTablesLoop, hr])
      obtain ⟨ih1, ih2⟩ := ih info (getTablesForDatabase rt c d w).2 evs2 hl2
        (fun ev hev => hrows ev (by rw [hevs]; exact List.mem_append_right _ hev)) hds
      simp only [contribution, List.nil_append]
      exact ⟨ih1, fun t ht => ⟨List.mem_cons_of_mem _ (ih2 t ht).1, (ih2 t ht).2⟩⟩
    | ok tables =>
      obtain ⟨evs2, hl2, hevs⟩ := hsplit { info with Tables := info.Tables ++ tables }
        (by simp only [collectTablesLoop, hr])
      obtain ⟨ih1, ih2⟩ := ih _ (getTablesForDatabase rt c d w).2 evs2 hl2
        (fun ev hev => hrows ev (by rw [hevs]; exact List.mem_append_right _ hev)) hds
      obtain ⟨h1, h2⟩ := getTablesForDatabase_ascending rt c d w tables evs1 hl1
        (fun ev hev => hrows ev (by rw [hevs]; exact List.mem_append_left _ hev)) hr
      simp only [contribution]
      refine ⟨List.pairwise_append.mpr ⟨?_, ih1, ?_⟩, ?_⟩
      · refine List.Pairwise.imp_of_mem ?_ h2
        intro a b ha hb hab
        right
        exact ⟨(h1 a ha).1.trans (h1 b hb).1.symm, Or.inr
          ⟨(h1 a ha).2.trans (h1 b hb).2.symm, hab⟩⟩
      · intro a ha b hb
        left
        rw [(h1 a ha).1]
        exact hd _ (ih2 b hb).1
      · intro t ht
        rcases List.mem_append.mp ht with ht | ht
        · exact ⟨by rw [(h1 t ht).1]; exact List.mem_cons_self _ _,
            (h1 t ht).2.trans (h1 t ht).1.symm⟩
        · exact ⟨List.mem_cons_of_mem _ (ih2 t ht).1, (ih2 t ht).2⟩

theorem getDatabases_log {σ : Type} (c : MySQLCollector σ) (w : World σ) :
    ∃ evs, (getDatabases c w).2.log = w.log ++ evs := by
  unfold getDatabases
  split
  · exact ⟨[], by simp⟩
  · dsimp only
    split <;> exact ⟨_, Query_log c.db "SHOW DATABASES" [] w⟩

theorem getDatabases_ascending {σ : Type} (c : MySQLCollector σ) (w : World σ)
    (dbs : List String) (evs : List Event)
    (hlog : (getDatabases c w).2.log = w.log ++ evs)
    (hlist : ∀ ev ∈ evs, ev.listingAscending)
    (h : (getDatabases c w).1 = .ok dbs) : dbs.Pairwise (· < ·) := by
  have hq := Query_log c.db "SHOW DATABASES" [] w
  unfold getDatabases at h hlog
  split at h
  · simp only [Except.ok.injEq] at h
    rw [← h]
    exact List.pairwise_singleton _ _
  · rename_i hdb
    rw [if_neg hdb] at hlog
    dsimp only at h hlog
    split at h
    · cases h
    · rename_i rows hrows
      simp only [Except.ok.injEq] at h
      rw [← h, systemSchemas_test]
      simp only [hrows] at hlog
      rw [hq] at hlog
      have hevs := List.append_cancel_left hlog
      exact hlist _ (by rw [← hevs]; exact List.mem_singleton.mpr rfl) rfl rows hrows

theorem collectTables_ascending {σ : Type} (rt : Runtime) (c : MySQLCollector σ)
    (info info1 : DatabaseInfo) (w : World σ) (evs : List Event)
    (hlog : (collectTables rt c info w).2.log = w.log ++ evs)
    (hlist : ∀ ev ∈ evs, ev.listingAscending) (hrows : ∀ ev ∈ evs, ev.rowsAscending rt)
    (hempty : info.Tables = []) (h : (collectTables rt c info w).1 = .ok info1) :
    info1.Tables.Pairwise TableInfo.keyLE ∧ ∀ t ∈ info1.Tables, t.Schema = t.Database := by
  cases hd : (getDatabases c w).1 with
  | error e =>
    unfold collectTables at h
    dsimp only at h
    rw [hd] at h
    cases h
  | ok dbs =>
    have hres := collectTables_fst rt c info w dbs hd
    rw [hres] at h
    simp only [Except.ok.injEq] at h
    have hw : (collectTables rt c info w).2
        = (collectTablesLoop rt c dbs info (getDatabases c w).2).2 := by
      unfold collectTables
      dsimp only
      rw [hd]
    obtain ⟨evs0, hl0⟩ := getDatabases_log c w
    obtain ⟨evs1, hl1, -⟩ := collectTablesLoop_ext rt c dbs info (getDatabases c w).2
    have hevs : evs = evs0 ++ evs1 := by
      rw [hw, hl1, hl0, List.append_assoc] at hlog
      exact (List.append_cancel_left hlog).symm
    obtain ⟨h1, h2⟩ := tableListsOf_ascending rt c dbs info (getDatabases c w).2 evs1 hl1
      (fun ev hev => hrows ev (by rw [hevs]; exact List.mem_append_right _ hev))
      (getDatabases_ascending c w dbs evs0 hl0
        (fun ev hev => hlist ev (by rw [hevs]; exact List.mem_append_left _ hev)) hd)
    rw [← h]
    simp only [hempty, List.nil_append]
    exact ⟨h1, fun t ht => (h2 t ht).2⟩

set_option maxRecDepth 100000 in
/-- C22, counterexample: on a server whose database listing names `shop` before `crm`, and whose
metadata queries return their rows in ascending name order, the collection pass succeeds and the
table of `shop` comes before the table of `crm` in the snapshot, which is not the order by
(Database, Schema, Name). -/
theorem tables_sorted_counterexample :
    ((CollectAll plainRuntime { db := unsortedServer, version := mysql8042, config := {} }
      (World.start ())).1.toOption.map
        (fun info => info.Tables.map (fun t => (t.Database, t.Schema, t.Name)))) =
      some [("shop", "shop", "orders"), ("crm", "crm", "leads")] ∧
    (∀ d st rows, (unsortedServer.exec ⟨sqlTables, [d]⟩ st).1 = .ok rows →
      ((rows.filterMap (scanTableRow plainRuntime d)).map (fun t => t.Name)).Pairwise (· ≤ ·)) ∧
    ¬ List.Pairwise TableInfo.keyLE
      [{ Database := "shop", Schema := "shop", Name := "orders" },
       { Database := "crm", Schema := "crm", Name := "leads" }] := by
  refine ⟨rfl, ?_, ?_⟩
  · intro d st rows h
    have hexec : unsortedServer.exec ⟨sqlTables, [d]⟩ st =
        if [d] = ["shop"] then
          (.ok [tableRow "orders" "BASE TABLE" (.text "InnoDB") (.int 7)], st)
        else if [d] = ["crm"] then
          (.ok [tableRow "leads" "BASE TABLE" (.text "InnoDB") .null], st)
        else (.ok [], st) := rfl
    rw [hexec] at h
    have hlen : rows.length ≤ 1 := by
      split_ifs at h <;> (rw [← Except.ok.inj h]; decide)
    exact pairwise_of_length_le_one
      (by rw [List.length_map]; exact le_trans (List.length_filterMap_le _ _) hlen)
  · intro h
    have := (List.pairwise_cons.mp h).1 _ (List.mem_singleton.mpr rfl)
    unfold TableInfo.keyLE at this
    simp only [String.lt_iff_toList_lt] at this
    revert this
    decide

/-- C22, amended: in every snapshot that `CollectAll` returns, if among the exchanges `evs` of the
run the database listing returned names that, the system schemas left out, are in strictly
ascending order (with a database configured it is not asked) and each metadata query returned
its rows in ascending name order, then `Tables` is sorted ascending by (Database, Schema, Name),
and every entry has its Schema equal to its Database. The databases come in the order of the
listing, which `collectTables` does not sort. -/
theorem tables_sorted_when_listing_sorted {σ : Type} (rt : Runtime) (c : MySQLCollector σ)
    (w : World σ) (info : DatabaseInfo) (evs : List Event)
    (hok : (CollectAll rt c w).1 = .ok info)
    (hlog : (CollectAll rt c w).2.log = w.log ++ evs)
    (hlist : ∀ ev ∈ evs, ev.listingAscending)
    (hrows : ∀ ev ∈ evs, ev.rowsAscending rt) :
    info.Tables.Pairwise TableInfo.keyLE ∧ ∀ t ∈ info.Tables, t.Schema = t.Database := by
  rw [CollectAll_eq_runStages] at hok hlog
  have hord : stageOrder = .connection :: .tables ::
      [.users, .roles, .routines, .variables, .plugins, .components, .replication] := rfl
  rw [hord] at hok hlog
  cases h0 : (stageRun rt c .connection {} w).1 with
  | error e => rw [runStages_cons_error rt c _ _ _ _ e h0] at hok; cases hok
  | ok info0 =>
    rw [runStages_cons_ok rt c _ _ _ info0 _ h0] at hok hlog
    have hempty : info0.Tables = [] := stageRun_tabs rt c .connection (by decide) {} info0 w h0
    obtain ⟨evs0, hl0, -⟩ := stageRun_trace rt c .connection {} w
    cases h1 : (stageRun rt c .tables info0 (stageRun rt c .connection {} w).2).1 with
    | error e => rw [runStages_cons_error rt c _ _ _ _ e h1] at hok; cases hok
    | ok info1 =>
      rw [runStages_cons_ok rt c _ _ _ info1 _ h1] at hok hlog
      rw [runStages_tabs rt c _ info1 info _ (by decide) hok]
      obtain ⟨evs1, hl1, -⟩ := stageRun_trace rt c .tables info0 (stageRun rt c .connection {} w).2
      obtain ⟨evs2, hl2, -⟩ := runStages_outcome rt c
        [.users, .roles, .routines, .variables, .plugins, .components, .replication] info1
        (stageRun rt c .tables info0 (stageRun rt c .connection {} w).2).2
      have hevs : evs = evs0 ++ (evs1 ++ evs2) := by
        rw [hl2, hl1, hl0, List.append_assoc, List.append_assoc] at hlog
        exact (List.append_cancel_left hlog).symm
      simp only [stageRun] at h1 hl1
      split at h1
      · rename_i hen
        rw [if_pos hen] at hl1
        exact collectTables_ascending rt c info0 info1 _ evs1 hl1
          (fun ev hev => hlist ev (by
            rw [hevs]; exact List.mem_append_right _ (List.mem_append_left _ hev)))
          (fun ev hev => hrows ev (by
            rw [hevs]; exact List.mem_append_right _ (List.mem_append_left _ hev)))
          hempty h1
      · simp only [Except.ok.injEq] at h1
        rw [← h1, hempty]
        exact ⟨List.Pairwise.nil, fun t ht => absurd ht (List.not_mem_nil _)⟩

set_option maxRecDepth 100000 in
/-- C22, amended, on a server with no database configured, whose listing names `sys`, `crm`,
`mysql`, `shop` (ascending once the system schemas are left out) and whose two metadata queries
return two rows each in ascending name order: the snapshot has the four entries in the order by
(Database, Schema, Name). -/
theorem tables_sorted_when_listing_sorted_witness :
    ((CollectAll plainRuntime { db := catalogServer, version := mysql8042, config := {} }
      (World.start ())).1.toOption.map
        (fun info => info.Tables.map (fun t => (t.Database, t.Schema, t.Name)))) =
      some [("crm", "crm", "accounts"), ("crm", "crm", "leads"), ("shop", "shop", "orders"),
        ("shop", "shop", "v_orders")] ∧
    (CollectAll plainRuntime { db := catalogServer, version := mysql8042, config := {} }
      (World.start ())).2.log.map (fun ev => ev.call.sql) =
      ["SELECT VERSION()", "SHOW DATABASES", sqlTables, "SHOW CREATE TABLE `crm`.`accounts`",
        "SHOW CREATE TABLE `crm`.`leads`", sqlTables, "SHOW CREATE TABLE `shop`.`orders`",
        "SHOW CREATE VIEW `shop`.`v_orders`", sqlUsersMySQL8, sqlRoles, sqlRoutines, sqlVariablesAll,
        sqlPlugins, "SELECT * FROM mysql.component"] ∧
    ∃ info, (CollectAll plainRuntime { db := catalogServer, version := mysql8042, config := {} }
        (World.start ())).1 = .ok info ∧
      info.Tables.Pairwise TableInfo.keyLE ∧ ∀ t ∈ info.Tables, t.Schema = t.Database := by
  have hlisting : (CollectAll plainRuntime
      { db := catalogServer, version := mysql8042, config := {} } (World.start ())).2.log.filter
        (fun ev => decide (ev.call.sql = "SHOW DATABASES"))
      = [⟨⟨"SHOW DATABASES", []⟩,
          .ok [[.text "sys"], [.text "crm"], [.text "mysql"], [.text "shop"]]⟩] := rfl
  have hmeta : (CollectAll plainRuntime
      { db := catalogServer, version := mysql8042, config := {} } (World.start ())).2.log.filter
        (fun ev => decide (ev.call.sql = sqlTables))
      = [⟨⟨sqlTables, ["crm"]⟩,
          .ok [tableRow "accounts" "BASE TABLE" (.text "InnoDB") (.int 3),
               tableRow "leads" "BASE TABLE" (.text "InnoDB") .null]⟩,
         ⟨⟨sqlTables, ["shop"]⟩,
          .ok [tableRow "orders" "BASE TABLE" (.text "InnoDB") (.int 7),
               tableRow "v_orders" "VIEW" .null .null]⟩] := rfl
  refine ⟨rfl, rfl, _, rfl, ?_⟩
  refine tables_sorted_when_listing_sorted plainRuntime
    { db := catalogServer, version := mysql8042, config := {} } (World.start ()) _
    (CollectAll plainRuntime { db := catalogServer, version := mysql8042, config := {} }
      (World.start ())).2.log rfl rfl ?_ ?_
  · intro ev hev hsql rows hresp
    have hm : ev ∈ List.filter (fun ev : Event => decide (ev.call.sql = "SHOW DATABASES"))
        (CollectAll plainRuntime { db := catalogServer, version := mysql8042, config := {} }
          (World.start ())).2.log := List.mem_filter.mpr ⟨hev, decide_eq_true hsql⟩
    rw [hlisting, List.mem_singleton] at hm
    subst hm
    simp only [Except.ok.injEq] at hresp
    subst hresp
    show List.Pairwise (· < ·) ["crm", "shop"]
    simp only [List.pairwise_cons, List.mem_singleton, forall_eq, List.not_mem_nil,
      List.Pairwise.nil, and_true, false_implies, implies_true, String.lt_iff_toList_lt]
    decide
  · intro ev hev hsql d rows hargs hresp
    have hm : ev ∈ List.filter (fun ev : Event => decide (ev.call.sql = sqlTables))
        (CollectAll plainRuntime { db := catalogServer, version := mysql8042, config := {} }
          (World.start ())).2.log := List.mem_filter.mpr ⟨hev, decide_eq_true hsql⟩
    rw [hmeta] at hm
    simp only [List.mem_cons, List.mem_singleton, List.not_mem_nil, or_false] at hm
    rcases hm with hm | hm
    · subst hm
      simp only [List.cons.injEq, and_true] at hargs
      simp only [Except.ok.injEq] at hresp
      subst hargs
      subst hresp
      show List.Pairwise (· ≤ ·) ["accounts", "leads"]
      simp only [List.pairwise_cons, List.mem_singleton, forall_eq, List.not_mem_nil,
        List.Pairwise.nil, and_true, false_implies, implies_true, String.le_iff_toList_le]
      decide
    · subst hm
      simp only [List.cons.injEq, and_true] at hargs
      simp only [Except.ok.injEq] at hresp
      subst hargs
      subst hresp
      show List.Pairwise (· ≤ ·) ["orders", "v_orders"]
      simp only [List.pairwise_cons, List.mem_singleton, forall_eq, List.not_mem_nil,
        List.Pairwise.nil, and_true, false_implies, implies_true, String.le_iff_toList_le]
      decide

/-! ## `formatter.go`: the XML escaping -/

theorem escapeXML_data (s : String) :
    (XMLFormatter.escapeXML s).data = s.data.flatMap escapeRune := by
  unfold XMLFormatter.escapeXML ReplaceAll
  simp only [List.flatMap_assoc]
  congr 1
  funext c
  unfold escapeRune
  by_cases h1 : c = '&'
  · subst h1; rfl
  by_cases h2 : c = '<'
  · subst h2; rfl
  by_cases h3 : c = '>'
  · subst h3; rfl
  by_cases h4 : c = Char.ofNat 34
  · subst h4; rfl
  by_cases h5 : c = Char.ofNat 39
  · subst h5; rfl
  simp [h1, h2, h3, h4, h5]

theorem unescapeSteps_escapeRune (n : Nat) (c : Char) (rest : List Char) :
    unescapeSteps (n + 1) (escapeRune c ++ rest) = c :: unescapeSteps n rest := by
  unfold escapeRune
  by_cases h1 : c = '&'
  · subst h1; simp [unescapeSteps]
  by_cases h2 : c = '<'
  · subst h2; simp [unescapeSteps]
  by_cases h3 : c = '>'
  · subst h3; simp [unescapeSteps]
  by_cases h4 : c = Char.ofNat 34
  · subst h4; simp [unescapeSteps]
  by_cases h5 : c = Char.ofNat 39
  · subst h5; simp [unescapeSteps]
  simp [h1, h2, h3, h4, h5, unescapeSteps]

theorem unescapeSteps_escape :
    ∀ (l : List Char) (n : Nat), l.length ≤ n → unescapeSteps n (l.flatMap escapeRune) = l := by
  intro l
  induction l with
  | nil => intro n _; cases n <;> rfl
  | cons c cs ih =>
    intro n hn
    cases n with
    | zero => simp at hn
    | succ m =>
      rw [List.flatMap_cons, unescapeSteps_escapeRune, ih m (by simpa using hn)]

theorem escapeRune_length (c : Char) : 1 ≤ (escapeRune c).length := by
  unfold escapeRune
  split_ifs <;> simp

theorem escapeRune_length_special (c : Char) (h : c ∈ xmlSpecials) :
    1 < (escapeRune c).length := by
  unfold xmlSpecials at h
  simp only [List.mem_cons, List.mem_singleton, List.not_mem_nil, or_false] at h
  unfold escapeRune
  rcases h with rfl | rfl | rfl | rfl | rfl <;> decide

theorem escapeRune_plain (c : Char) (h : c ∉ xmlSpecials) : escapeRune c = [c] := by
  unfold xmlSpecials at h
  simp only [List.mem_cons, List.mem_singleton, List.not_mem_nil, or_false, not_or] at h
  unfold escapeRune
  simp [h.1, h.2.1, h.2.2.1, h.2.2.2.1, h.2.2.2.2]

theorem flatMap_escape_length (l : List Char) : l.length ≤ (l.flatMap escapeRune).length := by
  induction l with
  | nil => simp
  | cons c cs ih =>
    rw [List.flatMap_cons, List.length_append, List.length_cons]
    have := escapeRune_length c
    omega

theorem flatMap_escape_length_special (l : List Char) (h : ∃ c ∈ l, c ∈ xmlSpecials) :
    l.length < (l.flatMap escapeRune).length := by
  induction l with
  | nil => obtain ⟨c, hc, -⟩ := h; cases hc
  | cons c cs ih =>
    rw [List.flatMap_cons, List.length_append, List.length_cons]
    obtain ⟨x, hx, hs⟩ := h
    rcases List.mem_cons.mp hx with rfl | hx
    · have := escapeRune_length_special x hs
      have := flatMap_escape_length cs
      omega
    · have := ih ⟨x, hx, hs⟩
      have := escapeRune_length c
      omega

theorem flatMap_escape_plain (l : List Char) (h : ∀ c ∈ l, c ∉ xmlSpecials) :
    l.flatMap escapeRune = l := by
  induction l with
  | nil => rfl
  | cons c cs ih =>
    rw [List.flatMap_cons, escapeRune_plain c (h c (List.mem_cons_self _ _)),
      ih (fun x hx => h x (List.mem_cons_of_mem _ hx))]
    rfl

theorem escapeRune_shape (c : Char) :
    (escapeRune c = [c] ∧ c ∉ xmlSpecials) ∨
    ∃ tail ∈ xmlEntityTails, escapeRune c = '&' :: tail ∧
      ∀ x ∈ tail, x ∉ xmlSpecials := by
  by_cases h : c ∈ xmlSpecials
  · right
    unfold xmlSpecials at h
    simp only [List.mem_cons, List.mem_singleton, List.not_mem_nil, or_false] at h
    rcases h with rfl | rfl | rfl | rfl | rfl
    · exact ⟨"amp;".data, by decide, rfl, by decide⟩
    · exact ⟨"lt;".data, by decide, rfl, by decide⟩
    · exact ⟨"gt;".data, by decide, rfl, by decide⟩
    · exact ⟨"quot;".data, by decide, rfl, by decide⟩
    · exact ⟨"apos;".data, by decide, rfl, by decide⟩
  · exact Or.inl ⟨escapeRune_plain c h, h⟩

theorem flatMap_escape_no_markup (l : List Char) :
    ∀ x ∈ l.flatMap escapeRune, x = '&' ∨ x ∉ xmlSpecials := by
  intro x hx
  obtain ⟨c, -, hc⟩ := List.mem_flatMap.mp hx
  rcases escapeRune_shape c with ⟨h1, h2⟩ | ⟨tail, -, h1, h2⟩
  · rw [h1] at hc
    rw [List.mem_singleton.mp hc]
    exact Or.inr h2
  · rw [h1] at hc
    rcases List.mem_cons.mp hc with h | h
    · exact Or.inl h
    · exact Or.inr (h2 x h)

theorem flatMap_escape_ampersand :
    ∀ (l pre post : List Char), l.flatMap escapeRune = pre ++ '&' :: post →
      ∃ tail ∈ xmlEntityTails, tail <+: post := by
  intro l
  induction l with
  | nil =>
    intro pre post h
    simp at h
  | cons c cs ih =>
    intro pre post h
    rw [List.flatMap_cons] at h
    rcases List.append_eq_append_iff.mp h with ⟨a, h1, h2⟩ | ⟨b, h1, h2⟩
    · exact ih a post h2
    · cases b with
      | nil =>
        simp only [List.nil_append] at h2
        exact ih [] post (by simpa using h2.symm)
      | cons x xs =>
        simp only [List.cons_append, List.cons.injEq] at h2
        obtain ⟨hx, hpost⟩ := h2
        subst hx
        rcases escapeRune_shape c with ⟨e1, e2⟩ | ⟨tail, ht, e1, e2⟩
        · rw [e1] at h1
          have hlen := congrArg List.length h1
          simp only [List.length_cons, List.length_nil, List.length_append] at hlen
          have hpre : pre = [] := List.length_eq_zero.mp (by omega)
          subst hpre
          simp only [List.nil_append, List.cons.injEq] at h1
          exact absurd (by rw [h1.1]; decide) e2
        · rw [e1] at h1
          cases pre with
          | nil =>
            simp only [List.nil_append, List.cons.injEq, true_and] at h1
            refine ⟨tail, ht, ?_⟩
            rw [hpost, h1]
            exact List.prefix_append _ _
          | cons p ps =>
            simp only [List.cons_append, List.cons.injEq] at h1
            have : '&' ∈ tail := by rw [h1.2]; simp
            exact absurd (by decide) (e2 _ this)

theorem unescapeXML_escapeXML (s : String) : unescapeXML (XMLFormatter.escapeXML s) = s := by
  unfold unescapeXML
  have hlen : (XMLFormatter.escapeXML s).length = (XMLFormatter.escapeXML s).data.length := rfl
  rw [hlen, escapeXML_data, unescapeSteps_escape s.data _ (flatMap_escape_length s.data)]

/-- C30: for every string `s`, `escapeXML s` has none of the runes '<', '>', double quote and
apostrophe; every '&' in it is followed by the rest of one of the five entities; reading the
entities back gives `s`; so `escapeXML` is injective; and `escapeXML s = s` exactly when `s` has
none of the five special runes. -/
theorem escapeXML_faithful (s : String) :
    (∀ c ∈ (XMLFormatter.escapeXML s).data, c ∉ ['<', '>', Char.ofNat 34, Char.ofNat 39]) ∧
    (∀ pre post, (XMLFormatter.escapeXML s).data = pre ++ '&' :: post →
      ∃ tail ∈ xmlEntityTails, tail <+: post) ∧
    unescapeXML (XMLFormatter.escapeXML s) = s ∧
    (∀ t, XMLFormatter.escapeXML s = XMLFormatter.escapeXML t → s = t) ∧
    (XMLFormatter.escapeXML s = s ↔ ∀ c ∈ s.data, c ∉ xmlSpecials) := by
  refine ⟨?_, ?_, unescapeXML_escapeXML s, ?_, ?_⟩
  · intro c hc
    rw [escapeXML_data] at hc
    rcases flatMap_escape_no_markup s.data c hc with h | h
    · rw [h]; decide
    · intro hm
      apply h
      unfold xmlSpecials
      exact List.mem_cons_of_mem _ hm
  · intro pre post h
    rw [escapeXML_data] at h
    exact flatMap_escape_ampersand s.data pre post h
  · intro t h
    rw [← unescapeXML_escapeXML s, ← unescapeXML_escapeXML t, h]
  · constructor
    · intro h c hc hs
      have hd := congrArg String.data h
      rw [escapeXML_data] at hd
      have := flatMap_escape_length_special s.data ⟨c, hc, hs⟩
      rw [hd] at this
      exact lt_irrefl _ this
    · intro h
      have hd : (XMLFormatter.escapeXML s).data = s.data := by
        rw [escapeXML_data, flatMap_escape_plain s.data h]
      exact String.ext hd

/-- C30 on a string with all five special runes. -/
theorem escapeXML_faithful_witness :
    XMLFormatter.escapeXML "a<b & \"c\" > 'd'" =
      "a&lt;b &amp; &quot;c&quot; &gt; &apos;d&apos;" ∧
    unescapeXML "a&lt;b &amp; &quot;c&quot; &gt; &apos;d&apos;" = "a<b & \"c\" > 'd'" ∧
    XMLFormatter.escapeXML "&amp;" = "&amp;amp;" ∧
    unescapeXML (XMLFormatter.escapeXML "&amp;") = "&amp;" :=
  ⟨by decide, by decide, by decide, (escapeXML_faithful "&amp;").2.2.1⟩

/-! ## `formatter.go`: the components in the Markdown document -/

theorem collectComponents_no_rows {σ : Type} (c : MySQLCollector σ) (info : DatabaseInfo)
    (w : World σ)
    (hq : (c.db.exec ⟨"SELECT * FROM mysql.component", []⟩ w.server).1 = .ok []) :
    (collectComponents c info w).1 = .ok info := by
  have hq1 : (c.db.Query "SELECT * FROM mysql.component" [] w).1 = .ok [] := hq
  unfold collectComponents
  simp only [hq1, List.filterMap_nil, List.append_nil]

set_option maxRecDepth 100000 in
/-- C23: when the component query succeeds with zero rows, `collectComponents` returns no error
and leaves the snapshot, and so its `Components`, as it was. `formatComponents` has a line for
the empty list, "- No components found (MySQL 8.0+ feature)", but `Format` calls it only for a
list that is not empty: the document of a snapshot that has connection information and nothing
else is the file summary with the database type and version, without a components section. -/
theorem empty_components_not_rendered {σ : Type} (c : MySQLCollector σ) (info : DatabaseInfo)
    (w : World σ)
    (hq : (c.db.exec ⟨"SELECT * FROM mysql.component", []⟩ w.server).1 = .ok []) :
    (collectComponents c info w).1 = .ok info ∧
    MarkdownFormatter.formatComponents [] = "- No components found (MySQL 8.0+ feature)\n\n" ∧
    ∀ (fmtTime : Time → String) (conn : ConnectionInfo),
      MarkdownFormatter.Format fmtTime { ConnectionInfo := some conn } =
        "# File Summary\n\n" ++
        "This file contains comprehensive MySQL database information compiled for AI context analysis. " ++
        "It includes schema definitions, account configurations, system variables, and other database metadata " ++
        "consolidated into a single file for efficient processing.\n\n" ++
        ("**Database Type**: MySQL  \n" ++ "**Database Version**: " ++ conn.Version ++ "\n\n") := by
  refine ⟨collectComponents_no_rows c info w hq, rfl, ?_⟩
  intro fmtTime conn
  have h : MarkdownFormatter.Format fmtTime { ConnectionInfo := some conn } =
      "# File Summary\n\n" ++
      "This file contains comprehensive MySQL database information compiled for AI context analysis. " ++
      "It includes schema definitions, account configurations, system variables, and other database metadata " ++
      "consolidated into a single file for efficient processing.\n\n" ++
      ("**Database Type**: MySQL  \n" ++ "**Database Version**: " ++ conn.Version ++ "\n\n") ++
      "" ++ "" ++ "" ++ "" ++ "" ++ "" ++ "" ++ "" ++ "" ++ "" ++ "" := rfl
  rw [h]
  simp only [String.append_empty]

set_option maxRecDepth 100000 in
/-- C23 on a MySQL 8 server without any object, with plugins not excluded: the component query is
issued and answered with zero rows, the snapshot has no components, and the document that
`Format` makes of it does not contain the line "- No components found (MySQL 8.0+ feature)". -/
theorem empty_components_not_rendered_witness :
    (CollectAll plainRuntime { db := emptyMySQL8Server, version := mysql8042, config := {} }
      (World.start ())).1 = .ok { ConnectionInfo := some { Version := "8.0.42" } } ∧
    "SELECT * FROM mysql.component" ∈
      (CollectAll plainRuntime { db := emptyMySQL8Server, version := mysql8042, config := {} }
        (World.start ())).2.log.map (fun ev => ev.call.sql) ∧
    (collectComponents { db := emptyMySQL8Server, version := mysql8042, config := {} }
      { ConnectionInfo := some { Version := "8.0.42" } } (World.start ())).1 =
      .ok { ConnectionInfo := some { Version := "8.0.42" } } ∧
    MarkdownFormatter.Format (fun _ => "") { ConnectionInfo := some { Version := "8.0.42" } } =
      "# File Summary\n\nThis file contains comprehensive MySQL database information compiled for AI context analysis. It includes schema definitions, account configurations, system variables, and other database metadata consolidated into a single file for efficient processing.\n\n**Database Type**: MySQL  \n**Database Version**: 8.0.42\n\n" ∧
    Contains
      (MarkdownFormatter.Format (fun _ => "") { ConnectionInfo := some { Version := "8.0.42" } })
      "- No components found (MySQL 8.0+ feature)" = false :=
  ⟨rfl, by decide,
    (empty_components_not_rendered { db := emptyMySQL8Server, version := mysql8042, config := {} }
      { ConnectionInfo := some { Version := "8.0.42" } } (World.start ()) rfl).1,
    rfl, by rfl⟩

end DatabaseMix
